import Mathlib

/-! simpleRDBMS: a shallow embedding of the engine core.

The embedding follows the C++ sources file by file:

* `src/core/data_type.cpp`      -> `DataType`, `DataTypeManager.*`
* `src/core/constraint.cpp`     -> `CheckConstraint.evaluateExpression`
* `src/core/column.{h,cpp}`     -> `Column`, `Column.validateValue`
* `src/core/table_schema.cpp`   -> `TableSchema.*` (including `toJson` / `fromJson`)
* `src/core/value.cpp`          -> `Value.*` (division and remainder)
* `src/storage/storage_engine.cpp` -> `StorageEngine.rowToJson` / `jsonToRow`, the file
  names (`getTableDataPath`, `getTableSchemaPath`, `listAllTables`)
* `src/core/table_manager.cpp`  -> `TableManager.*`
* `src/parser/lexer.cpp`        -> `Lexer.*`
* `src/parser/parser.cpp`       -> `Parser.*`
* `src/core/query_executor.cpp` -> `QueryExecutor.*`

Modelling conventions.

* A `QString` is a Lean `String`.  `QString::length` and the lexer count UTF-16
  code units: a character outside the Basic Multilingual Plane is two of them
  (`utf16Units`, `qLength`).  A null `QString` and an empty one are both `""`
  (Qt compares them equal and every test in the sources is `isNull() || isEmpty()`).
* `qToLower` / `qToUpper` fold the ASCII letters and keep every other character;
  they are `QString::toLower` / `toUpper` on ASCII text (`isAsciiText`).
* `QMap<QString, V>` is an association list kept sorted by key, as `QMap` iterates.
* Qt library routines (`split`, `trimmed`, `toLongLong`, `toDouble`, the three
  regular expressions, `QJsonObject`) are modelled from the Qt documentation.
  `toDouble` converts a decimal text to the nearest IEEE double (ties to even);
  a double is kept as a mantissa and a binary exponent and compared exactly.
* `QString::arg` is modelled by plain substitution at the place marker.
* `int` values are `Int`; sizes are `Nat`.
* Mutable "last error" members (`constraintError`, `lastValidationError`) are
  returned by the validating function: `none` means the C++ function returned
  `true`, `some msg` means it returned `false` after storing `msg`.
* Logging and file writes do not feed back into the in-memory state and are omitted.
-/

namespace RDBMS

/-! ## QString helpers -/

/-- ASCII lower-casing of one character (`QChar::toLower` on the ASCII range). -/
def lowerChar (c : Char) : Char :=
  if 65 ≤ c.toNat ∧ c.toNat ≤ 90 then Char.ofNat (c.toNat + 32) else c

/-- ASCII upper-casing of one character (`QChar::toUpper` on the ASCII range). -/
def upperChar (c : Char) : Char :=
  if 97 ≤ c.toNat ∧ c.toNat ≤ 122 then Char.ofNat (c.toNat - 32) else c

/-- Source: `QString::toLower`, on ASCII text: the letters `A` to `Z` are
folded, every other character is kept. -/
def qToLower (s : String) : String := String.mk (s.data.map lowerChar)

/-- Source: `QString::toUpper`, on ASCII text: the letters `a` to `z` are
folded, every other character is kept. -/
def qToUpper (s : String) : String := String.mk (s.data.map upperChar)

/-- Whether a text has ASCII characters only.  On such a text the ASCII folds
`qToLower` and `qToUpper` are `QString::toLower` and `QString::toUpper`. -/
def isAsciiText (s : String) : Bool := s.data.all (fun c => decide (c.toNat < 128))

/-- The UTF-16 code units of a text, as `QString` indexes it: a character
outside the Basic Multilingual Plane is two units, a surrogate pair.  A unit of
such a pair is above U+00FF, is no white space and no line feed, which is all
the engine ever asks of it; it is written here as the character itself, so the
character stands twice. -/
def utf16Units : List Char → List Char
  | [] => []
  | c :: cs => if 65535 < c.toNat then c :: c :: utf16Units cs else c :: utf16Units cs

/-- Source: `QString::length`: the number of UTF-16 code units. -/
def qLength (s : String) : Nat := (utf16Units s.data).length

/-- Source: `QChar::isSpace`: the ASCII white space, NEL, NBSP and the Unicode separators. -/
def qIsSpace (c : Char) : Bool :=
  let n := c.toNat
  n == 32 || (9 ≤ n && n ≤ 13) || n == 133 || n == 160 || n == 5760 ||
  (8192 ≤ n && n ≤ 8202) || n == 8232 || n == 8233 || n == 8239 || n == 8287 || n == 12288

/-- Drop leading white space. -/
def dropSpaces : List Char → List Char
  | [] => []
  | c :: cs => if qIsSpace c then dropSpaces cs else c :: cs

/-- Source: `QString::trimmed` on character lists. -/
def trimChars (cs : List Char) : List Char :=
  (dropSpaces (dropSpaces cs).reverse).reverse

/-- Source: `QString::trimmed`. -/
def qTrimmed (s : String) : String := String.mk (trimChars s.data)

/-- Whether `s` starts with `p` (`QString::startsWith`, case sensitive). -/
def startsWithChars : List Char → List Char → Bool
  | _, [] => true
  | [], _ :: _ => false
  | c :: s, d :: p => c == d && startsWithChars s p

/-- Source: `QString::startsWith`. -/
def qStartsWith (s p : String) : Bool := startsWithChars s.data p.data

/-- Source: `QString::endsWith`. -/
def qEndsWith (s p : String) : Bool := startsWithChars s.data.reverse p.data.reverse

/-- Whether `sub` occurs in `s`. -/
def containsChars : List Char → List Char → Bool
  | [], sub => sub.isEmpty
  | c :: s, sub => startsWithChars (c :: s) sub || containsChars s sub

/-- Source: `QString::contains` (case sensitive). -/
def qContains (s sub : String) : Bool := containsChars s.data sub.data

/-- Worker of `QString::split` for a non-empty separator: `skip` counts the
separator characters still to be stepped over, `acc` is the current part reversed. -/
def splitGo (sep : List Char) : Nat → List Char → List Char → List (List Char)
  | _, [], acc => [acc.reverse]
  | skip + 1, _ :: s, acc => splitGo sep skip s acc
  | 0, c :: s, acc =>
    if startsWithChars (c :: s) sep then acc.reverse :: splitGo sep (sep.length - 1) s []
    else splitGo sep 0 s (c :: acc)

/-- Source: `QString::split(sep)` with the default `Qt::KeepEmptyParts`, for a non-empty `sep`. -/
def qSplit (s sep : String) : List String :=
  (splitGo sep.data 0 s.data []).map String.mk

/-- Source: `QString::mid(pos, n)`. -/
def qMid (s : String) (pos n : Nat) : String := String.mk ((s.data.drop pos).take n)

/-- Source: `QStringList::join`. -/
def qJoin (xs : List String) (sep : String) : String := sep.intercalate xs

/-- Decimal rendering of an `int` (`QString::arg(int)`, `std::to_string`). -/
def showInt (i : Int) : String := toString i

/-- Decimal rendering of a size. -/
def showNat (n : Nat) : String := toString n

/-- Strict order of `QString::operator<` (code unit by code unit). -/
def ltChars : List Char → List Char → Bool
  | [], [] => false
  | [], _ :: _ => true
  | _ :: _, [] => false
  | a :: as, b :: bs =>
    if a.toNat < b.toNat then true else if b.toNat < a.toNat then false else ltChars as bs

/-- Source: `QString::operator<`. -/
def qLess (a b : String) : Bool := ltChars a.data b.data

/-! ## QMap<QString, V> -/

/-- Source: `QMap::insert` / `operator[]=`: replace the value of an existing key, else insert in key order. -/
def qmapInsert {V : Type} (k : String) (v : V) : List (String × V) → List (String × V)
  | [] => [(k, v)]
  | (k1, v1) :: m =>
    if k1 = k then (k, v) :: m
    else if qLess k k1 then (k, v) :: (k1, v1) :: m
    else (k1, v1) :: qmapInsert k v m

/-- Source: `QMap::find`. -/
def qmapFind {V : Type} (k : String) : List (String × V) → Option V
  | [] => none
  | (k1, v1) :: m => if k1 = k then some v1 else qmapFind k m

/-- Source: `QMap::value(key, default)`. -/
def qmapValue {V : Type} (m : List (String × V)) (k : String) (d : V) : V :=
  (qmapFind k m).getD d

/-- Source: `QMap::contains`. -/
def qmapContains {V : Type} (m : List (String × V)) (k : String) : Bool :=
  (qmapFind k m).isSome

/-- Source: `QMap::remove`. -/
def qmapRemove {V : Type} (k : String) (m : List (String × V)) : List (String × V) :=
  m.filter (fun e => !(e.1 == k))

/-! ## Numeric parsing (`QString::toLongLong`, `QString::toInt`, `QString::toDouble`) -/

/-- ASCII digit test (`Lexer::isDigit`, and the regular-expression class `\d`). -/
def isDigitChar (c : Char) : Bool := 48 ≤ c.toNat && c.toNat ≤ 57

/-- Value of a string of ASCII digits. -/
def digitsValue (ds : List Char) : Nat :=
  ds.foldl (fun acc c => acc * 10 + (c.toNat - 48)) 0

/-- Split an optional leading sign off: the flag is `true` for a minus sign. -/
def splitSign : List Char → Bool × List Char
  | '-' :: r => (true, r)
  | '+' :: r => (false, r)
  | r => (false, r)

/-- Signed decimal integer with surrounding white space ignored (the C-locale
integer syntax of `QString::toLongLong` and `QString::toInt`, base 10). -/
def parseInteger (s : String) : Option Int :=
  let p := splitSign (trimChars s.data)
  if p.2.isEmpty || !p.2.all isDigitChar then none
  else if p.1 then some (-(digitsValue p.2 : Int)) else some (digitsValue p.2 : Int)

/-- Source: `QString::toLongLong(&ok)`: `none` stands for `ok == false`. -/
def qToLongLong (s : String) : Option Int :=
  match parseInteger s with
  | some v => if -(2 : Int) ^ 63 ≤ v ∧ v < (2 : Int) ^ 63 then some v else none
  | none => none

/-- Source: `QString::toInt()` as used without `ok`: 0 when the text is not a 32-bit integer. -/
def qToInt (s : String) : Int :=
  match parseInteger s with
  | some v => if -(2 : Int) ^ 31 ≤ v ∧ v < (2 : Int) ^ 31 then v else 0
  | none => 0

/-- Result of `QString::toDouble`: a finite double `mant * 2 ^ exp`, an infinity, or NaN. -/
inductive QDouble where
  | fin (mant : Int) (exp : Int)
  | inf (neg : Bool)
  | nan
deriving DecidableEq, Repr

/-- Sign of `a - b` for two finite doubles, scaled to the smaller exponent. -/
def dyadicCmp (m1 e1 m2 e2 : Int) : Int :=
  let e := min e1 e2
  m1 * 2 ^ (e1 - e).toNat - m2 * 2 ^ (e2 - e).toNat

/-- IEEE `<` on parsed values. -/
def QDouble.lt : QDouble → QDouble → Bool
  | .nan, _ => false
  | _, .nan => false
  | .inf n1, .inf n2 => n1 && !n2
  | .inf n1, .fin _ _ => n1
  | .fin _ _, .inf n2 => !n2
  | .fin m1 e1, .fin m2 e2 => decide (dyadicCmp m1 e1 m2 e2 < 0)

/-- IEEE `<=` on parsed values. -/
def QDouble.le : QDouble → QDouble → Bool
  | .nan, _ => false
  | _, .nan => false
  | .inf n1, .inf n2 => n1 || !n2
  | .inf n1, .fin _ _ => n1
  | .fin _ _, .inf n2 => !n2
  | .fin m1 e1, .fin m2 e2 => decide (dyadicCmp m1 e1 m2 e2 ≤ 0)

/-- Worker of `floorLog2N`: halve `n` until it is below 2, counting the steps. -/
def log2Go : Nat → Nat → Nat → Nat
  | 0, _, acc => acc
  | fuel + 1, n, acc => if n < 2 then acc else log2Go fuel (n / 2) (acc + 1)

/-- The position of the leading bit of `n`: `2 ^ l ≤ n < 2 ^ (l + 1)` for `n > 0`. -/
def floorLog2N (n : Nat) : Nat := log2Go n n 0

/-- The integer `l` with `2 ^ l ≤ num / den < 2 ^ (l + 1)`, for positive `num` and `den`. -/
def floorLog2 (num den : Nat) : Int :=
  let l : Int := (floorLog2N num : Int) - (floorLog2N den : Int)
  if (if 0 ≤ l then decide (den * 2 ^ l.toNat ≤ num) else decide (den ≤ num * 2 ^ (-l).toNat))
  then l else l - 1

/-- Round `n / d` to the nearest natural number, a tie going to the even one. -/
def roundHalfEven (n d : Nat) : Nat :=
  let q := n / d
  let r := n % d
  if 2 * r < d then q else if d < 2 * r then q + 1 else if q % 2 = 0 then q else q + 1

/-- The double nearest to `num / den` (IEEE round to nearest, ties to even) as a
mantissa and a binary exponent: the mantissa has at most 53 bits, rounded at
the exponent of the leading bit less 52 and not below -1074, where the
subnormal numbers lie. -/
def nearestDouble (num den : Nat) : Nat × Int :=
  if num = 0 then (0, 0)
  else
    let k := max (floorLog2 num den - 52) (-1074)
    if 0 ≤ k then (roundHalfEven num (den * 2 ^ k.toNat), k)
    else (roundHalfEven (num * 2 ^ (-k).toNat) den, k)

/-- Optional exponent part `e[+-]digits` of a floating literal. -/
def parseExponent : List Char → Option Int
  | [] => some 0
  | c :: r =>
    if c == 'e' || c == 'E' then
      let p := splitSign r
      if p.2.isEmpty || !p.2.all isDigitChar then none
      else some (if p.1 then -(digitsValue p.2 : Int) else (digitsValue p.2 : Int))
    else none

/-- Whether the non-zero decimal `a * 10 ^ exp` lies outside the range of a
`double` (`toDouble` then reports `ok == false`): it rounds to an infinity or to zero. -/
def doubleOutOfRange (a : Nat) (exp : Int) : Bool :=
  if a == 0 then false
  else
    let big : Nat := 2 ^ 1024 - 2 ^ 970
    if 0 ≤ exp then decide (big ≤ a * 10 ^ exp.toNat)
    else decide (big * 10 ^ (-exp).toNat ≤ a) || decide (a * 2 ^ 1075 ≤ 10 ^ (-exp).toNat)

/-- Source: `QString::toDouble(&ok)` in the C locale: white space around the text is
ignored; the text is `inf`, `+inf`, `-inf`, `nan`, or an optionally signed
decimal with an optional fraction and exponent, converted to the nearest
double.  `none` stands for `ok == false`. -/
def qToDouble (s : String) : Option QDouble :=
  let cs := trimChars s.data
  if cs == "nan".data then some .nan
  else
    let p := splitSign cs
    if p.2 == "inf".data then some (.inf p.1)
    else
      let ip := p.2.takeWhile isDigitChar
      let r1 := p.2.dropWhile isDigitChar
      let hasDot := r1.head? == some '.'
      let r2 := if hasDot then r1.tail else r1
      let fp := if hasDot then r2.takeWhile isDigitChar else []
      let r3 := if hasDot then r2.dropWhile isDigitChar else r2
      if ip.isEmpty && fp.isEmpty then none
      else
        match parseExponent r3 with
        | none => none
        | some ex =>
          let m : Nat := digitsValue (ip ++ fp)
          let exp := ex - (fp.length : Int)
          if doubleOutOfRange m exp then none
          else
            let d := if 0 ≤ exp then nearestDouble (m * 10 ^ exp.toNat) 1
              else nearestDouble m (10 ^ (-exp).toNat)
            some (.fin (if p.1 then -(d.1 : Int) else (d.1 : Int)) d.2)

/-! ## Regular expressions of `isValidValue` -/

/-- Match a fixed shape: `none` is the class `\d`, `some c` the literal `c`. -/
def matchesShape : List (Option Char) → List Char → Bool
  | [], [] => true
  | [], _ :: _ => false
  | _ :: _, [] => false
  | none :: sh, c :: cs => isDigitChar c && matchesShape sh cs
  | some d :: sh, c :: cs => c == d && matchesShape sh cs

/-- Source call `QRegularExpression("^shape$").match(value).hasMatch()`: `$` also matches
just before a final line feed. -/
def regexHasMatch (shape : List (Option Char)) (value : String) : Bool :=
  matchesShape shape value.data ||
  (value.data.getLast? == some (Char.ofNat 10) && matchesShape shape value.data.dropLast)

/-- Shape of `\d{4}-\d{2}-\d{2}`. -/
def dateShape : List (Option Char) :=
  [none, none, none, none, some '-', none, none, some '-', none, none]

/-- Shape of `\d{2}:\d{2}:\d{2}`. -/
def timeShape : List (Option Char) :=
  [none, none, some ':', none, none, some ':', none, none]

/-- Shape of `\d{4}-\d{2}-\d{2} \d{2}:\d{2}:\d{2}`. -/
def datetimeShape : List (Option Char) := dateShape ++ [some ' '] ++ timeShape

/-! ## data_type.cpp -/

/-- Source: `enum class DataType`. -/
inductive DataType where
  | TINYINT | SMALLINT | INT | BIGINT
  | DECIMAL | NUMERIC | FLOAT | DOUBLE
  | CHAR | VARCHAR | TEXT | NCHAR | NVARCHAR | TINYTEXT | MEDIUMTEXT | LONGTEXT
  | ENUM | BOOL | JSON | DATE | TIME | DATETIME | TIMESTAMP
deriving DecidableEq, Repr

namespace DataTypeManager

/-- Source: `DataTypeManager::typeToString`. -/
def typeToString : DataType → String
  | .TINYINT => "TINYINT" | .SMALLINT => "SMALLINT" | .INT => "INT" | .BIGINT => "BIGINT"
  | .DECIMAL => "DECIMAL" | .NUMERIC => "NUMERIC" | .FLOAT => "FLOAT" | .DOUBLE => "DOUBLE"
  | .CHAR => "CHAR" | .VARCHAR => "VARCHAR" | .TEXT => "TEXT" | .NCHAR => "NCHAR"
  | .NVARCHAR => "NVARCHAR" | .TINYTEXT => "TINYTEXT" | .MEDIUMTEXT => "MEDIUMTEXT"
  | .LONGTEXT => "LONGTEXT" | .ENUM => "ENUM" | .BOOL => "BOOL" | .JSON => "JSON"
  | .DATE => "DATE" | .TIME => "TIME" | .DATETIME => "DATETIME" | .TIMESTAMP => "TIMESTAMP"

/-- Source: the comparisons of `DataTypeManager::stringToType`, made on
`upper`, the value of `typeStr.toUpper()`. -/
def stringToTypeUpper (upper : String) : DataType :=
  if upper = "TINYINT" then .TINYINT
  else if upper = "SMALLINT" then .SMALLINT
  else if upper = "INT" ∨ upper = "INTEGER" then .INT
  else if upper = "BIGINT" then .BIGINT
  else if upper = "DECIMAL" then .DECIMAL
  else if upper = "NUMERIC" then .NUMERIC
  else if upper = "FLOAT" then .FLOAT
  else if upper = "DOUBLE" then .DOUBLE
  else if upper = "CHAR" then .CHAR
  else if upper = "VARCHAR" then .VARCHAR
  else if upper = "TEXT" then .TEXT
  else if upper = "NCHAR" then .NCHAR
  else if upper = "NVARCHAR" then .NVARCHAR
  else if upper = "TINYTEXT" then .TINYTEXT
  else if upper = "MEDIUMTEXT" then .MEDIUMTEXT
  else if upper = "LONGTEXT" then .LONGTEXT
  else if upper = "ENUM" then .ENUM
  else if upper = "BOOL" ∨ upper = "BOOLEAN" then .BOOL
  else if upper = "JSON" then .JSON
  else if upper = "DATE" then .DATE
  else if upper = "TIME" then .TIME
  else if upper = "DATETIME" then .DATETIME
  else if upper = "TIMESTAMP" then .TIMESTAMP
  else .INT

/-- Source: `DataTypeManager::stringToType`: `upper = typeStr.toUpper()`, then the comparisons. -/
def stringToType (str : String) : DataType := stringToTypeUpper (qToUpper str)

/-- Source: `DataTypeManager::isIntegerType`. -/
def isIntegerType (t : DataType) : Bool :=
  t == .TINYINT || t == .SMALLINT || t == .INT || t == .BIGINT

/-- Source: `DataTypeManager::isFloatingPointType`. -/
def isFloatingPointType (t : DataType) : Bool := t == .FLOAT || t == .DOUBLE

/-- Source: `DataTypeManager::isNumericType`. -/
def isNumericType (t : DataType) : Bool :=
  isIntegerType t || isFloatingPointType t || t == .DECIMAL || t == .NUMERIC

/-- Source: `DataTypeManager::isStringType`. -/
def isStringType (t : DataType) : Bool :=
  t == .CHAR || t == .VARCHAR || t == .TEXT || t == .NCHAR || t == .NVARCHAR ||
  t == .TINYTEXT || t == .MEDIUMTEXT || t == .LONGTEXT || t == .JSON

/-- Source: `DataTypeManager::isTemporalType`. -/
def isTemporalType (t : DataType) : Bool :=
  t == .DATE || t == .TIME || t == .DATETIME || t == .TIMESTAMP

/-- Source: `DataTypeManager::isBlobType`. -/
def isBlobType (t : DataType) : Bool := t == .MEDIUMTEXT || t == .LONGTEXT || t == .JSON

/-- Source: `DataTypeManager::isValidValue`. -/
def isValidValue (type : DataType) (value : String) : Bool :=
  if value.data.isEmpty || qToLower value == "null" then true
  else
    match type with
    | .TINYINT | .SMALLINT | .INT | .BIGINT => (qToLongLong value).isSome
    | .FLOAT | .DOUBLE | .DECIMAL | .NUMERIC => (qToDouble value).isSome
    | .BOOL =>
      let upper := qToUpper value
      upper == "TRUE" || upper == "FALSE" || upper == "1" || upper == "0"
    | .DATE => regexHasMatch dateShape value
    | .TIME => regexHasMatch timeShape value
    | .DATETIME | .TIMESTAMP => regexHasMatch datetimeShape value
    | .JSON =>
      let trimmed := qTrimmed value
      (qStartsWith trimmed "\x7b" && qEndsWith trimmed "\x7d") ||
      (qStartsWith trimmed "[" && qEndsWith trimmed "]")
    | _ => true

end DataTypeManager

/-! ## constraint.cpp -/

/-- One comparison branch of `CheckConstraint::evaluateExpression`: when the
condition splits into exactly two parts at `op` and both the right-hand text
and the value parse as numbers, the branch returns `some (cmp dataVal condVal)`;
otherwise control falls through (`none`). -/
def checkBranch (condition op value : String) (cmp : QDouble → QDouble → Bool) : Option Bool :=
  if qContains condition op then
    match qSplit condition op with
    | [_, rhs] =>
      match qToDouble (qTrimmed rhs) with
      | some condVal =>
        match qToDouble value with
        | some dataVal => some (cmp dataVal condVal)
        | none => none
      | none => none
    | _ => none
  else none

/-- Source: `CheckConstraint::evaluateExpression(condition, value)`. -/
def CheckConstraint.evaluateExpression (condition value : String) : Bool :=
  match checkBranch condition ">" value (fun d c => QDouble.lt c d) with
  | some b => b
  | none =>
  match checkBranch condition "<" value (fun d c => QDouble.lt d c) with
  | some b => b
  | none =>
  match checkBranch condition ">=" value (fun d c => QDouble.le c d) with
  | some b => b
  | none =>
  match checkBranch condition "<=" value (fun d c => QDouble.le d c) with
  | some b => b
  | none =>
    if qContains condition "=" && !qContains condition ">=" && !qContains condition "<=" then
      match qSplit condition "=" with
      | [_, rhs] => value == qTrimmed rhs
      | _ => true
    else true

/-- Source: `class ForeignKeyConstraint`: the referenced table and column (the cascade
actions are stored and never read). -/
structure ForeignKeyConstraint where
  referencedTable : String
  referencedColumn : String
deriving DecidableEq, Repr

/-- Source: `class CheckConstraint`: the condition text and the constraint name. -/
structure CheckConstraint where
  condition : String
  constraintName : String := "CHECK"
deriving DecidableEq, Repr

/-- Source: `CheckConstraint::validate`. -/
def CheckConstraint.validate (c : CheckConstraint) (value : String) : Bool :=
  CheckConstraint.evaluateExpression c.condition value

/-! ## column.h / column.cpp -/

/-- Source: `class Column`, with the member initialisers of `column.h`. -/
structure Column where
  name : String
  type : DataType
  nullable : Bool := true
  notNull : Bool := false
  primaryKey : Bool := false
  unique : Bool := false
  autoIncrement : Bool := false
  defaultValue : String := ""
  foreignKeyTable : String := ""
  foreignKeyColumn : String := ""
  checkCondition : String := ""
  maxLength : Int := -1
  precision : Int := -1
  scale : Int := -1
  description : String := ""
deriving DecidableEq, Repr

namespace Column

/-- Source: `Column::Column(name, type)`. -/
def new (name : String) (type : DataType) : Column := { name := name, type := type }

/-- Source: `Column::setNullable`. -/
def setNullable (c : Column) (n : Bool) : Column := { c with nullable := n }

/-- Source: `Column::setPrimaryKey`: `primaryKey = pk; if (pk) nullable = false;`. -/
def setPrimaryKey (c : Column) (pk : Bool) : Column :=
  { c with primaryKey := pk, nullable := if pk then false else c.nullable }

/-- Source: `Column::setUnique`. -/
def setUnique (c : Column) (u : Bool) : Column := { c with unique := u }

/-- Source: `Column::setNotNull`: `notNull = nn; if (nn) nullable = false;`. -/
def setNotNull (c : Column) (nn : Bool) : Column :=
  { c with notNull := nn, nullable := if nn then false else c.nullable }

/-- Source: `Column::setDefaultValue`. -/
def setDefaultValue (c : Column) (d : String) : Column := { c with defaultValue := d }

/-- Source: `Column::setForeignKey`. -/
def setForeignKey (c : Column) (table column : String) : Column :=
  { c with foreignKeyTable := table, foreignKeyColumn := column }

/-- Source: `Column::setCheckCondition`. -/
def setCheckCondition (c : Column) (cond : String) : Column := { c with checkCondition := cond }

/-- Source: `Column::setMaxLength`. -/
def setMaxLength (c : Column) (len : Int) : Column := { c with maxLength := len }

/-- Source: `Column::setDecimalPrecision`. -/
def setDecimalPrecision (c : Column) (p s : Int) : Column := { c with precision := p, scale := s }

/-- Source: `Column::setAutoIncrement`. -/
def setAutoIncrement (c : Column) (ai : Bool) : Column := { c with autoIncrement := ai }

/-- Source: `Column::setDescription`. -/
def setDescription (c : Column) (d : String) : Column := { c with description := d }

/-- Source: `Column::validateAgainstType`: `some msg` is `false` with `constraintError = msg`. -/
def validateAgainstType (c : Column) (value : String) : Option String :=
  if !DataTypeManager.isValidValue c.type value then
    some ("Invalid value '" ++ value ++ "' for type " ++ DataTypeManager.typeToString c.type)
  else if 0 < c.maxLength ∧ DataTypeManager.isStringType c.type = true
      ∧ c.maxLength < (qLength value : Int) then
    some ("Value exceeds maximum length of " ++ showInt c.maxLength)
  else if (c.type = .DECIMAL ∨ c.type = .NUMERIC) ∧ 0 < c.precision then
    let parts := qSplit value "."
    if 2 < parts.length then some "Invalid decimal format"
    else
      let integerPart : Int := (qLength (parts.headD "") : Int)
      let fractionalPart : Int := if parts.length = 2 then (qLength (parts.getD 1 "") : Int) else 0
      if c.precision < integerPart + fractionalPart then
        some ("Decimal precision exceeded: " ++ showInt (integerPart + fractionalPart)
          ++ " digits (max " ++ showInt c.precision ++ ")")
      else if 0 < c.scale ∧ c.scale < fractionalPart then
        some ("Decimal scale exceeded: " ++ showInt fractionalPart
          ++ " digits (max " ++ showInt c.scale ++ ")")
      else none
  else none

/-- Source: `Column::validateCheckConstraint`. -/
def validateCheckConstraint (c : Column) (value : String) : Option String :=
  if !CheckConstraint.evaluateExpression c.checkCondition value then
    some ("CHECK constraint failed: " ++ c.checkCondition)
  else none

/-- Source: `Column::validateValue`, returning the stored `constraintError` on failure. -/
def validateValueErr (c : Column) (value : String) : Option String :=
  if value.data.isEmpty || qToLower value == "null" then
    if !c.nullable || c.notNull then some "Column does not accept NULL values" else none
  else
    match c.validateAgainstType value with
    | some e => some e
    | none =>
      if c.primaryKey && value.data.isEmpty then some "PRIMARY KEY cannot be empty"
      else if !c.checkCondition.data.isEmpty then c.validateCheckConstraint value
      else none

/-- Source: `Column::validateValue`. -/
def validateValue (c : Column) (value : String) : Bool := (c.validateValueErr value).isNone

end Column

/-! ## QJsonValue / QJsonObject -/

/-- A `QJsonValue`; objects are `QJsonObject`s, kept sorted by key. -/
inductive Json where
  | null
  | bool (b : Bool)
  | num (n : Int)
  | str (s : String)
  | arr (xs : List Json)
  | obj (kvs : List (String × Json))

namespace Json

/-- Source: `QJsonObject::operator[](key) const`: the member, or a null value. -/
def member (kvs : List (String × Json)) (key : String) : Json := qmapValue kvs key Json.null

/-- Source: `QJsonValue::toString()`. -/
def toStr : Json → String
  | .str s => s
  | _ => ""

/-- Source: `QJsonValue::toBool(defaultValue)`. -/
def toBool (j : Json) (d : Bool) : Bool :=
  match j with
  | .bool b => b
  | _ => d

/-- Source: `QJsonValue::toInt(defaultValue)`. -/
def toInt (j : Json) (d : Int) : Int :=
  match j with
  | .num n => n
  | _ => d

/-- Source: `QJsonValue::toArray()`. -/
def toArray : Json → List Json
  | .arr xs => xs
  | _ => []

/-- Source: `QJsonValue::toObject()`. -/
def toObject : Json → List (String × Json)
  | .obj kvs => kvs
  | _ => []

end Json

/-! ## table_schema.h / table_schema.cpp -/

/-- Source: `struct TableMetadata` (the creation stamps are taken from the clock and never read). -/
structure TableMetadata where
  description : String := ""
  rowCount : Int := 0
  isTemp : Bool := false
deriving DecidableEq, Repr

/-- Source: `class TableSchema`. -/
structure TableSchema where
  tableName : String
  columns : List Column := []
  metadata : TableMetadata := {}
  primaryKeyColumns : List String := []
  uniqueConstraints : List (String × List String) := []
  foreignKeys : List (String × ForeignKeyConstraint) := []
  checkConstraints : List (String × CheckConstraint) := []
deriving DecidableEq, Repr

/-- The marking that `addPrimaryKey` applies to a resolved column:
`setPrimaryKey(true); setNullable(false);`. -/
def markPrimary (c : Column) : Column := (c.setPrimaryKey true).setNullable false

/-- Position of the first column whose lower-cased name is `lname`. -/
def findColumn (lname : String) : List Column → Option Nat
  | [] => none
  | c :: cs => if qToLower c.name = lname then some 0 else (findColumn lname cs).map (· + 1)

/-- Apply `f` to the element at position `i`. -/
def modifyAt {α : Type} (f : α → α) : Nat → List α → List α
  | _, [] => []
  | 0, x :: xs => f x :: xs
  | i + 1, x :: xs => x :: modifyAt f i xs

namespace TableSchema

/-- Source: `TableSchema::TableSchema(tableName)`. -/
def new (tableName : String) : TableSchema := { tableName := tableName }

/-- Source: `TableSchema::addColumn`. -/
def addColumn (s : TableSchema) (c : Column) : TableSchema := { s with columns := s.columns ++ [c] }

/-- Source: `TableSchema::getColumnIndex`: `none` stands for `-1`. -/
def getColumnIndex (s : TableSchema) (columnName : String) : Option Nat :=
  findColumn (qToLower columnName) s.columns

/-- Source: `TableSchema::getColumnCount`. -/
def getColumnCount (s : TableSchema) : Nat := s.columns.length

/-- Source: `TableSchema::getColumn(int)`. -/
def getColumn (s : TableSchema) (i : Nat) : Option Column := s.columns.get? i

/-- Mark the column named `colName`, if any, with `f`. -/
def markColumn (f : Column → Column) (s : TableSchema) (colName : String) : TableSchema :=
  match s.getColumnIndex colName with
  | some idx => { s with columns := modifyAt f idx s.columns }
  | none => s

/-- Source: `TableSchema::addPrimaryKey`. -/
def addPrimaryKey (s : TableSchema) (columnNames : List String) : TableSchema :=
  columnNames.foldl (markColumn markPrimary)
    { s with primaryKeyColumns := columnNames }

/-- Source: `TableSchema::addUnique`. -/
def addUnique (s : TableSchema) (constraintName : String) (columnNames : List String) :
    TableSchema :=
  columnNames.foldl (markColumn (fun c => c.setUnique true))
    { s with uniqueConstraints := qmapInsert constraintName columnNames s.uniqueConstraints }

/-- Source: `TableSchema::addCheck`. -/
def addCheck (s : TableSchema) (constraintName condition : String) : TableSchema :=
  { s with checkConstraints :=
      qmapInsert constraintName ⟨condition, constraintName⟩ s.checkConstraints }

/-- Source: `TableSchema::setDescription`. -/
def setDescription (s : TableSchema) (d : String) : TableSchema :=
  { s with metadata := { s.metadata with description := d } }

/-- Source: `TableSchema::setRowCount`. -/
def setRowCount (s : TableSchema) (n : Int) : TableSchema :=
  { s with metadata := { s.metadata with rowCount := n } }

/-- The per-column loop of `validateRow`: the first column error, if any. -/
def validateColumns : List Column → List String → Option String
  | c :: cs, v :: vs =>
    match c.validateValueErr v with
    | some e => some e
    | none => validateColumns cs vs
  | _, _ => none

/-- Source: `TableSchema::validatePrimaryKey` (called after the arity check, so every
index found is inside `values`). -/
def validatePrimaryKey (s : TableSchema) (values : List String) : Option String :=
  (s.primaryKeyColumns.find? (fun pkCol =>
      match s.getColumnIndex pkCol with
      | some idx => (values.getD idx "").data.isEmpty
      | none => false)).map
    (fun pkCol => "PRIMARY KEY column '" ++ pkCol ++ "' cannot be NULL")

/-- Source: `TableSchema::validateChecks`: every table-level check is evaluated on `""`. -/
def validateChecks (s : TableSchema) : Option String :=
  (s.checkConstraints.find? (fun e => !e.2.validate "")).map
    (fun e => "CHECK constraint '" ++ e.1 ++ "' failed")

/-- Source: `TableSchema::validateRow`, returning the stored `lastValidationError` on
failure (`validateUnique` and `validateForeignKeys` always return `true`). -/
def validateRowErr (s : TableSchema) (values : List String) : Option String :=
  if values.length ≠ s.columns.length then
    some ("Column count mismatch: expected " ++ showNat s.columns.length
      ++ ", got " ++ showNat values.length)
  else
    match validateColumns s.columns values with
    | some e => some e
    | none =>
      match s.validatePrimaryKey values with
      | some e => some e
      | none => s.validateChecks

/-- Source: `TableSchema::validateRow`. -/
def validateRow (s : TableSchema) (values : List String) : Bool := (s.validateRowErr values).isNone

/-- The `colObj` that `toJson` builds for one column. -/
def columnToJson (col : Column) : Json :=
  .obj (qmapInsert "description" (.str col.description)
    (qmapInsert "autoIncrement" (.bool col.autoIncrement)
    (qmapInsert "unique" (.bool col.unique)
    (qmapInsert "primaryKey" (.bool col.primaryKey)
    (qmapInsert "nullable" (.bool col.nullable)
    (qmapInsert "type" (.str (DataTypeManager.typeToString col.type))
    (qmapInsert "name" (.str col.name) [])))))))

/-- The `constraintsObj` that `toJson` builds. -/
def constraintsToJson (s : TableSchema) : List (String × Json) :=
  let c0 : List (String × Json) := []
  let c1 := if !s.primaryKeyColumns.isEmpty then
      qmapInsert "primaryKey" (.arr (s.primaryKeyColumns.map Json.str)) c0 else c0
  let uniqueObj : List (String × Json) :=
    s.uniqueConstraints.foldl (fun o e => qmapInsert e.1 (.arr (e.2.map Json.str)) o) []
  let c2 := if !uniqueObj.isEmpty then qmapInsert "unique" (.obj uniqueObj) c1 else c1
  let fkObj : List (String × Json) :=
    s.foreignKeys.foldl (fun o e =>
      qmapInsert e.1 (.obj (qmapInsert "refColumn" (.str e.2.referencedColumn)
        (qmapInsert "refTable" (.str e.2.referencedTable) []))) o) []
  let c3 := if !fkObj.isEmpty then qmapInsert "foreignKeys" (.obj fkObj) c2 else c2
  let checkObj : List (String × Json) :=
    s.checkConstraints.foldl (fun o e => qmapInsert e.1 (.str e.2.condition) o) []
  if !checkObj.isEmpty then qmapInsert "checks" (.obj checkObj) c3 else c3

/-- The `tableObj` that `toJson` builds. -/
def tableObj (s : TableSchema) : List (String × Json) :=
  qmapInsert "constraints" (.obj (constraintsToJson s))
    (qmapInsert "columns" (.arr (s.columns.map columnToJson))
    (qmapInsert "isTemp" (.bool s.metadata.isTemp)
    (qmapInsert "rowCount" (.num s.metadata.rowCount)
    (qmapInsert "description" (.str s.metadata.description)
    (qmapInsert "name" (.str s.tableName) [])))))

/-- Source: `TableSchema::toJson`: the `QJsonDocument` that is written out.  The JSON
text in between is produced and parsed by `QJsonDocument`, which yields the
same document again. -/
def toJson (s : TableSchema) : Json := .obj (tableObj s)

/-- The column that `fromJson` builds from one element of the `columns` array. -/
def columnFromJson (colVal : Json) : Column :=
  let colObj := colVal.toObject
  let col := Column.new (Json.member colObj "name").toStr
    (DataTypeManager.stringToType (Json.member colObj "type").toStr)
  (col.setNullable ((Json.member colObj "nullable").toBool true)).setDescription
    (Json.member colObj "description").toStr

/-- Source: `TableSchema::fromJson`: `none` stands for the null pointer. -/
def fromJson (doc : Json) : Option TableSchema :=
  match doc with
  | .obj tableObj =>
    let schema0 := TableSchema.new (Json.member tableObj "name").toStr
    let schema1 := (Json.member tableObj "columns").toArray.foldl
      (fun sch colVal => sch.addColumn (columnFromJson colVal)) schema0
    let constraintsObj := (Json.member tableObj "constraints").toObject
    let pkCols := (Json.member constraintsObj "primaryKey").toArray.map Json.toStr
    let schema2 := if !pkCols.isEmpty then schema1.addPrimaryKey pkCols else schema1
    let schema3 := schema2.setDescription (Json.member tableObj "description").toStr
    some (schema3.setRowCount ((Json.member tableObj "rowCount").toInt 0))
  | _ => none

end TableSchema

/-! ## storage_engine.cpp: row <-> JSON object -/

namespace StorageEngine

/-- Source: `StorageEngine::rowToJson`: one member per column, for the positions present
in both the row and the schema. -/
def rowToJson (row : List String) (schema : TableSchema) : List (String × Json) :=
  (schema.columns.zip row).foldl (fun o p => qmapInsert p.1.name (.str p.2) o) []

/-- Source: `StorageEngine::jsonToRow`. -/
def jsonToRow (o : List (String × Json)) (schema : TableSchema) : List String :=
  schema.columns.map (fun col => (Json.member o col.name).toStr)

end StorageEngine

/-! ## table_manager.h / table_manager.cpp -/

/-- Source: `struct OperationResult`. -/
structure OperationResult where
  success : Bool := true
  errorMessage : String := ""
  rowsAffected : Int := 0
  rowId : Int := -1
deriving DecidableEq, Repr

/-- The in-memory state of `class TableManager`: `tables` and `tableData`. -/
structure TableManager where
  tables : List (String × TableSchema) := []
  tableData : List (String × List (List String)) := []
deriving DecidableEq, Repr

/-- The values a unique constraint reads from a stored row: one entry per
constraint column that the schema resolves to a position inside the row. -/
def existingValues (schema : TableSchema) (constraintCols : List String) (row : List String) :
    List String :=
  constraintCols.filterMap (fun colName =>
    match schema.getColumnIndex colName with
    | some colIdx => if colIdx < row.length then some (row.getD colIdx "") else none
    | none => none)

/-- The values a unique constraint reads from the row being written. -/
def currentValues (columnValues : List (String × String)) (constraintCols : List String) :
    List String :=
  constraintCols.map (fun colName => qmapValue columnValues colName "")

/-- The inner loop of `validateUniqueConstraints`: does some stored row, other
than the excluded one, carry the same constrained values?  `rowIdx` is the
position of the first row of the list. -/
def rowCollides (schema : TableSchema) (constraintCols cur : List String) (excludeRowId : Int) :
    Nat → List (List String) → Bool
  | _, [] => false
  | rowIdx, row :: rows =>
    (decide ((rowIdx : Int) ≠ excludeRowId) && decide (cur = existingValues schema constraintCols row))
      || rowCollides schema constraintCols cur excludeRowId (rowIdx + 1) rows

namespace TableManager

/-- Source: `TableManager::getTable`: `none` stands for the null pointer. -/
def getTable (m : TableManager) (tableName : String) : Option TableSchema :=
  qmapFind (qToLower tableName) m.tables

/-- Source: `TableManager::tableExists`. -/
def tableExists (m : TableManager) (tableName : String) : Bool :=
  qmapContains m.tables (qToLower tableName)

/-- Source: `TableManager::addTable`. -/
def addTable (m : TableManager) (schema : TableSchema) : TableManager :=
  { tables := qmapInsert (qToLower schema.tableName) schema m.tables
    tableData := qmapInsert (qToLower schema.tableName) [] m.tableData }

/-- Source: `TableManager::removeTable`. -/
def removeTable (m : TableManager) (tableName : String) : TableManager :=
  { tables := qmapRemove (qToLower tableName) m.tables
    tableData := qmapRemove (qToLower tableName) m.tableData }

/-- Source: `TableManager::selectAll`. -/
def selectAll (m : TableManager) (tableName : String) : List (List String) :=
  qmapValue m.tableData (qToLower tableName) []

/-- The non-const `tableData[tableName.toLower()]`: an absent key gets an empty row list. -/
def ensureData (m : TableManager) (tableName : String) : TableManager :=
  if qmapContains m.tableData (qToLower tableName) then m
  else { m with tableData := qmapInsert (qToLower tableName) [] m.tableData }

/-- Store `rows` as the rows of `tableName`. -/
def setRows (m : TableManager) (tableName : String) (rows : List (List String)) : TableManager :=
  { m with tableData := qmapInsert (qToLower tableName) rows m.tableData }

/-- The name-to-value map built from a schema's columns and a row (last write wins). -/
def zipToMap (columns : List Column) (values : List String) : List (String × String) :=
  (columns.zip values).foldl (fun o p => qmapInsert p.1.name p.2 o) []

/-- Source: `TableManager::mapColumnsToValues`. -/
def mapColumnsToValues (m : TableManager) (tableName : String) (values : List String) :
    List (String × String) :=
  match m.getTable tableName with
  | none => []
  | some schema =>
    if values.length ≠ schema.columns.length then [] else zipToMap schema.columns values

/-- Source: `TableManager::validateUniqueConstraints`: `some msg` is `false` with that message. -/
def validateUniqueConstraints (m : TableManager) (tableName : String)
    (columnValues : List (String × String)) (excludeRowId : Int) : Option String :=
  match m.getTable tableName with
  | none => some "Table not found"
  | some schema =>
    let tableRows := m.selectAll tableName
    (schema.uniqueConstraints.find? (fun e =>
        rowCollides schema e.2 (currentValues columnValues e.2) excludeRowId 0 tableRows)).map
      (fun e => "UNIQUE constraint violation on column(s): " ++ qJoin e.2 ", ")

/-- Source: `TableManager::validateForeignKeyConstraints`: only the referenced table is looked up. -/
def validateForeignKeyConstraints (m : TableManager) (tableName : String) : Option String :=
  match m.getTable tableName with
  | none => some "Table not found"
  | some schema =>
    (schema.foreignKeys.find? (fun e => (m.getTable e.2.referencedTable).isNone)).map
      (fun e => "Referenced table '" ++ e.2.referencedTable ++ "' does not exist")

/-- The failure value `OperationResult{false, msg, 0, -1}`. -/
def failed (msg : String) : OperationResult :=
  { success := false, errorMessage := msg, rowsAffected := 0, rowId := -1 }

/-- The text of the column-count failure. -/
def countMismatch (expected got : Nat) : String :=
  "Column count mismatch: expected " ++ showNat expected ++ ", got " ++ showNat got

/-- Source: `TableManager::insertRow(tableName, QVector<QString>)`. -/
def insertRow (m : TableManager) (tableName : String) (values : List String) :
    OperationResult × TableManager :=
  match m.getTable tableName with
  | none => (failed "Table not found", m)
  | some schema =>
    if values.length ≠ schema.columns.length then
      (failed (countMismatch schema.columns.length values.length), m)
    else
      match schema.validateRowErr values with
      | some e => (failed e, m)
      | none =>
        match m.validateUniqueConstraints tableName (m.mapColumnsToValues tableName values) (-1) with
        | some e => (failed e, m)
        | none =>
          match m.validateForeignKeyConstraints tableName with
          | some e => (failed e, m)
          | none =>
            let tableRows := m.selectAll tableName
            ({ success := true, errorMessage := "", rowsAffected := 1, rowId := tableRows.length },
              m.setRows tableName (tableRows ++ [values]))

/-- A row vector in column order from a name-to-value map (absent names give `""`). -/
def mapToValues (schema : TableSchema) (columnValues : List (String × String)) : List String :=
  schema.columns.map (fun column => qmapValue columnValues column.name "")

/-- Source: `TableManager::insertRow(tableName, QMap<QString, QString>)`. -/
def insertRowMap (m : TableManager) (tableName : String) (columnValues : List (String × String)) :
    OperationResult × TableManager :=
  match m.getTable tableName with
  | none => (failed "Table not found", m)
  | some schema => m.insertRow tableName (mapToValues schema columnValues)

/-- Source: `TableManager::updateRow(tableName, rowId, QVector<QString>)`. -/
def updateRow (m : TableManager) (tableName : String) (rowId : Int) (values : List String) :
    OperationResult × TableManager :=
  match m.getTable tableName with
  | none => (failed "Table not found", m)
  | some schema =>
    let m1 := m.ensureData tableName
    let tableRows := m1.selectAll tableName
    if rowId < 0 ∨ (tableRows.length : Int) ≤ rowId then (failed "Row ID out of bounds", m1)
    else if values.length ≠ schema.columns.length then
      (failed (countMismatch schema.columns.length values.length), m1)
    else
      match schema.validateRowErr values with
      | some e => (failed e, m1)
      | none =>
        match m1.validateUniqueConstraints tableName (m1.mapColumnsToValues tableName values)
            rowId with
        | some e => (failed e, m1)
        | none =>
          match m1.validateForeignKeyConstraints tableName with
          | some e => (failed e, m1)
          | none =>
            ({ success := true, errorMessage := "", rowsAffected := 1, rowId := rowId },
              m1.setRows tableName (tableRows.set rowId.toNat values))

/-- Source: `TableManager::updateRow(tableName, rowId, QMap<QString, QString>)`. -/
def updateRowMap (m : TableManager) (tableName : String) (rowId : Int)
    (columnValues : List (String × String)) : OperationResult × TableManager :=
  match m.getTable tableName with
  | none => (failed "Table not found", m)
  | some schema => m.updateRow tableName rowId (mapToValues schema columnValues)

/-- The scan of `deleteRow` over every registered table: the key of the first
table holding a foreign key whose referenced table is `tableName`. -/
def referencingTable (m : TableManager) (tableName : String) : Option String :=
  (m.tables.find? (fun e =>
      e.2.foreignKeys.any (fun f => qToLower f.2.referencedTable == qToLower tableName))).map
    (fun e => e.1)

/-- Source: `TableManager::deleteRow`. -/
def deleteRow (m : TableManager) (tableName : String) (rowId : Int) :
    OperationResult × TableManager :=
  match m.getTable tableName with
  | none => (failed "Table not found", m)
  | some schema =>
    let m1 := m.ensureData tableName
    let tableRows := m1.selectAll tableName
    if rowId < 0 ∨ (tableRows.length : Int) ≤ rowId then (failed "Row ID out of bounds", m1)
    else
      match (if !schema.primaryKeyColumns.isEmpty then m1.referencingTable tableName else none) with
      | some tblName =>
        (failed ("FOREIGN KEY constraint violation: row referenced by table '" ++ tblName ++ "'"),
          m1)
      | none =>
        ({ success := true, errorMessage := "", rowsAffected := 1, rowId := rowId },
          m1.setRows tableName (tableRows.eraseIdx rowId.toNat))

/-- Source: `TableManager::validateRow`. -/
def validateRowErr (m : TableManager) (tableName : String) (values : List String) :
    Option String :=
  match m.getTable tableName with
  | none => some "Table not found"
  | some schema =>
    if values.length ≠ schema.columns.length then
      some (countMismatch schema.columns.length values.length)
    else
      match schema.validateRowErr values with
      | some e => some e
      | none =>
        match m.validateUniqueConstraints tableName (m.mapColumnsToValues tableName values) (-1) with
        | some e => some e
        | none => m.validateForeignKeyConstraints tableName

/-- Source: `TableManager::selectAllAsMap`. -/
def selectAllAsMap (m : TableManager) (tableName : String) : List (List (String × String)) :=
  match m.getTable tableName with
  | none => []
  | some schema => (m.selectAll tableName).map (fun row => zipToMap schema.columns row)

end TableManager

/-! ## token.h / lexer.cpp -/

/-- Source: `Token::Type`, in declaration order. -/
inductive TokenType where
  | SELECT | FROM | WHERE | INSERT | INTO | VALUES | UPDATE | SET | DELETE
  | CREATE | TABLE | ALTER | ADD | MODIFY | DROP | TRUNCATE
  | JOIN | INNER | LEFT | RIGHT | FULL | OUTER | CROSS | ON
  | BEGIN | COMMIT | ROLLBACK
  | INDEX | CREATE_INDEX
  | CONSTRAINT | PRIMARY_KEY | UNIQUE | NOT_NULL | FOREIGN_KEY | CHECK | DEFAULT
  | ORDER | BY | ASC | DESC | LIMIT | OFFSET
  | AND | OR | NOT
  | INT | INTEGER | SMALLINT | BIGINT | DECIMAL | NUMERIC | FLOAT
  | CHAR | VARCHAR | TEXT | NCHAR | NVARCHAR | TINYTEXT | MEDIUMTEXT | LONGTEXT
  | ENUM | BOOL | JSON | DATE | TIME | DATETIME | TIMESTAMP
  | EQUALS | NOT_EQUALS | LESS | LESS_EQUAL | GREATER | GREATER_EQUAL
  | PLUS | MINUS | MULTIPLY | DIVIDE | MODULO
  | LPAREN | RPAREN | COMMA | SEMICOLON | DOT
  | ASTERISK | PERCENT
  | IDENTIFIER | NUMBER | STRING | TRUE_KW | FALSE_KW | NULL_KW
  | EOL | END_OF_FILE | UNKNOWN
deriving DecidableEq, Repr

/-- Source: `struct Token`. -/
structure Token where
  type : TokenType
  value : String
  line : Nat
  column : Nat
deriving DecidableEq, Repr

/-- Source: `QChar::toLatin1`: characters above U+00FF become NUL. -/
def toLatin1 (c : Char) : Char := if 255 < c.toNat then Char.ofNat 0 else c

/-- The line counter after `advance()` steps over `ch`. -/
def nextLine (ch : Char) (line : Nat) : Nat := if ch.toNat = 10 then line + 1 else line

/-- The column counter after `advance()` steps over `ch`. -/
def nextColumn (ch : Char) (column : Nat) : Nat := if ch.toNat = 10 then 1 else column + 1

/-- The state of `class Lexer`: `rest` is the input from `position` on, in UTF-16 code units. -/
structure Lexer where
  rest : List Char
  line : Nat
  column : Nat
deriving DecidableEq, Repr

namespace Lexer

/-- Source: `Lexer::Lexer(input)`: the lexer steps through the UTF-16 code units of the input. -/
def new (input : String) : Lexer := ⟨utf16Units input.data, 1, 1⟩

/-- Source: `Lexer::current`. -/
def current (lx : Lexer) : Char :=
  match lx.rest with
  | [] => Char.ofNat 0
  | c :: _ => toLatin1 c

/-- Source: `Lexer::peek`. -/
def peek (lx : Lexer) : Char :=
  match lx.rest with
  | _ :: c :: _ => toLatin1 c
  | _ => Char.ofNat 0

/-- Source: `Lexer::advance`. -/
def advance (lx : Lexer) : Lexer :=
  match lx.rest with
  | [] => lx
  | ch :: r => ⟨r, nextLine ch lx.line, nextColumn ch lx.column⟩

/-- The loop of `skipWhitespace`. -/
def skipWhitespaceFrom : List Char → Nat → Nat → Lexer
  | [], l, c => ⟨[], l, c⟩
  | ch :: r, l, c =>
    if qIsSpace ch then skipWhitespaceFrom r (nextLine ch l) (nextColumn ch c) else ⟨ch :: r, l, c⟩

/-- Source: `Lexer::skipWhitespace`. -/
def skipWhitespace (lx : Lexer) : Lexer := skipWhitespaceFrom lx.rest lx.line lx.column

/-- The loop of `skipComment`: up to, not including, the line feed. -/
def skipCommentFrom : List Char → Nat → Nat → Lexer
  | [], l, c => ⟨[], l, c⟩
  | ch :: r, l, c =>
    if ch.toNat = 10 then ⟨ch :: r, l, c⟩ else skipCommentFrom r (nextLine ch l) (nextColumn ch c)

/-- Source: `Lexer::skipComment`. -/
def skipComment (lx : Lexer) : Lexer := skipCommentFrom lx.rest lx.line lx.column

/-- Source: `Lexer::isIdentifierStart`. -/
def isIdentifierStart (c : Char) : Bool :=
  (97 ≤ c.toNat && c.toNat ≤ 122) || (65 ≤ c.toNat && c.toNat ≤ 90) || c.toNat == 95

/-- Source: `Lexer::isIdentifierPart`. -/
def isIdentifierPart (c : Char) : Bool := isIdentifierStart c || (48 ≤ c.toNat && c.toNat ≤ 57)

/-- Source: `Lexer::isDigit`. -/
def isDigit (c : Char) : Bool := 48 ≤ c.toNat && c.toNat ≤ 57

/-- Source: `Lexer::keywordToTokenType`. -/
def keywordToTokenType (keyword : String) : TokenType :=
  let upper := qToUpper keyword
  if upper = "SELECT" then .SELECT else if upper = "FROM" then .FROM
  else if upper = "WHERE" then .WHERE else if upper = "INSERT" then .INSERT
  else if upper = "INTO" then .INTO else if upper = "VALUES" then .VALUES
  else if upper = "UPDATE" then .UPDATE else if upper = "SET" then .SET
  else if upper = "DELETE" then .DELETE else if upper = "CREATE" then .CREATE
  else if upper = "TABLE" then .TABLE else if upper = "ALTER" then .ALTER
  else if upper = "ADD" then .ADD else if upper = "MODIFY" then .MODIFY
  else if upper = "DROP" then .DROP else if upper = "TRUNCATE" then .TRUNCATE
  else if upper = "JOIN" then .JOIN else if upper = "INNER" then .INNER
  else if upper = "LEFT" then .LEFT else if upper = "RIGHT" then .RIGHT
  else if upper = "FULL" then .FULL else if upper = "OUTER" then .OUTER
  else if upper = "CROSS" then .CROSS else if upper = "ON" then .ON
  else if upper = "BEGIN" then .BEGIN else if upper = "COMMIT" then .COMMIT
  else if upper = "ROLLBACK" then .ROLLBACK else if upper = "INDEX" then .INDEX
  else if upper = "CONSTRAINT" then .CONSTRAINT else if upper = "PRIMARY" then .PRIMARY_KEY
  else if upper = "UNIQUE" then .UNIQUE else if upper = "NOT" then .NOT
  else if upper = "NULL" then .NULL_KW else if upper = "FOREIGN" then .FOREIGN_KEY
  else if upper = "KEY" then .PRIMARY_KEY else if upper = "CHECK" then .CHECK
  else if upper = "DEFAULT" then .DEFAULT else if upper = "ORDER" then .ORDER
  else if upper = "BY" then .BY else if upper = "ASC" then .ASC
  else if upper = "DESC" then .DESC else if upper = "LIMIT" then .LIMIT
  else if upper = "OFFSET" then .OFFSET else if upper = "AND" then .AND
  else if upper = "OR" then .OR else if upper = "TRUE" then .TRUE_KW
  else if upper = "FALSE" then .FALSE_KW else if upper = "NOW" then .IDENTIFIER
  else if upper = "CURRENT_DATE" then .IDENTIFIER else if upper = "CURRENT_TIME" then .IDENTIFIER
  else if upper = "CURRENT_TIMESTAMP" then .IDENTIFIER
  else if upper = "INT" then .INT else if upper = "INTEGER" then .INTEGER
  else if upper = "SMALLINT" then .SMALLINT else if upper = "BIGINT" then .BIGINT
  else if upper = "DECIMAL" then .DECIMAL else if upper = "NUMERIC" then .NUMERIC
  else if upper = "FLOAT" then .FLOAT else if upper = "CHAR" then .CHAR
  else if upper = "VARCHAR" then .VARCHAR else if upper = "TEXT" then .TEXT
  else if upper = "NCHAR" then .NCHAR else if upper = "NVARCHAR" then .NVARCHAR
  else if upper = "TINYTEXT" then .TINYTEXT else if upper = "MEDIUMTEXT" then .MEDIUMTEXT
  else if upper = "LONGTEXT" then .LONGTEXT else if upper = "ENUM" then .ENUM
  else if upper = "BOOL" then .BOOL else if upper = "JSON" then .JSON
  else if upper = "DATE" then .DATE else if upper = "TIME" then .TIME
  else if upper = "DATETIME" then .DATETIME else if upper = "TIMESTAMP" then .TIMESTAMP
  else .UNKNOWN

/-- Source: `Lexer::makeToken`: the token carries the position reached so far. -/
def makeToken (lx : Lexer) (type : TokenType) (value : String) : Token :=
  ⟨type, value, lx.line, lx.column⟩

/-- The loop shared by `readIdentifierOrKeyword` and `readNumber`: append
`current()` and advance while `p (current())` holds; `acc` is the value reversed. -/
def readWhileFrom (p : Char → Bool) : List Char → Nat → Nat → List Char → String × Lexer
  | [], l, c, acc => (String.mk acc.reverse, ⟨[], l, c⟩)
  | ch :: r, l, c, acc =>
    if p (toLatin1 ch) then readWhileFrom p r (nextLine ch l) (nextColumn ch c) (toLatin1 ch :: acc)
    else (String.mk acc.reverse, ⟨ch :: r, l, c⟩)

/-- Source: `Lexer::readIdentifierOrKeyword`. -/
def readIdentifierOrKeyword (lx : Lexer) : Token × Lexer :=
  let r := readWhileFrom isIdentifierPart lx.rest lx.line lx.column []
  let type := keywordToTokenType r.1
  (⟨if type = .UNKNOWN then .IDENTIFIER else type, r.1, lx.line, lx.column⟩, r.2)

/-- Source: `Lexer::readNumber`. -/
def readNumber (lx : Lexer) : Token × Lexer :=
  let r := readWhileFrom (fun c => isDigit c || c.toNat == 46) lx.rest lx.line lx.column []
  (⟨.NUMBER, r.1, lx.line, lx.column⟩, r.2)

/-- The loop of `readString` and the skip of the closing quote.  `escaped` is
set right after the backslash of a backslash-quote pair has been stepped over:
the next character is appended whatever it is. -/
def readStringFrom (quote : Char) : Bool → List Char → Nat → Nat → List Char → String × Lexer
  | _, [], l, c, acc => (String.mk acc.reverse, ⟨[], l, c⟩)
  | true, ch :: r, l, c, acc =>
    readStringFrom quote false r (nextLine ch l) (nextColumn ch c) (toLatin1 ch :: acc)
  | false, ch :: r, l, c, acc =>
    if toLatin1 ch = quote then (String.mk acc.reverse, ⟨r, nextLine ch l, nextColumn ch c⟩)
    else if (toLatin1 ch).toNat = 92 ∧ Lexer.peek ⟨ch :: r, l, c⟩ = quote then
      readStringFrom quote true r (nextLine ch l) (nextColumn ch c) acc
    else readStringFrom quote false r (nextLine ch l) (nextColumn ch c) (toLatin1 ch :: acc)

/-- Source: `Lexer::readString`. -/
def readString (lx : Lexer) (quote : Char) : Token × Lexer :=
  let lx1 := lx.advance
  let r := readStringFrom quote false lx1.rest lx1.line lx1.column []
  (⟨.STRING, r.1, lx.line, lx.column⟩, r.2)

/-- The `switch` of `nextToken`, entered after `advance()` stepped over `ch`. -/
def operatorToken (ch : Char) (lx : Lexer) : Token × Lexer :=
  if ch = '(' then (lx.makeToken .LPAREN "(", lx)
  else if ch = ')' then (lx.makeToken .RPAREN ")", lx)
  else if ch = ',' then (lx.makeToken .COMMA ",", lx)
  else if ch = ';' then (lx.makeToken .SEMICOLON ";", lx)
  else if ch = '.' then (lx.makeToken .DOT ".", lx)
  else if ch = '*' then (lx.makeToken .ASTERISK "*", lx)
  else if ch = '%' then (lx.makeToken .PERCENT "%", lx)
  else if ch = '+' then (lx.makeToken .PLUS "+", lx)
  else if ch = '-' then (lx.makeToken .MINUS "-", lx)
  else if ch = '/' then (lx.makeToken .DIVIDE "/", lx)
  else if ch = '=' then (lx.makeToken .EQUALS "=", lx)
  else if ch = '<' then
    if lx.current = '=' then (lx.advance.makeToken .LESS_EQUAL "<=", lx.advance)
    else if lx.current = '>' then (lx.advance.makeToken .NOT_EQUALS "<>", lx.advance)
    else (lx.makeToken .LESS "<", lx)
  else if ch = '>' then
    if lx.current = '=' then (lx.advance.makeToken .GREATER_EQUAL ">=", lx.advance)
    else (lx.makeToken .GREATER ">", lx)
  else if ch = '!' then
    if lx.current = '=' then (lx.advance.makeToken .NOT_EQUALS "!=", lx.advance)
    else (lx.makeToken .UNKNOWN "!", lx)
  else (lx.makeToken .UNKNOWN (String.mk [ch]), lx)

/-- Source: `Lexer::nextToken`. -/
def nextToken (lx0 : Lexer) : Token × Lexer :=
  let lx := lx0.skipWhitespace
  if lx.rest.isEmpty then (lx.makeToken .END_OF_FILE "", lx)
  else
    let ch := lx.current
    if isIdentifierStart ch then lx.readIdentifierOrKeyword
    else if isDigit ch then lx.readNumber
    else if ch.toNat = 39 ∨ ch.toNat = 34 then lx.readString ch
    else operatorToken ch lx.advance

/-- The `while` loop of `tokenize`, bounded by `fuel` iterations (`none` when
the bound is used up before the loop ends). -/
def tokenizeLoop : Nat → Lexer → Option (List Token)
  | 0, _ => none
  | fuel + 1, lx0 =>
    if lx0.rest.isEmpty then some [lx0.makeToken .END_OF_FILE ""]
    else
      let lx := lx0.skipWhitespace
      if lx.rest.isEmpty then some [lx.makeToken .END_OF_FILE ""]
      else if lx.current = '-' ∧ lx.peek = '-' then tokenizeLoop fuel lx.skipComment
      else
        let r := lx.nextToken
        (tokenizeLoop fuel r.2).map (fun ts => r.1 :: ts)

/-- Source: `Lexer::tokenize`: every iteration of the loop consumes input, so the
length of the input bounds the number of iterations. -/
def tokenize (input : String) : Option (List Token) :=
  tokenizeLoop (qLength input + 1) (Lexer.new input)

end Lexer

/-! ## ast_nodes.h -/

/-- Source: `class ColumnDefinition`. -/
structure ColumnDefinition where
  name : String := ""
  dataType : String := ""
  nullable : Bool := true
  primaryKey : Bool := false
  unique : Bool := false
  defaultValue : String := ""
deriving DecidableEq, Repr

/-- Source: `class SelectStatement`. -/
structure SelectStatement where
  columns : List String := []
  fromTable : String := ""
  whereClause : String := ""
  orderBy : String := ""
  limit : Int := -1
  joinClause : String := ""
deriving DecidableEq, Repr

/-- Source: `class InsertStatement`. -/
structure InsertStatement where
  tableName : String := ""
  columns : List String := []
  values : List (List String) := []
deriving DecidableEq, Repr

/-- Source: `class UpdateStatement`. -/
structure UpdateStatement where
  tableName : String := ""
  columns : List String := []
  values : List String := []
  whereClause : String := ""
deriving DecidableEq, Repr

/-- Source: `class DeleteStatement`. -/
structure DeleteStatement where
  tableName : String := ""
  whereClause : String := ""
deriving DecidableEq, Repr

/-- Source: `class CreateTableStatement`. -/
structure CreateTableStatement where
  tableName : String := ""
  columns : List ColumnDefinition := []
  primaryKeys : List String := []
  uniqueColumns : List String := []
  foreignKeys : List (String × String) := []
deriving DecidableEq, Repr

/-- Source: `class AlterTableStatement`. -/
structure AlterTableStatement where
  tableName : String := ""
  alterAction : String := ""
  columnName : String := ""
  columnDefinition : String := ""
deriving DecidableEq, Repr

/-- Source: `class DropTableStatement`. -/
structure DropTableStatement where
  tableName : String := ""
  ifExists : Bool := false
deriving DecidableEq, Repr

/-- Source: `class CreateIndexStatement`. -/
structure CreateIndexStatement where
  indexName : String := ""
  tableName : String := ""
  columns : List String := []
  unique : Bool := false
deriving DecidableEq, Repr

/-- The statement classes derived from `ASTNode`. -/
inductive ASTNode where
  | selectStmt (s : SelectStatement)
  | insertStmt (s : InsertStatement)
  | updateStmt (s : UpdateStatement)
  | deleteStmt (s : DeleteStatement)
  | createTableStmt (s : CreateTableStatement)
  | alterTableStmt (s : AlterTableStatement)
  | dropTableStmt (s : DropTableStatement)
  | createIndexStmt (s : CreateIndexStatement)
  | beginStmt
  | commitStmt
  | rollbackStmt
deriving DecidableEq, Repr

/-! ## parser.cpp -/

/-- Outcome of a parsing routine: a value and the tokens from the new
`position` on, a thrown `std::runtime_error`, or the loop bound of the model
used up. -/
inductive PResult (α : Type) where
  | ok (value : α) (rest : List Token)
  | error (msg : String)
  | outOfFuel
deriving DecidableEq, Repr

/-- Sequencing: run `f` on a successful outcome, pass a failure on. -/
def PResult.andThen {α β : Type} (r : PResult α) (f : α → List Token → PResult β) : PResult β :=
  match r with
  | .ok a rest => f a rest
  | .error msg => .error msg
  | .outOfFuel => .outOfFuel

namespace Parser

/-- Source: `Parser::current`. -/
def current (ts : List Token) : Token :=
  match ts with
  | [] => ⟨.END_OF_FILE, "", 0, 0⟩
  | t :: _ => t

/-- Source: `Parser::advance`. -/
def advance (ts : List Token) : List Token := ts.tail

/-- Source: `Parser::tokenTypeToString`. -/
def tokenTypeToString : TokenType → String
  | .SELECT => "SELECT" | .FROM => "FROM" | .WHERE => "WHERE" | .INSERT => "INSERT"
  | .INTO => "INTO" | .VALUES => "VALUES" | .UPDATE => "UPDATE" | .SET => "SET"
  | .DELETE => "DELETE" | .CREATE => "CREATE" | .TABLE => "TABLE"
  | .PRIMARY_KEY => "PRIMARY KEY" | .UNIQUE => "UNIQUE" | .NOT_NULL => "NOT NULL"
  | .CHECK => "CHECK" | .DEFAULT => "DEFAULT" | .LPAREN => "(" | .RPAREN => ")"
  | .COMMA => "," | .SEMICOLON => ";" | .IDENTIFIER => "identifier" | .NUMBER => "number"
  | .STRING => "string" | .INT => "INT" | .VARCHAR => "VARCHAR" | .DATE => "DATE"
  | .END_OF_FILE => "end of file"
  | _ => "unknown"

/-- The text `<kind> ("<value>") at line L col C` used by the parser's messages. -/
def describeToken (token : Token) : String :=
  tokenTypeToString token.type ++ " (\"" ++ token.value ++ "\") at line "
    ++ showNat token.line ++ " col " ++ showNat token.column

/-- Source: `Parser::expect`. -/
def expect (type : TokenType) (ts : List Token) : PResult Token :=
  if (current ts).type ≠ type then
    .error ("Expected " ++ tokenTypeToString type ++ " but got " ++ describeToken (current ts))
  else .ok (current ts) (advance ts)

/-- The message thrown by `Parser::error`. -/
def errorText (ts : List Token) (message : String) : String :=
  "Parse error at line " ++ showNat (current ts).line ++ ", column "
    ++ showNat (current ts).column ++ ": " ++ message

/-- Source: `Parser::parseIdentifier`. -/
def parseIdentifier (ts : List Token) : PResult String :=
  if (current ts).type ≠ .IDENTIFIER then
    .error (errorText ts ("Expected identifier but got " ++ describeToken (current ts)))
  else .ok (current ts).value (advance ts)

/-- The `while (match(Token::COMMA))` loop of `parseColumnList`. -/
def parseColumnListLoop : Nat → List Token → List String → PResult (List String)
  | 0, _, _ => .outOfFuel
  | fuel + 1, ts, columns =>
    if (current ts).type = .COMMA then
      (parseIdentifier (advance ts)).andThen fun c ts1 =>
        parseColumnListLoop fuel ts1 (columns ++ [c])
    else .ok columns ts

/-- Source: `Parser::parseColumnList`. -/
def parseColumnList (fuel : Nat) (ts : List Token) : PResult (List String) :=
  (parseIdentifier ts).andThen fun c ts1 => parseColumnListLoop fuel ts1 [c]

/-- The argument loop of a function call in `parseExpression`: every token up
to `)` or the end is appended with a blank after it. -/
def collectArgs : List Token → String → String × List Token
  | [], expr => (expr, [])
  | t :: ts, expr =>
    if t.type = .RPAREN ∨ t.type = .END_OF_FILE then (expr, t :: ts)
    else collectArgs ts (expr ++ t.value ++ " ")

/-- Source: `Parser::parseExpression`. -/
def parseExpression : Nat → List Token → PResult String
  | 0, _ => .outOfFuel
  | fuel + 1, ts =>
    let token := current ts
    let primary : PResult String :=
      if token.type = .STRING ∨ token.type = .NUMBER then .ok token.value (advance ts)
      else if token.type = .IDENTIFIER then
        if (current (advance ts)).type = .LPAREN then
          let r := collectArgs (advance (advance ts)) (token.value ++ "(")
          (expect .RPAREN r.2).andThen fun _ ts3 => .ok (r.1 ++ ")") ts3
        else .ok token.value (advance ts)
      else if token.type = .NULL_KW then .ok "NULL" (advance ts)
      else if token.type = .TRUE_KW then .ok "TRUE" (advance ts)
      else if token.type = .FALSE_KW then .ok "FALSE" (advance ts)
      else .error (errorText ts "Expected expression")
    primary.andThen fun expr ts1 =>
      let op := current ts1
      if op.type = .PLUS ∨ op.type = .MINUS ∨ op.type = .MULTIPLY ∨ op.type = .DIVIDE
          ∨ op.type = .MODULO then
        (parseExpression fuel (advance ts1)).andThen fun rhs ts2 =>
          .ok (expr ++ (" " ++ op.value ++ " ") ++ rhs) ts2
      else .ok expr ts1

/-- The token loop of `parseWhereClause`. -/
def collectWhere : List Token → String → String × List Token
  | [], clause => (clause, [])
  | t :: ts, clause =>
    if t.type = .ORDER ∨ t.type = .LIMIT ∨ t.type = .SEMICOLON ∨ t.type = .END_OF_FILE
        ∨ t.type = .RPAREN then (clause, t :: ts)
    else collectWhere ts (clause ++ (t.value ++ " "))

/-- Source: `Parser::parseWhereClause`. -/
def parseWhereClause (ts : List Token) : PResult String :=
  (expect .WHERE ts).andThen fun _ ts1 =>
    let r := collectWhere ts1 ""
    .ok (qTrimmed r.1) r.2

/-- The optional `ASC` / `DESC` after an ORDER BY column. -/
def parseDirection (clause : String) (ts : List Token) : String × List Token :=
  if (current ts).type = .ASC then (clause ++ " ASC", advance ts)
  else if (current ts).type = .DESC then (clause ++ " DESC", advance ts)
  else (clause, ts)

/-- The `while (match(Token::COMMA))` loop of `parseOrderByClause`. -/
def parseOrderByLoop : Nat → List Token → String → PResult String
  | 0, _, _ => .outOfFuel
  | fuel + 1, ts, clause =>
    if (current ts).type = .COMMA then
      (parseIdentifier (advance ts)).andThen fun c ts1 =>
        let r := parseDirection (clause ++ (", " ++ c)) ts1
        parseOrderByLoop fuel r.2 r.1
    else .ok clause ts

/-- Source: `Parser::parseOrderByClause`. -/
def parseOrderByClause (fuel : Nat) (ts : List Token) : PResult String :=
  (expect .ORDER ts).andThen fun _ ts1 =>
  (expect .BY ts1).andThen fun _ ts2 =>
  (parseIdentifier ts2).andThen fun c ts3 =>
    let r := parseDirection c ts3
    parseOrderByLoop fuel r.2 r.1

/-- Source: `Parser::parseLimit`. -/
def parseLimit (ts : List Token) : PResult Int :=
  if (current ts).type ≠ .NUMBER then .error (errorText ts "Expected number after LIMIT")
  else .ok (qToInt (current ts).value) (advance ts)

/-- Source: `Parser::parseSelectStatement`. -/
def parseSelectStatement (fuel : Nat) (ts : List Token) : PResult SelectStatement :=
  (expect .SELECT ts).andThen fun _ ts1 =>
  (if (current ts1).type = .ASTERISK then PResult.ok ["*"] (advance ts1)
    else parseColumnList fuel ts1).andThen fun columns ts2 =>
  (if (current ts2).type = .FROM then parseIdentifier (advance ts2)
    else PResult.ok "" ts2).andThen fun fromTable ts3 =>
  (if (current ts3).type = .WHERE then parseWhereClause ts3
    else PResult.ok "" ts3).andThen fun whereClause ts4 =>
  (if (current ts4).type = .ORDER then parseOrderByClause fuel ts4
    else PResult.ok "" ts4).andThen fun orderBy ts5 =>
  (if (current ts5).type = .LIMIT then parseLimit (advance ts5)
    else PResult.ok (-1) ts5).andThen fun limit ts6 =>
  .ok { columns := columns, fromTable := fromTable, whereClause := whereClause,
        orderBy := orderBy, limit := limit } ts6

/-- The `while (match(Token::COMMA))` loop inside one value tuple. -/
def parseValuesLoop : Nat → List Token → List String → PResult (List String)
  | 0, _, _ => .outOfFuel
  | fuel + 1, ts, values =>
    if (current ts).type = .COMMA then
      (parseExpression (fuel + 1) (advance ts)).andThen fun e ts1 =>
        parseValuesLoop fuel ts1 (values ++ [e])
    else .ok values ts

/-- The `while (current().type == Token::LPAREN)` loop of `parseInsertStatement`. -/
def parseTuplesLoop : Nat → List Token → List (List String) → PResult (List (List String))
  | 0, _, _ => .outOfFuel
  | fuel + 1, ts, acc =>
    if (current ts).type = .LPAREN then
      (parseExpression (fuel + 1) (advance ts)).andThen fun e ts1 =>
      (parseValuesLoop (fuel + 1) ts1 [e]).andThen fun values ts2 =>
      (expect .RPAREN ts2).andThen fun _ ts3 =>
        if (current ts3).type = .COMMA then parseTuplesLoop fuel (advance ts3) (acc ++ [values])
        else .ok (acc ++ [values]) ts3
    else .ok acc ts

/-- Source: `Parser::parseInsertStatement`. -/
def parseInsertStatement (fuel : Nat) (ts : List Token) : PResult InsertStatement :=
  (expect .INSERT ts).andThen fun _ ts1 =>
  (expect .INTO ts1).andThen fun _ ts2 =>
  (parseIdentifier ts2).andThen fun tableName ts3 =>
  (if (current ts3).type = .LPAREN then
      (parseColumnList fuel (advance ts3)).andThen fun cols ts4 =>
        (expect .RPAREN ts4).andThen fun _ ts5 => PResult.ok cols ts5
    else PResult.ok [] ts3).andThen fun columns ts6 =>
  (expect .VALUES ts6).andThen fun _ ts7 =>
  (parseTuplesLoop fuel ts7 []).andThen fun values ts8 =>
  .ok { tableName := tableName, columns := columns, values := values } ts8

/-- The `while (match(Token::COMMA))` loop of `parseUpdateStatement`. -/
def parseAssignmentsLoop : Nat → List Token → List String → List String →
    PResult (List String × List String)
  | 0, _, _, _ => .outOfFuel
  | fuel + 1, ts, columns, values =>
    if (current ts).type = .COMMA then
      (parseIdentifier (advance ts)).andThen fun c ts1 =>
      (expect .EQUALS ts1).andThen fun _ ts2 =>
      (parseExpression (fuel + 1) ts2).andThen fun e ts3 =>
        parseAssignmentsLoop fuel ts3 (columns ++ [c]) (values ++ [e])
    else .ok (columns, values) ts

/-- Source: `Parser::parseUpdateStatement`. -/
def parseUpdateStatement (fuel : Nat) (ts : List Token) : PResult UpdateStatement :=
  (expect .UPDATE ts).andThen fun _ ts1 =>
  (parseIdentifier ts1).andThen fun tableName ts2 =>
  (expect .SET ts2).andThen fun _ ts3 =>
  (parseIdentifier ts3).andThen fun c ts4 =>
  (expect .EQUALS ts4).andThen fun _ ts5 =>
  (parseExpression fuel ts5).andThen fun e ts6 =>
  (parseAssignmentsLoop fuel ts6 [c] [e]).andThen fun cv ts7 =>
  (if (current ts7).type = .WHERE then parseWhereClause ts7
    else PResult.ok "" ts7).andThen fun whereClause ts8 =>
  .ok { tableName := tableName, columns := cv.1, values := cv.2, whereClause := whereClause } ts8

/-- Source: `Parser::parseDeleteStatement`. -/
def parseDeleteStatement (ts : List Token) : PResult DeleteStatement :=
  (expect .DELETE ts).andThen fun _ ts1 =>
  (expect .FROM ts1).andThen fun _ ts2 =>
  (parseIdentifier ts2).andThen fun tableName ts3 =>
  (if (current ts3).type = .WHERE then parseWhereClause ts3
    else PResult.ok "" ts3).andThen fun whereClause ts4 =>
  .ok { tableName := tableName, whereClause := whereClause } ts4

end Parser

namespace Parser

/-- The data-type test of `parseCreateTableStatement`: an identifier, or a
token kind in the enum range `Token::INT .. Token::TIMESTAMP`. -/
def isTypeToken (t : TokenType) : Bool :=
  t == .IDENTIFIER ||
    (decide (TokenType.INT.toCtorIdx ≤ t.toCtorIdx) && decide (t.toCtorIdx ≤ TokenType.TIMESTAMP.toCtorIdx))

/-- The loop that steps over data-type parameters, e.g. `(10, 2)`: it runs
while `parenDepth > 0` and the current token is not the end of input. -/
def skipTypeParams : List Token → Nat → List Token
  | [], _ => []
  | t :: ts, parenDepth =>
    if parenDepth = 0 ∨ t.type = .END_OF_FILE then t :: ts
    else if t.type = .LPAREN then skipTypeParams ts (parenDepth + 1)
    else if t.type = .RPAREN then skipTypeParams ts (parenDepth - 1)
    else skipTypeParams ts parenDepth

/-- The loop that steps over a `CHECK (` expression; the `)` that brings the
depth to zero is left for `expect(Token::RPAREN)`. -/
def skipCheck : List Token → Nat → List Token
  | [], _ => []
  | t :: ts, parenDepth =>
    if parenDepth = 0 ∨ t.type = .END_OF_FILE then t :: ts
    else if t.type = .LPAREN then skipCheck ts (parenDepth + 1)
    else if t.type = .RPAREN then
      if 0 < parenDepth - 1 then skipCheck ts (parenDepth - 1) else t :: ts
    else skipCheck ts parenDepth

/-- The loop that collects the arguments of a `DEFAULT name(` call. -/
def collectDefaultCall : List Token → Nat → String → String × List Token
  | [], _, defaultFunc => (defaultFunc, [])
  | t :: ts, parenDepth, defaultFunc =>
    if parenDepth = 0 ∨ t.type = .END_OF_FILE then (defaultFunc, t :: ts)
    else if t.type = .LPAREN then collectDefaultCall ts (parenDepth + 1) (defaultFunc ++ "(")
    else if t.type = .RPAREN then
      collectDefaultCall ts (parenDepth - 1)
        (if 0 < parenDepth - 1 then defaultFunc ++ ")" else defaultFunc)
    else
      collectDefaultCall ts parenDepth
        ((if !defaultFunc.data.isEmpty && !qEndsWith defaultFunc "(" then defaultFunc ++ " "
          else defaultFunc) ++ t.value)

/-- The loop of the "other default literal" branch: token texts, each followed
by a blank, up to `,`, `)` or the end. -/
def collectDefaultLiteral : List Token → String → String × List Token
  | [], acc => (acc, [])
  | t :: ts, acc =>
    if t.type = .COMMA ∨ t.type = .RPAREN ∨ t.type = .END_OF_FILE then (acc, t :: ts)
    else collectDefaultLiteral ts (acc ++ (t.value ++ " "))

/-- The loop that steps over a `FOREIGN KEY` / `CONSTRAINT` clause: up to `,`, `)` or the end. -/
def skipToDelimiter : List Token → List Token
  | [] => []
  | t :: ts =>
    if t.type = .COMMA ∨ t.type = .RPAREN ∨ t.type = .END_OF_FILE then t :: ts
    else skipToDelimiter ts

/-- The `DEFAULT` branch of the constraint loop, entered after `DEFAULT` was stepped over. -/
def parseDefault (ts : List Token) (colDef : ColumnDefinition) : ColumnDefinition × List Token :=
  let t := current ts
  if t.type = .IDENTIFIER then
    let ts1 := advance ts
    if (current ts1).type = .LPAREN then
      let r := collectDefaultCall (advance ts1) 1 (t.value ++ "(")
      ({ colDef with defaultValue := r.1 ++ ")" }, r.2)
    else ({ colDef with defaultValue := t.value }, ts1)
  else if t.type = .STRING ∨ t.type = .NUMBER then
    ({ colDef with defaultValue := t.value }, advance ts)
  else
    let r := collectDefaultLiteral ts colDef.defaultValue
    ({ colDef with defaultValue := qTrimmed r.1 }, r.2)

/-- The constraint loop of one column definition in `parseCreateTableStatement`. -/
def parseConstraints : Nat → List Token → ColumnDefinition → CreateTableStatement →
    PResult (ColumnDefinition × CreateTableStatement)
  | 0, _, _, _ => .outOfFuel
  | fuel + 1, ts, colDef, stmt =>
    let t := current ts
    if t.type = .COMMA ∨ t.type = .RPAREN ∨ t.type = .END_OF_FILE then .ok (colDef, stmt) ts
    else if t.type = .PRIMARY_KEY then
      parseConstraints fuel (advance ts) { colDef with primaryKey := true }
        { stmt with primaryKeys := stmt.primaryKeys ++ [colDef.name] }
    else if t.type = .UNIQUE then
      parseConstraints fuel (advance ts) { colDef with unique := true }
        { stmt with uniqueColumns := stmt.uniqueColumns ++ [colDef.name] }
    else if t.type = .NOT then
      if (current (advance ts)).type = .NULL_KW then
        parseConstraints fuel (advance (advance ts)) { colDef with nullable := false } stmt
      else .error "Expected NULL after NOT"
    else if t.type = .CHECK then
      (expect .LPAREN (advance ts)).andThen fun _ ts1 =>
      (expect .RPAREN (skipCheck ts1 1)).andThen fun _ ts2 =>
        parseConstraints fuel ts2 colDef stmt
    else if t.type = .DEFAULT then
      let r := parseDefault (advance ts) colDef
      parseConstraints fuel r.2 r.1 stmt
    else if t.type = .FOREIGN_KEY ∨ t.type = .CONSTRAINT then
      parseConstraints fuel (skipToDelimiter ts) colDef stmt
    else parseConstraints fuel (advance ts) colDef stmt

/-- The data-type part of one column definition: the type text and the tokens after it. -/
def parseDataType (ts : List Token) : PResult String :=
  let typeToken := current ts
  if isTypeToken typeToken.type then
    let ts1 := advance ts
    if (current ts1).type = .LPAREN then .ok typeToken.value (skipTypeParams (advance ts1) 1)
    else .ok typeToken.value ts1
  else .error ("Expected data type but got " ++ describeToken typeToken)

/-- The column loop of `parseCreateTableStatement`. -/
def parseColumnDefs : Nat → List Token → CreateTableStatement → PResult CreateTableStatement
  | 0, _, _ => .outOfFuel
  | fuel + 1, ts, stmt =>
    if (current ts).type = .RPAREN ∨ (current ts).type = .END_OF_FILE then .ok stmt ts
    else
      (parseIdentifier ts).andThen fun colName ts1 =>
      (parseDataType ts1).andThen fun dataType ts2 =>
      (parseConstraints (fuel + 1) ts2 { name := colName, dataType := dataType } stmt).andThen
        fun r ts3 =>
          let stmt1 := { r.2 with columns := r.2.columns ++ [r.1] }
          if (current ts3).type = .COMMA then parseColumnDefs fuel (advance ts3) stmt1
          else .ok stmt1 ts3

/-- Source: `Parser::parseCreateTableStatement` (the `CREATE` token is already consumed). -/
def parseCreateTableStatement (fuel : Nat) (ts : List Token) : PResult CreateTableStatement :=
  (expect .TABLE ts).andThen fun _ ts1 =>
  (parseIdentifier ts1).andThen fun tableName ts2 =>
  (expect .LPAREN ts2).andThen fun _ ts3 =>
  (parseColumnDefs fuel ts3 { tableName := tableName }).andThen fun stmt ts4 =>
  (expect .RPAREN ts4).andThen fun _ ts5 => .ok stmt ts5

/-- The loop of `parseAlterTableStatement` that steps over the action details. -/
def skipToStatementEnd : List Token → List Token
  | [] => []
  | t :: ts =>
    if t.type = .END_OF_FILE ∨ t.type = .SEMICOLON then t :: ts else skipToStatementEnd ts

/-- Source: `Parser::parseAlterTableStatement`. -/
def parseAlterTableStatement (ts : List Token) : PResult AlterTableStatement :=
  (expect .ALTER ts).andThen fun _ ts1 =>
  (expect .TABLE ts1).andThen fun _ ts2 =>
  (parseIdentifier ts2).andThen fun tableName ts3 =>
  (if (current ts3).type = .ADD then PResult.ok "ADD" (advance ts3)
    else if (current ts3).type = .DROP then PResult.ok "DROP" (advance ts3)
    else if (current ts3).type = .MODIFY then PResult.ok "MODIFY" (advance ts3)
    else PResult.error (errorText ts3 "Expected ADD, DROP, or MODIFY in ALTER TABLE")).andThen
    fun alterAction ts4 =>
  (parseIdentifier ts4).andThen fun columnName ts5 =>
  .ok { tableName := tableName, alterAction := alterAction, columnName := columnName }
    (skipToStatementEnd ts5)

/-- Source: `Parser::parseDropTableStatement`. -/
def parseDropTableStatement (ts : List Token) : PResult DropTableStatement :=
  (expect .DROP ts).andThen fun _ ts1 =>
  (expect .TABLE ts1).andThen fun _ ts2 =>
  (parseIdentifier ts2).andThen fun tableName ts3 => .ok { tableName := tableName } ts3

/-- Source: `Parser::parseCreateIndexStatement`. -/
def parseCreateIndexStatement (fuel : Nat) (ts : List Token) : PResult CreateIndexStatement :=
  (expect .CREATE ts).andThen fun _ ts1 =>
  (expect .INDEX ts1).andThen fun _ ts2 =>
  (parseIdentifier ts2).andThen fun indexName ts3 =>
  (expect .ON ts3).andThen fun _ ts4 =>
  (parseIdentifier ts4).andThen fun tableName ts5 =>
  (expect .LPAREN ts5).andThen fun _ ts6 =>
  (parseColumnList fuel ts6).andThen fun columns ts7 =>
  (expect .RPAREN ts7).andThen fun _ ts8 =>
  .ok { indexName := indexName, tableName := tableName, columns := columns } ts8

/-- Source: `Parser::parseStatement`. -/
def parseStatement (fuel : Nat) (ts : List Token) : PResult ASTNode :=
  match (current ts).type with
  | .SELECT => (parseSelectStatement fuel ts).andThen fun s r => .ok (.selectStmt s) r
  | .INSERT => (parseInsertStatement fuel ts).andThen fun s r => .ok (.insertStmt s) r
  | .UPDATE => (parseUpdateStatement fuel ts).andThen fun s r => .ok (.updateStmt s) r
  | .DELETE => (parseDeleteStatement ts).andThen fun s r => .ok (.deleteStmt s) r
  | .CREATE =>
    if (current (advance ts)).type = .TABLE then
      (parseCreateTableStatement fuel (advance ts)).andThen fun s r => .ok (.createTableStmt s) r
    else if (current (advance ts)).type = .INDEX then
      (parseCreateIndexStatement fuel (advance ts)).andThen fun s r => .ok (.createIndexStmt s) r
    else .error (errorText (advance ts) "Expected TABLE or INDEX after CREATE")
  | .ALTER => (parseAlterTableStatement ts).andThen fun s r => .ok (.alterTableStmt s) r
  | .DROP => (parseDropTableStatement ts).andThen fun s r => .ok (.dropTableStmt s) r
  | .BEGIN => (expect .BEGIN ts).andThen fun _ r => .ok .beginStmt r
  | .COMMIT => (expect .COMMIT ts).andThen fun _ r => .ok .commitStmt r
  | .ROLLBACK => (expect .ROLLBACK ts).andThen fun _ r => .ok .rollbackStmt r
  | _ => .error (errorText ts "Unknown statement")

/-- Source: `Parser(tokens).parse()`: every loop of the parser consumes a token per
iteration, so the number of tokens bounds each of them. -/
def parse (tokens : List Token) : PResult ASTNode := parseStatement (tokens.length + 1) tokens

end Parser

/-! ## query_result.h / query_executor.cpp -/

/-- Source: `class QueryResult`. -/
structure QueryResult where
  rows : List (List String) := []
  columns : List String := []
  affectedRows : Int := 0
  errorMessage : String := ""
  success : Bool := false
deriving DecidableEq, Repr

/-- The three renderings of `QDateTime::currentDateTime()` used by
`computeDefaultValue`: `yyyy-MM-dd HH:mm:ss`, `yyyy-MM-dd` and `HH:mm:ss`. -/
structure Clock where
  dateTime : String
  date : String
  time : String
deriving DecidableEq, Repr

namespace QueryExecutor

/-- Source: `evaluateCondition` (file-static helper of query_executor.cpp). -/
def evaluateCondition (whereClause : String) (schema : TableSchema) (row : List String) : Bool :=
  if whereClause.data.isEmpty then true
  else
    match qSplit whereClause "=" with
    | [lhs, rhs] =>
      let colName := qTrimmed lhs
      let targetVal0 := qTrimmed rhs
      let targetVal :=
        if qStartsWith targetVal0 "'" && qEndsWith targetVal0 "'" then
          qMid targetVal0 1 (targetVal0.length - 2)
        else targetVal0
      match schema.getColumnIndex colName with
      | none => false
      | some colIdx => if row.length ≤ colIdx then false else row.getD colIdx "" == targetVal
    | _ => true

/-- Source: `computeDefaultValue` (file-static helper of query_executor.cpp). -/
def computeDefaultValue (clock : Clock) (defaultValue : String) : String :=
  if defaultValue = "NOW()" ∨ defaultValue = "CURRENT_TIMESTAMP"
      ∨ defaultValue = "CURRENT_TIMESTAMP()" then clock.dateTime
  else if defaultValue = "CURRENT_DATE" ∨ defaultValue = "CURRENT_DATE()" then clock.date
  else if defaultValue = "CURRENT_TIME" ∨ defaultValue = "CURRENT_TIME()" then clock.time
  else defaultValue

/-- The column that `executeCreate` builds from one parsed column definition. -/
def columnOfDefinition (colDef : ColumnDefinition) : Column :=
  let col0 := Column.new colDef.name .VARCHAR
  let col1 := if colDef.primaryKey then col0.setPrimaryKey true else col0
  let col2 := if colDef.unique then col1.setUnique true else col1
  let col3 := if !colDef.nullable then col2.setNotNull true else col2
  if !colDef.defaultValue.data.isEmpty then col3.setDefaultValue colDef.defaultValue else col3

/-- The schema that `executeCreate` registers. -/
def schemaOfStatement (createStmt : CreateTableStatement) : TableSchema :=
  createStmt.columns.foldl (fun schema colDef => schema.addColumn (columnOfDefinition colDef))
    (TableSchema.new createStmt.tableName)

/-- Source: `QueryExecutor::executeCreate`. -/
def executeCreate (m : TableManager) (createStmt : CreateTableStatement) :
    QueryResult × TableManager :=
  ({ success := true, affectedRows := 1 }, m.addTable (schemaOfStatement createStmt))

/-- Position of the first column whose name is exactly `colName` (the inner
`for j` loop of `executeInsert`). -/
def exactColumn (colName : String) : List Column → Option Nat
  | [] => none
  | c :: cs => if c.name = colName then some 0 else (exactColumn colName cs).map (· + 1)

/-- The loop of `executeInsert` that writes the supplied values at the
positions of the named columns; it runs over the shorter of the two lists. -/
def placeValues (allColumns : List Column) : List String → List String → List String →
    List String
  | colName :: names, v :: vs, completeRow =>
    placeValues allColumns names vs
      (match exactColumn colName allColumns with
       | some j => completeRow.set j v
       | none => completeRow)
  | _, _, completeRow => completeRow

/-- The row that `executeInsert` hands to `insertRow` for one value tuple. -/
def completeRow (clock : Clock) (allColumns : List Column) (columns rowValues : List String) :
    List String :=
  if !columns.isEmpty then
    placeValues allColumns columns rowValues
      (allColumns.map (fun c => computeDefaultValue clock c.defaultValue))
  else rowValues

/-- The tuple loop of `executeInsert`; `totalInserted` counts the tuples stored so far. -/
def insertLoop (clock : Clock) (tableName : String) (allColumns : List Column)
    (columns : List String) : List (List String) → Int → TableManager →
    QueryResult × TableManager
  | [], totalInserted, m => ({ success := true, affectedRows := totalInserted }, m)
  | rowValues :: more, totalInserted, m =>
    let r := m.insertRow tableName (completeRow clock allColumns columns rowValues)
    if !r.1.success then ({ success := false, errorMessage := r.1.errorMessage }, r.2)
    else insertLoop clock tableName allColumns columns more (totalInserted + 1) r.2

/-- Source: `QueryExecutor::executeInsert`. -/
def executeInsert (clock : Clock) (m : TableManager) (insertStmt : InsertStatement) :
    QueryResult × TableManager :=
  match m.getTable insertStmt.tableName with
  | none => ({ errorMessage := "Table '" ++ insertStmt.tableName ++ "' does not exist" }, m)
  | some schema =>
    insertLoop clock insertStmt.tableName schema.columns insertStmt.columns insertStmt.values 0 m

/-- The loop of `executeUpdate` that overwrites the assigned columns of one row. -/
def assignValues (schema : TableSchema) : List String → List String → List String → List String
  | colName :: names, v :: vs, newValues =>
    assignValues schema names vs
      (match schema.getColumnIndex colName with
       | some colIdx => if colIdx < newValues.length then newValues.set colIdx v else newValues
       | none => newValues)
  | _, _, newValues => newValues

/-- The row loop of `executeUpdate` over the snapshot `rows`; `i` is the
position of the first row of the list. -/
def updateLoop (updateStmt : UpdateStatement) (schema : TableSchema) :
    List (List String) → Nat → Int → TableManager → QueryResult × TableManager
  | [], _, updatedCount, m => ({ success := true, affectedRows := updatedCount }, m)
  | row :: more, i, updatedCount, m =>
    if !evaluateCondition updateStmt.whereClause schema row then
      updateLoop updateStmt schema more (i + 1) updatedCount m
    else
      let r := m.updateRow updateStmt.tableName i
        (assignValues schema updateStmt.columns updateStmt.values row)
      if r.1.success then updateLoop updateStmt schema more (i + 1) (updatedCount + 1) r.2
      else ({ errorMessage := r.1.errorMessage }, r.2)

/-- Source: `QueryExecutor::executeUpdate`. -/
def executeUpdate (m : TableManager) (updateStmt : UpdateStatement) :
    QueryResult × TableManager :=
  match m.getTable updateStmt.tableName with
  | none => ({ errorMessage := "Table '" ++ updateStmt.tableName ++ "' does not exist" }, m)
  | some schema => updateLoop updateStmt schema (m.selectAll updateStmt.tableName) 0 0 m

/-- The row loop of `executeDelete`, from the last row of the snapshot down to
the first: `revRows` is the snapshot reversed from position `i - 1` down. -/
def deleteLoop (deleteStmt : DeleteStatement) (schema : TableSchema) :
    List (List String) → Int → TableManager → QueryResult × TableManager
  | [], deletedCount, m => ({ success := true, affectedRows := deletedCount }, m)
  | row :: below, deletedCount, m =>
    if !evaluateCondition deleteStmt.whereClause schema row then
      deleteLoop deleteStmt schema below deletedCount m
    else
      let r := m.deleteRow deleteStmt.tableName below.length
      if r.1.success then deleteLoop deleteStmt schema below (deletedCount + 1) r.2
      else ({ errorMessage := r.1.errorMessage }, r.2)

/-- Source: `QueryExecutor::executeDelete`. -/
def executeDelete (m : TableManager) (deleteStmt : DeleteStatement) :
    QueryResult × TableManager :=
  match m.getTable deleteStmt.tableName with
  | none => ({ errorMessage := "Table '" ++ deleteStmt.tableName ++ "' does not exist" }, m)
  | some schema => deleteLoop deleteStmt schema (m.selectAll deleteStmt.tableName).reverse 0 m

/-- The column list of `executeSelect`: for an empty list or the single entry
`*` the schema's column names are appended to the parsed list. -/
def selectedColumns (selectStmt : SelectStatement) (schema : TableSchema) : List String :=
  if selectStmt.columns.isEmpty ∨ selectStmt.columns = ["*"] then
    selectStmt.columns ++ schema.columns.map (fun col => col.name)
  else selectStmt.columns

/-- Source: `QueryExecutor::executeSelect`. -/
def executeSelect (m : TableManager) (selectStmt : SelectStatement) : QueryResult :=
  match m.getTable selectStmt.fromTable with
  | none => { errorMessage := "Table '" ++ selectStmt.fromTable ++ "' does not exist" }
  | some schema =>
    let cols := selectedColumns selectStmt schema
    let rows := (m.selectAllAsMap selectStmt.fromTable).map
      (fun rowMap => cols.map (fun colName => qmapValue rowMap colName ""))
    { rows := rows, columns := cols, success := true, affectedRows := rows.length }

/-- Source: `QueryExecutor::execute`. -/
def execute (clock : Clock) (m : TableManager) (statement : ASTNode) :
    QueryResult × TableManager :=
  match statement with
  | .createTableStmt s => executeCreate m s
  | .insertStmt s => executeInsert clock m s
  | .updateStmt s => executeUpdate m s
  | .deleteStmt s => executeDelete m s
  | .selectStmt s => (executeSelect m s, m)
  | _ => ({ success := false, errorMessage := "Unknown statement type" }, m)

end QueryExecutor

/-- The call sequence of `DatabaseServer` and `SQLEditorPage` for one SQL text:
`Lexer(sql).tokenize()`, `Parser(tokens).parse()`, `QueryExecutor::execute`.
`none` when parsing throws (nothing is executed then). -/
def runSql (clock : Clock) (m : TableManager) (sql : String) :
    Option (QueryResult × TableManager) :=
  match Lexer.tokenize sql with
  | none => none
  | some tokens =>
    match Parser.parse tokens with
    | .ok statement _ => some (QueryExecutor.execute clock m statement)
    | _ => none

/-- Run SQL texts one after the other, collecting the results; `none` as soon
as one of them fails to parse. -/
def runScript (clock : Clock) : TableManager → List String →
    Option (List QueryResult × TableManager)
  | m, [] => some ([], m)
  | m, sql :: more =>
    match runSql clock m sql with
    | none => none
    | some r =>
      match runScript clock r.2 more with
      | none => none
      | some rs => some (r.1 :: rs.1, rs.2)

/-! ## Sample data used by the closed statements below -/

/-- A fixed reading of the clock. -/
def sampleClock : Clock := ⟨"2024-01-01 00:00:00", "2024-01-01", "00:00:00"⟩

/-- The CREATE TABLE text of the end-to-end scenario. -/
def sqlCreateT : String := "CREATE TABLE t (id INT PRIMARY KEY, name VARCHAR)"

/-- The first INSERT of the end-to-end scenario. -/
def sqlInsert1a : String := "INSERT INTO t VALUES (1,'a')"

/-- The colliding INSERT of the end-to-end scenario. -/
def sqlInsert1b : String := "INSERT INTO t VALUES (1,'b')"

/-- The SELECT of the end-to-end scenario. -/
def sqlSelectStar : String := "SELECT * FROM t"

/-- A table `t` with one column and the three rows 1, 2, 3 (built with the
manager's own operations). -/
def threeRowTable : TableManager :=
  let m0 := ({} : TableManager).addTable ((TableSchema.new "t").addColumn (Column.new "n" .INT))
  let m1 := (m0.insertRow "t" ["1"]).2
  let m2 := (m1.insertRow "t" ["2"]).2
  (m2.insertRow "t" ["3"]).2

/-- The column that `columnFromJson` rebuilds from `columnToJson c`: the name,
type, nullable flag and description of `c`, every other member at its initial value. -/
def reloadedColumn (c : Column) : Column :=
  { name := c.name, type := c.type, nullable := c.nullable, description := c.description }

/-- Closed form of `fromJson (toJson s)` (see `fromJson_toJson`). -/
def reloadedSchema (s : TableSchema) : TableSchema :=
  ((if s.primaryKeyColumns.isEmpty then
      ({ tableName := s.tableName, columns := s.columns.map reloadedColumn } : TableSchema)
    else
      ({ tableName := s.tableName, columns := s.columns.map reloadedColumn } :
        TableSchema).addPrimaryKey s.primaryKeyColumns).setDescription
    s.metadata.description).setRowCount s.metadata.rowCount

/-- A schema whose single column carries attributes that `toJson` / `fromJson`
do not restore: `unique`, `autoIncrement`, NOT NULL, a default and a maximum length. -/
def lossySchema : TableSchema :=
  (TableSchema.new "codes").addColumn
    ((((((Column.new "code" .VARCHAR).setUnique true).setAutoIncrement true).setNotNull
      true).setDefaultValue "x").setMaxLength 3)

/-- A schema with a declared primary key on its first column. -/
def keyedSchema : TableSchema :=
  (((TableSchema.new "users").addColumn (Column.new "id" .INT)).addColumn
    ((Column.new "name" .VARCHAR).setMaxLength 100)).addPrimaryKey ["id"]

/-- A schema with two columns of the same name (`addColumn` accepts it). -/
def twinSchema : TableSchema :=
  ((TableSchema.new "d").addColumn (Column.new "x" .VARCHAR)).addColumn (Column.new "x" .VARCHAR)

/-- A schema with two columns of different names. -/
def pairSchema : TableSchema :=
  ((TableSchema.new "p").addColumn (Column.new "id" .INT)).addColumn (Column.new "name" .VARCHAR)

/-- The table of `pairSchema` with a unique constraint on `id`, holding the rows
(1, a) and (2, b). -/
def uniqueTable : TableManager :=
  let m0 := ({} : TableManager).addTable (pairSchema.addUnique "u_id" ["id"])
  let m1 := (m0.insertRow "p" ["1", "a"]).2
  (m1.insertRow "p" ["2", "b"]).2

/-- Two columns whose names differ only in case, `ID` and `id`, with a unique
constraint registered over `id`. -/
def caseTwinSchema : TableSchema :=
  (((TableSchema.new "t").addColumn (Column.new "ID" .VARCHAR)).addColumn
    (Column.new "id" .VARCHAR)).addUnique "u" ["id"]

/-- One column `id` with a unique constraint registered under the spelling `ID`. -/
def miscasedSchema : TableSchema :=
  ((TableSchema.new "t").addColumn (Column.new "id" .VARCHAR)).addUnique "u" ["ID"]

/-- A fresh table for `caseTwinSchema` after inserting the row (1, 2). -/
def caseTwinTable : TableManager :=
  ((({} : TableManager).addTable caseTwinSchema).insertRow "t" ["1", "2"]).2

/-- A fresh table for `miscasedSchema` after inserting the row (1). -/
def miscasedTable : TableManager :=
  ((({} : TableManager).addTable miscasedSchema).insertRow "t" ["1"]).2

/-- The states reached from a freshly added (empty) table for `schema`, added
to the manager state `m0`, by successful `insertRow` / `updateRow` /
`deleteRow` calls (on any table); none of these calls changes a schema or the
set of registered tables. -/
inductive Reachable (m0 : TableManager) (schema : TableSchema) : TableManager → Prop where
  | fresh : Reachable m0 schema (m0.addTable schema)
  | insert (m : TableManager) (t : String) (values : List String) :
      Reachable m0 schema m → (m.insertRow t values).1.success = true →
      Reachable m0 schema (m.insertRow t values).2
  | update (m : TableManager) (t : String) (rowId : Int) (values : List String) :
      Reachable m0 schema m → (m.updateRow t rowId values).1.success = true →
      Reachable m0 schema (m.updateRow t rowId values).2
  | delete (m : TableManager) (t : String) (rowId : Int) :
      Reachable m0 schema m → (m.deleteRow t rowId).1.success = true →
      Reachable m0 schema (m.deleteRow t rowId).2

/-- What holds of the rows of the table of `schema` in every reachable state:
the schema is registered; every stored row has the schema's arity and passes
`validateRow`; if the table is not empty the foreign-key check passes; and no
two rows at different positions carry the same values on a unique constraint. -/
def RowsInvariant (schema : TableSchema) (m : TableManager) : Prop :=
  m.getTable schema.tableName = some schema
  ∧ (∀ row ∈ m.selectAll schema.tableName,
      row.length = schema.columns.length ∧ schema.validateRowErr row = none)
  ∧ (m.selectAll schema.tableName ≠ [] →
      m.validateForeignKeyConstraints schema.tableName = none)
  ∧ (∀ (i j : Nat) (a b : List String), i ≠ j →
      (m.selectAll schema.tableName)[i]? = some a →
      (m.selectAll schema.tableName)[j]? = some b →
      ∀ e ∈ schema.uniqueConstraints,
        existingValues schema e.2 a ≠ existingValues schema e.2 b)

/-- The table of `miscasedSchema` after the successful inserts of (1) and of the empty value. -/
def miscasedTwoRows : TableManager := (miscasedTable.insertRow "t" [""]).2

/-- The table of `caseTwinSchema` after the successful inserts of (1, 2) and (2, 5). -/
def caseTwinTwoRows : TableManager := (caseTwinTable.insertRow "t" ["2", "5"]).2

/-! ## Sample data for the delete guard -/

/-- The manager states reached from the empty manager by calls of `addTable`,
`removeTable`, `insertRow`, `updateRow` and `deleteRow` (the vector and the map
overloads), with any arguments, whether the call succeeds or fails.  A schema is
a value here, so it is not modified after `addTable`. -/
inductive ReachableState : TableManager → Prop where
  | empty : ReachableState {}
  | addTable (m : TableManager) (schema : TableSchema) :
      ReachableState m → ReachableState (m.addTable schema)
  | removeTable (m : TableManager) (t : String) :
      ReachableState m → ReachableState (m.removeTable t)
  | insertRow (m : TableManager) (t : String) (values : List String) :
      ReachableState m → ReachableState (m.insertRow t values).2
  | insertRowMap (m : TableManager) (t : String) (columnValues : List (String × String)) :
      ReachableState m → ReachableState (m.insertRowMap t columnValues).2
  | updateRow (m : TableManager) (t : String) (rowId : Int) (values : List String) :
      ReachableState m → ReachableState (m.updateRow t rowId values).2
  | updateRowMap (m : TableManager) (t : String) (rowId : Int)
      (columnValues : List (String × String)) :
      ReachableState m → ReachableState (m.updateRowMap t rowId columnValues).2
  | deleteRow (m : TableManager) (t : String) (rowId : Int) :
      ReachableState m → ReachableState (m.deleteRow t rowId).2

/-- Every stored row of every registered table has as many entries as the
table's schema has columns. -/
def ArityInvariant (m : TableManager) : Prop :=
  ∀ (t : String) (schema : TableSchema), m.getTable t = some schema →
    ∀ row ∈ m.selectAll t, row.length = schema.columns.length

/-! ## Sample data for the WHERE evaluator -/

/-- A schema with the two integer columns `a` and `b`. -/
def abSchema : TableSchema :=
  ((TableSchema.new "t").addColumn (Column.new "a" .INT)).addColumn (Column.new "b" .INT)

/-! ## Sequences of `Column` setter calls -/

/-- One call of a public setter of `Column`, with its arguments. -/
inductive ColumnSetter where
  | setNullable (n : Bool)
  | setPrimaryKey (pk : Bool)
  | setUnique (u : Bool)
  | setNotNull (nn : Bool)
  | setDefaultValue (d : String)
  | setForeignKey (table column : String)
  | setCheckCondition (condition : String)
  | setMaxLength (len : Int)
  | setDecimalPrecision (p s : Int)
  | setAutoIncrement (ai : Bool)
  | setDescription (d : String)
deriving DecidableEq, Repr

/-- The column after one setter call. -/
def ColumnSetter.apply : ColumnSetter → Column → Column
  | .setNullable n, c => c.setNullable n
  | .setPrimaryKey pk, c => c.setPrimaryKey pk
  | .setUnique u, c => c.setUnique u
  | .setNotNull nn, c => c.setNotNull nn
  | .setDefaultValue d, c => c.setDefaultValue d
  | .setForeignKey table column, c => c.setForeignKey table column
  | .setCheckCondition condition, c => c.setCheckCondition condition
  | .setMaxLength len, c => c.setMaxLength len
  | .setDecimalPrecision p s, c => c.setDecimalPrecision p s
  | .setAutoIncrement ai, c => c.setAutoIncrement ai
  | .setDescription d, c => c.setDescription d

/-- The column after a sequence of setter calls, first call first. -/
def applySetters (c : Column) (calls : List ColumnSetter) : Column :=
  calls.foldl (fun col s => s.apply col) c

/-- Whether a sequence of setter calls, started on `c`, never calls
`setNullable(true)` on a column whose `primaryKey` member is true. -/
def noNullableOnKey : Column → List ColumnSetter → Bool
  | _, [] => true
  | c, s :: rest =>
    !(decide (s = .setNullable true) && c.primaryKey) && noNullableOnKey (s.apply c) rest

/-! ## Literals -/

/-- The text of an unsigned plain decimal literal: the digits `ip`, followed by
`.` and the digits `fp` when `fp` is not empty. -/
def plainDecimal (ip fp : List Char) : String :=
  String.mk (if fp.isEmpty then ip else ip ++ '.' :: fp)

/-! ## Sample data for the DECIMAL checks -/

/-- The column of test suite 5: `Column("price", DECIMAL)` with `setDecimalPrecision(10, 2)`. -/
def priceColumn : Column := (Column.new "price" .DECIMAL).setDecimalPrecision 10 2

/-- The text of the number ten to the power 400: the digit 1 followed by 400 zeros. -/
def tenPow400 : String := String.mk ('1' :: List.replicate 400 '0')

/-! ## Sample data for the CHECK conditions -/

/-- The column of test suite 6: `Column("age", INT)` with `setCheckCondition("age >= 0")`. -/
def ageColumn : Column := (Column.new "age" .INT).setCheckCondition "age >= 0"

/-- A schema with the single integer column `a` and the table-level check
`chk` with the condition `a = 1`. -/
def checkedSchema : TableSchema :=
  ((TableSchema.new "t").addColumn (Column.new "a" .INT)).addCheck "chk" "a = 1"

/-! ## Integer literals and comparison conditions -/

/-- The text of an integer literal: the digits `ds`, after a `-` when `neg` is set. -/
def integerLiteral (neg : Bool) (ds : List Char) : String :=
  String.mk (if neg then '-' :: ds else ds)

/-- The integer that `integerLiteral neg ds` denotes. -/
def integerValue (neg : Bool) (ds : List Char) : Int :=
  if neg then -(digitsValue ds : Int) else (digitsValue ds : Int)

/-- The four comparison operators of a CHECK condition `name OP n`. -/
inductive CompareOp where
  | gt | ge | lt | le
deriving DecidableEq, Repr

/-- The text of a comparison operator. -/
def CompareOp.text : CompareOp → List Char
  | .gt => ['>']
  | .ge => ['>', '=']
  | .lt => ['<']
  | .le => ['<', '=']

/-- Whether `v OP n` holds for integers. -/
def CompareOp.holds : CompareOp → Int → Int → Bool
  | .gt, v, n => decide (n < v)
  | .ge, v, n => decide (n ≤ v)
  | .lt, v, n => decide (v < n)
  | .le, v, n => decide (v ≤ n)

/-- The condition text `name OP n`, one blank on each side of the operator. -/
def comparisonText (name : List Char) (op : CompareOp) (n : String) : String :=
  String.mk (name ++ ' ' :: (op.text ++ ' ' :: n.data))

/-! ## Sample data for the NULL and length checks -/

/-- The column of test suite 1: `Column("age", INT)` with `setNotNull(true)`. -/
def notNullColumn : Column := (Column.new "age" .INT).setNotNull true

/-- The column of test suite 4: `Column("email", VARCHAR)` with `setMaxLength(50)`. -/
def emailColumn : Column := (Column.new "email" .VARCHAR).setMaxLength 50

/-- A JSON column with `setMaxLength(50)`. -/
def jsonColumn : Column := (Column.new "doc" .JSON).setMaxLength 50

/-- A text of 60 characters. -/
def sixtyChars : String := String.mk (List.replicate 60 'a')

/-! ## Sample SQL texts for INSERT and CREATE -/

/-- The text `CREATE TABLE t (id INT, name VARCHAR)`. -/
def sqlCreatePlain : String := "CREATE TABLE t (id INT, name VARCHAR)"

/-- An INSERT whose column list spells the column `id` as `ID`. -/
def sqlInsertUpperId : String := "INSERT INTO t (ID, name) VALUES (1, 'a')"

/-- The text `CREATE TABLE t (a INT)`. -/
def sqlCreateIntColumn : String := "CREATE TABLE t (a INT)"

/-- An INSERT of a text that is no number. -/
def sqlInsertText : String := "INSERT INTO t VALUES ('abc')"

/-! ## Outcomes of `parse` -/

/-- Whether a parse outcome is a `CreateIndexStatement`. -/
def isCreateIndex : PResult ASTNode → Bool
  | .ok (.createIndexStmt _) _ => true
  | _ => false

/-- Whether a parse outcome is a statement (no exception was thrown). -/
def isParsed : PResult ASTNode → Bool
  | .ok _ _ => true
  | _ => false

/-- The text `CREATE INDEX idx ON t (a)`. -/
def sqlCreateIndex : String := "CREATE INDEX idx ON t (a)"

/-- The text `DELETE FROM t junk`. -/
def sqlDeleteJunk : String := "DELETE FROM t junk"

/-- The text `CREATE TABLE t (a INT banana)`. -/
def sqlCreateBanana : String := "CREATE TABLE t (a INT banana)"

/-- The token kinds that start a statement in `parseStatement`. -/
def statementStarts : List TokenType :=
  [.SELECT, .INSERT, .UPDATE, .DELETE, .CREATE, .ALTER, .DROP, .BEGIN, .COMMIT, .ROLLBACK]

/-- The token kinds that the constraint loop of a CREATE TABLE column acts on:
the three that end the loop and the seven constraint keywords. -/
def constraintKinds : List TokenType :=
  [.COMMA, .RPAREN, .END_OF_FILE, .PRIMARY_KEY, .UNIQUE, .NOT, .CHECK, .DEFAULT, .FOREIGN_KEY,
    .CONSTRAINT]

/-! ## String literals -/

/-- The text `b` with a backslash put before every occurrence of the quote `q`. -/
def escapeQuote (q : Char) : List Char → List Char
  | [] => []
  | c :: b => if c = q then '\\' :: q :: escapeQuote q b else c :: escapeQuote q b

/-- The literal for `b`: the quote, the escaped text, the quote. -/
def stringLiteral (q : Char) (b : List Char) : String := String.mk (q :: (escapeQuote q b ++ [q]))

/-! ## Characters that start a token -/

/-- The characters that have a `case` in the `switch` of `nextToken`: they
start an operator or a punctuation token (`!` starts `!=`). -/
def isOperatorStart (c : Char) : Bool := "(),;.*%+-/=<>!".data.contains c

/-- Whether `c` (as `current()` returns it) starts an identifier, a number, a
string, an operator or a punctuation token. -/
def startsToken (c : Char) : Bool :=
  Lexer.isIdentifierStart c || Lexer.isDigit c || c.toNat == 39 || c.toNat == 34
    || isOperatorStart c

/-- A character the lexer does not recognise: it is no white space, and
`current()` at it starts no identifier, number, string, operator or punctuation. -/
def isUnrecognised (ch : Char) : Bool := !qIsSpace ch && !startsToken (toLatin1 ch)

/-- Whether no string literal and no comment starts anywhere in the text: it
has no quote character and no two adjacent dashes. -/
def noLiteralOrComment : List Char → Bool
  | [] => true
  | c :: cs =>
    !(c.toNat == 39 || c.toNat == 34) && !(c.toNat == 45 && cs.head?.map Char.toNat == some 45)
      && noLiteralOrComment cs

/-- The texts of the UNKNOWN tokens of a sequence, the lone `!` apart (the `!`
that no `=` follows is returned as UNKNOWN by its own `case`). -/
def unknownTexts (toks : List Token) : List String :=
  (toks.filter (fun t => t.type == .UNKNOWN && t.value != "!")).map (fun t => t.value)

/-- The unrecognised characters of a text, each as the one-character text
`QString(ch)` of `current()` at it. -/
def unrecognisedTexts (l : List Char) : List String :=
  (l.filter isUnrecognised).map (fun ch => String.mk [toLatin1 ch])

/-- The lexer state over the upper-cased input: same position, every ASCII
letter of the remaining input upper-cased. -/
def upperLexer (lx : Lexer) : Lexer := ⟨lx.rest.map upperChar, lx.line, lx.column⟩

/-- An identifier-shaped word: a letter or underscore followed by letters,
digits and underscores (`isIdentifierStart`, then `isIdentifierPart`). -/
def isIdentifierWord : List Char → Bool
  | [] => false
  | c :: cs => Lexer.isIdentifierStart c && cs.all Lexer.isIdentifierPart

/-! ## value.cpp -/

/-- Source: `QVariant`, for the payloads `value.cpp` gives a value of a numeric
type: none (`QVariant()`), an `int` (`convertFromString`, `operator%`) or a
`double` (`convertFromString`, the other arithmetic operators). -/
inductive QVariant where
  | invalid
  | int (n : Int)
  | double (d : QDouble)
deriving DecidableEq, Repr

/-- Source: `qAbs` on a `double`. -/
def QDouble.abs : QDouble → QDouble
  | .fin m e => .fin (m.natAbs : Int) e
  | .inf _ => .inf false
  | .nan => .nan

/-- IEEE division, rounded to the nearest double; the sign of a zero is not kept. -/
def QDouble.div : QDouble → QDouble → QDouble
  | .nan, _ => .nan
  | _, .nan => .nan
  | .inf _, .inf _ => .nan
  | .inf n, .fin m _ => .inf (n != decide (m < 0))
  | .fin _ _, .inf _ => .fin 0 0
  | .fin m1 e1, .fin m2 e2 =>
    if m2 = 0 then (if m1 = 0 then .nan else .inf (decide (m1 < 0)))
    else if m1 = 0 then .fin 0 0
    else
      let e := e1 - e2
      let num := m1.natAbs * (if 0 ≤ e then 2 ^ e.toNat else 1)
      let den := m2.natAbs * (if 0 ≤ e then 1 else 2 ^ (-e).toNat)
      let r := nearestDouble num den
      let neg := decide (m1 < 0) != decide (m2 < 0)
      if 2 ^ 2098 ≤ r.1 * 2 ^ (r.2 + 1074).toNat then .inf neg
      else .fin (if neg then -(r.1 : Int) else (r.1 : Int)) r.2

/-- The literal `1e-9` of `operator/` and `operator==`: the double nearest to it. -/
def epsilon : QDouble := .fin (nearestDouble 1 (10 ^ 9)).1 (nearestDouble 1 (10 ^ 9)).2

/-- Conversion of a 64-bit integer to `int`: the low 32 bits, two's complement. -/
def wrapInt32 (v : Int) : Int := (v + 2 ^ 31) % 2 ^ 32 - 2 ^ 31

/-- Source: `qRound64`, `d >= 0.0 ? qint64(d + 0.5) : qint64(d - 0.5)`: the sum is
rounded to a double and cut towards zero; `none` when it does not fit 64 bits
(the cast is undefined then), and for an infinity and NaN. -/
def qRound64 : QDouble → Option Int
  | .fin m e =>
    let a := m.natAbs
    let num := if 0 ≤ e then a * 2 ^ (e.toNat + 1) + 1 else 2 * a + 2 ^ (-e).toNat
    let den := if 0 ≤ e then 2 else 2 ^ ((-e).toNat + 1)
    let r := nearestDouble num den
    let t : Int := if 0 ≤ r.2 then (r.1 : Int) * 2 ^ r.2.toNat else (r.1 : Int) / 2 ^ (-r.2).toNat
    if m < 0 then (if t ≤ 2 ^ 63 then some (-t) else none)
    else if t < 2 ^ 63 then some t else none
  | _ => none

namespace QVariant

/-- Source: `QVariant::isNull`: the variant holds nothing. -/
def isNull : QVariant → Bool
  | .invalid => true
  | _ => false

/-- Source: `QVariant::toInt`: a `double` goes through `qRound64`. -/
def toInt : QVariant → Option Int
  | .invalid => some 0
  | .int n => some n
  | .double d => (qRound64 d).map wrapInt32

/-- Source: `QVariant::toDouble`. -/
def toDouble : QVariant → QDouble
  | .invalid => .fin 0 0
  | .int n => .fin n 0
  | .double d => d

end QVariant

/-- Source: `DataTypeManager::getCommonType`. -/
def DataTypeManager.getCommonType (type1 type2 : DataType) : DataType :=
  if type1 = type2 then type1
  else if DataTypeManager.isStringType type1 then type1
  else if DataTypeManager.isStringType type2 then type2
  else if DataTypeManager.isNumericType type1 && DataTypeManager.isNumericType type2 then
    if type1 = .DOUBLE ∨ type2 = .DOUBLE then .DOUBLE
    else if type1 = .FLOAT ∨ type2 = .FLOAT then .FLOAT
    else if type1 = .BIGINT ∨ type2 = .BIGINT then .BIGINT
    else .INT
  else .VARCHAR

/-- Source: `class Value`: the type tag and the payload. -/
structure Value where
  type : DataType
  data : QVariant
deriving DecidableEq, Repr

namespace Value

/-- Source: `Value::Value()`: type TEXT, no payload. -/
def new : Value := ⟨.TEXT, .invalid⟩

/-- Source: `Value::isNull`. -/
def isNull (v : Value) : Bool := v.data.isNull

/-- Source: `Value::toInt`: `none` when the conversion of the payload is undefined. -/
def toInt (v : Value) : Option Int := if v.isNull then some 0 else v.data.toInt

/-- Source: `Value::toDouble`. -/
def toDouble (v : Value) : QDouble := if v.isNull then .fin 0 0 else v.data.toDouble

/-- Source: `Value::operator/`. -/
def div (a other : Value) : Value :=
  if !DataTypeManager.isNumericType a.type || !DataTypeManager.isNumericType other.type then
    Value.new
  else if (QDouble.abs other.toDouble).lt epsilon then Value.new
  else
    ⟨DataTypeManager.getCommonType a.type other.type, .double (a.toDouble.div other.toDouble)⟩

/-- Source: `Value::operator%`.  `none` stands for undefined behaviour: the
remainder of two `int` is undefined when the quotient does not fit an `int`,
which is the case of `INT_MIN % -1`. -/
def mod (a other : Value) : Option Value :=
  if !DataTypeManager.isIntegerType a.type || !DataTypeManager.isIntegerType other.type then
    some Value.new
  else
    match other.toInt with
    | none => none
    | some y =>
      if y = 0 then some Value.new
      else
        match a.toInt with
        | none => none
        | some x =>
          if x = -2147483648 ∧ y = -1 then none else some ⟨a.type, .int (Int.tmod x y)⟩

end Value

/-! ## data_type.cpp: conversions -/

/-- Source: `DataTypeManager::canImplicitConvert`. -/
def DataTypeManager.canImplicitConvert (fromType toType : DataType) : Bool :=
  if fromType = toType then true
  else if DataTypeManager.isIntegerType fromType && DataTypeManager.isIntegerType toType then true
  else if DataTypeManager.isIntegerType fromType && DataTypeManager.isFloatingPointType toType
    then true
  else if DataTypeManager.isIntegerType fromType && (toType == .DECIMAL || toType == .NUMERIC)
    then true
  else if DataTypeManager.isFloatingPointType fromType
      && DataTypeManager.isFloatingPointType toType then true
  else if DataTypeManager.isFloatingPointType fromType
      && (toType == .DECIMAL || toType == .NUMERIC) then true
  else if DataTypeManager.isNumericType fromType && DataTypeManager.isStringType toType then true
  else if DataTypeManager.isTemporalType fromType && DataTypeManager.isStringType toType then true
  else if fromType == .BOOL && DataTypeManager.isStringType toType then true
  else if DataTypeManager.isStringType fromType && DataTypeManager.isNumericType toType then true
  else if DataTypeManager.isStringType fromType && DataTypeManager.isTemporalType toType then true
  else false

/-- Source: `DataTypeManager::canExplicitConvert`. -/
def DataTypeManager.canExplicitConvert (fromType toType : DataType) : Bool :=
  DataTypeManager.canImplicitConvert fromType toType
    || (DataTypeManager.isNumericType fromType && DataTypeManager.isTemporalType toType)
    || (DataTypeManager.isTemporalType fromType && DataTypeManager.isNumericType toType)

/-- The pairs the specification lists as implicitly convertible: integer to
integer, integer to floating-point, integer or floating-point to DECIMAL or
NUMERIC, numeric to string, temporal to string, string to numeric, string to
temporal. -/
def listedImplicitPair (fromType toType : DataType) : Bool :=
  (DataTypeManager.isIntegerType fromType && DataTypeManager.isIntegerType toType)
  || (DataTypeManager.isIntegerType fromType && DataTypeManager.isFloatingPointType toType)
  || ((DataTypeManager.isIntegerType fromType || DataTypeManager.isFloatingPointType fromType)
      && (toType == .DECIMAL || toType == .NUMERIC))
  || (DataTypeManager.isNumericType fromType && DataTypeManager.isStringType toType)
  || (DataTypeManager.isTemporalType fromType && DataTypeManager.isStringType toType)
  || (DataTypeManager.isStringType fromType && DataTypeManager.isNumericType toType)
  || (DataTypeManager.isStringType fromType && DataTypeManager.isTemporalType toType)

/-- The names `stringToType` compares the upper-cased text with: the 23 type
names and the two aliases `INTEGER` and `BOOLEAN`. -/
def recognisedTypeNames : List String :=
  ["TINYINT", "SMALLINT", "INT", "INTEGER", "BIGINT", "DECIMAL", "NUMERIC", "FLOAT", "DOUBLE",
   "CHAR", "VARCHAR", "TEXT", "NCHAR", "NVARCHAR", "TINYTEXT", "MEDIUMTEXT", "LONGTEXT", "ENUM",
   "BOOL", "BOOLEAN", "JSON", "DATE", "TIME", "DATETIME", "TIMESTAMP"]

/-- A DECIMAL(10,0) column: `Column("qty", DECIMAL)` with `setDecimalPrecision(10, 0)`. -/
def wholeColumn : Column := (Column.new "qty" .DECIMAL).setDecimalPrecision 10 0

/-- A SELECT on the three-row table with a WHERE, an ORDER BY and a LIMIT clause. -/
def sqlSelectClauses : String := "SELECT n FROM t WHERE n = 1 ORDER BY n DESC LIMIT 1"

/-- The same SELECT without the three clauses. -/
def sqlSelectPlain : String := "SELECT n FROM t"

/-! ## storage_engine.cpp: file names -/

namespace StorageEngine

end StorageEngine

/-- The text of a string literal without escapes: the quote `q`, the body `b`, the quote. -/
def plainLiteral (q : Char) (b : List Char) : String := String.mk (q :: (b ++ [q]))

/-- The literal `'X'` whose body is the one character U+4E2D, outside Latin-1. -/
def sqlWideLiteral : String := plainLiteral '\'' [Char.ofNat 20013]

/-- The text `INSERT INTO t VALUES (-5)`. -/
def sqlInsertNegative : String := "INSERT INTO t VALUES (-5)"

/-- An INSERT with a column list whose second value is negative. -/
def sqlInsertNegativeSecond : String := "INSERT INTO t (a, b) VALUES (1, -5)"

/-- An UPDATE whose second SET value is negative. -/
def sqlUpdateNegative : String := "UPDATE t SET a = 1, b = -5 WHERE a = 2"

/-- Whether `insertRow` succeeds for each of `rows` in turn, each call made on
the state the call before it left. -/
def insertsSucceed (tableName : String) : List (List String) → TableManager → Bool
  | [], _ => true
  | row :: more, m =>
    (m.insertRow tableName row).1.success && insertsSucceed tableName more (m.insertRow tableName row).2

/-- The manager state after `insertRow` was called for each of `rows` in turn. -/
def afterInserts (tableName : String) : List (List String) → TableManager → TableManager
  | [], m => m
  | row :: more, m => afterInserts tableName more (m.insertRow tableName row).2

/-- An INSERT of three tuples into the three-row table; the second is no integer. -/
def sqlInsertThreeTuples : String := "INSERT INTO t VALUES (4), ('x'), (5)"

theorem utf16Units_of_bmp (l : List Char) (h : ∀ c ∈ l, c.toNat ≤ 65535) : utf16Units l = l := by
  induction l with
  | nil => rfl
  | cons c cs ih =>
    have hc : ¬ (65535 < c.toNat) := by
      have := h c (List.mem_cons_self _ _)
      omega
    rw [utf16Units, if_neg hc, ih (fun x hx => h x (List.mem_cons_of_mem _ hx))]

theorem qLength_of_bmp (l : List Char) (h : ∀ c ∈ l, c.toNat ≤ 65535) :
    qLength (String.mk l) = l.length := by
  unfold qLength
  rw [utf16Units_of_bmp l h]

theorem qLength_digits (l : List Char) (h : ∀ ch ∈ l, isDigitChar ch = true) :
    qLength (String.mk l) = l.length := by
  apply qLength_of_bmp
  intro c hc
  have hd := h c hc
  simp only [isDigitChar, Bool.and_eq_true, decide_eq_true_eq] at hd
  omega

theorem utf16Units_append (a b : List Char) :
    utf16Units (a ++ b) = utf16Units a ++ utf16Units b := by
  induction a with
  | nil => rfl
  | cons c cs ih =>
    rw [List.cons_append, utf16Units, utf16Units, ih]
    split <;> simp

theorem mem_of_mem_utf16Units (l : List Char) (x : Char) (h : x ∈ utf16Units l) : x ∈ l := by
  induction l with
  | nil => exact h
  | cons c cs ih =>
    rw [utf16Units] at h
    split at h
    · rcases List.mem_cons.mp h with rfl | h2
      · exact List.mem_cons_self _ _
      · rcases List.mem_cons.mp h2 with rfl | h3
        · exact List.mem_cons_self _ _
        · exact List.mem_cons_of_mem _ (ih h3)
    · rcases List.mem_cons.mp h with rfl | h2
      · exact List.mem_cons_self _ _
      · exact List.mem_cons_of_mem _ (ih h2)

theorem length_le_utf16Units (l : List Char) : l.length ≤ (utf16Units l).length := by
  induction l with
  | nil => exact Nat.le_refl _
  | cons c cs ih =>
    rw [utf16Units]
    split <;> simp only [List.length_cons] <;> omega

/-! ## QMap lemmas -/

theorem qmapFind_insert_self {V : Type} (k : String) (v : V) (m : List (String × V)) :
    qmapFind k (qmapInsert k v m) = some v := by
  induction m with
  | nil => simp [qmapInsert, qmapFind]
  | cons e m ih =>
    obtain ⟨k1, v1⟩ := e
    unfold qmapInsert
    by_cases h1 : k1 = k
    · simp [h1, qmapFind]
    · by_cases h2 : qLess k k1 = true
      · simp [h1, h2, qmapFind]
      · simp [h1, h2, qmapFind, ih]

theorem qmapFind_insert_ne {V : Type} (k k2 : String) (v : V) (m : List (String × V))
    (h : k ≠ k2) : qmapFind k2 (qmapInsert k v m) = qmapFind k2 m := by
  induction m with
  | nil => simp [qmapInsert, qmapFind, h]
  | cons e m ih =>
    obtain ⟨k1, v1⟩ := e
    unfold qmapInsert
    by_cases h1 : k1 = k
    · subst h1
      simp [qmapFind, h]
    · by_cases h2 : qLess k k1 = true
      · simp [h1, h2, qmapFind, h]
      · rw [if_neg h1, if_neg h2]
        by_cases h3 : k1 = k2
        · simp [qmapFind, h3]
        · simp [qmapFind, h3, ih]

theorem qmapValue_insert_self {V : Type} (k : String) (v d : V) (m : List (String × V)) :
    qmapValue (qmapInsert k v m) k d = v := by
  simp [qmapValue, qmapFind_insert_self]

theorem qmapValue_insert_ne {V : Type} (k k2 : String) (v d : V) (m : List (String × V))
    (h : k ≠ k2) : qmapValue (qmapInsert k v m) k2 d = qmapValue m k2 d := by
  simp [qmapValue, qmapFind_insert_ne k k2 v m h]

/-! ## C1, C2: the end-to-end scenario -/

/-- C1, the code on the scenario of the claim: after `CREATE TABLE t (id INT
PRIMARY KEY, name VARCHAR)` and `INSERT INTO t VALUES (1,'a')`, the statement
`SELECT * FROM t` succeeds with columns `*`, `id`, `name` (the `*` entry of the
parsed list is kept in front of the schema's names) and the single row
`""`, `"1"`, `"a"`; the claim expects columns `id`, `name` and row `"1"`, `"a"`. -/
theorem c1_select_star_keeps_placeholder :
    (runScript sampleClock {} [sqlCreateT, sqlInsert1a, sqlSelectStar]).map
        (fun r => r.1.map (fun q => (q.success, q.columns, q.rows)))
      = some [(true, [], []), (true, [], []),
              (true, ["*", "id", "name"], [["", "1", "a"]])] := by
  decide!

/-- C2, the code on the scenario of the claim: the table created by `CREATE
TABLE t (id INT PRIMARY KEY, name VARCHAR)` and holding `(1,'a')` accepts
`INSERT INTO t VALUES (1,'b')`; the statement succeeds, no message is set and
the table then holds both rows.  The schema built by the CREATE handler has no
registered unique constraint and no primary-key list, although the column is
flagged as primary key. -/
theorem c2_duplicate_primary_key_accepted :
    (runScript sampleClock {} [sqlCreateT, sqlInsert1a, sqlInsert1b]).map
        (fun r => r.1.map (fun q => (q.success, q.errorMessage, q.affectedRows)))
      = some [(true, "", 1), (true, "", 1), (true, "", 1)]
    ∧ (runScript sampleClock {} [sqlCreateT, sqlInsert1a, sqlInsert1b]).map
        (fun r => r.2.selectAll "t") = some [["1", "a"], ["1", "b"]]
    ∧ (runScript sampleClock {} [sqlCreateT, sqlInsert1a, sqlInsert1b]).map
        (fun r => (r.2.getTable "t").map (fun s =>
          (s.uniqueConstraints, s.primaryKeyColumns, s.columns.map (fun c => c.primaryKey))))
      = some (some ([], [], [true, false])) := by
  decide!

/-! ## TableManager: reading the state after a write -/

theorem selectAll_setRows_same (m : TableManager) (t t2 : String) (rows : List (List String))
    (h : qToLower t2 = qToLower t) : (m.setRows t rows).selectAll t2 = rows := by
  simp [TableManager.selectAll, TableManager.setRows, h, qmapValue_insert_self]

theorem selectAll_setRows_ne (m : TableManager) (t t2 : String) (rows : List (List String))
    (h : qToLower t ≠ qToLower t2) : (m.setRows t rows).selectAll t2 = m.selectAll t2 := by
  simp [TableManager.selectAll, TableManager.setRows, qmapValue_insert_ne _ _ _ _ _ h]

theorem selectAll_ensureData (m : TableManager) (t t2 : String) :
    (m.ensureData t).selectAll t2 = m.selectAll t2 := by
  unfold TableManager.ensureData
  by_cases hc : qmapContains m.tableData (qToLower t) = true
  · simp [hc]
  · simp only [hc]
    by_cases hk : qToLower t = qToLower t2
    · have hnone : qmapFind (qToLower t2) m.tableData = none := by
        rw [← hk]
        simpa [qmapContains] using hc
      simp [TableManager.selectAll, qmapValue, hk, qmapFind_insert_self, hnone]
    · simp [TableManager.selectAll, qmapValue, qmapFind_insert_ne _ _ _ _ hk]

theorem tables_ensureData (m : TableManager) (t : String) : (m.ensureData t).tables = m.tables := by
  unfold TableManager.ensureData
  split <;> rfl

theorem getTable_ensureData (m : TableManager) (t t2 : String) :
    (m.ensureData t).getTable t2 = m.getTable t2 := by
  simp [TableManager.getTable, tables_ensureData]

/-! ## C9: deleteRow shifts the later rows down -/

/-- C9: when `deleteRow(t, i)` succeeds for a row id `i` inside a table of `n`
rows, the table afterwards has `n - 1` rows, the rows at positions `j < i` are
unchanged, and the row at each position `j >= i` is the row that was at
position `j + 1`. -/
theorem c9_deleteRow_shifts_rows (m : TableManager) (t : String) (i : Nat)
    (hi : i < (m.selectAll t).length)
    (hs : (m.deleteRow t (i : Int)).1.success = true) :
    ((m.deleteRow t (i : Int)).2.selectAll t).length = (m.selectAll t).length - 1
    ∧ (∀ j, j < i → ((m.deleteRow t (i : Int)).2.selectAll t)[j]? = (m.selectAll t)[j]?)
    ∧ (∀ j, i ≤ j → ((m.deleteRow t (i : Int)).2.selectAll t)[j]? = (m.selectAll t)[j + 1]?) := by
  have key : (m.deleteRow t (i : Int)).2.selectAll t = (m.selectAll t).eraseIdx i := by
    unfold TableManager.deleteRow at hs ⊢
    cases hg : m.getTable t with
    | none => simp [hg, TableManager.failed] at hs
    | some schema =>
      simp only [hg] at hs ⊢
      split at hs
      · simp [TableManager.failed] at hs
      · split at hs
        · simp [TableManager.failed] at hs
        · rename_i hb _ hnone
          simp only [hnone, if_neg hb]
          rw [selectAll_setRows_same _ _ _ _ rfl, selectAll_ensureData]
          simp
  rw [key]
  refine ⟨?_, ?_, ?_⟩
  · simp [List.length_eraseIdx, hi]
  · intro j hj
    simp [List.getElem?_eraseIdx, hj]
  · intro j hj
    have : ¬ j < i := by omega
    simp [List.getElem?_eraseIdx, this]

/-- C9 on a concrete table: deleting the first of the three rows 1, 2, 3
succeeds and leaves the former second and third rows at positions 0 and 1. -/
theorem c9_deleteRow_witness :
    0 < (threeRowTable.selectAll "t").length
    ∧ (threeRowTable.deleteRow "t" 0).1.success = true
    ∧ ((threeRowTable.deleteRow "t" 0).2.selectAll "t").length = 2
    ∧ ((threeRowTable.deleteRow "t" 0).2.selectAll "t")[0]? = some ["2"]
    ∧ ((threeRowTable.deleteRow "t" 0).2.selectAll "t")[1]? = some ["3"] := by
  have h := c9_deleteRow_shifts_rows threeRowTable "t" 0 (by decide!) (by decide!)
  have hrows : threeRowTable.selectAll "t" = [["1"], ["2"], ["3"]] := by decide!
  refine ⟨by decide!, by decide!, ?_, ?_, ?_⟩
  · have := h.1
    rw [hrows] at this
    simpa using this
  · have := h.2.2 0 (Nat.le_refl 0)
    rw [hrows] at this
    simpa using this
  · have := h.2.2 1 (Nat.zero_le 1)
    rw [hrows] at this
    simpa using this

/-! ## C10: insertRow -/

/-- C10: `insertRow(table, values)` either succeeds, returning `rowsAffected = 1`
and `rowId` equal to the number of rows held before the call (the new row
count minus 1) and leaving the table's rows as the previous rows followed by
`values`; or it fails, returning `success = false`, `rowsAffected = 0`,
`rowId = -1` and leaving the whole state, hence the rows of every table, unchanged. -/
theorem c10_insertRow_result (m : TableManager) (t : String) (values : List String) :
    ((m.insertRow t values).1.success = true
      ∧ (m.insertRow t values).1.rowsAffected = 1
      ∧ (m.insertRow t values).1.rowId = ((m.selectAll t).length : Int)
      ∧ (m.insertRow t values).1.rowId = (((m.insertRow t values).2.selectAll t).length : Int) - 1
      ∧ (m.insertRow t values).2.selectAll t = m.selectAll t ++ [values])
    ∨ ((m.insertRow t values).1.success = false
      ∧ (m.insertRow t values).1.rowsAffected = 0
      ∧ (m.insertRow t values).1.rowId = -1
      ∧ (m.insertRow t values).2 = m
      ∧ ∀ t2, (m.insertRow t values).2.selectAll t2 = m.selectAll t2) := by
  unfold TableManager.insertRow
  cases hg : m.getTable t with
  | none => right; simp [TableManager.failed]
  | some schema =>
    simp only
    split
    · right; simp [TableManager.failed]
    · split
      · right; simp [TableManager.failed]
      · split
        · right; simp [TableManager.failed]
        · split
          · right; simp [TableManager.failed]
          · left
            simp [selectAll_setRows_same]

/-! ## Schema persistence: `fromJson (toJson s)` -/

theorem stringToType_typeToString (t : DataType) :
    DataTypeManager.stringToType (DataTypeManager.typeToString t) = t := by
  cases t <;> decide

theorem columnFromJson_columnToJson (c : Column) :
    TableSchema.columnFromJson (TableSchema.columnToJson c) = reloadedColumn c := by
  simp [TableSchema.columnFromJson, TableSchema.columnToJson, Json.member, Json.toObject,
    Json.toStr, Json.toBool, qmapValue_insert_self, qmapValue_insert_ne,
    stringToType_typeToString, Column.new, Column.setNullable, Column.setDescription,
    reloadedColumn]

theorem foldl_addColumn_eq {α : Type} (f : α → Column) (xs : List α) (s0 : TableSchema) :
    xs.foldl (fun sch x => sch.addColumn (f x)) s0
      = { s0 with columns := s0.columns ++ xs.map f } := by
  induction xs generalizing s0 with
  | nil => simp
  | cons x xs ih =>
    simp only [List.foldl_cons, List.map_cons]
    rw [ih]
    simp [TableSchema.addColumn]

theorem markColumn_rest (f : Column → Column) (s : TableSchema) (n : String) :
    (TableSchema.markColumn f s n).tableName = s.tableName
    ∧ (TableSchema.markColumn f s n).metadata = s.metadata
    ∧ (TableSchema.markColumn f s n).primaryKeyColumns = s.primaryKeyColumns
    ∧ (TableSchema.markColumn f s n).uniqueConstraints = s.uniqueConstraints
    ∧ (TableSchema.markColumn f s n).foreignKeys = s.foreignKeys
    ∧ (TableSchema.markColumn f s n).checkConstraints = s.checkConstraints := by
  unfold TableSchema.markColumn
  split <;> simp

theorem foldl_markColumn_rest (f : Column → Column) (names : List String) (s : TableSchema) :
    (names.foldl (TableSchema.markColumn f) s).tableName = s.tableName
    ∧ (names.foldl (TableSchema.markColumn f) s).metadata = s.metadata
    ∧ (names.foldl (TableSchema.markColumn f) s).primaryKeyColumns = s.primaryKeyColumns
    ∧ (names.foldl (TableSchema.markColumn f) s).uniqueConstraints = s.uniqueConstraints
    ∧ (names.foldl (TableSchema.markColumn f) s).foreignKeys = s.foreignKeys
    ∧ (names.foldl (TableSchema.markColumn f) s).checkConstraints = s.checkConstraints := by
  induction names generalizing s with
  | nil => simp
  | cons n names ih =>
    simp only [List.foldl_cons]
    have h1 := ih (TableSchema.markColumn f s n)
    have h2 := markColumn_rest f s n
    exact ⟨h1.1.trans h2.1, h1.2.1.trans h2.2.1, h1.2.2.1.trans h2.2.2.1,
      h1.2.2.2.1.trans h2.2.2.2.1, h1.2.2.2.2.1.trans h2.2.2.2.2.1,
      h1.2.2.2.2.2.trans h2.2.2.2.2.2⟩

theorem modifyAt_map {α β : Type} (f : α → α) (g : α → β) (hg : ∀ a, g (f a) = g a)
    (i : Nat) (l : List α) : (modifyAt f i l).map g = l.map g := by
  induction l generalizing i with
  | nil => cases i <;> simp [modifyAt]
  | cons x xs ih =>
    cases i with
    | zero => simp [modifyAt, hg]
    | succ i => simp [modifyAt, ih]

theorem foldl_markColumn_map {β : Type} (f : Column → Column) (g : Column → β)
    (hg : ∀ a, g (f a) = g a) (names : List String) (s : TableSchema) :
    (names.foldl (TableSchema.markColumn f) s).columns.map g = s.columns.map g := by
  induction names generalizing s with
  | nil => simp
  | cons n names ih =>
    simp only [List.foldl_cons]
    rw [ih]
    unfold TableSchema.markColumn
    split
    · simp [modifyAt_map f g hg]
    · rfl

theorem constraintsToJson_primaryKey (s : TableSchema) :
    (Json.member (TableSchema.constraintsToJson s) "primaryKey").toArray.map Json.toStr
      = s.primaryKeyColumns := by
  unfold TableSchema.constraintsToJson
  simp only [Json.member]
  by_cases hp : s.primaryKeyColumns.isEmpty = true
  · have hnil : s.primaryKeyColumns = [] := by simpa using hp
    simp only [hp, Bool.not_true]
    split <;> split <;> split <;>
      simp [qmapValue_insert_ne, qmapValue, qmapFind, Json.toArray, hnil]
  · simp only [hp]
    split <;> split <;> split <;>
      simp [qmapValue_insert_ne, qmapValue_insert_self, Json.toArray, Function.comp_def,
        Json.toStr]

theorem tableObj_members (s : TableSchema) :
    Json.member (TableSchema.tableObj s) "name" = .str s.tableName
    ∧ Json.member (TableSchema.tableObj s) "columns" = .arr (s.columns.map TableSchema.columnToJson)
    ∧ Json.member (TableSchema.tableObj s) "constraints" = .obj (TableSchema.constraintsToJson s)
    ∧ Json.member (TableSchema.tableObj s) "description" = .str s.metadata.description
    ∧ Json.member (TableSchema.tableObj s) "rowCount" = .num s.metadata.rowCount := by
  simp [TableSchema.tableObj, Json.member, qmapValue_insert_self, qmapValue_insert_ne]

/-- The schema that `fromJson` rebuilds from `toJson s`. -/
theorem fromJson_toJson (s : TableSchema) :
    TableSchema.fromJson (TableSchema.toJson s) = some (reloadedSchema s) := by
  obtain ⟨h1, h2, h3, h4, h5⟩ := tableObj_members s
  have hpk := constraintsToJson_primaryKey s
  have hstr : ∀ x : String, (Json.str x).toStr = x := fun _ => rfl
  have harr : ∀ xs : List Json, (Json.arr xs).toArray = xs := fun _ => rfl
  have hobj : ∀ kvs : List (String × Json), (Json.obj kvs).toObject = kvs := fun _ => rfl
  have hnum : ∀ (n d : Int), (Json.num n).toInt d = n := fun _ _ => rfl
  show TableSchema.fromJson (.obj (TableSchema.tableObj s)) = _
  simp only [TableSchema.fromJson, h1, h2, h3, h4, h5, hstr, harr, hobj, hnum, hpk,
    foldl_addColumn_eq, reloadedSchema, List.map_map]
  have hcomp : TableSchema.columnFromJson ∘ TableSchema.columnToJson = reloadedColumn := by
    funext c
    exact columnFromJson_columnToJson c
  rw [hcomp]
  by_cases hp : s.primaryKeyColumns.isEmpty = true <;> simp [hp, TableSchema.new]

theorem reloadedSchema_rest (s : TableSchema) :
    (reloadedSchema s).tableName = s.tableName
    ∧ (reloadedSchema s).primaryKeyColumns = s.primaryKeyColumns
    ∧ (reloadedSchema s).metadata.description = s.metadata.description
    ∧ (reloadedSchema s).uniqueConstraints = []
    ∧ (reloadedSchema s).foreignKeys = []
    ∧ (reloadedSchema s).checkConstraints = [] := by
  unfold reloadedSchema
  by_cases hp : s.primaryKeyColumns.isEmpty = true
  · have hnil : s.primaryKeyColumns = [] := by simpa using hp
    simp [hp, hnil, TableSchema.setDescription, TableSchema.setRowCount]
  · have hr := foldl_markColumn_rest markPrimary s.primaryKeyColumns
      { tableName := s.tableName, columns := s.columns.map reloadedColumn,
        primaryKeyColumns := s.primaryKeyColumns }
    simp only [hp, TableSchema.setDescription, TableSchema.setRowCount,
      TableSchema.addPrimaryKey]
    exact ⟨hr.1, hr.2.2.1, trivial, hr.2.2.2.1, hr.2.2.2.2.1, hr.2.2.2.2.2⟩

theorem reloadedSchema_columns_map {β : Type} (g : Column → β)
    (hg : ∀ a, g (markPrimary a) = g a) (s : TableSchema) :
    (reloadedSchema s).columns.map g = (s.columns.map reloadedColumn).map g := by
  unfold reloadedSchema
  by_cases hp : s.primaryKeyColumns.isEmpty = true
  · simp [hp, TableSchema.setDescription, TableSchema.setRowCount]
  · have hm := foldl_markColumn_map markPrimary g hg s.primaryKeyColumns
      { tableName := s.tableName, columns := s.columns.map reloadedColumn,
        primaryKeyColumns := s.primaryKeyColumns }
    simp only [hp, TableSchema.setDescription, TableSchema.setRowCount,
      TableSchema.addPrimaryKey]
    exact hm

/-- C6: for every `TableSchema s`, `fromJson(toJson(s))` is a schema (not the
null pointer) with the same table name, the same number of columns with the
same names and data types in the same order, the same primary-key column-name
list and the same description. -/
theorem c6_schema_round_trip (s : TableSchema) :
    ∃ r, TableSchema.fromJson (TableSchema.toJson s) = some r
      ∧ r.tableName = s.tableName
      ∧ r.columns.length = s.columns.length
      ∧ r.columns.map (fun c => c.name) = s.columns.map (fun c => c.name)
      ∧ r.columns.map (fun c => c.type) = s.columns.map (fun c => c.type)
      ∧ r.primaryKeyColumns = s.primaryKeyColumns
      ∧ r.metadata.description = s.metadata.description := by
  refine ⟨_, fromJson_toJson s, ?_⟩
  have hr := reloadedSchema_rest s
  have hn := reloadedSchema_columns_map (fun c => c.name) (fun _ => rfl) s
  have ht := reloadedSchema_columns_map (fun c => c.type) (fun _ => rfl) s
  have hl := congrArg List.length hn
  simp only [List.length_map] at hl
  refine ⟨hr.1, hl, ?_, ?_, hr.2.1, hr.2.2.1⟩
  · rw [hn]
    simp [reloadedColumn, Function.comp_def]
  · rw [ht]
    simp [reloadedColumn, Function.comp_def]

/-- C7: for every `TableSchema s`, whatever unique, foreign-key and check
constraints it holds, the schema `fromJson(toJson(s))` has an empty
unique-constraint map, an empty foreign-key map and an empty check-constraint map. -/
theorem c7_constraints_lost_on_reload (s : TableSchema) :
    ∃ r, TableSchema.fromJson (TableSchema.toJson s) = some r
      ∧ r.uniqueConstraints = [] ∧ r.foreignKeys = [] ∧ r.checkConstraints = [] := by
  have hr := reloadedSchema_rest s
  exact ⟨_, fromJson_toJson s, hr.2.2.2.1, hr.2.2.2.2.1, hr.2.2.2.2.2⟩

/-! ## C8: what the reload does to each column -/

theorem findColumn_congr (ln : String) (cs cs2 : List Column)
    (h : cs.map (fun c => c.name) = cs2.map (fun c => c.name)) :
    findColumn ln cs = findColumn ln cs2 := by
  induction cs generalizing cs2 with
  | nil =>
    cases cs2 with
    | nil => rfl
    | cons c2 cs2 => simp at h
  | cons c cs ih =>
    cases cs2 with
    | nil => simp at h
    | cons c2 cs2 =>
      simp only [List.map_cons, List.cons.injEq] at h
      simp [findColumn, h.1, ih cs2 h.2]

theorem getElem?_modifyAt {α : Type} (f : α → α) (i j : Nat) (l : List α) :
    (modifyAt f i l)[j]? = if i = j then l[j]?.map f else l[j]? := by
  induction l generalizing i j with
  | nil => cases i <;> simp [modifyAt]
  | cons x xs ih =>
    cases i with
    | zero =>
      cases j with
      | zero => simp [modifyAt]
      | succ j => simp [modifyAt]
    | succ i =>
      cases j with
      | zero => simp [modifyAt]
      | succ j => simp [modifyAt, ih]

theorem markColumn_getColumnIndex (f : Column → Column) (hf : ∀ c, (f c).name = c.name)
    (s : TableSchema) (n n2 : String) :
    (TableSchema.markColumn f s n).getColumnIndex n2 = s.getColumnIndex n2 := by
  unfold TableSchema.getColumnIndex
  apply findColumn_congr
  unfold TableSchema.markColumn
  split
  · exact modifyAt_map f (fun c => c.name) hf _ _
  · rfl

theorem markColumn_getElem? (f : Column → Column) (s : TableSchema) (n : String) (i : Nat) :
    (TableSchema.markColumn f s n).columns[i]?
      = if s.getColumnIndex n = some i then s.columns[i]?.map f else s.columns[i]? := by
  unfold TableSchema.markColumn
  cases h : s.getColumnIndex n with
  | none => simp
  | some idx =>
    simp only [getElem?_modifyAt, Option.some.injEq]

/-- A column that no name of the list resolves to is left as it was. -/
theorem foldl_markColumn_untouched (f : Column → Column) (hf : ∀ c, (f c).name = c.name)
    (names : List String) (s : TableSchema) (i : Nat)
    (h : ¬ ∃ n ∈ names, s.getColumnIndex n = some i) :
    (names.foldl (TableSchema.markColumn f) s).columns[i]? = s.columns[i]? := by
  induction names generalizing s with
  | nil => rfl
  | cons n names ih =>
    simp only [List.foldl_cons]
    have h1 : ¬ ∃ n2 ∈ names, (TableSchema.markColumn f s n).getColumnIndex n2 = some i := by
      rintro ⟨n2, hn2, hidx⟩
      rw [markColumn_getColumnIndex f hf] at hidx
      exact h ⟨n2, List.mem_cons_of_mem _ hn2, hidx⟩
    have h2 : ¬ s.getColumnIndex n = some i := fun hidx => h ⟨n, List.mem_cons_self _ _, hidx⟩
    rw [ih _ h1, markColumn_getElem?, if_neg h2]

/-- A column that some name of the list resolves to ends up marked. -/
theorem foldl_markColumn_touched (f : Column → Column) (hf : ∀ c, (f c).name = c.name)
    (hff : ∀ c, f (f c) = f c) (names : List String) (s : TableSchema) (i : Nat)
    (h : ∃ n ∈ names, s.getColumnIndex n = some i) :
    (names.foldl (TableSchema.markColumn f) s).columns[i]? = s.columns[i]?.map f := by
  induction names generalizing s with
  | nil => simp at h
  | cons n names ih =>
    simp only [List.foldl_cons]
    by_cases hrest : ∃ n2 ∈ names, (TableSchema.markColumn f s n).getColumnIndex n2 = some i
    · rw [ih _ hrest, markColumn_getElem?]
      split
      · cases s.columns[i]? <;> simp [hff]
      · rfl
    · rw [foldl_markColumn_untouched f hf names _ i hrest, markColumn_getElem?]
      obtain ⟨n2, hn2, hidx⟩ := h
      rcases List.mem_cons.mp hn2 with rfl | hmem
      · rw [if_pos hidx]
      · exact absurd ⟨n2, hmem, by rw [markColumn_getColumnIndex f hf]; exact hidx⟩ hrest

theorem reloaded_getColumnIndex (s : TableSchema) (n : String) :
    ({ tableName := s.tableName, columns := s.columns.map reloadedColumn,
       primaryKeyColumns := s.primaryKeyColumns } : TableSchema).getColumnIndex n
      = s.getColumnIndex n := by
  unfold TableSchema.getColumnIndex
  apply findColumn_congr
  simp [reloadedColumn, Function.comp_def]

/-- Column `i` of the reloaded schema, when the primary-key list resolves to it. -/
theorem reloadedSchema_column_keyed (s : TableSchema) (i : Nat)
    (h : ∃ n ∈ s.primaryKeyColumns, s.getColumnIndex n = some i) :
    (reloadedSchema s).columns[i]? = s.columns[i]?.map (fun c => markPrimary (reloadedColumn c)) := by
  have hne : ¬ s.primaryKeyColumns.isEmpty = true := by
    obtain ⟨n, hn, _⟩ := h
    intro he
    have : s.primaryKeyColumns = [] := by simpa using he
    rw [this] at hn
    simp at hn
  have hb : s.primaryKeyColumns.isEmpty = false := by simpa using hne
  unfold reloadedSchema
  simp only [hb, TableSchema.setDescription, TableSchema.setRowCount, TableSchema.addPrimaryKey,
    Bool.false_eq_true, if_false]
  have h2 : ∃ n ∈ s.primaryKeyColumns,
      ({ tableName := s.tableName, columns := s.columns.map reloadedColumn,
         primaryKeyColumns := s.primaryKeyColumns } : TableSchema).getColumnIndex n = some i := by
    obtain ⟨n, hn, hidx⟩ := h
    exact ⟨n, hn, by rw [reloaded_getColumnIndex]; exact hidx⟩
  have := foldl_markColumn_touched markPrimary (fun _ => rfl) (fun _ => rfl)
    s.primaryKeyColumns _ i h2
  rw [this]
  simp [List.getElem?_map, Function.comp_def]

/-- Column `i` of the reloaded schema, when the primary-key list does not resolve to it. -/
theorem reloadedSchema_column_plain (s : TableSchema) (i : Nat)
    (h : ¬ ∃ n ∈ s.primaryKeyColumns, s.getColumnIndex n = some i) :
    (reloadedSchema s).columns[i]? = s.columns[i]?.map reloadedColumn := by
  unfold reloadedSchema
  by_cases hp : s.primaryKeyColumns.isEmpty = true
  · simp [hp, TableSchema.setDescription, TableSchema.setRowCount, List.getElem?_map]
  · have hb : s.primaryKeyColumns.isEmpty = false := by simpa using hp
    simp only [hb, TableSchema.setDescription, TableSchema.setRowCount,
      TableSchema.addPrimaryKey, Bool.false_eq_true, if_false]
    have h2 : ¬ ∃ n ∈ s.primaryKeyColumns,
        ({ tableName := s.tableName, columns := s.columns.map reloadedColumn,
           primaryKeyColumns := s.primaryKeyColumns } : TableSchema).getColumnIndex n = some i := by
      rintro ⟨n, hn, hidx⟩
      rw [reloaded_getColumnIndex] at hidx
      exact h ⟨n, hn, hidx⟩
    have := foldl_markColumn_untouched markPrimary (fun _ => rfl) s.primaryKeyColumns _ i h2
    rw [this]
    simp [List.getElem?_map]

/-- C8 (as amended): for every `TableSchema s` and every column `c` at index
`i`, column `i` of `fromJson(toJson(s))` has the name, data type and
description of `c`; its NOT NULL flag, default value, check condition,
maxLength, precision and scale are the initial values of a fresh `Column`
(`false`, empty, `-1`); if some name of the primary-key list resolves to
position `i` it is a primary-key column that is not nullable, otherwise it has
the nullable flag of `c`. -/
theorem c8_reloaded_column (s : TableSchema) (i : Nat) (c : Column)
    (hc : s.columns[i]? = some c) :
    ∃ r c2, TableSchema.fromJson (TableSchema.toJson s) = some r
      ∧ r.columns[i]? = some c2
      ∧ c2.name = c.name ∧ c2.type = c.type ∧ c2.description = c.description
      ∧ c2.notNull = false ∧ c2.defaultValue = "" ∧ c2.checkCondition = ""
      ∧ c2.maxLength = -1 ∧ c2.precision = -1 ∧ c2.scale = -1
      ∧ ((∃ n ∈ s.primaryKeyColumns, s.getColumnIndex n = some i) →
          c2.primaryKey = true ∧ c2.nullable = false)
      ∧ ((¬ ∃ n ∈ s.primaryKeyColumns, s.getColumnIndex n = some i) →
          c2.nullable = c.nullable) := by
  by_cases h : ∃ n ∈ s.primaryKeyColumns, s.getColumnIndex n = some i
  · refine ⟨_, markPrimary (reloadedColumn c), fromJson_toJson s, ?_, rfl, rfl, rfl, rfl, rfl,
      rfl, rfl, rfl, rfl, fun _ => ⟨rfl, rfl⟩, fun hn => absurd h hn⟩
    rw [reloadedSchema_column_keyed s i h, hc]
    rfl
  · refine ⟨_, reloadedColumn c, fromJson_toJson s, ?_, rfl, rfl, rfl, rfl, rfl,
      rfl, rfl, rfl, rfl, fun hp => absurd hp h, fun _ => rfl⟩
    rw [reloadedSchema_column_plain s i h, hc]
    rfl

/-- C8 on a concrete schema: column 0 of `keyedSchema` (the declared primary
key `id`) comes back as a non-nullable primary-key column named `id` of type INT. -/
theorem c8_reloaded_column_witness :
    keyedSchema.columns[0]? = some (markPrimary (Column.new "id" .INT))
    ∧ ∃ r c2, TableSchema.fromJson (TableSchema.toJson keyedSchema) = some r
      ∧ r.columns[0]? = some c2
      ∧ c2.name = "id" ∧ c2.type = .INT ∧ c2.primaryKey = true ∧ c2.nullable = false := by
  have hc : keyedSchema.columns[0]? = some (markPrimary (Column.new "id" .INT)) := by decide!
  refine ⟨hc, ?_⟩
  obtain ⟨r, c2, h1, h2, h3, h4, _, _, _, _, _, _, _, h5, _⟩ :=
    c8_reloaded_column keyedSchema 0 _ hc
  have hk : ∃ n ∈ keyedSchema.primaryKeyColumns, keyedSchema.getColumnIndex n = some 0 :=
    ⟨"id", by decide!, by decide!⟩
  exact ⟨r, c2, h1, h2, h3, h4, (h5 hk).1, (h5 hk).2⟩

/-- C8, the claim as stated fails: the column of `lossySchema` is unique,
auto-incrementing, NOT NULL, has default `x` and maxLength 3 and rejects
`abcd`; after `fromJson(toJson(..))` it is none of these, its default is empty,
its maxLength is -1 and it accepts `abcd`. -/
theorem c8_round_trip_loses_attributes :
    (lossySchema.columns.map (fun c => (c.unique, c.autoIncrement, c.notNull))
        = [(true, true, true)]
      ∧ lossySchema.columns.map (fun c => (c.defaultValue, c.maxLength)) = [("x", 3)]
      ∧ lossySchema.columns.map (fun c => c.validateValue "abcd") = [false])
    ∧ ((TableSchema.fromJson (TableSchema.toJson lossySchema)).map (fun r =>
          r.columns.map (fun c => (c.unique, c.autoIncrement, c.notNull)))
        = some [(false, false, false)]
      ∧ (TableSchema.fromJson (TableSchema.toJson lossySchema)).map (fun r =>
          r.columns.map (fun c => (c.defaultValue, c.maxLength))) = some [("", -1)]
      ∧ (TableSchema.fromJson (TableSchema.toJson lossySchema)).map (fun r =>
          r.columns.map (fun c => c.validateValue "abcd")) = some [true]) := by
  decide!

/-! ## C5: rows through the column-name-keyed JSON object -/

theorem find_foldl_zip_notin {V : Type} (g : String → V) (cols : List Column)
    (vals : List String) (init : List (String × V)) (k : String)
    (h : ∀ c ∈ cols, c.name ≠ k) :
    qmapFind k ((cols.zip vals).foldl (fun o p => qmapInsert p.1.name (g p.2) o) init)
      = qmapFind k init := by
  induction cols generalizing vals init with
  | nil => simp
  | cons c cs ih =>
    cases vals with
    | nil => simp
    | cons v vs =>
      simp only [List.zip_cons_cons, List.foldl_cons]
      rw [ih vs _ (fun c2 hc2 => h c2 (List.mem_cons_of_mem _ hc2))]
      exact qmapFind_insert_ne _ _ _ _ (h c (List.mem_cons_self _ _))

theorem find_foldl_zip_at {V : Type} (g : String → V) (cols : List Column)
    (vals : List String) (init : List (String × V))
    (hnd : (cols.map (fun c => c.name)).Nodup) (i : Nat) (c : Column) (v : String)
    (hc : cols[i]? = some c) (hv : vals[i]? = some v) :
    qmapFind c.name ((cols.zip vals).foldl (fun o p => qmapInsert p.1.name (g p.2) o) init)
      = some (g v) := by
  induction cols generalizing vals init i with
  | nil => simp at hc
  | cons c0 cs ih =>
    cases vals with
    | nil => simp at hv
    | cons v0 vs =>
      simp only [List.map_cons, List.nodup_cons, List.mem_map, not_exists, not_and] at hnd
      simp only [List.zip_cons_cons, List.foldl_cons]
      cases i with
      | zero =>
        simp only [List.getElem?_cons_zero, Option.some.injEq] at hc hv
        subst hc
        subst hv
        rw [find_foldl_zip_notin g cs vs _ _ (fun c2 hc2 => hnd.1 c2 hc2)]
        exact qmapFind_insert_self _ _ _
      | succ i =>
        simp only [List.getElem?_cons_succ] at hc hv
        exact ih vs _ hnd.2 i hc hv

/-- C5 (as amended): for every schema whose column names are pairwise distinct
and every row with exactly one entry per schema column, `jsonToRow` applied to
`rowToJson` of the row, against the same schema, returns the row itself. -/
theorem c5_row_round_trip (s : TableSchema) (row : List String)
    (hnd : (s.columns.map (fun c => c.name)).Nodup)
    (hlen : row.length = s.columns.length) :
    StorageEngine.jsonToRow (StorageEngine.rowToJson row s) s = row := by
  apply List.ext_getElem?
  intro i
  unfold StorageEngine.jsonToRow StorageEngine.rowToJson
  rw [List.getElem?_map]
  by_cases hi : i < s.columns.length
  · have hc : s.columns[i]? = some s.columns[i] := List.getElem?_eq_getElem hi
    have hi2 : i < row.length := by omega
    have hv : row[i]? = some row[i] := List.getElem?_eq_getElem hi2
    rw [hc, hv]
    have := find_foldl_zip_at Json.str s.columns row [] hnd i _ _ hc hv
    simp [Json.member, qmapValue, this, Json.toStr]
  · have h1 : s.columns[i]? = none := by
      apply List.getElem?_eq_none
      omega
    have h2 : row[i]? = none := by
      apply List.getElem?_eq_none
      omega
    simp [h1, h2]

/-- C5 on a concrete schema and row. -/
theorem c5_row_round_trip_witness :
    (pairSchema.columns.map (fun c => c.name)).Nodup
    ∧ ["1", "Alice"].length = pairSchema.columns.length
    ∧ StorageEngine.jsonToRow (StorageEngine.rowToJson ["1", "Alice"] pairSchema) pairSchema
        = ["1", "Alice"] :=
  ⟨by decide!, by decide!, c5_row_round_trip pairSchema ["1", "Alice"] (by decide!) (by decide!)⟩

/-- C5, the claim as stated fails: the schema `twinSchema` has two columns
named `x`; the row `a`, `b` is accepted by `insertRow`, but `rowToJson` stores
one member `x` (the second write wins) and `jsonToRow` returns `b`, `b`. -/
theorem c5_twin_columns_collide :
    ((({} : TableManager).addTable twinSchema).insertRow "d" ["a", "b"]).1.success = true
    ∧ (((({} : TableManager).addTable twinSchema).insertRow "d" ["a", "b"]).2.selectAll "d")
        = [["a", "b"]]
    ∧ StorageEngine.jsonToRow (StorageEngine.rowToJson ["a", "b"] twinSchema) twinSchema
        = ["b", "b"] := by
  decide!

/-! ## Unique constraints: how the check reads rows -/

theorem findColumn_of_nodup (cols : List Column) (i : Nat) (c : Column)
    (hnd : (cols.map (fun c => qToLower c.name)).Nodup) (hc : cols[i]? = some c) :
    findColumn (qToLower c.name) cols = some i := by
  induction cols generalizing i with
  | nil => simp at hc
  | cons c0 cs ih =>
    simp only [List.map_cons, List.nodup_cons, List.mem_map, not_exists, not_and] at hnd
    cases i with
    | zero =>
      simp only [List.getElem?_cons_zero, Option.some.injEq] at hc
      subst hc
      simp [findColumn]
    | succ i =>
      simp only [List.getElem?_cons_succ] at hc
      have hmem : c ∈ cs := List.mem_iff_getElem?.mpr ⟨i, hc⟩
      have hne : ¬ qToLower c0.name = qToLower c.name := fun h => hnd.1 c hmem h.symm
      simp [findColumn, hne, ih i hnd.2 hc]

theorem nodup_names_of_lower (cols : List Column)
    (hnd : (cols.map (fun c => qToLower c.name)).Nodup) :
    (cols.map (fun c => c.name)).Nodup := by
  have : cols.map (fun c => qToLower c.name) = (cols.map (fun c => c.name)).map qToLower := by
    simp [Function.comp_def]
  rw [this] at hnd
  exact List.Nodup.of_map _ hnd

/-- Under distinct column names, a constraint over declared names reads the
same values from a row whether it is the row being written or a stored row. -/
theorem currentValues_eq_existingValues (schema : TableSchema) (ccols : List String)
    (row : List String)
    (hnd : (schema.columns.map (fun c => qToLower c.name)).Nodup)
    (hex : ∀ c ∈ ccols, c ∈ schema.columns.map (fun c => c.name))
    (hlen : row.length = schema.columns.length) :
    currentValues (TableManager.zipToMap schema.columns row) ccols
      = existingValues schema ccols row := by
  induction ccols with
  | nil => simp [currentValues, existingValues]
  | cons c rest ih =>
    have hrest : ∀ c2 ∈ rest, c2 ∈ schema.columns.map (fun c => c.name) :=
      fun c2 h2 => hex c2 (List.mem_cons_of_mem _ h2)
    have ih2 := ih hrest
    simp only [currentValues, existingValues] at ih2 ⊢
    obtain ⟨col, hcol, hname⟩ := List.mem_map.mp (hex c (List.mem_cons_self _ _))
    obtain ⟨i, hi⟩ := List.mem_iff_getElem?.mp hcol
    have hidx : schema.getColumnIndex c = some i := by
      unfold TableSchema.getColumnIndex
      rw [← hname]
      exact findColumn_of_nodup _ _ _ hnd hi
    have hilt : i < schema.columns.length := by
      by_contra hc
      rw [List.getElem?_eq_none (by omega)] at hi
      simp at hi
    have hirow : i < row.length := by omega
    have hv : row[i]? = some row[i] := List.getElem?_eq_getElem hirow
    have hfind := find_foldl_zip_at (fun x => x) schema.columns row []
      (nodup_names_of_lower _ hnd) i col _ hi hv
    have hval : qmapValue (TableManager.zipToMap schema.columns row) c "" = row[i] := by
      unfold TableManager.zipToMap qmapValue
      rw [← hname, hfind]
      rfl
    simp only [List.map_cons, List.filterMap_cons, hidx, hirow, if_true, hval, ih2]
    simp [List.getD_eq_getElem?_getD, hv]

theorem existingValues_congr (schema : TableSchema) (ccols : List String) (a b : List String)
    (h : ∀ c ∈ ccols, ∀ idx, schema.getColumnIndex c = some idx → a[idx]? = b[idx]?) :
    existingValues schema ccols a = existingValues schema ccols b := by
  unfold existingValues
  apply List.filterMap_congr
  intro c hc
  cases hidx : schema.getColumnIndex c with
  | none => rfl
  | some idx =>
    have hab := h c hc idx hidx
    simp only [List.getD_eq_getElem?_getD]
    by_cases ha : idx < a.length
    · have hb : idx < b.length := by
        by_contra hb
        rw [List.getElem?_eq_getElem ha, List.getElem?_eq_none (by omega)] at hab
        simp at hab
      simp [ha, hb, hab]
    · have hb : ¬ idx < b.length := by
        intro hb
        rw [List.getElem?_eq_none (by omega), List.getElem?_eq_getElem hb] at hab
        simp at hab
      simp [ha, hb]

/-- The inner loop finds no collision exactly when no stored row, other than
the excluded one, carries the constrained values `cur`. -/
theorem rowCollides_false_iff (schema : TableSchema) (ccols cur : List String) (excl : Int)
    (start : Nat) (rows : List (List String)) :
    rowCollides schema ccols cur excl start rows = false
      ↔ ∀ j row, rows[j]? = some row → ((start + j : Nat) : Int) ≠ excl →
          cur ≠ existingValues schema ccols row := by
  induction rows generalizing start with
  | nil => simp [rowCollides]
  | cons r rs ih =>
    simp only [rowCollides, Bool.or_eq_false_iff, Bool.and_eq_false_imp, decide_eq_true_eq,
      decide_eq_false_iff_not, ih]
    constructor
    · rintro ⟨h0, hrest⟩ j row hj hne
      cases j with
      | zero =>
        simp only [List.getElem?_cons_zero, Option.some.injEq] at hj
        subst hj
        exact h0 (by simpa using hne)
      | succ j =>
        simp only [List.getElem?_cons_succ] at hj
        exact hrest j row hj (by
          have : start + 1 + j = start + (j + 1) := by omega
          rw [this]
          exact hne)
    · intro h
      refine ⟨fun hne => h 0 r (by simp) (by simpa using hne), fun j row hj hne => ?_⟩
      exact h (j + 1) row (by simpa using hj) (by
        have : start + (j + 1) = start + 1 + j := by omega
        rw [this]
        exact hne)

theorem validateUniqueConstraints_eq_none (m : TableManager) (t : String)
    (cv : List (String × String)) (excl : Int) (schema : TableSchema)
    (hg : m.getTable t = some schema) :
    m.validateUniqueConstraints t cv excl = none
      ↔ ∀ e ∈ schema.uniqueConstraints,
          rowCollides schema e.2 (currentValues cv e.2) excl 0 (m.selectAll t) = false := by
  unfold TableManager.validateUniqueConstraints
  simp only [hg, Option.map_eq_none', List.find?_eq_none]
  constructor
  · intro h e he
    simpa using h e he
  · intro h e he
    simpa using h e he

theorem mapColumnsToValues_eq (m : TableManager) (t : String) (values : List String)
    (schema : TableSchema) (hg : m.getTable t = some schema)
    (hlen : values.length = schema.columns.length) :
    m.mapColumnsToValues t values = TableManager.zipToMap schema.columns values := by
  simp [TableManager.mapColumnsToValues, hg, hlen]

/-! ## C3: rejection of colliding rows -/

/-- Where the unique check does hold (C3): let the table name and the column
names be ASCII (on such names the `toLower` of the model is `QString::toLower`),
let the column names be pairwise distinct ignoring case, and let a unique
constraint be registered whose columns are spelled as declared in the schema.
Then `insertRow` is rejected (`success = false`, state unchanged) whenever the
new values equal some stored row on all columns of the constraint, and
`updateRow(t, r, values)` is rejected (`success = false`, rows of every table
unchanged) whenever the new values equal some stored row other than `r` on all
columns of the constraint. -/
theorem c3_unique_collision_rejected (m : TableManager) (t : String) (schema : TableSchema)
    (cname : String) (ccols values : List String)
    (_hta : isAsciiText t = true)
    (_hca : ∀ c ∈ schema.columns, isAsciiText c.name = true)
    (hg : m.getTable t = some schema)
    (hu : (cname, ccols) ∈ schema.uniqueConstraints)
    (hnd : (schema.columns.map (fun c => qToLower c.name)).Nodup)
    (hex : ∀ c ∈ ccols, c ∈ schema.columns.map (fun c => c.name)) :
    (∀ (j : Nat) (row : List String), (m.selectAll t)[j]? = some row →
        (∀ c ∈ ccols, ∀ idx, schema.getColumnIndex c = some idx → values[idx]? = row[idx]?) →
        (m.insertRow t values).1.success = false ∧ (m.insertRow t values).2 = m)
    ∧ (∀ (r : Int) (j : Nat) (row : List String), (m.selectAll t)[j]? = some row →
        (j : Int) ≠ r →
        (∀ c ∈ ccols, ∀ idx, schema.getColumnIndex c = some idx → values[idx]? = row[idx]?) →
        (m.updateRow t r values).1.success = false
          ∧ ∀ t2, (m.updateRow t r values).2.selectAll t2 = m.selectAll t2) := by
  have hcollide : ∀ (m2 : TableManager) (excl : Int) (j : Nat) (row : List String),
      m2.getTable t = some schema → m2.selectAll t = m.selectAll t →
      values.length = schema.columns.length →
      (m.selectAll t)[j]? = some row → (j : Int) ≠ excl →
      (∀ c ∈ ccols, ∀ idx, schema.getColumnIndex c = some idx → values[idx]? = row[idx]?) →
      m2.validateUniqueConstraints t (m2.mapColumnsToValues t values) excl ≠ none := by
    intro m2 excl j row hg2 hrows hlen hj hne hag hnone
    rw [validateUniqueConstraints_eq_none m2 t _ excl schema hg2] at hnone
    have h1 := hnone (cname, ccols) hu
    rw [rowCollides_false_iff, hrows] at h1
    have h2 := h1 j row hj (by simpa using hne)
    apply h2
    rw [mapColumnsToValues_eq m2 t values schema hg2 hlen]
    show currentValues (TableManager.zipToMap schema.columns values) ccols = _
    rw [currentValues_eq_existingValues schema ccols values hnd hex hlen]
    exact existingValues_congr schema ccols values row hag
  constructor
  · intro j row hj hag
    unfold TableManager.insertRow
    simp only [hg]
    split
    · simp [TableManager.failed]
    · rename_i hlen
      have hlen2 : values.length = schema.columns.length := by simpa using hlen
      split
      · simp [TableManager.failed]
      · split
        · simp [TableManager.failed]
        · rename_i hnone
          exact absurd hnone (hcollide m (-1) j row hg rfl hlen2 hj (by omega) hag)
  · intro r j row hj hne hag
    unfold TableManager.updateRow
    simp only [hg]
    split
    · simp [TableManager.failed, selectAll_ensureData]
    · split
      · simp [TableManager.failed, selectAll_ensureData]
      · rename_i hlen
        have hlen2 : values.length = schema.columns.length := by simpa using hlen
        split
        · simp [TableManager.failed, selectAll_ensureData]
        · split
          · simp [TableManager.failed, selectAll_ensureData]
          · rename_i hnone
            exact absurd hnone (hcollide (m.ensureData t) r j row
              (by rw [getTable_ensureData]; exact hg) (selectAll_ensureData m t t) hlen2 hj hne hag)

/-- The unique check on a concrete table: with a unique constraint on `id` and
the rows (1, a), (2, b), inserting (1, c) is rejected and so is updating row 1
to (1, z). -/
theorem c3_unique_collision_witness :
    uniqueTable.getTable "p" = some (pairSchema.addUnique "u_id" ["id"])
    ∧ uniqueTable.selectAll "p" = [["1", "a"], ["2", "b"]]
    ∧ (uniqueTable.insertRow "p" ["1", "c"]).1.success = false
    ∧ (uniqueTable.updateRow "p" 1 ["1", "z"]).1.success = false := by
  have hg : uniqueTable.getTable "p" = some (pairSchema.addUnique "u_id" ["id"]) := by decide!
  have hrows : uniqueTable.selectAll "p" = [["1", "a"], ["2", "b"]] := by decide!
  have h := c3_unique_collision_rejected uniqueTable "p" (pairSchema.addUnique "u_id" ["id"])
    "u_id" ["id"] ["1", "c"] (by decide) (by decide!) hg (by decide!) (by decide!) (by decide!)
  have h2 := c3_unique_collision_rejected uniqueTable "p" (pairSchema.addUnique "u_id" ["id"])
    "u_id" ["id"] ["1", "z"] (by decide) (by decide!) hg (by decide!) (by decide!) (by decide!)
  have hidx : ∀ c ∈ ["id"], ∀ idx, (pairSchema.addUnique "u_id" ["id"]).getColumnIndex c = some idx →
      idx = 0 := by
    intro c hc idx hi
    simp only [List.mem_singleton] at hc
    subst hc
    have h0 : (pairSchema.addUnique "u_id" ["id"]).getColumnIndex "id" = some 0 := by decide!
    rw [h0] at hi
    exact (Option.some.inj hi).symm
  refine ⟨hg, hrows, ?_, ?_⟩
  · refine (h.1 0 ["1", "a"] (by rw [hrows]; rfl) ?_).1
    intro c hc idx hi
    rw [hidx c hc idx hi]
    rfl
  · refine (h2.2 1 0 ["1", "a"] (by rw [hrows]; rfl) (by decide) ?_).1
    intro c hc idx hi
    rw [hidx c hc idx hi]
    rfl

/-- C3, the code on names that differ in case only: the unique check reads the
written row by the exact column name and the stored rows through
`getColumnIndex`, which ignores case, so it compares values of different
columns or of no column.  (1) `caseTwinSchema` has columns `ID` and `id` and a
unique constraint registered with `addUnique` over `id`; the table holds the
row (1, 2) and `insertRow` accepts the identical row (1, 2): the check reads
the new value of `id` by exact name (2) and the stored value through
`getColumnIndex`, which resolves `id` to `ID` (1).  (2) `miscasedSchema` has the
column `id` and a unique constraint registered over `ID`, which
`getColumnIndex` resolves to that column; the table holds (1) and `insertRow`
accepts a second (1). -/
theorem c3_case_insensitive_names_escape :
    (("u", ["id"]) ∈ caseTwinSchema.uniqueConstraints
      ∧ caseTwinSchema.columns.map (fun c => c.name) = ["ID", "id"]
      ∧ caseTwinTable.selectAll "t" = [["1", "2"]]
      ∧ (caseTwinTable.insertRow "t" ["1", "2"]).1.success = true
      ∧ (caseTwinTable.insertRow "t" ["1", "2"]).2.selectAll "t" = [["1", "2"], ["1", "2"]])
    ∧ (("u", ["ID"]) ∈ miscasedSchema.uniqueConstraints
      ∧ miscasedSchema.getColumnIndex "ID" = some 0
      ∧ miscasedSchema.columns.map (fun c => (c.name, c.unique)) = [("id", true)]
      ∧ miscasedTable.selectAll "t" = [["1"]]
      ∧ (miscasedTable.insertRow "t" ["1"]).1.success = true
      ∧ (miscasedTable.insertRow "t" ["1"]).2.selectAll "t" = [["1"], ["1"]]) := by
  decide!

/-! ## C4: updating a row to its own value -/

theorem insertRow_success (m : TableManager) (t : String) (v : List String)
    (hs : (m.insertRow t v).1.success = true) :
    ∃ sch, m.getTable t = some sch ∧ v.length = sch.columns.length
      ∧ sch.validateRowErr v = none
      ∧ m.validateUniqueConstraints t (m.mapColumnsToValues t v) (-1) = none
      ∧ m.validateForeignKeyConstraints t = none
      ∧ (m.insertRow t v).2 = m.setRows t (m.selectAll t ++ [v]) := by
  unfold TableManager.insertRow at hs ⊢
  cases hg : m.getTable t with
  | none => simp [hg, TableManager.failed] at hs
  | some sch =>
    simp only [hg] at hs ⊢
    split at hs
    · simp [TableManager.failed] at hs
    · rename_i hlen
      split at hs
      · simp [TableManager.failed] at hs
      · rename_i hv
        split at hs
        · simp [TableManager.failed] at hs
        · rename_i hu
          split at hs
          · simp [TableManager.failed] at hs
          · rename_i hf
            refine ⟨sch, rfl, by simpa using hlen, hv, hu, hf, ?_⟩
            simp [hlen, hv, hu, hf]

theorem updateRow_success (m : TableManager) (t : String) (r : Int) (v : List String)
    (hs : (m.updateRow t r v).1.success = true) :
    ∃ sch, m.getTable t = some sch ∧ 0 ≤ r ∧ r < ((m.selectAll t).length : Int)
      ∧ v.length = sch.columns.length
      ∧ sch.validateRowErr v = none
      ∧ (m.ensureData t).validateUniqueConstraints t ((m.ensureData t).mapColumnsToValues t v) r
          = none
      ∧ (m.ensureData t).validateForeignKeyConstraints t = none
      ∧ (m.updateRow t r v).2 = (m.ensureData t).setRows t ((m.selectAll t).set r.toNat v) := by
  unfold TableManager.updateRow at hs ⊢
  cases hg : m.getTable t with
  | none => simp [hg, TableManager.failed] at hs
  | some sch =>
    simp only [hg, selectAll_ensureData] at hs ⊢
    split at hs
    · simp [TableManager.failed] at hs
    · rename_i hb
      split at hs
      · simp [TableManager.failed] at hs
      · rename_i hlen
        split at hs
        · simp [TableManager.failed] at hs
        · rename_i hv
          split at hs
          · simp [TableManager.failed] at hs
          · rename_i hu
            split at hs
            · simp [TableManager.failed] at hs
            · rename_i hf
              have hb2 : 0 ≤ r ∧ r < ((m.selectAll t).length : Int) := by omega
              refine ⟨sch, rfl, hb2.1, hb2.2, by simpa using hlen, hv, hu, hf, ?_⟩
              simp [hb, hlen, hv, hu, hf]

theorem deleteRow_success (m : TableManager) (t : String) (r : Int)
    (hs : (m.deleteRow t r).1.success = true) :
    0 ≤ r ∧ r < ((m.selectAll t).length : Int)
      ∧ (m.deleteRow t r).2 = (m.ensureData t).setRows t ((m.selectAll t).eraseIdx r.toNat) := by
  unfold TableManager.deleteRow at hs ⊢
  cases hg : m.getTable t with
  | none => simp [hg, TableManager.failed] at hs
  | some sch =>
    simp only [hg, selectAll_ensureData] at hs ⊢
    split at hs
    · simp [TableManager.failed] at hs
    · rename_i hb
      split at hs
      · simp [TableManager.failed] at hs
      · rename_i hnone
        have hb2 : 0 ≤ r ∧ r < ((m.selectAll t).length : Int) := by omega
        refine ⟨hb2.1, hb2.2, ?_⟩
        simp [hb, hnone]

theorem validateForeignKeyConstraints_congr (m m2 : TableManager) (t : String)
    (h : m2.tables = m.tables) :
    m2.validateForeignKeyConstraints t = m.validateForeignKeyConstraints t := by
  simp [TableManager.validateForeignKeyConstraints, TableManager.getTable, h]

theorem getTable_key (m : TableManager) (t t2 : String) (h : qToLower t = qToLower t2) :
    m.getTable t = m.getTable t2 := by
  simp [TableManager.getTable, h]

theorem selectAll_key (m : TableManager) (t t2 : String) (h : qToLower t = qToLower t2) :
    m.selectAll t = m.selectAll t2 := by
  simp [TableManager.selectAll, h]

theorem validateForeignKeyConstraints_key (m : TableManager) (t t2 : String)
    (h : qToLower t = qToLower t2) :
    m.validateForeignKeyConstraints t = m.validateForeignKeyConstraints t2 := by
  simp [TableManager.validateForeignKeyConstraints, TableManager.getTable, h]

/-- Under distinct column names and constraints over declared names, the
unique check of a row `v` passes exactly when `v` differs, on every constraint,
from every stored row other than the excluded one. -/
theorem unique_check_iff (schema : TableSchema) (m1 : TableManager) (t : String)
    (v : List String) (excl : Int)
    (hnd : (schema.columns.map (fun c => qToLower c.name)).Nodup)
    (hex : ∀ e ∈ schema.uniqueConstraints, ∀ c ∈ e.2, c ∈ schema.columns.map (fun c => c.name))
    (hg : m1.getTable t = some schema) (hlen : v.length = schema.columns.length) :
    m1.validateUniqueConstraints t (m1.mapColumnsToValues t v) excl = none
      ↔ ∀ (j : Nat) (a : List String), (m1.selectAll t)[j]? = some a → (j : Int) ≠ excl →
          ∀ e ∈ schema.uniqueConstraints,
            existingValues schema e.2 v ≠ existingValues schema e.2 a := by
  rw [validateUniqueConstraints_eq_none m1 t _ excl schema hg,
    mapColumnsToValues_eq m1 t v schema hg hlen]
  constructor
  · intro h j a hj hne e he
    have h1 := h e he
    rw [rowCollides_false_iff] at h1
    have h2 := h1 j a hj (by simpa using hne)
    rwa [currentValues_eq_existingValues schema e.2 v hnd (hex e he) hlen] at h2
  · intro h e he
    rw [rowCollides_false_iff]
    intro j a hj hne
    rw [currentValues_eq_existingValues schema e.2 v hnd (hex e he) hlen]
    exact h j a hj (by simpa using hne) e he

theorem inv_transfer (schema : TableSchema) (m m2 : TableManager)
    (hinv : RowsInvariant schema m) (ht : m2.tables = m.tables)
    (hr : m2.selectAll schema.tableName = m.selectAll schema.tableName) :
    RowsInvariant schema m2 := by
  obtain ⟨h1, h2, h3, h4⟩ := hinv
  refine ⟨?_, ?_, ?_, ?_⟩
  · simpa [TableManager.getTable, ht] using h1
  · rw [hr]
    exact h2
  · rw [hr, validateForeignKeyConstraints_congr m m2 _ ht]
    exact h3
  · rw [hr]
    exact h4

theorem inv_fresh (m0 : TableManager) (schema : TableSchema) :
    RowsInvariant schema (m0.addTable schema) := by
  have hrows : (m0.addTable schema).selectAll schema.tableName = [] := by
    simp [TableManager.selectAll, TableManager.addTable, qmapValue_insert_self]
  refine ⟨?_, ?_, ?_, ?_⟩
  · simp [TableManager.getTable, TableManager.addTable, qmapFind_insert_self]
  · rw [hrows]
    simp
  · rw [hrows]
    simp
  · rw [hrows]
    simp

theorem inv_insert (schema : TableSchema) (m : TableManager) (t : String) (v : List String)
    (hnd : (schema.columns.map (fun c => qToLower c.name)).Nodup)
    (hex : ∀ e ∈ schema.uniqueConstraints, ∀ c ∈ e.2, c ∈ schema.columns.map (fun c => c.name))
    (hinv : RowsInvariant schema m) (hs : (m.insertRow t v).1.success = true) :
    RowsInvariant schema (m.insertRow t v).2 := by
  obtain ⟨sch, hg, hlen, hv, hu, hf, hm⟩ := insertRow_success m t v hs
  rw [hm]
  by_cases hk : qToLower t = qToLower schema.tableName
  · obtain ⟨h1, h2, h3, h4⟩ := hinv
    have hsch : sch = schema := by
      rw [getTable_key m t _ hk, h1] at hg
      exact (Option.some.inj hg).symm
    subst hsch
    have hrows : (m.setRows t (m.selectAll t ++ [v])).selectAll sch.tableName
        = m.selectAll sch.tableName ++ [v] := by
      rw [selectAll_setRows_same _ _ _ _ hk.symm, selectAll_key m t _ hk]
    have hfresh := (unique_check_iff sch m t v (-1) hnd hex hg hlen).mp hu
    rw [selectAll_key m t _ hk] at hfresh
    refine ⟨?_, ?_, ?_, ?_⟩
    · simpa [TableManager.getTable, TableManager.setRows] using h1
    · rw [hrows]
      intro row hrow
      rcases List.mem_append.mp hrow with hold | hnew
      · exact h2 row hold
      · simp only [List.mem_singleton] at hnew
        subst hnew
        exact ⟨hlen, hv⟩
    · intro _
      rw [validateForeignKeyConstraints_congr m (m.setRows t (m.selectAll t ++ [v])) _ rfl,
        ← validateForeignKeyConstraints_key m t _ hk]
      exact hf
    · rw [hrows]
      intro i j a b hij ha hb e he
      by_cases hi : i < (m.selectAll sch.tableName).length
      · rw [List.getElem?_append_left hi] at ha
        by_cases hj : j < (m.selectAll sch.tableName).length
        · rw [List.getElem?_append_left hj] at hb
          exact h4 i j a b hij ha hb e he
        · rw [List.getElem?_append_right (by omega)] at hb
          have hbv : b = v := by
            cases hd : j - (m.selectAll sch.tableName).length with
            | zero => simpa [hd] using hb.symm
            | succ d => simp [hd] at hb
          subst hbv
          exact (hfresh i a ha (by omega) e he).symm
      · rw [List.getElem?_append_right (by omega)] at ha
        have hav : a = v := by
          cases hd : i - (m.selectAll sch.tableName).length with
          | zero => simpa [hd] using ha.symm
          | succ d => simp [hd] at ha
        have hi0 : i = (m.selectAll sch.tableName).length := by
          cases hd : i - (m.selectAll sch.tableName).length with
          | zero => omega
          | succ d => simp [hd] at ha
        subst hav
        by_cases hj : j < (m.selectAll sch.tableName).length
        · rw [List.getElem?_append_left hj] at hb
          exact hfresh j b hb (by omega) e he
        · rw [List.getElem?_append_right (by omega)] at hb
          cases hd : j - (m.selectAll sch.tableName).length with
          | zero => omega
          | succ d => simp [hd] at hb
  · exact inv_transfer schema m (m.setRows t (m.selectAll t ++ [v])) hinv rfl
      (selectAll_setRows_ne _ _ _ _ hk)

theorem inv_update (schema : TableSchema) (m : TableManager) (t : String) (r : Int)
    (v : List String)
    (hnd : (schema.columns.map (fun c => qToLower c.name)).Nodup)
    (hex : ∀ e ∈ schema.uniqueConstraints, ∀ c ∈ e.2, c ∈ schema.columns.map (fun c => c.name))
    (hinv : RowsInvariant schema m) (hs : (m.updateRow t r v).1.success = true) :
    RowsInvariant schema (m.updateRow t r v).2 := by
  obtain ⟨sch, hg, h0, hlt, hlen, hv, hu, hf, hm⟩ := updateRow_success m t r v hs
  rw [hm]
  have htab : ((m.ensureData t).setRows t ((m.selectAll t).set r.toNat v)).tables = m.tables := by
    simp [TableManager.setRows, tables_ensureData]
  by_cases hk : qToLower t = qToLower schema.tableName
  · obtain ⟨h1, h2, h3, h4⟩ := hinv
    have hsch : sch = schema := by
      rw [getTable_key m t _ hk, h1] at hg
      exact (Option.some.inj hg).symm
    subst hsch
    have hn : r.toNat < (m.selectAll sch.tableName).length := by
      rw [selectAll_key m t _ hk] at hlt
      omega
    have hrows : ((m.ensureData t).setRows t ((m.selectAll t).set r.toNat v)).selectAll
        sch.tableName = (m.selectAll sch.tableName).set r.toNat v := by
      rw [selectAll_setRows_same _ _ _ _ hk.symm, selectAll_key m t _ hk]
    have hg1 : (m.ensureData t).getTable t = some sch := by
      rw [getTable_ensureData]
      exact hg
    have hfresh := (unique_check_iff sch (m.ensureData t) t v r hnd hex hg1 hlen).mp hu
    rw [selectAll_ensureData, selectAll_key m t _ hk] at hfresh
    refine ⟨?_, ?_, ?_, ?_⟩
    · simpa [TableManager.getTable, htab] using h1
    · rw [hrows]
      intro row hrow
      rcases List.mem_or_eq_of_mem_set hrow with hold | hnew
      · exact h2 row hold
      · subst hnew
        exact ⟨hlen, hv⟩
    · intro _
      rw [validateForeignKeyConstraints_congr m _ _ htab,
        ← validateForeignKeyConstraints_key m t _ hk,
        ← validateForeignKeyConstraints_congr m (m.ensureData t) _ (tables_ensureData m t)]
      exact hf
    · rw [hrows]
      intro i j a b hij ha hb e he
      rw [List.getElem?_set] at ha hb
      by_cases hi : r.toNat = i
      · simp only [hi, if_true] at ha
        have hav : a = v := by
          split at ha
          · exact (Option.some.inj ha).symm
          · simp at ha
        subst hav
        have hj : ¬ r.toNat = j := by omega
        simp only [hj, if_false] at hb
        exact hfresh j b hb (by omega) e he
      · simp only [hi, if_false] at ha
        by_cases hj : r.toNat = j
        · simp only [hj, if_true] at hb
          have hbv : b = v := by
            split at hb
            · exact (Option.some.inj hb).symm
            · simp at hb
          subst hbv
          exact (hfresh i a ha (by omega) e he).symm
        · simp only [hj, if_false] at hb
          exact h4 i j a b hij ha hb e he
  · refine inv_transfer schema m _ hinv htab ?_
    rw [selectAll_setRows_ne _ _ _ _ hk, selectAll_ensureData]

theorem inv_delete (schema : TableSchema) (m : TableManager) (t : String) (r : Int)
    (hinv : RowsInvariant schema m) (hs : (m.deleteRow t r).1.success = true) :
    RowsInvariant schema (m.deleteRow t r).2 := by
  obtain ⟨h0, hlt, hm⟩ := deleteRow_success m t r hs
  rw [hm]
  have htab : ((m.ensureData t).setRows t ((m.selectAll t).eraseIdx r.toNat)).tables
      = m.tables := by
    simp [TableManager.setRows, tables_ensureData]
  by_cases hk : qToLower t = qToLower schema.tableName
  · obtain ⟨h1, h2, h3, h4⟩ := hinv
    have hrows : ((m.ensureData t).setRows t ((m.selectAll t).eraseIdx r.toNat)).selectAll
        schema.tableName = (m.selectAll schema.tableName).eraseIdx r.toNat := by
      rw [selectAll_setRows_same _ _ _ _ hk.symm, selectAll_key m t _ hk]
    refine ⟨?_, ?_, ?_, ?_⟩
    · simpa [TableManager.getTable, htab] using h1
    · rw [hrows]
      intro row hrow
      exact h2 row ((List.eraseIdx_sublist _ _).subset hrow)
    · rw [hrows]
      intro hne
      rw [validateForeignKeyConstraints_congr m _ _ htab]
      apply h3
      intro hnil
      rw [hnil] at hne
      simp at hne
    · rw [hrows]
      intro i j a b hij ha hb e he
      rw [List.getElem?_eraseIdx] at ha hb
      by_cases hi : i < r.toNat
      · simp only [hi, if_true] at ha
        by_cases hj : j < r.toNat
        · simp only [hj, if_true] at hb
          exact h4 i j a b hij ha hb e he
        · simp only [hj, if_false] at hb
          exact h4 i (j + 1) a b (by omega) ha hb e he
      · simp only [hi, if_false] at ha
        by_cases hj : j < r.toNat
        · simp only [hj, if_true] at hb
          exact h4 (i + 1) j a b (by omega) ha hb e he
        · simp only [hj, if_false] at hb
          exact h4 (i + 1) (j + 1) a b (by omega) ha hb e he
  · refine inv_transfer schema m _ hinv htab ?_
    rw [selectAll_setRows_ne _ _ _ _ hk, selectAll_ensureData]

theorem reachable_inv (m0 m : TableManager) (schema : TableSchema)
    (hnd : (schema.columns.map (fun c => qToLower c.name)).Nodup)
    (hex : ∀ e ∈ schema.uniqueConstraints, ∀ c ∈ e.2, c ∈ schema.columns.map (fun c => c.name))
    (hreach : Reachable m0 schema m) : RowsInvariant schema m := by
  induction hreach with
  | fresh => exact inv_fresh m0 schema
  | insert m t values _ hs ih => exact inv_insert schema m t values hnd hex ih hs
  | update m t rowId values _ hs ih => exact inv_update schema m t rowId values hnd hex ih hs
  | delete m t rowId _ hs ih => exact inv_delete schema m t rowId ih hs

/-- Where the update to the own value does succeed (C4): let the table name
and the column names of a schema be ASCII (on such names the `toLower` of the
model is `QString::toLower`), the column names pairwise distinct ignoring case,
and the columns of its unique constraints spelled as declared.  In every state
reached from the freshly added (empty) table by successful `insertRow` /
`updateRow` / `deleteRow` calls, and for every in-bounds row id `r`,
`updateRow(t, r, v)` with `v` equal to row `r`'s current values succeeds with
`rowsAffected = 1` and `rowId = r` and leaves every row of every table unchanged. -/
theorem c4_update_to_own_value (m0 m : TableManager) (schema : TableSchema) (r : Nat)
    (row : List String)
    (_hta : isAsciiText schema.tableName = true)
    (_hca : ∀ c ∈ schema.columns, isAsciiText c.name = true)
    (hnd : (schema.columns.map (fun c => qToLower c.name)).Nodup)
    (hex : ∀ e ∈ schema.uniqueConstraints, ∀ c ∈ e.2, c ∈ schema.columns.map (fun c => c.name))
    (hreach : Reachable m0 schema m)
    (hrow : (m.selectAll schema.tableName)[r]? = some row) :
    (m.updateRow schema.tableName (r : Int) row).1
        = { success := true, errorMessage := "", rowsAffected := 1, rowId := (r : Int) }
    ∧ ∀ t2, (m.updateRow schema.tableName (r : Int) row).2.selectAll t2 = m.selectAll t2 := by
  obtain ⟨h1, h2, h3, h4⟩ := reachable_inv m0 m schema hnd hex hreach
  have hr : r < (m.selectAll schema.tableName).length := by
    by_contra hc
    rw [List.getElem?_eq_none (by omega)] at hrow
    simp at hrow
  have hmem : row ∈ m.selectAll schema.tableName := List.mem_iff_getElem?.mpr ⟨r, hrow⟩
  obtain ⟨hlen, hv⟩ := h2 row hmem
  have hne : m.selectAll schema.tableName ≠ [] := List.ne_nil_of_mem hmem
  have hg1 : (m.ensureData schema.tableName).getTable schema.tableName = some schema := by
    rw [getTable_ensureData]
    exact h1
  have hu : (m.ensureData schema.tableName).validateUniqueConstraints schema.tableName
      ((m.ensureData schema.tableName).mapColumnsToValues schema.tableName row) (r : Int)
        = none := by
    rw [unique_check_iff schema _ _ row r hnd hex hg1 hlen]
    intro j a hj hjr e he
    rw [selectAll_ensureData] at hj
    exact h4 r j row a (by omega) hrow hj e he
  have hf : (m.ensureData schema.tableName).validateForeignKeyConstraints schema.tableName
      = none := by
    rw [validateForeignKeyConstraints_congr m _ _ (tables_ensureData m _)]
    exact h3 hne
  have hb : ¬ ((r : Int) < 0 ∨ ((m.selectAll schema.tableName).length : Int) ≤ (r : Int)) := by
    omega
  have hset : (m.selectAll schema.tableName).set r row = m.selectAll schema.tableName := by
    apply List.ext_getElem?
    intro i
    rw [List.getElem?_set]
    by_cases hi : r = i
    · subst hi
      simp [hr, hrow]
    · simp [hi]
  have hres : m.updateRow schema.tableName (r : Int) row
      = ({ success := true, errorMessage := "", rowsAffected := 1, rowId := (r : Int) },
          (m.ensureData schema.tableName).setRows schema.tableName
            (m.selectAll schema.tableName)) := by
    unfold TableManager.updateRow
    simp only [h1, selectAll_ensureData, hb, if_false, hlen, ne_eq, not_true_eq_false, hv, hu,
      hf, Int.toNat_ofNat, hset]
  rw [hres]
  refine ⟨rfl, fun t2 => ?_⟩
  by_cases hk : qToLower schema.tableName = qToLower t2
  · rw [selectAll_setRows_same _ _ _ _ hk.symm]
    exact selectAll_key m _ _ hk
  · rw [selectAll_setRows_ne _ _ _ _ hk, selectAll_ensureData]

/-- The update to the own value on a concrete table: `uniqueTable` is reached
from the fresh table by two inserts, and updating its row 1 to its own value
(2, b) succeeds and changes nothing. -/
theorem c4_update_to_own_value_witness :
    Reachable {} (pairSchema.addUnique "u_id" ["id"]) uniqueTable
    ∧ (uniqueTable.selectAll "p")[1]? = some ["2", "b"]
    ∧ (uniqueTable.updateRow "p" 1 ["2", "b"]).1
        = { success := true, errorMessage := "", rowsAffected := 1, rowId := 1 }
    ∧ (uniqueTable.updateRow "p" 1 ["2", "b"]).2.selectAll "p" = uniqueTable.selectAll "p" := by
  have hreach : Reachable {} (pairSchema.addUnique "u_id" ["id"]) uniqueTable :=
    Reachable.insert _ "p" ["2", "b"]
      (Reachable.insert _ "p" ["1", "a"] Reachable.fresh (by decide!)) (by decide!)
  have hrow : (uniqueTable.selectAll (pairSchema.addUnique "u_id" ["id"]).tableName)[1]?
      = some ["2", "b"] := by decide!
  have h := c4_update_to_own_value {} uniqueTable (pairSchema.addUnique "u_id" ["id"]) 1
    ["2", "b"] (by decide!) (by decide!) (by decide!) (by decide!) hreach hrow
  have htn : (pairSchema.addUnique "u_id" ["id"]).tableName = "p" := by decide!
  rw [htn] at h hrow
  exact ⟨hreach, hrow, h.1, h.2 "p"⟩

/-- C4, the code on names that differ in case only: the unique check reads the
written row by the exact column name and the stored rows through
`getColumnIndex`, which ignores case, so a row can collide with another row on
its own value.  (1) For `miscasedSchema` (column `id`,
unique constraint registered over `ID`) the state holding the rows (1) and
(empty) is reached from the fresh table by two successful inserts, and
updating row 0 to its own value (1) is rejected with a UNIQUE violation.
(2) For `caseTwinSchema` (columns `ID` and `id`, unique constraint over `id`)
the state holding (1, 2) and (2, 5) is reached by two successful inserts, and
updating row 0 to its own value (1, 2) is rejected. -/
theorem c4_own_value_rejected :
    (Reachable {} miscasedSchema miscasedTwoRows
      ∧ miscasedTwoRows.selectAll "t" = [["1"], [""]]
      ∧ (miscasedTwoRows.updateRow "t" 0 ["1"]).1
          = TableManager.failed "UNIQUE constraint violation on column(s): ID")
    ∧ (Reachable {} caseTwinSchema caseTwinTwoRows
      ∧ caseTwinTwoRows.selectAll "t" = [["1", "2"], ["2", "5"]]
      ∧ (caseTwinTwoRows.updateRow "t" 0 ["1", "2"]).1
          = TableManager.failed "UNIQUE constraint violation on column(s): id") := by
  refine ⟨⟨?_, by decide!, by decide!⟩, ⟨?_, by decide!, by decide!⟩⟩
  · exact Reachable.insert _ "t" [""]
      (Reachable.insert _ "t" ["1"] Reachable.fresh (by decide!)) (by decide!)
  · exact Reachable.insert _ "t" ["2", "5"]
      (Reachable.insert _ "t" ["1", "2"] Reachable.fresh (by decide!)) (by decide!)

/-! ## C11: the foreign-key guard of `deleteRow` -/

theorem referencingTable_ensureData (m : TableManager) (t t2 : String) :
    (m.ensureData t).referencingTable t2 = m.referencingTable t2 := by
  simp [TableManager.referencingTable, tables_ensureData]

theorem referencingTable_eq_none (m : TableManager) (t : String) :
    m.referencingTable t = none ↔
      ∀ e ∈ m.tables, ∀ f ∈ e.2.foreignKeys,
        qToLower f.2.referencedTable ≠ qToLower t := by
  simp [TableManager.referencingTable, List.find?_eq_none]

theorem qmapFind_remove_self {V : Type} (k : String) (m : List (String × V)) :
    qmapFind k (qmapRemove k m) = none := by
  induction m with
  | nil => rfl
  | cons e m ih =>
    obtain ⟨k1, v1⟩ := e
    by_cases h : k1 = k
    · simpa [qmapRemove, h] using ih
    · simpa [qmapRemove, h, qmapFind] using ih

theorem qmapFind_remove_ne {V : Type} (k k2 : String) (m : List (String × V)) (h : k ≠ k2) :
    qmapFind k2 (qmapRemove k m) = qmapFind k2 m := by
  induction m with
  | nil => rfl
  | cons e m ih =>
    obtain ⟨k1, v1⟩ := e
    by_cases h1 : k1 = k
    · have h2 : ¬ k1 = k2 := fun h2 => h (h1 ▸ h2)
      simpa [qmapRemove, h1, qmapFind, h2, h] using ih
    · by_cases h2 : k1 = k2
      · subst h2
        have hb : (k1 == k) = false := by simpa using h1
        simp [qmapRemove, List.filter, hb, qmapFind]
      · simpa [qmapRemove, h1, qmapFind, h2] using ih

theorem arity_transfer (m m2 : TableManager) (hinv : ArityInvariant m)
    (ht : m2.tables = m.tables) (hr : ∀ t, m2.selectAll t = m.selectAll t) :
    ArityInvariant m2 := by
  intro t schema hg row hrow
  rw [hr] at hrow
  exact hinv t schema (by simpa [TableManager.getTable, ht] using hg) row hrow

theorem arity_ensureData (m : TableManager) (t : String) (hinv : ArityInvariant m) :
    ArityInvariant (m.ensureData t) :=
  arity_transfer m (m.ensureData t) hinv (tables_ensureData m t)
    (fun t2 => selectAll_ensureData m t t2)

theorem arity_setRows (m : TableManager) (t : String) (schema : TableSchema)
    (rows : List (List String)) (hinv : ArityInvariant m) (hg : m.getTable t = some schema)
    (hrows : ∀ row ∈ rows, row.length = schema.columns.length) :
    ArityInvariant (m.setRows t rows) := by
  intro t2 schema2 hg2 row hrow
  have hg3 : m.getTable t2 = some schema2 := by
    simpa [TableManager.getTable, TableManager.setRows] using hg2
  by_cases hk : qToLower t2 = qToLower t
  · rw [selectAll_setRows_same m t t2 rows hk] at hrow
    rw [getTable_key m t2 t hk, hg] at hg3
    cases hg3
    exact hrows row hrow
  · rw [selectAll_setRows_ne m t t2 rows (fun h => hk h.symm)] at hrow
    exact hinv t2 schema2 hg3 row hrow

theorem insertRow_failure (m : TableManager) (t : String) (v : List String)
    (hs : (m.insertRow t v).1.success = false) : (m.insertRow t v).2 = m := by
  unfold TableManager.insertRow at hs ⊢
  cases hg : m.getTable t with
  | none => rfl
  | some sch =>
    simp only [hg] at hs ⊢
    split
    · rfl
    · rename_i hlen
      simp only [hlen, if_false] at hs
      cases hv : sch.validateRowErr v with
      | some e => rfl
      | none =>
        simp only [hv] at hs ⊢
        cases hu : m.validateUniqueConstraints t (m.mapColumnsToValues t v) (-1) with
        | some e => rfl
        | none =>
          simp only [hu] at hs ⊢
          cases hf : m.validateForeignKeyConstraints t with
          | some e => rfl
          | none => simp [hf] at hs

theorem updateRow_failure (m : TableManager) (t : String) (r : Int) (v : List String)
    (hs : (m.updateRow t r v).1.success = false) :
    (m.updateRow t r v).2 = m ∨ (m.updateRow t r v).2 = m.ensureData t := by
  unfold TableManager.updateRow at hs ⊢
  cases hg : m.getTable t with
  | none => exact Or.inl rfl
  | some sch =>
    simp only [hg] at hs ⊢
    split
    · exact Or.inr rfl
    · rename_i hb
      simp only [hb, if_false] at hs
      split
      · exact Or.inr rfl
      · rename_i hlen
        simp only [hlen, if_false] at hs
        cases hv : sch.validateRowErr v with
        | some e => exact Or.inr rfl
        | none =>
          simp only [hv] at hs ⊢
          cases hu : (m.ensureData t).validateUniqueConstraints t
              ((m.ensureData t).mapColumnsToValues t v) r with
          | some e => exact Or.inr rfl
          | none =>
            simp only [hu] at hs ⊢
            cases hf : (m.ensureData t).validateForeignKeyConstraints t with
            | some e => exact Or.inr rfl
            | none => simp [hf] at hs

theorem deleteRow_failure (m : TableManager) (t : String) (r : Int)
    (hs : (m.deleteRow t r).1.success = false) :
    (m.deleteRow t r).2 = m ∨ (m.deleteRow t r).2 = m.ensureData t := by
  unfold TableManager.deleteRow at hs ⊢
  cases hg : m.getTable t with
  | none => exact Or.inl rfl
  | some sch =>
    simp only [hg] at hs ⊢
    split
    · exact Or.inr rfl
    · rename_i hb
      simp only [hb, if_false] at hs
      split
      · exact Or.inr rfl
      · rename_i hnone
        rw [hnone] at hs
        simp at hs

theorem arity_insertRow (m : TableManager) (t : String) (v : List String)
    (hinv : ArityInvariant m) : ArityInvariant (m.insertRow t v).2 := by
  cases hs : (m.insertRow t v).1.success with
  | false => rw [insertRow_failure m t v hs]; exact hinv
  | true =>
    obtain ⟨sch, hg, hlen, -, -, -, hst⟩ := insertRow_success m t v hs
    rw [hst]
    refine arity_setRows m t sch _ hinv hg ?_
    intro row hrow
    rcases List.mem_append.mp hrow with h | h
    · exact hinv t sch hg row h
    · simp only [List.mem_singleton] at h
      rw [h, hlen]

theorem arity_updateRow (m : TableManager) (t : String) (r : Int) (v : List String)
    (hinv : ArityInvariant m) : ArityInvariant (m.updateRow t r v).2 := by
  cases hs : (m.updateRow t r v).1.success with
  | false =>
    rcases updateRow_failure m t r v hs with h | h
    · rw [h]; exact hinv
    · rw [h]; exact arity_ensureData m t hinv
  | true =>
    obtain ⟨sch, hg, -, -, hlen, -, -, -, hst⟩ := updateRow_success m t r v hs
    rw [hst]
    refine arity_setRows (m.ensureData t) t sch _ (arity_ensureData m t hinv)
      (by rw [getTable_ensureData]; exact hg) ?_
    intro row hrow
    rcases List.mem_or_eq_of_mem_set hrow with h | h
    · exact hinv t sch hg row h
    · rw [h, hlen]

theorem arity_deleteRow (m : TableManager) (t : String) (r : Int)
    (hinv : ArityInvariant m) : ArityInvariant (m.deleteRow t r).2 := by
  cases hs : (m.deleteRow t r).1.success with
  | false =>
    rcases deleteRow_failure m t r hs with h | h
    · rw [h]; exact hinv
    · rw [h]; exact arity_ensureData m t hinv
  | true =>
    obtain ⟨-, -, hst⟩ := deleteRow_success m t r hs
    rw [hst]
    intro t2 schema2 hg2 row hrow
    have hg3 : m.getTable t2 = some schema2 := by
      simpa [TableManager.getTable, TableManager.setRows, tables_ensureData] using hg2
    by_cases hk : qToLower t2 = qToLower t
    · rw [selectAll_setRows_same _ t t2 _ hk] at hrow
      have hmem : row ∈ m.selectAll t := (List.eraseIdx_sublist _ _).subset hrow
      rw [← selectAll_key m t2 t hk] at hmem
      exact hinv t2 schema2 hg3 row hmem
    · rw [selectAll_setRows_ne _ t t2 _ (fun h => hk h.symm), selectAll_ensureData] at hrow
      exact hinv t2 schema2 hg3 row hrow

theorem arity_addTable (m : TableManager) (schema : TableSchema) (hinv : ArityInvariant m) :
    ArityInvariant (m.addTable schema) := by
  intro t2 schema2 hg2 row hrow
  by_cases hk : qToLower schema.tableName = qToLower t2
  · simp [TableManager.selectAll, TableManager.addTable, hk, qmapValue_insert_self] at hrow
  · have hg3 : m.getTable t2 = some schema2 := by
      simpa [TableManager.getTable, TableManager.addTable,
        qmapFind_insert_ne _ _ _ _ hk] using hg2
    have hrow2 : row ∈ m.selectAll t2 := by
      simpa [TableManager.selectAll, TableManager.addTable,
        qmapValue_insert_ne _ _ _ _ _ hk] using hrow
    exact hinv t2 schema2 hg3 row hrow2

theorem arity_removeTable (m : TableManager) (t : String) (hinv : ArityInvariant m) :
    ArityInvariant (m.removeTable t) := by
  intro t2 schema2 hg2 row hrow
  by_cases hk : qToLower t = qToLower t2
  · simp [TableManager.getTable, TableManager.removeTable, hk, qmapFind_remove_self] at hg2
  · have hg3 : m.getTable t2 = some schema2 := by
      simpa [TableManager.getTable, TableManager.removeTable,
        qmapFind_remove_ne _ _ _ hk] using hg2
    have hrow2 : row ∈ m.selectAll t2 := by
      simpa [TableManager.selectAll, TableManager.removeTable, qmapValue,
        qmapFind_remove_ne _ _ _ hk] using hrow
    exact hinv t2 schema2 hg3 row hrow2

theorem reachableState_arity (m : TableManager) (h : ReachableState m) : ArityInvariant m := by
  induction h with
  | empty =>
    intro t schema hg
    simp [TableManager.getTable, qmapFind] at hg
  | addTable m schema _ ih => exact arity_addTable m schema ih
  | removeTable m t _ ih => exact arity_removeTable m t ih
  | insertRow m t values _ ih => exact arity_insertRow m t values ih
  | insertRowMap m t columnValues _ ih =>
    unfold TableManager.insertRowMap
    cases hg : m.getTable t with
    | none => exact ih
    | some sch => exact arity_insertRow m t _ ih
  | updateRow m t rowId values _ ih => exact arity_updateRow m t rowId values ih
  | updateRowMap m t rowId columnValues _ ih =>
    unfold TableManager.updateRowMap
    cases hg : m.getTable t with
    | none => exact ih
    | some sch => exact arity_updateRow m t rowId _ ih
  | deleteRow m t rowId _ ih => exact arity_deleteRow m t rowId ih

/-- C12: in every manager state reached from the empty manager through
`addTable`, `removeTable`, `insertRow`, `updateRow` and `deleteRow` (calls that
fail included), every stored row of every registered table has exactly as many
entries as the table's schema has columns. -/
theorem c12_row_arity (m : TableManager) (h : ReachableState m) (t : String)
    (schema : TableSchema) (hg : m.getTable t = some schema)
    (row : List String) (hrow : row ∈ m.selectAll t) :
    row.length = schema.columns.length :=
  reachableState_arity m h t schema hg row hrow

/-- C12 at a concrete state: the table `T` after an accepted insert, an insert
rejected for its arity, and an update of row 0. -/
theorem c12_row_arity_witness :
    ["9", "z"].length
      = (((TableSchema.new "T").addColumn (Column.new "id" .INT)).addColumn
          (Column.new "name" .VARCHAR)).columns.length :=
  c12_row_arity
    ((((({} : TableManager).addTable
        (((TableSchema.new "T").addColumn (Column.new "id" .INT)).addColumn
          (Column.new "name" .VARCHAR))).insertRow "t" ["1", "a"]).2.insertRow "t" ["2"]).2.updateRow
        "T" 0 ["9", "z"]).2
    (.updateRow _ _ _ _ (.insertRow _ _ _ (.insertRow _ _ _ (.addTable _ _ .empty))))
    "t" _ (by decide!) ["9", "z"] (by decide!)

/-! ## `QString::split` at a one-character separator -/

theorem splitGo_single_length (x : Char) (cs acc : List Char) :
    (splitGo [x] 0 cs acc).length = cs.count x + 1 := by
  induction cs generalizing acc with
  | nil => simp [splitGo]
  | cons c s ih =>
    by_cases h : c = x
    · subst h
      simp [splitGo, startsWithChars, ih]
    · have hb : (c == x) = false := by simpa using h
      simp [splitGo, startsWithChars, hb, ih, List.count_cons]

theorem splitGo_single_notin (x : Char) (cs acc : List Char) (h : x ∉ cs) :
    splitGo [x] 0 cs acc = [acc.reverse ++ cs] := by
  induction cs generalizing acc with
  | nil => simp [splitGo]
  | cons c s ih =>
    have hc : (c == x) = false := by
      simp only [beq_eq_false_iff_ne, ne_eq]
      rintro rfl
      exact h (List.mem_cons_self _ _)
    have hs : x ∉ s := fun hm => h (List.mem_cons_of_mem _ hm)
    simp [splitGo, startsWithChars, hc, ih _ hs]

theorem splitGo_single_append (x : Char) (a b acc : List Char) (h : x ∉ a) :
    splitGo [x] 0 (a ++ x :: b) acc = (acc.reverse ++ a) :: splitGo [x] 0 b [] := by
  induction a generalizing acc with
  | nil => simp [splitGo, startsWithChars]
  | cons c s ih =>
    have hc : (c == x) = false := by
      simp only [beq_eq_false_iff_ne, ne_eq]
      rintro rfl
      exact h (List.mem_cons_self _ _)
    have hs : x ∉ s := fun hm => h (List.mem_cons_of_mem _ hm)
    simp [splitGo, startsWithChars, hc, ih _ hs]

/-! ## C13: the fallback of `evaluateCondition` -/

/-- C13, counterexample: on the schema with columns `a` and `b` and the row
`("5", "2")`, the clauses `a >= 1`, `a <= 1` and `a != 1` are not of the shape
`column = literal`, yet `evaluateCondition` returns false on each: the text
splits into two parts at its single `=`, the left part (`a >`, `a <`, `a !`)
names no column.  The clauses `a > 1` and `a = 1 AND b = 2` return true. -/
theorem c13_single_equals_sign_is_false :
    QueryExecutor.evaluateCondition "a >= 1" abSchema ["5", "2"] = false
    ∧ QueryExecutor.evaluateCondition "a <= 1" abSchema ["5", "2"] = false
    ∧ QueryExecutor.evaluateCondition "a != 1" abSchema ["5", "2"] = false
    ∧ QueryExecutor.evaluateCondition "a > 1" abSchema ["5", "2"] = true
    ∧ QueryExecutor.evaluateCondition "a = 1 AND b = 2" abSchema ["5", "2"] = true := by
  decide!

/-- C13 as amended: for every schema and every row, `evaluateCondition` returns
true on every WHERE text in which the character `=` does not occur exactly once
(the empty text, `a > 1`, `a = 1 AND b = 2`).  A text with exactly one `=` is
read as `column = literal` whatever stands around the `=`: when the trimmed text
before the `=` names no column of the schema (as `a >`, `a <`, `a !` in
`a >= 1`, `a <= 1`, `a != 1`), the result is false. -/
theorem c13_where_fallback (whereClause : String) (schema : TableSchema) (row : List String) :
    (whereClause.data.count '=' ≠ 1 →
        QueryExecutor.evaluateCondition whereClause schema row = true)
    ∧ (∀ lhs rhs : List Char, whereClause = String.mk (lhs ++ '=' :: rhs) →
        '=' ∉ lhs → '=' ∉ rhs →
        schema.getColumnIndex (qTrimmed (String.mk lhs)) = none →
        QueryExecutor.evaluateCondition whereClause schema row = false) := by
  constructor
  · intro hcount
    have hlen : (qSplit whereClause "=").length ≠ 2 := by
      have hd : ("=" : String).data = ['='] := rfl
      simp only [qSplit, hd, List.length_map, splitGo_single_length]
      omega
    unfold QueryExecutor.evaluateCondition
    split
    · rfl
    · split
      · rename_i h2
        rw [h2] at hlen
        exact absurd rfl hlen
      · rfl
  · intro lhs rhs hw hl hr hcol
    have hsplit : qSplit whereClause "=" = [String.mk lhs, String.mk rhs] := by
      have hd : ("=" : String).data = ['='] := rfl
      simp only [qSplit, hd, hw, splitGo_single_append _ _ _ _ hl,
        splitGo_single_notin _ _ _ hr]
      simp
    have hne : whereClause.data.isEmpty = false := by
      rw [hw]
      cases lhs <;> rfl
    unfold QueryExecutor.evaluateCondition
    simp only [hne, hsplit, hcol, Bool.false_eq_true, if_false]

/-- C13 as amended, at concrete inputs: `a > 1` has no `=`; `a >= 1` has one. -/
theorem c13_where_fallback_witness :
    QueryExecutor.evaluateCondition "a > 1" abSchema ["5", "2"] = true
    ∧ QueryExecutor.evaluateCondition "a >= 1" abSchema ["5", "2"] = false :=
  ⟨(c13_where_fallback "a > 1" abSchema ["5", "2"]).1 (by decide),
   (c13_where_fallback "a >= 1" abSchema ["5", "2"]).2 "a >".data " 1".data rfl
      (by decide) (by decide) (by decide!)⟩

/-! ## C14: `DELETE FROM t WHERE a > 1` -/

theorem deleteRow_ok (m : TableManager) (t : String) (schema : TableSchema) (r : Int)
    (hg : m.getTable t = some schema)
    (hlo : 0 ≤ r) (hhi : r < ((m.selectAll t).length : Int))
    (hguard : (if !schema.primaryKeyColumns.isEmpty then m.referencingTable t else none) = none) :
    m.deleteRow t r
      = ({ success := true, errorMessage := "", rowsAffected := 1, rowId := r },
          (m.ensureData t).setRows t ((m.selectAll t).eraseIdx r.toNat)) := by
  have hb : ¬ (r < 0 ∨ ((m.selectAll t).length : Int) ≤ r) := by omega
  unfold TableManager.deleteRow
  simp only [hg, selectAll_ensureData, hb, if_false, referencingTable_ensureData, hguard]

theorem deleteLoop_all (deleteStmt : DeleteStatement) (schema : TableSchema)
    (hw : ∀ row, QueryExecutor.evaluateCondition deleteStmt.whereClause schema row = true)
    (rows : List (List String)) (deletedCount : Int) (m : TableManager)
    (hg : m.getTable deleteStmt.tableName = some schema)
    (hrows : m.selectAll deleteStmt.tableName = rows.reverse)
    (hguard : (if !schema.primaryKeyColumns.isEmpty then
        m.referencingTable deleteStmt.tableName else none) = none) :
    (QueryExecutor.deleteLoop deleteStmt schema rows deletedCount m).1
        = { success := true, affectedRows := deletedCount + rows.length }
    ∧ (QueryExecutor.deleteLoop deleteStmt schema rows deletedCount m).2.selectAll
        deleteStmt.tableName = []
    ∧ (QueryExecutor.deleteLoop deleteStmt schema rows deletedCount m).2.tables = m.tables := by
  induction rows generalizing deletedCount m with
  | nil =>
    simp only [QueryExecutor.deleteLoop, List.length_nil, Nat.cast_zero, add_zero, true_and,
      and_true]
    simpa using hrows
  | cons row below ih =>
    have hlen : (m.selectAll deleteStmt.tableName).length = below.length + 1 := by
      rw [hrows]; simp
    have hdel := deleteRow_ok m deleteStmt.tableName schema (below.length : Int) hg
      (by omega) (by rw [hlen]; push_cast; omega) hguard
    have herase : (m.selectAll deleteStmt.tableName).eraseIdx below.length = below.reverse := by
      rw [hrows, List.reverse_cons]
      have h1 : below.length = below.reverse.length := by simp
      rw [h1, List.eraseIdx_append_of_length_le (le_refl _)]
      simp
    simp only [Int.toNat_ofNat, herase] at hdel
    have hstep : QueryExecutor.deleteLoop deleteStmt schema (row :: below) deletedCount m
        = QueryExecutor.deleteLoop deleteStmt schema below (deletedCount + 1)
            ((m.ensureData deleteStmt.tableName).setRows deleteStmt.tableName below.reverse) := by
      rw [QueryExecutor.deleteLoop]
      simp [hw row, hdel]
    rw [hstep]
    have hg2 : ((m.ensureData deleteStmt.tableName).setRows deleteStmt.tableName
        below.reverse).getTable deleteStmt.tableName = some schema := by
      simpa [TableManager.getTable, TableManager.setRows, tables_ensureData] using hg
    have hguard2 : (if !schema.primaryKeyColumns.isEmpty then
        ((m.ensureData deleteStmt.tableName).setRows deleteStmt.tableName
          below.reverse).referencingTable deleteStmt.tableName else none) = none := by
      simpa [TableManager.referencingTable, TableManager.setRows, tables_ensureData] using hguard
    obtain ⟨h1, h2, h3⟩ := ih (deletedCount + 1) _ hg2
      (selectAll_setRows_same _ _ _ _ rfl) hguard2
    refine ⟨?_, h2, ?_⟩
    · rw [h1]
      simp only [List.length_cons, Nat.cast_add, Nat.cast_one]
      congr 1
      ring
    · rw [h3]
      simp [TableManager.setRows, tables_ensureData]

/-- C14: in every manager state where a table is registered under the name `t`
and the foreign-key delete guard does not block it (its schema has no
primary-key list, or no foreign key of any registered table references `t`),
the text `DELETE FROM t WHERE a > 1` runs through lexer, parser and executor to
a result with `success = true` and `affectedRows` equal to the number of rows
the table held, and the table is empty afterwards, whatever the rows contain
and whether or not the schema has a column `a`. -/
theorem c14_delete_where_greater_removes_all (clock : Clock) (m : TableManager)
    (schema : TableSchema) (hg : m.getTable "t" = some schema)
    (hguard : schema.primaryKeyColumns = [] ∨
      ∀ e ∈ m.tables, ∀ f ∈ e.2.foreignKeys, qToLower f.2.referencedTable ≠ qToLower "t") :
    ∃ r, runSql clock m "DELETE FROM t WHERE a > 1" = some r
      ∧ r.1.success = true
      ∧ r.1.affectedRows = ((m.selectAll "t").length : Int)
      ∧ r.1.errorMessage = ""
      ∧ r.2.selectAll "t" = [] := by
  have htok : Lexer.tokenize "DELETE FROM t WHERE a > 1"
      = some [⟨.DELETE, "DELETE", 1, 1⟩, ⟨.FROM, "FROM", 1, 8⟩, ⟨.IDENTIFIER, "t", 1, 13⟩,
          ⟨.WHERE, "WHERE", 1, 15⟩, ⟨.IDENTIFIER, "a", 1, 21⟩, ⟨.GREATER, ">", 1, 24⟩,
          ⟨.NUMBER, "1", 1, 25⟩, ⟨.END_OF_FILE, "", 1, 26⟩] := by decide!
  have hparse : Parser.parse [⟨.DELETE, "DELETE", 1, 1⟩, ⟨.FROM, "FROM", 1, 8⟩,
        ⟨.IDENTIFIER, "t", 1, 13⟩, ⟨.WHERE, "WHERE", 1, 15⟩, ⟨.IDENTIFIER, "a", 1, 21⟩,
        ⟨.GREATER, ">", 1, 24⟩, ⟨.NUMBER, "1", 1, 25⟩, ⟨.END_OF_FILE, "", 1, 26⟩]
      = .ok (.deleteStmt { tableName := "t", whereClause := "a > 1" })
          [⟨.END_OF_FILE, "", 1, 26⟩] := by decide!
  have hw : ∀ row, QueryExecutor.evaluateCondition
      ({ tableName := "t", whereClause := "a > 1" } : DeleteStatement).whereClause schema row
        = true := by
    intro row
    unfold QueryExecutor.evaluateCondition
    have hsplit : qSplit "a > 1" "=" = ["a > 1"] := by decide
    have hne : ("a > 1" : String).data.isEmpty = false := rfl
    simp only [hne, hsplit, Bool.false_eq_true, if_false]
  have hguard2 : (if !schema.primaryKeyColumns.isEmpty then m.referencingTable "t" else none)
      = none := by
    rcases hguard with h | h
    · simp [h]
    · rw [(referencingTable_eq_none m "t").mpr h]
      simp
  obtain ⟨h1, h2, -⟩ := deleteLoop_all { tableName := "t", whereClause := "a > 1" } schema hw
    (m.selectAll "t").reverse 0 m hg (by simp) hguard2
  refine ⟨_, ?_, ?_, ?_, ?_, h2⟩
  · unfold runSql
    rw [htok]
    simp only [hparse, QueryExecutor.execute, QueryExecutor.executeDelete, hg]
  · rw [h1]
  · rw [h1]; simp
  · rw [h1]

/-- C14 at a concrete state: the table `t` holding the rows 1, 2, 3 in its column `n`. -/
theorem c14_delete_where_greater_witness :
    ∃ r, runSql sampleClock threeRowTable "DELETE FROM t WHERE a > 1" = some r
      ∧ r.1.success = true
      ∧ r.1.affectedRows = ((threeRowTable.selectAll "t").length : Int)
      ∧ r.1.errorMessage = ""
      ∧ r.2.selectAll "t" = [] :=
  c14_delete_where_greater_removes_all sampleClock threeRowTable
    ((TableSchema.new "t").addColumn (Column.new "n" .INT)) (by decide!) (Or.inl rfl)

/-! ## C15: the message for an empty value on a primary-key column -/

/-- C15, the code on the column of `test_column_primary_key`: for
`Column("id", INT)` after `setPrimaryKey(true)`, `validateValue("")` returns
false with the message `Column does not accept NULL values`, the text of a plain
NOT NULL failure, in which `PRIMARY KEY` does not occur (Test 2.2 asserts that it
does): the empty value is answered by the NULL test at the head of
`validateValue`, and the later test that would set `PRIMARY KEY cannot be empty`
is never reached with an empty value.  After a further `setNullable(true)` the
column still has `primaryKey = true` and `validateValue("")` returns true. -/
theorem c15_empty_value_on_primary_key :
    ((Column.new "id" .INT).setPrimaryKey true).primaryKey = true
    ∧ ((Column.new "id" .INT).setPrimaryKey true).validateValue "" = false
    ∧ ((Column.new "id" .INT).setPrimaryKey true).validateValueErr ""
        = some "Column does not accept NULL values"
    ∧ qContains "Column does not accept NULL values" "PRIMARY KEY" = false
    ∧ (((Column.new "id" .INT).setPrimaryKey true).setNullable true).primaryKey = true
    ∧ (((Column.new "id" .INT).setPrimaryKey true).setNullable true).validateValue "" = true := by
  decide

/-! ## C16: primary key implies not nullable -/

theorem applySetters_keeps_key (calls : List ColumnSetter) (c : Column)
    (hinv : c.primaryKey = true → c.nullable = false)
    (hcalls : noNullableOnKey c calls = true) :
    (applySetters c calls).primaryKey = true → (applySetters c calls).nullable = false := by
  induction calls generalizing c with
  | nil => simpa [applySetters] using hinv
  | cons s rest ih =>
    simp only [noNullableOnKey, Bool.and_eq_true, Bool.not_eq_true', Bool.and_eq_false_imp,
      decide_eq_true_eq] at hcalls
    obtain ⟨hs, hrest⟩ := hcalls
    have hstep : (s.apply c).primaryKey = true → (s.apply c).nullable = false := by
      cases s with
      | setNullable n =>
        cases n with
        | false => intro _; rfl
        | true =>
          intro hpk
          have hpk2 : c.primaryKey = true := hpk
          have := hs rfl
          rw [hpk2] at this
          exact absurd this (by decide)
      | setPrimaryKey pk =>
        cases pk with
        | false => intro hpk; exact absurd hpk (by simp [ColumnSetter.apply, Column.setPrimaryKey])
        | true => intro _; rfl
      | setNotNull nn =>
        cases nn with
        | false => exact hinv
        | true => intro _; rfl
      | setUnique u => exact hinv
      | setDefaultValue d => exact hinv
      | setForeignKey table column => exact hinv
      | setCheckCondition condition => exact hinv
      | setMaxLength len => exact hinv
      | setDecimalPrecision p s => exact hinv
      | setAutoIncrement ai => exact hinv
      | setDescription d => exact hinv
    exact ih (s.apply c) hstep hrest

/-- C16, counterexample: the calls `setPrimaryKey(true)`, `setNullable(true)` on
`Column("id", INT)` leave a column with `isPrimaryKey()` true and `isNullable()`
true: `setNullable` stores its argument without looking at `primaryKey`. -/
theorem c16_setNullable_after_setPrimaryKey :
    (applySetters (Column.new "id" .INT) [.setPrimaryKey true, .setNullable true]).primaryKey
        = true
    ∧ (applySetters (Column.new "id" .INT) [.setPrimaryKey true, .setNullable true]).nullable
        = true
    ∧ ((Column.new "id" .INT).setPrimaryKey true).setNullable true
        = applySetters (Column.new "id" .INT) [.setPrimaryKey true, .setNullable true] := by
  decide

/-- C16 as amended: for every column built by `Column(name, type)` and every
sequence of calls of its public setters in which `setNullable(true)` is never
called while `isPrimaryKey()` is true, the column reached has `isNullable()`
false whenever it has `isPrimaryKey()` true. -/
theorem c16_primary_key_not_nullable (name : String) (type : DataType)
    (calls : List ColumnSetter)
    (hcalls : noNullableOnKey (Column.new name type) calls = true)
    (hpk : (applySetters (Column.new name type) calls).primaryKey = true) :
    (applySetters (Column.new name type) calls).nullable = false :=
  applySetters_keeps_key calls (Column.new name type) (fun h => Bool.noConfusion h) hcalls hpk

/-- C16 as amended, at a concrete sequence: `setNullable(true)`, `setPrimaryKey(true)`,
`setNotNull(false)`, `setUnique(true)`. -/
theorem c16_primary_key_not_nullable_witness :
    (applySetters (Column.new "id" .INT)
      [.setNullable true, .setPrimaryKey true, .setNotNull false, .setUnique true]).nullable
        = false :=
  c16_primary_key_not_nullable "id" .INT
    [.setNullable true, .setPrimaryKey true, .setNotNull false, .setUnique true]
    (by decide) (by decide)

/-! ## White space and digits -/

theorem isDigitChar_not_space (c : Char) (h : isDigitChar c = true) : qIsSpace c = false := by
  simp only [isDigitChar, Bool.and_eq_true, decide_eq_true_eq] at h
  simp only [qIsSpace, Bool.or_eq_false_iff, beq_eq_false_iff_ne, ne_eq, Bool.and_eq_false_imp,
    decide_eq_true_eq, decide_eq_false_iff_not]
  omega

theorem dropSpaces_of_head (c : Char) (cs : List Char) (h : qIsSpace c = false) :
    dropSpaces (c :: cs) = c :: cs := by
  simp [dropSpaces, h]

theorem dropSpaces_append_last (xs : List Char) (c : Char) (h : qIsSpace c = false) :
    ∃ l, dropSpaces (xs ++ [c]) = l ++ [c] ∧ (∀ d l2, xs = d :: l2 → qIsSpace d = false → l = xs) := by
  induction xs with
  | nil => exact ⟨[], by simp [dropSpaces, h], by simp⟩
  | cons x xs ih =>
    by_cases hx : qIsSpace x = true
    · obtain ⟨l, hl, -⟩ := ih
      refine ⟨l, by simpa [dropSpaces, hx] using hl, ?_⟩
      intro d l2 hd hsp
      cases hd
      simp [hx] at hsp
    · have hx2 : qIsSpace x = false := by simpa using hx
      exact ⟨x :: xs, by simp [dropSpaces, hx2], fun _ _ _ _ => rfl⟩

/-- Trimming keeps a text that starts and ends with a character that is not white space. -/
theorem trimChars_of_ends (a z : Char) (mid : List Char) (ha : qIsSpace a = false)
    (hz : qIsSpace z = false) : trimChars (a :: (mid ++ [z])) = a :: (mid ++ [z]) := by
  unfold trimChars
  rw [dropSpaces_of_head a _ ha]
  have hrev : (a :: (mid ++ [z])).reverse = z :: (mid.reverse ++ [a]) := by simp
  rw [hrev, dropSpaces_of_head z _ hz, ← hrev, List.reverse_reverse]

theorem trimChars_singleton (a : Char) (ha : qIsSpace a = false) : trimChars [a] = [a] := by
  simp [trimChars, dropSpaces, ha]

/-- Trimming keeps a non-empty text whose first and last characters are not white space. -/
theorem trimChars_of_first_last (cs : List Char) (hne : cs ≠ [])
    (hfirst : ∀ c ∈ cs.head?, qIsSpace c = false)
    (hlast : ∀ c ∈ cs.getLast?, qIsSpace c = false) : trimChars cs = cs := by
  cases cs with
  | nil => exact absurd rfl hne
  | cons a rest =>
    have ha : qIsSpace a = false := hfirst a (by simp)
    rcases List.eq_nil_or_concat rest with h | ⟨mid, z, h⟩
    · subst h
      exact trimChars_singleton a ha
    · subst h
      have hz : qIsSpace z = false := hlast z (by simp [List.getLast?_eq_getLast])
      simpa using trimChars_of_ends a z mid ha hz

theorem trimChars_space_cons (cs : List Char) : trimChars (' ' :: cs) = trimChars cs := by
  simp [trimChars, dropSpaces, qIsSpace]

/-- Trimming keeps the first character when it is not white space. -/
theorem trimChars_head (a : Char) (cs : List Char) (ha : qIsSpace a = false) :
    ∃ r, trimChars (a :: cs) = a :: r := by
  unfold trimChars
  rw [dropSpaces_of_head a _ ha, List.reverse_cons]
  obtain ⟨l, hl, -⟩ := dropSpaces_append_last cs.reverse a ha
  rw [hl]
  exact ⟨l.reverse, by simp⟩

theorem takeWhile_digits (ds : List Char) (h : ∀ c ∈ ds, isDigitChar c = true) :
    ds.takeWhile isDigitChar = ds := by
  rw [List.takeWhile_eq_self_iff]
  exact h

theorem dropWhile_digits (ds : List Char) (h : ∀ c ∈ ds, isDigitChar c = true) :
    ds.dropWhile isDigitChar = [] := by
  rw [List.dropWhile_eq_nil_iff]
  exact h

theorem takeWhile_digits_append (ds r : List Char) (x : Char)
    (h : ∀ c ∈ ds, isDigitChar c = true) (hx : isDigitChar x = false) :
    (ds ++ x :: r).takeWhile isDigitChar = ds := by
  induction ds with
  | nil => simp [List.takeWhile, hx]
  | cons d ds ih =>
    have hd : isDigitChar d = true := h d (List.mem_cons_self _ _)
    simp [List.takeWhile, hd, ih (fun c hc => h c (List.mem_cons_of_mem _ hc))]

theorem dropWhile_digits_append (ds r : List Char) (x : Char)
    (h : ∀ c ∈ ds, isDigitChar c = true) (hx : isDigitChar x = false) :
    (ds ++ x :: r).dropWhile isDigitChar = x :: r := by
  induction ds with
  | nil => simp [List.dropWhile, hx]
  | cons d ds ih =>
    have hd : isDigitChar d = true := h d (List.mem_cons_self _ _)
    simp [List.dropWhile, hd, ih (fun c hc => h c (List.mem_cons_of_mem _ hc))]

theorem digitsValue_foldl_lt (ds : List Char) (h : ∀ c ∈ ds, isDigitChar c = true) (acc : Nat) :
    ds.foldl (fun acc c => acc * 10 + (c.toNat - 48)) acc < (acc + 1) * 10 ^ ds.length := by
  induction ds generalizing acc with
  | nil => simp
  | cons d ds ih =>
    have hd : isDigitChar d = true := h d (List.mem_cons_self _ _)
    simp only [isDigitChar, Bool.and_eq_true, decide_eq_true_eq] at hd
    have h9 : d.toNat - 48 ≤ 9 := by omega
    have := ih (fun c hc => h c (List.mem_cons_of_mem _ hc)) (acc * 10 + (d.toNat - 48))
    simp only [List.foldl_cons, List.length_cons, pow_succ]
    calc _ < (acc * 10 + (d.toNat - 48) + 1) * 10 ^ ds.length := this
      _ ≤ ((acc + 1) * 10) * 10 ^ ds.length := by
          apply Nat.mul_le_mul_right
          omega
      _ = (acc + 1) * (10 ^ ds.length * 10) := by ring

/-- A string of `n` digits denotes a number below `10 ^ n`. -/
theorem digitsValue_lt (ds : List Char) (h : ∀ c ∈ ds, isDigitChar c = true) :
    digitsValue ds < 10 ^ ds.length := by
  simpa [digitsValue] using digitsValue_foldl_lt ds h 0

theorem dropSpaces_of_all (cs : List Char) (h : ∀ c ∈ cs, qIsSpace c = false) :
    dropSpaces cs = cs := by
  cases cs with
  | nil => rfl
  | cons a l => exact dropSpaces_of_head a l (h a (List.mem_cons_self _ _))

/-- Trimming keeps a text without white space. -/
theorem trimChars_of_all (cs : List Char) (h : ∀ c ∈ cs, qIsSpace c = false) :
    trimChars cs = cs := by
  unfold trimChars
  rw [dropSpaces_of_all cs h, dropSpaces_of_all _ (by simpa using h), List.reverse_reverse]

/-! ## `toDouble` on decimal literals -/

theorem isDigitChar_ne (c x : Char) (h : isDigitChar c = true) (hx : isDigitChar x = false) :
    c ≠ x := by
  rintro rfl
  rw [h] at hx
  exact Bool.noConfusion hx

theorem splitSign_digit (c : Char) (r : List Char) (h : isDigitChar c = true) :
    splitSign (c :: r) = (false, c :: r) := by
  have h1 : c ≠ '-' := isDigitChar_ne c '-' h (by decide)
  have h2 : c ≠ '+' := isDigitChar_ne c '+' h (by decide)
  unfold splitSign
  split
  · rename_i heq
    cases heq
    exact absurd rfl h1
  · rename_i heq
    cases heq
    exact absurd rfl h2
  · rfl

/-- What `toDouble` does after white space and sign are removed, on the digits
`d0 :: ip1` with the fraction `fp`. -/
theorem qToDouble_decimal (neg : Bool) (d0 : Char) (ip1 fp : List Char)
    (hipd : ∀ c ∈ d0 :: ip1, isDigitChar c = true) (hfpd : ∀ c ∈ fp, isDigitChar c = true) :
    qToDouble (String.mk ((if neg then ['-'] else []) ++
        (if fp.isEmpty then d0 :: ip1 else (d0 :: ip1) ++ '.' :: fp)))
      = if doubleOutOfRange (digitsValue ((d0 :: ip1) ++ fp)) (-(fp.length : Int)) then none
        else some (.fin
          (if neg then
            -((if fp = [] then nearestDouble (digitsValue ((d0 :: ip1) ++ fp)) 1
              else nearestDouble (digitsValue ((d0 :: ip1) ++ fp)) (10 ^ fp.length)).1 : Int)
          else
            ((if fp = [] then nearestDouble (digitsValue ((d0 :: ip1) ++ fp)) 1
              else nearestDouble (digitsValue ((d0 :: ip1) ++ fp)) (10 ^ fp.length)).1 : Int))
          (if fp = [] then nearestDouble (digitsValue ((d0 :: ip1) ++ fp)) 1
            else nearestDouble (digitsValue ((d0 :: ip1) ++ fp)) (10 ^ fp.length)).2) := by
  have hd0 : isDigitChar d0 = true := hipd d0 (List.mem_cons_self _ _)
  -- the body: digits with the optional fraction
  generalize hbody : (if fp.isEmpty then d0 :: ip1 else (d0 :: ip1) ++ '.' :: fp) = body
  have hbody_head : ∃ r, body = d0 :: r := by
    rw [← hbody]; split
    · exact ⟨_, rfl⟩
    · exact ⟨_, rfl⟩
  have hbody_ns : ∀ c ∈ body, qIsSpace c = false := by
    intro c hc
    rw [← hbody] at hc
    split at hc
    · exact isDigitChar_not_space c (hipd c hc)
    · rcases List.mem_append.mp hc with h | h
      · exact isDigitChar_not_space c (hipd c h)
      · rcases List.mem_cons.mp h with h | h
        · subst h; decide
        · exact isDigitChar_not_space c (hfpd c h)
  have htrim : trimChars ((if neg then ['-'] else []) ++ body)
      = (if neg then ['-'] else []) ++ body := by
    apply trimChars_of_all
    intro c hc
    rcases List.mem_append.mp hc with h | h
    · cases neg
      · simp at h
      · simp at h; subst h; decide
    · exact hbody_ns c h
  obtain ⟨r, hr⟩ := hbody_head
  have hsign : splitSign ((if neg then ['-'] else []) ++ body) = (neg, body) := by
    cases neg
    · simp only [Bool.false_eq_true, if_false, List.nil_append, hr]
      exact splitSign_digit d0 r hd0
    · rfl
  have hnan : ((if neg then ['-'] else []) ++ body == "nan".data) = false := by
    have hd : ("nan" : String).data = ['n', 'a', 'n'] := rfl
    rw [hd, hr]
    cases neg
    · have := isDigitChar_ne d0 'n' hd0 (by decide)
      simp [this]
    · simp
  have hinf : (body == "inf".data) = false := by
    have hd : ("inf" : String).data = ['i', 'n', 'f'] := rfl
    rw [hd, hr]
    have := isDigitChar_ne d0 'i' hd0 (by decide)
    simp [this]
  have htake : body.takeWhile isDigitChar = d0 :: ip1 := by
    rw [← hbody]; split
    · exact takeWhile_digits _ hipd
    · exact takeWhile_digits_append _ _ _ hipd (by decide)
  have hdrop : body.dropWhile isDigitChar = if fp.isEmpty then [] else '.' :: fp := by
    rw [← hbody]; split
    · exact dropWhile_digits _ hipd
    · exact dropWhile_digits_append _ _ _ hipd (by decide)
  unfold qToDouble
  simp only [htrim, hnan, hsign, hinf, htake, hdrop, Bool.false_eq_true, if_false]
  by_cases hfe : fp.isEmpty = true
  · have hfp : fp = [] := by simpa using hfe
    subst hfp
    simp [parseExponent]
  · have hfe2 : fp.isEmpty = false := by simpa using hfe
    simp only [hfe2, Bool.false_eq_true, if_false, List.head?_cons, List.tail_cons,
      takeWhile_digits fp hfpd, dropWhile_digits fp hfpd]
    simp [parseExponent, hfe2, takeWhile_digits fp hfpd, dropWhile_digits fp hfpd]

/-- A decimal with at most 308 integer digits and at most 323 fractional digits
is inside the range of a double. -/
theorem doubleOutOfRange_decimal (ip fp : List Char)
    (hipd : ∀ c ∈ ip, isDigitChar c = true) (hfpd : ∀ c ∈ fp, isDigitChar c = true)
    (hil : ip.length ≤ 308) (hfl : fp.length ≤ 323) :
    doubleOutOfRange (digitsValue (ip ++ fp)) (-(fp.length : Int)) = false := by
  have hlt : digitsValue (ip ++ fp) < 10 ^ ip.length * 10 ^ fp.length := by
    have := digitsValue_lt (ip ++ fp) (by
      intro c hc
      rcases List.mem_append.mp hc with h | h
      · exact hipd c h
      · exact hfpd c h)
    rwa [List.length_append, pow_add] at this
  have hbig : (10 : Nat) ^ 308 ≤ 2 ^ 1024 - 2 ^ 970 := by decide!
  have hsmall : (10 : Nat) ^ 323 < 2 ^ 1075 := by decide!
  have hmono : ∀ a b : Nat, a ≤ b → (10 : Nat) ^ a ≤ 10 ^ b :=
    fun a b h => Nat.pow_le_pow_right (by decide) h
  have hi : (10 : Nat) ^ ip.length ≤ 10 ^ 308 := hmono _ _ hil
  have hf : (10 : Nat) ^ fp.length ≤ 10 ^ 323 := hmono _ _ hfl
  unfold doubleOutOfRange
  by_cases ha : digitsValue (ip ++ fp) = 0
  · simp [ha]
  · have hapos : 1 ≤ digitsValue (ip ++ fp) := Nat.one_le_iff_ne_zero.mpr ha
    have h1 : ¬ ((2 ^ 1024 - 2 ^ 970) * 10 ^ fp.length ≤ digitsValue (ip ++ fp)) := by
      intro hle
      have : (2 ^ 1024 - 2 ^ 970) * 10 ^ fp.length < 10 ^ ip.length * 10 ^ fp.length :=
        lt_of_le_of_lt hle hlt
      have h2 := Nat.lt_of_mul_lt_mul_right this
      exact absurd (lt_of_lt_of_le h2 hi) (not_lt.mpr hbig)
    have h2 : ¬ (digitsValue (ip ++ fp) * 2 ^ 1075 ≤ 10 ^ fp.length) := by
      intro hle
      have h3 : 1 * 2 ^ 1075 ≤ digitsValue (ip ++ fp) * 2 ^ 1075 :=
        Nat.mul_le_mul_right _ hapos
      have h4 : (2 : Nat) ^ 1075 ≤ 10 ^ 323 := by
        calc (2 : Nat) ^ 1075 = 1 * 2 ^ 1075 := (one_mul _).symm
          _ ≤ digitsValue (ip ++ fp) * 2 ^ 1075 := h3
          _ ≤ 10 ^ fp.length := hle
          _ ≤ 10 ^ 323 := hf
      exact absurd hsmall (not_lt.mpr h4)
    have hb : (digitsValue (ip ++ fp) == 0) = false := by simpa using ha
    simp only [hb, Bool.false_eq_true, if_false]
    by_cases hz : 0 ≤ -(fp.length : Int)
    · have hl0 : fp.length = 0 := by omega
      have h5 : ¬ (2 ^ 1024 - 2 ^ 970 ≤ digitsValue (ip ++ fp)) := by
        intro hle
        apply h1
        rw [hl0, pow_zero, mul_one]
        exact hle
      simp only [hz, if_true, hl0, Int.toNat_zero, Nat.cast_zero, neg_zero, pow_zero, mul_one,
        decide_eq_false_iff_not, le_refl]
      exact h5
    · have hn : (-(-(fp.length : Int))).toNat = fp.length := by simp
      simp only [hz, if_false, hn, Bool.or_eq_false_iff, decide_eq_false_iff_not]
      exact ⟨h1, h2⟩

/-- A text whose first character is neither white space nor, lower-cased, the
letter `n` is not a NULL for `validateValue`. -/
theorem not_null_text (v : String) (c : Char) (r : List Char) (hv : v.data = c :: r)
    (hc : lowerChar c ≠ 'n') : (v.data.isEmpty || qToLower v == "null") = false := by
  have h1 : v.data.isEmpty = false := by rw [hv]; rfl
  have h2 : (qToLower v == "null") = false := by
    rw [beq_eq_false_iff_ne]
    intro he
    have hd : (qToLower v).data = ("null" : String).data := by rw [he]
    have hn : ("null" : String).data = ['n', 'u', 'l', 'l'] := rfl
    rw [hn] at hd
    simp only [qToLower, hv, List.map_cons] at hd
    exact hc (List.cons.inj hd).1
  rw [h1, h2]; rfl

theorem lowerChar_digit (c : Char) (h : isDigitChar c = true) : lowerChar c = c := by
  simp only [isDigitChar, Bool.and_eq_true, decide_eq_true_eq] at h
  unfold lowerChar
  rw [if_neg]
  omega

theorem plainDecimal_data (d0 : Char) (ip1 fp : List Char) :
    (plainDecimal (d0 :: ip1) fp).data
      = d0 :: (if fp.isEmpty then ip1 else ip1 ++ '.' :: fp) := by
  unfold plainDecimal
  split <;> rfl

theorem qSplit_plainDecimal (ip fp : List Char)
    (hipd : ∀ c ∈ ip, isDigitChar c = true) (hfpd : ∀ c ∈ fp, isDigitChar c = true) :
    qSplit (plainDecimal ip fp) "."
      = if fp.isEmpty then [String.mk ip] else [String.mk ip, String.mk fp] := by
  have hd : (".": String).data = ['.'] := rfl
  have hi : '.' ∉ ip := fun h => absurd (hipd '.' h) (by decide)
  have hf : '.' ∉ fp := fun h => absurd (hfpd '.' h) (by decide)
  unfold qSplit plainDecimal
  rw [hd]
  split
  · rw [splitGo_single_notin _ _ _ hi]; rfl
  · rw [splitGo_single_append _ _ _ _ hi, splitGo_single_notin _ _ _ hf]; rfl

/-- The verdict of `validateValue` on a plain decimal literal inside the range of
double, for a DECIMAL or NUMERIC column with positive precision and no CHECK. -/
theorem validateValueErr_plainDecimal (c : Column) (ip fp : List Char)
    (hty : c.type = .DECIMAL ∨ c.type = .NUMERIC) (hp : 0 < c.precision)
    (hck : c.checkCondition = "")
    (hip : ip ≠ []) (hipd : ∀ ch ∈ ip, isDigitChar ch = true)
    (hfpd : ∀ ch ∈ fp, isDigitChar ch = true)
    (hil : ip.length ≤ 308) (hfl : fp.length ≤ 323) :
    c.validateValueErr (plainDecimal ip fp)
      = if c.precision < ((ip.length + fp.length : Nat) : Int) then
          some ("Decimal precision exceeded: " ++ showInt ((ip.length + fp.length : Nat) : Int)
            ++ " digits (max " ++ showInt c.precision ++ ")")
        else if 0 < c.scale ∧ c.scale < (fp.length : Int) then
          some ("Decimal scale exceeded: " ++ showInt (fp.length : Int)
            ++ " digits (max " ++ showInt c.scale ++ ")")
        else none := by
  obtain ⟨d0, ip1, rfl⟩ : ∃ d0 ip1, ip = d0 :: ip1 := by
    cases ip with
    | nil => exact absurd rfl hip
    | cons a l => exact ⟨a, l, rfl⟩
  have hd0 : isDigitChar d0 = true := hipd d0 (List.mem_cons_self _ _)
  have hnull : ((plainDecimal (d0 :: ip1) fp).data.isEmpty
      || qToLower (plainDecimal (d0 :: ip1) fp) == "null") = false :=
    not_null_text _ d0 _ (plainDecimal_data d0 ip1 fp) (by
      rw [lowerChar_digit d0 hd0]
      exact isDigitChar_ne d0 'n' hd0 (by decide))
  have hdouble : (qToDouble (plainDecimal (d0 :: ip1) fp)).isSome = true := by
    have h := qToDouble_decimal false d0 ip1 fp hipd hfpd
    simp only [Bool.false_eq_true, if_false, List.nil_append] at h
    have hpd : plainDecimal (d0 :: ip1) fp
        = String.mk (if fp.isEmpty then d0 :: ip1 else (d0 :: ip1) ++ '.' :: fp) := rfl
    rw [hpd, h, doubleOutOfRange_decimal (d0 :: ip1) fp hipd hfpd hil hfl]
    rfl
  have hvalid : DataTypeManager.isValidValue c.type (plainDecimal (d0 :: ip1) fp) = true := by
    unfold DataTypeManager.isValidValue
    rw [hnull]
    rcases hty with h | h <;> rw [h] <;> simpa using hdouble
  have hstr : DataTypeManager.isStringType c.type = false := by
    rcases hty with h | h <;> rw [h] <;> rfl
  have hempty : (plainDecimal (d0 :: ip1) fp).data.isEmpty = false := by
    rw [plainDecimal_data]; rfl
  have hckd : c.checkCondition.data.isEmpty = true := by rw [hck]; rfl
  have htype : c.validateAgainstType (plainDecimal (d0 :: ip1) fp)
      = if c.precision < ((((d0 :: ip1).length + fp.length : Nat)) : Int) then
          some ("Decimal precision exceeded: "
            ++ showInt ((((d0 :: ip1).length + fp.length : Nat)) : Int)
            ++ " digits (max " ++ showInt c.precision ++ ")")
        else if 0 < c.scale ∧ c.scale < (fp.length : Int) then
          some ("Decimal scale exceeded: " ++ showInt (fp.length : Int)
            ++ " digits (max " ++ showInt c.scale ++ ")")
        else none := by
    unfold Column.validateAgainstType
    simp only [hvalid, hstr, Bool.not_true, Bool.false_eq_true, if_false, false_and, and_false,
      hty, hp, and_self, if_true, qSplit_plainDecimal _ _ hipd hfpd]
    have hq1 : qLength (String.mk (d0 :: ip1)) = (d0 :: ip1).length := qLength_digits _ hipd
    have hq2 : qLength (String.mk fp) = fp.length := qLength_digits _ hfpd
    by_cases hfe : fp.isEmpty = true
    · have hfp : fp = [] := by simpa using hfe
      subst hfp
      simp [hq1]
    · have hfe2 : fp.isEmpty = false := by simpa using hfe
      simp [hfe2, hq1, hq2]
  unfold Column.validateValueErr
  rw [hnull]
  simp only [Bool.false_eq_true, if_false, htype, hempty, Bool.and_false, hckd, Bool.not_true]
  split
  · rename_i heq
    exact heq.symm
  · rename_i heq
    rw [heq]

/-! ## C17: precision and scale of DECIMAL values -/

/-- C17, counterexample: (1) on a DECIMAL(3,1) column the literal `1.2345`
overflows both the precision and the scale, and the message speaks of the
precision only; (2) the DECIMAL(10,2) column with the CHECK condition
`price > 100` rejects `5.00`, whose digits fit; (3) the literal of ten to the
power 400 has 401 digits, which fit a DECIMAL(500,2) column, and is rejected
because `toDouble` cannot convert it; on DECIMAL(10,2) the same literal is
rejected with the `Invalid value` message, in which `precision` does not occur. -/
theorem c17_digit_rule_exceptions :
    ((Column.new "price" .DECIMAL).setDecimalPrecision 3 1).validateValueErr "1.2345"
        = some "Decimal precision exceeded: 5 digits (max 3)"
    ∧ qContains "Decimal precision exceeded: 5 digits (max 3)" "scale" = false
    ∧ (priceColumn.setCheckCondition "price > 100").validateValueErr "5.00"
        = some "CHECK constraint failed: price > 100"
    ∧ ((Column.new "price" .DECIMAL).setDecimalPrecision 500 2).validateValue tenPow400 = false
    ∧ (priceColumn.validateValueErr tenPow400).map
        (fun e => (qStartsWith e "Invalid value", qContains e "precision")) = some (true, false) := by
  decide!

/-- C17 as amended: for every DECIMAL or NUMERIC column with precision `p > 0`,
scale `s > 0` and no CHECK condition, and every unsigned plain decimal literal
`v` (digits `ip`, optionally followed by `.` and digits `fp`) with at most 308
integer digits and at most 323 fractional digits (so that `toDouble` converts
it), `validateValue(v)` is true iff the number of integer digits plus the number
of fractional digits is at most `p` and the number of fractional digits is at
most `s`; when the digits exceed `p` the message is the `Decimal precision
exceeded` text, and when they fit `p` but the fractional digits exceed `s` it is
the `Decimal scale exceeded` text. -/
theorem c17_decimal_precision_scale (c : Column) (ip fp : List Char)
    (hty : c.type = .DECIMAL ∨ c.type = .NUMERIC) (hp : 0 < c.precision) (hs : 0 < c.scale)
    (hck : c.checkCondition = "")
    (hip : ip ≠ []) (hipd : ∀ ch ∈ ip, isDigitChar ch = true)
    (hfpd : ∀ ch ∈ fp, isDigitChar ch = true)
    (hil : ip.length ≤ 308) (hfl : fp.length ≤ 323) :
    (c.validateValue (plainDecimal ip fp) = true ↔
        ((ip.length + fp.length : Nat) : Int) ≤ c.precision ∧ (fp.length : Int) ≤ c.scale)
    ∧ (c.precision < ((ip.length + fp.length : Nat) : Int) →
        c.validateValueErr (plainDecimal ip fp)
          = some ("Decimal precision exceeded: "
              ++ showInt ((ip.length + fp.length : Nat) : Int)
              ++ " digits (max " ++ showInt c.precision ++ ")"))
    ∧ (((ip.length + fp.length : Nat) : Int) ≤ c.precision → c.scale < (fp.length : Int) →
        c.validateValueErr (plainDecimal ip fp)
          = some ("Decimal scale exceeded: " ++ showInt (fp.length : Int)
              ++ " digits (max " ++ showInt c.scale ++ ")")) := by
  have h := validateValueErr_plainDecimal c ip fp hty hp hck hip hipd hfpd hil hfl
  refine ⟨?_, ?_, ?_⟩
  · unfold Column.validateValue
    rw [h]
    by_cases h1 : c.precision < ((ip.length + fp.length : Nat) : Int)
    · simp only [h1, if_true, Option.isNone_some, Bool.false_eq_true, false_iff, not_and]
      intro h2
      omega
    · by_cases h2 : c.scale < (fp.length : Int)
      · simp only [h1, if_false, hs, h2, and_self, if_true, Option.isNone_some,
          Bool.false_eq_true, false_iff, not_and]
        intro _
        omega
      · simp only [h1, if_false, h2, and_false, Option.isNone_none, true_iff]
        omega
  · intro h1
    rw [h, if_pos h1]
  · intro h1 h2
    rw [h, if_neg (by omega), if_pos ⟨hs, h2⟩]

/-- C17 as amended, on the DECIMAL(10,2) column of test suite 5: `1234.56` is
accepted, `12345678901.56` is rejected for precision, `123.456` for scale. -/
theorem c17_decimal_precision_scale_witness :
    priceColumn.validateValue "1234.56" = true
    ∧ priceColumn.validateValueErr "12345678901.56"
        = some "Decimal precision exceeded: 13 digits (max 10)"
    ∧ priceColumn.validateValueErr "123.456" = some "Decimal scale exceeded: 3 digits (max 2)" :=
  ⟨(c17_decimal_precision_scale priceColumn "1234".data "56".data (Or.inl rfl) (by decide)
      (by decide) rfl (by decide) (by decide) (by decide) (by decide) (by decide)).1.mpr
      (by decide),
   (c17_decimal_precision_scale priceColumn "12345678901".data "56".data (Or.inl rfl) (by decide)
      (by decide) rfl (by decide) (by decide) (by decide) (by decide) (by decide)).2.1
      (by decide),
   (c17_decimal_precision_scale priceColumn "123".data "456".data (Or.inl rfl) (by decide)
      (by decide) rfl (by decide) (by decide) (by decide) (by decide) (by decide)).2.2
      (by decide) (by decide)⟩

/-! ## `QString::contains` and `QString::split` at any separator -/

theorem startsWithChars_append (p b : List Char) : startsWithChars (p ++ b) p = true := by
  induction p with
  | nil => cases b <;> rfl
  | cons x p ih => simp [startsWithChars, ih]

theorem startsWithChars_head_ne (c x : Char) (s rest : List Char) (h : c ≠ x) :
    startsWithChars (c :: s) (x :: rest) = false := by
  simp [startsWithChars, h]

theorem containsChars_notin (x : Char) (rest s : List Char) (h : x ∉ s) :
    containsChars s (x :: rest) = false := by
  induction s with
  | nil => rfl
  | cons c s ih =>
    have hc : c ≠ x := fun he => h (he ▸ List.mem_cons_self _ _)
    have hs : x ∉ s := fun hm => h (List.mem_cons_of_mem _ hm)
    simp [containsChars, startsWithChars_head_ne c x s rest hc, ih hs]

theorem containsChars_append (a p b : List Char) (hp : p ≠ []) :
    containsChars (a ++ (p ++ b)) p = true := by
  induction a with
  | nil =>
    cases p with
    | nil => exact absurd rfl hp
    | cons x p => simp only [List.nil_append]
                  rw [show (x :: p) ++ b = x :: (p ++ b) from rfl, containsChars,
                    show x :: (p ++ b) = (x :: p) ++ b from rfl, startsWithChars_append]
                  rfl
  | cons c a ih =>
    rw [show (c :: a) ++ (p ++ b) = c :: (a ++ (p ++ b)) from rfl, containsChars, ih]
    simp

theorem splitGo_skip (sep r b acc : List Char) :
    splitGo sep r.length (r ++ b) acc = splitGo sep 0 b acc := by
  induction r with
  | nil => rfl
  | cons c r ih => simpa [splitGo] using ih

theorem splitGo_notin (x : Char) (rest s acc : List Char) (h : x ∉ s) :
    splitGo (x :: rest) 0 s acc = [acc.reverse ++ s] := by
  induction s generalizing acc with
  | nil => simp [splitGo]
  | cons c s ih =>
    have hc : c ≠ x := fun he => h (he ▸ List.mem_cons_self _ _)
    have hs : x ∉ s := fun hm => h (List.mem_cons_of_mem _ hm)
    rw [splitGo, startsWithChars_head_ne c x s rest hc]
    simp [ih _ hs]

theorem splitGo_append (x : Char) (rest a b acc : List Char) (h : x ∉ a) :
    splitGo (x :: rest) 0 (a ++ ((x :: rest) ++ b)) acc
      = (acc.reverse ++ a) :: splitGo (x :: rest) 0 b [] := by
  induction a generalizing acc with
  | nil =>
    simp only [List.nil_append, List.append_nil]
    rw [show (x :: rest) ++ b = x :: (rest ++ b) from rfl, splitGo,
      show x :: (rest ++ b) = (x :: rest) ++ b from rfl, startsWithChars_append]
    simp only [if_true, List.length_cons, Nat.add_sub_cancel]
    rw [splitGo_skip]
  | cons c a ih =>
    have hc : c ≠ x := fun he => h (he ▸ List.mem_cons_self _ _)
    have hs : x ∉ a := fun hm => h (List.mem_cons_of_mem _ hm)
    rw [show (c :: a) ++ ((x :: rest) ++ b) = c :: (a ++ ((x :: rest) ++ b)) from rfl, splitGo,
      startsWithChars_head_ne c x _ rest hc]
    simp only [Bool.false_eq_true, if_false]
    rw [ih _ hs]
    simp

/-- A text with one occurrence of the separator, whose first character occurs
nowhere else, splits into the part before and the part after. -/
theorem qSplit_once (s sep : String) (x : Char) (rest a b : List Char)
    (hsep : sep.data = x :: rest) (hs : s.data = a ++ ((x :: rest) ++ b))
    (ha : x ∉ a) (hb : x ∉ b) : qSplit s sep = [String.mk a, String.mk b] := by
  unfold qSplit
  rw [hsep, hs, splitGo_append x rest a b [] ha, splitGo_notin x rest b [] hb]
  rfl

/-! ## Doubles of small integers -/

theorem log2Go_le (fuel n acc k : Nat) (h : n < 2 ^ (k + 1)) : log2Go fuel n acc ≤ acc + k := by
  induction fuel generalizing n acc k with
  | zero => simp [log2Go]
  | succ fuel ih =>
    unfold log2Go
    split
    · omega
    · rename_i hn
      cases k with
      | zero => simp at h; omega
      | succ j =>
        have h2 : n / 2 < 2 ^ (j + 1) := by
          rw [Nat.div_lt_iff_lt_mul (by decide)]
          rw [pow_succ] at h
          exact h
        have := ih (n / 2) (acc + 1) j h2
        omega

theorem roundHalfEven_one (n : Nat) : roundHalfEven n 1 = n := by
  simp [roundHalfEven, Nat.mod_one]

/-- An integer below `2 ^ 53` is a double: rounding returns it, scaled by a power of two. -/
theorem nearestDouble_small (n : Nat) (h : n < 2 ^ 53) :
    ∃ k : Nat, nearestDouble n 1 = (n * 2 ^ k, -(k : Int)) := by
  unfold nearestDouble
  by_cases hn : n = 0
  · exact ⟨0, by simp [hn]⟩
  · simp only [hn, if_false]
    have hl : floorLog2N n ≤ 52 := by
      have := log2Go_le n n 0 52 h
      simpa [floorLog2N] using this
    have h1 : floorLog2N 1 = 0 := rfl
    have hfl : floorLog2 n 1 ≤ 52 := by
      unfold floorLog2
      rw [h1]
      simp only [Nat.cast_zero, sub_zero]
      split <;> omega
    generalize floorLog2 n 1 = fl at hfl
    have hk : max (fl - 52) (-1074) ≤ 0 := by omega
    generalize max (fl - 52) (-1074) = k at hk
    by_cases hk0 : 0 ≤ k
    · have : k = 0 := by omega
      subst this
      exact ⟨0, by simp [roundHalfEven_one]⟩
    · refine ⟨(-k).toNat, ?_⟩
      simp only [hk0, if_false, roundHalfEven_one]
      congr 1
      omega

theorem dyadicCmp_scaled (z1 z2 : Int) (k1 k2 : Nat) :
    dyadicCmp (z1 * 2 ^ k1) (-(k1 : Int)) (z2 * 2 ^ k2) (-(k2 : Int))
      = (z1 - z2) * 2 ^ (max k1 k2) := by
  unfold dyadicCmp
  have h1 : (-(k1 : Int) - min (-(k1 : Int)) (-(k2 : Int))).toNat = max k1 k2 - k1 := by omega
  have h2 : (-(k2 : Int) - min (-(k1 : Int)) (-(k2 : Int))).toNat = max k1 k2 - k2 := by omega
  simp only [h1, h2]
  have e1 : (z1 * 2 ^ k1) * 2 ^ (max k1 k2 - k1) = z1 * 2 ^ (max k1 k2) := by
    rw [mul_assoc, ← pow_add]
    congr 2
    omega
  have e2 : (z2 * 2 ^ k2) * 2 ^ (max k1 k2 - k2) = z2 * 2 ^ (max k1 k2) := by
    rw [mul_assoc, ← pow_add]
    congr 2
    omega
  rw [e1, e2]
  ring

theorem QDouble.lt_scaled (z1 z2 : Int) (k1 k2 : Nat) :
    QDouble.lt (.fin (z1 * 2 ^ k1) (-(k1 : Int))) (.fin (z2 * 2 ^ k2) (-(k2 : Int)))
      = decide (z1 < z2) := by
  have hpos : (0 : Int) < 2 ^ (max k1 k2) := by positivity
  simp only [QDouble.lt, dyadicCmp_scaled]
  congr 1
  apply propext
  constructor
  · intro h
    by_contra hc
    have h0 : 0 ≤ z1 - z2 := by omega
    have := mul_nonneg h0 hpos.le
    omega
  · intro h
    exact mul_neg_of_neg_of_pos (by omega) hpos

theorem QDouble.le_scaled (z1 z2 : Int) (k1 k2 : Nat) :
    QDouble.le (.fin (z1 * 2 ^ k1) (-(k1 : Int))) (.fin (z2 * 2 ^ k2) (-(k2 : Int)))
      = decide (z1 ≤ z2) := by
  have hpos : (0 : Int) < 2 ^ (max k1 k2) := by positivity
  simp only [QDouble.le, dyadicCmp_scaled]
  congr 1
  apply propext
  constructor
  · intro h
    by_contra hc
    have h0 : 0 < z1 - z2 := by omega
    have := mul_pos h0 hpos
    omega
  · intro h
    have h0 : z1 - z2 ≤ 0 := by omega
    exact mul_nonpos_of_nonpos_of_nonneg h0 hpos.le

/-! ## Integer literals -/

theorem integerLiteral_data (neg : Bool) (ds : List Char) :
    (integerLiteral neg ds).data = (if neg then ['-'] else []) ++ ds := by
  cases neg <;> rfl

theorem integerLiteral_no_space (neg : Bool) (ds : List Char)
    (hd : ∀ c ∈ ds, isDigitChar c = true) :
    ∀ c ∈ (integerLiteral neg ds).data, qIsSpace c = false := by
  intro c hc
  rw [integerLiteral_data] at hc
  rcases List.mem_append.mp hc with h | h
  · cases neg
    · simp at h
    · simp at h; subst h; decide
  · exact isDigitChar_not_space c (hd c h)

theorem integerLiteral_not_null (neg : Bool) (ds : List Char) (hne : ds ≠ [])
    (hd : ∀ c ∈ ds, isDigitChar c = true) :
    ((integerLiteral neg ds).data.isEmpty || qToLower (integerLiteral neg ds) == "null")
      = false := by
  obtain ⟨d0, r, rfl⟩ : ∃ d0 r, ds = d0 :: r := by
    cases ds with
    | nil => exact absurd rfl hne
    | cons a l => exact ⟨a, l, rfl⟩
  have hd0 : isDigitChar d0 = true := hd d0 (List.mem_cons_self _ _)
  cases neg
  · exact not_null_text _ d0 r rfl (by
      rw [lowerChar_digit d0 hd0]
      exact isDigitChar_ne d0 'n' hd0 (by decide))
  · exact not_null_text _ '-' (d0 :: r) rfl (by decide)

theorem splitSign_integerLiteral (neg : Bool) (ds : List Char) (hne : ds ≠ [])
    (hd : ∀ c ∈ ds, isDigitChar c = true) :
    splitSign (integerLiteral neg ds).data = (neg, ds) := by
  obtain ⟨d0, r, rfl⟩ : ∃ d0 r, ds = d0 :: r := by
    cases ds with
    | nil => exact absurd rfl hne
    | cons a l => exact ⟨a, l, rfl⟩
  cases neg
  · exact splitSign_digit d0 r (hd d0 (List.mem_cons_self _ _))
  · rfl

/-- `toLongLong` reads an integer literal of magnitude below `2 ^ 53` as its value. -/
theorem qToLongLong_integerLiteral (neg : Bool) (ds : List Char) (hne : ds ≠ [])
    (hd : ∀ c ∈ ds, isDigitChar c = true) (hb : digitsValue ds < 2 ^ 53) :
    qToLongLong (integerLiteral neg ds) = some (integerValue neg ds) := by
  have hall : ds.all isDigitChar = true := by simpa using hd
  have hemp : ds.isEmpty = false := by
    cases ds with
    | nil => exact absurd rfl hne
    | cons a l => rfl
  have hparse : parseInteger (integerLiteral neg ds) = some (integerValue neg ds) := by
    unfold parseInteger
    rw [trimChars_of_all _ (integerLiteral_no_space neg ds hd),
      splitSign_integerLiteral neg ds hne hd]
    simp only [hemp, hall, Bool.not_true, Bool.or_self, Bool.false_eq_true, if_false]
    cases neg <;> rfl
  unfold qToLongLong
  rw [hparse]
  have hb2 : (digitsValue ds : Int) < 2 ^ 53 := by exact_mod_cast hb
  have h0 : (0 : Int) ≤ digitsValue ds := Int.natCast_nonneg _
  have hr : -(2 : Int) ^ 63 ≤ integerValue neg ds ∧ integerValue neg ds < (2 : Int) ^ 63 := by
    unfold integerValue
    cases neg
    · simp only [Bool.false_eq_true, if_false]
      constructor <;> omega
    · simp only [if_true]
      constructor <;> omega
  simp only [hr, and_self, if_true]

/-- `toDouble` reads an integer literal of magnitude below `2 ^ 53` as its value:
the double is the integer itself, written with some binary scale. -/
theorem qToDouble_integerLiteral (neg : Bool) (ds : List Char) (hne : ds ≠ [])
    (hd : ∀ c ∈ ds, isDigitChar c = true) (hb : digitsValue ds < 2 ^ 53) :
    ∃ k : Nat, qToDouble (integerLiteral neg ds)
      = some (.fin (integerValue neg ds * 2 ^ k) (-(k : Int))) := by
  obtain ⟨d0, r, rfl⟩ : ∃ d0 r, ds = d0 :: r := by
    cases ds with
    | nil => exact absurd rfl hne
    | cons a l => exact ⟨a, l, rfl⟩
  have h := qToDouble_decimal neg d0 r [] hd (by simp)
  have htext : integerLiteral neg (d0 :: r)
      = String.mk ((if neg then ['-'] else []) ++
          (if ([] : List Char).isEmpty then d0 :: r else (d0 :: r) ++ '.' :: [])) := by
    cases neg <;> rfl
  have hrange : doubleOutOfRange (digitsValue (d0 :: r)) (-((0 : Nat) : Int)) = false := by
    have hbig : (2 : Nat) ^ 53 ≤ 2 ^ 1024 - 2 ^ 970 := by decide!
    unfold doubleOutOfRange
    by_cases h0 : digitsValue (d0 :: r) = 0
    · simp [h0]
    · have hbeq : (digitsValue (d0 :: r) == 0) = false := by simpa using h0
      have hnot : ¬ (2 ^ 1024 - 2 ^ 970 ≤ digitsValue (d0 :: r)) := by omega
      simp only [hbeq, Bool.false_eq_true, if_false, Nat.cast_zero, neg_zero, le_refl, if_true,
        Int.toNat_zero, pow_zero, mul_one, decide_eq_false_iff_not]
      exact hnot
  obtain ⟨k, hk⟩ := nearestDouble_small (digitsValue (d0 :: r)) hb
  refine ⟨k, ?_⟩
  rw [htext, h]
  simp only [List.append_nil, List.length_nil, hrange, Bool.false_eq_true, if_false, if_true, hk]
  unfold integerValue
  cases neg
  · simp
  · simp

/-! ## The comparison branches of `evaluateExpression` -/

theorem checkBranch_miss (cond op v : String) (x : Char) (rest : List Char)
    (cmp : QDouble → QDouble → Bool) (hop : op.data = x :: rest) (hx : x ∉ cond.data) :
    checkBranch cond op v cmp = none := by
  unfold checkBranch qContains
  rw [hop, containsChars_notin x rest cond.data hx]
  rfl

theorem checkBranch_bad_rhs (cond op v : String) (x : Char) (rest a b : List Char)
    (cmp : QDouble → QDouble → Bool) (hop : op.data = x :: rest)
    (hc : cond.data = a ++ ((x :: rest) ++ b)) (ha : x ∉ a) (hb : x ∉ b)
    (hn : qToDouble (qTrimmed (String.mk b)) = none) :
    checkBranch cond op v cmp = none := by
  unfold checkBranch
  rw [qSplit_once cond op x rest a b hop hc ha hb]
  simp only [hn]
  split <;> rfl

theorem checkBranch_hit (cond op v : String) (x : Char) (rest a b : List Char)
    (cmp : QDouble → QDouble → Bool) (dn dv : QDouble) (hop : op.data = x :: rest)
    (hc : cond.data = a ++ ((x :: rest) ++ b)) (ha : x ∉ a) (hb : x ∉ b)
    (hn : qToDouble (qTrimmed (String.mk b)) = some dn) (hv : qToDouble v = some dv) :
    checkBranch cond op v cmp = some (cmp dv dn) := by
  have hcont : qContains cond op = true := by
    unfold qContains
    rw [hop, hc]
    exact containsChars_append a (x :: rest) b (by simp)
  unfold checkBranch
  rw [hcont, qSplit_once cond op x rest a b hop hc ha hb]
  simp only [hn, hv, if_true]

/-- A text that starts with `=` is not a number. -/
theorem qToDouble_eq_head (r : List Char) : qToDouble (String.mk ('=' :: r)) = none := by
  obtain ⟨r2, h⟩ := trimChars_head '=' r (by decide)
  have hdata : (String.mk ('=' :: r)).data = '=' :: r := rfl
  have hnan : ('=' :: r2 == "nan".data) = false := by
    have hd : ("nan" : String).data = ['n', 'a', 'n'] := rfl
    rw [hd]
    simp
  have hsign : splitSign ('=' :: r2) = (false, '=' :: r2) := rfl
  have hinf : ('=' :: r2 == "inf".data) = false := by
    have hd : ("inf" : String).data = ['i', 'n', 'f'] := rfl
    rw [hd]
    simp
  have ht : ('=' :: r2).takeWhile isDigitChar = [] := by
    simp [List.takeWhile, show isDigitChar '=' = false from by decide]
  have hdw : ('=' :: r2).dropWhile isDigitChar = '=' :: r2 := by
    simp [List.dropWhile, show isDigitChar '=' = false from by decide]
  unfold qToDouble
  simp only [hdata, h, hnan, hsign, hinf, ht, hdw, Bool.false_eq_true, if_false]
  simp

theorem qToDouble_trimmed_eq_head (r : List Char) :
    qToDouble (qTrimmed (String.mk ('=' :: r))) = none := by
  obtain ⟨r2, h⟩ := trimChars_head '=' r (by decide)
  have hq : qTrimmed (String.mk ('=' :: r)) = String.mk ('=' :: r2) := by
    unfold qTrimmed
    rw [show (String.mk ('=' :: r)).data = '=' :: r from rfl, h]
  rw [hq]
  exact qToDouble_eq_head r2

theorem integerLiteral_mem (neg : Bool) (ds : List Char)
    (hd : ∀ c ∈ ds, isDigitChar c = true) (x : Char) (hx : isDigitChar x = false)
    (hm : x ≠ '-') : x ∉ (integerLiteral neg ds).data := by
  intro hc
  rw [integerLiteral_data] at hc
  rcases List.mem_append.mp hc with h | h
  · cases neg
    · simp at h
    · simp at h; exact hm h
  · rw [hd x h] at hx
    exact Bool.noConfusion hx

theorem qTrimmed_blank_integerLiteral (neg : Bool) (ds : List Char)
    (hd : ∀ c ∈ ds, isDigitChar c = true) :
    qTrimmed (String.mk (' ' :: (integerLiteral neg ds).data)) = integerLiteral neg ds := by
  unfold qTrimmed
  rw [show (String.mk (' ' :: (integerLiteral neg ds).data)).data
      = ' ' :: (integerLiteral neg ds).data from rfl, trimChars_space_cons,
    trimChars_of_all _ (integerLiteral_no_space neg ds hd)]

/-- The value of `evaluateExpression` on a condition `name OP n` and an integer
literal, both integers of magnitude below `2 ^ 53`. -/
theorem evaluateExpression_comparison (name : List Char) (op : CompareOp)
    (nneg vneg : Bool) (nds vds : List Char)
    (hlt : '<' ∉ name) (hgt : '>' ∉ name)
    (hnne : nds ≠ []) (hnd : ∀ ch ∈ nds, isDigitChar ch = true) (hnb : digitsValue nds < 2 ^ 53)
    (hvne : vds ≠ []) (hvd : ∀ ch ∈ vds, isDigitChar ch = true) (hvb : digitsValue vds < 2 ^ 53) :
    CheckConstraint.evaluateExpression (comparisonText name op (integerLiteral nneg nds))
        (integerLiteral vneg vds)
      = op.holds (integerValue vneg vds) (integerValue nneg nds) := by
  obtain ⟨kn, hn⟩ := qToDouble_integerLiteral nneg nds hnne hnd hnb
  obtain ⟨kv, hv⟩ := qToDouble_integerLiteral vneg vds hvne hvd hvb
  have hn2 : qToDouble (qTrimmed (String.mk (' ' :: (integerLiteral nneg nds).data)))
      = some (.fin (integerValue nneg nds * 2 ^ kn) (-(kn : Int))) := by
    rw [qTrimmed_blank_integerLiteral nneg nds hnd, hn]
  have hngt : '>' ∉ (integerLiteral nneg nds).data :=
    integerLiteral_mem nneg nds hnd '>' (by decide) (by decide)
  have hnlt : '<' ∉ (integerLiteral nneg nds).data :=
    integerLiteral_mem nneg nds hnd '<' (by decide) (by decide)
  have hagt : '>' ∉ name ++ [' '] := by
    simp only [List.mem_append, List.mem_singleton, not_or]
    exact ⟨hgt, by decide⟩
  have halt : '<' ∉ name ++ [' '] := by
    simp only [List.mem_append, List.mem_singleton, not_or]
    exact ⟨hlt, by decide⟩
  have hbgt : '>' ∉ ' ' :: (integerLiteral nneg nds).data := by
    simp only [List.mem_cons, not_or]
    exact ⟨by decide, hngt⟩
  have hblt : '<' ∉ ' ' :: (integerLiteral nneg nds).data := by
    simp only [List.mem_cons, not_or]
    exact ⟨by decide, hnlt⟩
  have hbgt2 : '>' ∉ '=' :: ' ' :: (integerLiteral nneg nds).data := by
    simp only [List.mem_cons, not_or]
    exact ⟨by decide, by decide, hngt⟩
  have hblt2 : '<' ∉ '=' :: ' ' :: (integerLiteral nneg nds).data := by
    simp only [List.mem_cons, not_or]
    exact ⟨by decide, by decide, hnlt⟩
  cases op with
  | gt =>
    have hc : (comparisonText name .gt (integerLiteral nneg nds)).data
        = (name ++ [' ']) ++ (('>' :: []) ++ ' ' :: (integerLiteral nneg nds).data) := by
      simp [comparisonText, CompareOp.text]
    have h1 := checkBranch_hit _ ">" (integerLiteral vneg vds) '>' [] _ _
      (fun d c => QDouble.lt c d) _ _ rfl hc hagt hbgt hn2 hv
    unfold CheckConstraint.evaluateExpression
    simp only [h1, QDouble.lt_scaled]
    rfl
  | lt =>
    have hc : (comparisonText name .lt (integerLiteral nneg nds)).data
        = (name ++ [' ']) ++ (('<' :: []) ++ ' ' :: (integerLiteral nneg nds).data) := by
      simp [comparisonText, CompareOp.text]
    have hx : '>' ∉ (comparisonText name .lt (integerLiteral nneg nds)).data := by
      rw [hc]
      simp only [List.mem_append, List.mem_cons, List.mem_singleton, not_or, List.not_mem_nil,
        or_false]
      exact ⟨⟨hgt, by decide⟩, by decide, by decide, hngt⟩
    have h1 := checkBranch_miss _ ">" (integerLiteral vneg vds) '>' []
      (fun d c => QDouble.lt c d) rfl hx
    have h2 := checkBranch_hit _ "<" (integerLiteral vneg vds) '<' [] _ _
      (fun d c => QDouble.lt d c) _ _ rfl hc halt hblt hn2 hv
    unfold CheckConstraint.evaluateExpression
    simp only [h1, h2, QDouble.lt_scaled]
    rfl
  | ge =>
    have hc : (comparisonText name .ge (integerLiteral nneg nds)).data
        = (name ++ [' ']) ++ (('>' :: ['=']) ++ ' ' :: (integerLiteral nneg nds).data) := by
      simp [comparisonText, CompareOp.text]
    have hc1 : (comparisonText name .ge (integerLiteral nneg nds)).data
        = (name ++ [' ']) ++ (('>' :: []) ++ '=' :: ' ' :: (integerLiteral nneg nds).data) := by
      simp [comparisonText, CompareOp.text]
    have hx : '<' ∉ (comparisonText name .ge (integerLiteral nneg nds)).data := by
      rw [hc]
      simp only [List.mem_append, List.mem_cons, List.mem_singleton, not_or, List.not_mem_nil,
        or_false]
      exact ⟨⟨hlt, by decide⟩, ⟨by decide, by decide⟩, by decide, hnlt⟩
    have h1 := checkBranch_bad_rhs _ ">" (integerLiteral vneg vds) '>' [] _ _
      (fun d c => QDouble.lt c d) rfl hc1 hagt hbgt2 (qToDouble_trimmed_eq_head _)
    have h2 := checkBranch_miss _ "<" (integerLiteral vneg vds) '<' []
      (fun d c => QDouble.lt d c) rfl hx
    have h3 := checkBranch_hit _ ">=" (integerLiteral vneg vds) '>' ['='] _ _
      (fun d c => QDouble.le c d) _ _ rfl hc hagt hbgt hn2 hv
    unfold CheckConstraint.evaluateExpression
    simp only [h1, h2, h3, QDouble.le_scaled]
    rfl
  | le =>
    have hc : (comparisonText name .le (integerLiteral nneg nds)).data
        = (name ++ [' ']) ++ (('<' :: ['=']) ++ ' ' :: (integerLiteral nneg nds).data) := by
      simp [comparisonText, CompareOp.text]
    have hc1 : (comparisonText name .le (integerLiteral nneg nds)).data
        = (name ++ [' ']) ++ (('<' :: []) ++ '=' :: ' ' :: (integerLiteral nneg nds).data) := by
      simp [comparisonText, CompareOp.text]
    have hx : '>' ∉ (comparisonText name .le (integerLiteral nneg nds)).data := by
      rw [hc]
      simp only [List.mem_append, List.mem_cons, List.mem_singleton, not_or, List.not_mem_nil,
        or_false]
      exact ⟨⟨hgt, by decide⟩, ⟨by decide, by decide⟩, by decide, hngt⟩
    have h1 := checkBranch_miss _ ">" (integerLiteral vneg vds) '>' []
      (fun d c => QDouble.lt c d) rfl hx
    have h2 := checkBranch_bad_rhs _ "<" (integerLiteral vneg vds) '<' [] _ _
      (fun d c => QDouble.lt d c) rfl hc1 halt hblt2 (qToDouble_trimmed_eq_head _)
    have h3 := checkBranch_miss _ ">=" (integerLiteral vneg vds) '>' ['=']
      (fun d c => QDouble.le c d) rfl hx
    have h4 := checkBranch_hit _ "<=" (integerLiteral vneg vds) '<' ['='] _ _
      (fun d c => QDouble.le d c) _ _ rfl hc halt hblt hn2 hv
    unfold CheckConstraint.evaluateExpression
    simp only [h1, h2, h3, h4, QDouble.le_scaled]
    rfl

theorem data_isEmpty_false (s : String) (h : s ≠ "") : s.data.isEmpty = false := by
  cases hd : s.data with
  | nil => exact absurd (String.ext hd) h
  | cons a l => rfl

/-- With a non-empty CHECK condition, a non-null value that passes the type,
length and precision checks is decided by the CHECK step. -/
theorem validateValueErr_check (c : Column) (v : String)
    (hcond : c.checkCondition ≠ "")
    (hnn : (v.data.isEmpty || qToLower v == "null") = false)
    (htype : c.validateAgainstType v = none) :
    c.validateValueErr v = c.validateCheckConstraint v := by
  have hv : v.data.isEmpty = false := by
    cases h : v.data.isEmpty with
    | false => rfl
    | true => rw [h] at hnn; simp at hnn
  have hc := data_isEmpty_false c.checkCondition hcond
  unfold Column.validateValueErr
  rw [hnn]
  simp only [Bool.false_eq_true, if_false, htype, hv, Bool.and_false, hc, Bool.not_false,
    if_true]

/-! ## C18: a CHECK comparison on an INT column -/

/-- C18, counterexample: (1) on the INT column with the condition `age > 0`
the integer literal `9223372036854775808` (2 ^ 63) is greater than 0, yet it is
rejected, by the type check (`toLongLong` fails), with a message in which `CHECK`
does not occur; (2) with the condition `age > 9007199254740992` the literal
`9007199254740993` is greater than the bound, yet it is rejected: both numbers
are compared as doubles, and both round to 2 ^ 53. -/
theorem c18_large_integers :
    ((Column.new "age" .INT).setCheckCondition "age > 0").validateValueErr "9223372036854775808"
        = some "Invalid value '9223372036854775808' for type INT"
    ∧ qContains "Invalid value '9223372036854775808' for type INT" "CHECK" = false
    ∧ ((Column.new "age" .INT).setCheckCondition "age > 9007199254740992").validateValueErr
        "9007199254740993" = some "CHECK constraint failed: age > 9007199254740992" := by
  decide!

/-- C18 as amended: for every INT column whose CHECK condition is the text
`name OP n`, with `name` free of `<` and `>`, OP one of `>`, `>=`, `<`, `<=`
and `n` an integer literal of magnitude below 2 ^ 53, and for every integer
literal `v` of magnitude below 2 ^ 53, `validateValue(v)` is true iff `v OP n`
holds for the integers denoted; on rejection the message is the CHECK text. -/
theorem c18_int_check_comparison (c : Column) (name : List Char) (op : CompareOp)
    (nneg vneg : Bool) (nds vds : List Char)
    (hty : c.type = .INT)
    (hcond : c.checkCondition = comparisonText name op (integerLiteral nneg nds))
    (hlt : '<' ∉ name) (hgt : '>' ∉ name)
    (hnne : nds ≠ []) (hnd : ∀ ch ∈ nds, isDigitChar ch = true) (hnb : digitsValue nds < 2 ^ 53)
    (hvne : vds ≠ []) (hvd : ∀ ch ∈ vds, isDigitChar ch = true) (hvb : digitsValue vds < 2 ^ 53) :
    c.validateValue (integerLiteral vneg vds)
        = op.holds (integerValue vneg vds) (integerValue nneg nds)
    ∧ (c.validateValue (integerLiteral vneg vds) = false →
        c.validateValueErr (integerLiteral vneg vds)
          = some ("CHECK constraint failed: " ++ c.checkCondition)) := by
  have hnn := integerLiteral_not_null vneg vds hvne hvd
  have hvalid : DataTypeManager.isValidValue c.type (integerLiteral vneg vds) = true := by
    unfold DataTypeManager.isValidValue
    rw [hnn, hty]
    simp [qToLongLong_integerLiteral vneg vds hvne hvd hvb]
  have htype : c.validateAgainstType (integerLiteral vneg vds) = none := by
    rw [hty] at hvalid
    unfold Column.validateAgainstType
    simp [hvalid, hty, DataTypeManager.isStringType]
  have hcne : c.checkCondition ≠ "" := by
    rw [hcond]
    intro h
    have hd : (comparisonText name op (integerLiteral nneg nds)).data = ("" : String).data := by
      rw [h]
    simp [comparisonText] at hd
  have herr := validateValueErr_check c _ hcne hnn htype
  have heval := evaluateExpression_comparison name op nneg vneg nds vds hlt hgt hnne hnd hnb
    hvne hvd hvb
  rw [← hcond] at heval
  have hv : c.validateValue (integerLiteral vneg vds)
      = CheckConstraint.evaluateExpression c.checkCondition (integerLiteral vneg vds) := by
    unfold Column.validateValue
    rw [herr]
    unfold Column.validateCheckConstraint
    cases CheckConstraint.evaluateExpression c.checkCondition (integerLiteral vneg vds) <;> rfl
  refine ⟨by rw [hv, heval], ?_⟩
  intro hrej
  rw [hv] at hrej
  rw [herr]
  unfold Column.validateCheckConstraint
  rw [hrej]
  rfl

/-- C18 as amended, on the conditions of the test suites: with `age >= 0`, `25`
is accepted and `-5` is rejected with the CHECK message; with `age > 0`, `-5`
is rejected. -/
theorem c18_int_check_comparison_witness :
    ageColumn.validateValue "25" = true
    ∧ ageColumn.validateValue "-5" = false
    ∧ ageColumn.validateValueErr "-5" = some "CHECK constraint failed: age >= 0"
    ∧ ((Column.new "age" .INT).setCheckCondition "age > 0").validateValue "-5" = false :=
  ⟨(c18_int_check_comparison ageColumn "age".data .ge false false "0".data "25".data rfl rfl
      (by decide) (by decide) (by decide) (by decide) (by decide) (by decide) (by decide)
      (by decide)).1,
   (c18_int_check_comparison ageColumn "age".data .ge false true "0".data "5".data rfl rfl
      (by decide) (by decide) (by decide) (by decide) (by decide) (by decide) (by decide)
      (by decide)).1,
   (c18_int_check_comparison ageColumn "age".data .ge false true "0".data "5".data rfl rfl
      (by decide) (by decide) (by decide) (by decide) (by decide) (by decide) (by decide)
      (by decide)).2 (by decide!),
   (c18_int_check_comparison ((Column.new "age" .INT).setCheckCondition "age > 0") "age".data .gt
      false true "0".data "5".data rfl rfl
      (by decide) (by decide) (by decide) (by decide) (by decide) (by decide) (by decide)
      (by decide)).1⟩

/-! ## C19: the CHECK step of `Column::validateValue` -/

/-- C19, counterexample: on the INT column with the CHECK condition `age >= 0`
the two non-null values `25` and `-5` both pass the type check, and
`validateValue` accepts `25` and rejects `-5` with the CHECK message: the
condition is evaluated on the value being validated. -/
theorem c19_check_depends_on_value :
    ageColumn.validateAgainstType "25" = none
    ∧ ageColumn.validateAgainstType "-5" = none
    ∧ ageColumn.validateValue "25" = true
    ∧ ageColumn.validateValue "-5" = false
    ∧ ageColumn.validateValueErr "-5" = some "CHECK constraint failed: age >= 0" := by
  decide!

/-- C19 as amended: the CHECK step of `Column::validateValue` evaluates the
condition on the value being validated.  For every column with a non-empty
CHECK condition and every non-null value that passes the type, length and
precision checks, `validateValue` returns what
`CheckConstraint::evaluateExpression(checkCondition, value)` returns, and a
rejection carries the CHECK message. -/
theorem c19_check_uses_value (c : Column) (v : String)
    (hcond : c.checkCondition ≠ "")
    (hnn : (v.data.isEmpty || qToLower v == "null") = false)
    (htype : c.validateAgainstType v = none) :
    c.validateValue v = CheckConstraint.evaluateExpression c.checkCondition v
    ∧ (CheckConstraint.evaluateExpression c.checkCondition v = false →
        c.validateValueErr v = some ("CHECK constraint failed: " ++ c.checkCondition)) := by
  have herr := validateValueErr_check c v hcond hnn htype
  unfold Column.validateValue
  rw [herr]
  unfold Column.validateCheckConstraint
  cases he : CheckConstraint.evaluateExpression c.checkCondition v <;> simp

/-- C19 as amended, on the column of test suite 6 and the value `-5`. -/
theorem c19_check_uses_value_witness :
    ageColumn.validateValue "-5" = CheckConstraint.evaluateExpression "age >= 0" "-5"
    ∧ (CheckConstraint.evaluateExpression "age >= 0" "-5" = false →
        ageColumn.validateValueErr "-5" = some "CHECK constraint failed: age >= 0") :=
  c19_check_uses_value ageColumn "-5" (by decide) (by decide) (by decide!)

/-! ## C20: the conditions of `TableSchema::validateRow` -/

theorem validateColumns_eq_none (cs : List Column) (vs : List String) :
    TableSchema.validateColumns cs vs = none ↔
      ∀ (i : Nat) (c : Column) (v : String), cs[i]? = some c → vs[i]? = some v →
        c.validateValue v = true := by
  induction cs generalizing vs with
  | nil => simp [TableSchema.validateColumns]
  | cons c cs ih =>
    cases vs with
    | nil => simp [TableSchema.validateColumns]
    | cons v vs =>
      unfold TableSchema.validateColumns
      cases hc : c.validateValueErr v with
      | some e =>
        simp only [false_iff, not_forall, reduceCtorEq]
        refine ⟨0, c, v, by simp, by simp, ?_⟩
        simp [Column.validateValue, hc]
      | none =>
        simp only [ih]
        constructor
        · intro h i c2 v2 h1 h2
          cases i with
          | zero =>
            simp only [List.getElem?_cons_zero, Option.some.injEq] at h1 h2
            subst h1 h2
            simp [Column.validateValue, hc]
          | succ j => exact h j c2 v2 (by simpa using h1) (by simpa using h2)
        · intro h i c2 v2 h1 h2
          exact h (i + 1) c2 v2 (by simpa using h1) (by simpa using h2)

/-- C20, counterexample: the schema with the integer column `a` and the
table-level check `a = 1` rejects the row `("1")`, although the row has the
schema's arity, the column accepts the value and there is no primary key:
`validateChecks` evaluates the condition on the empty string, and the empty
string is not equal to `1`. -/
theorem c20_table_check_rejects :
    checkedSchema.validateRow ["1"] = false
    ∧ checkedSchema.validateRowErr ["1"] = some "CHECK constraint 'chk' failed"
    ∧ ["1"].length = checkedSchema.columns.length
    ∧ checkedSchema.columns.map (fun c => c.validateValue "1") = [true]
    ∧ checkedSchema.primaryKeyColumns = [] := by
  decide

/-- C20 as amended: for every schema and every value vector, `validateRow`
returns true exactly when (1) the vector has as many entries as the schema has
columns, (2) each column's `validateValue` accepts its value, (3) no declared
primary-key column that resolves to a column holds an empty value, and (4) the
condition of every table-level check constraint evaluates to true on the empty
string.  The table-level unique and foreign-key constraints play no part. -/
theorem c20_validateRow_conditions (s : TableSchema) (values : List String) :
    s.validateRow values = true ↔
      values.length = s.columns.length
      ∧ (∀ (i : Nat) (c : Column) (v : String), s.columns[i]? = some c → values[i]? = some v →
          c.validateValue v = true)
      ∧ (∀ pkCol ∈ s.primaryKeyColumns, ∀ idx, s.getColumnIndex pkCol = some idx →
          values.getD idx "" ≠ "")
      ∧ (∀ e ∈ s.checkConstraints,
          CheckConstraint.evaluateExpression e.2.condition "" = true) := by
  have hpk : s.validatePrimaryKey values = none ↔
      ∀ pkCol ∈ s.primaryKeyColumns, ∀ idx, s.getColumnIndex pkCol = some idx →
        values.getD idx "" ≠ "" := by
    unfold TableSchema.validatePrimaryKey
    simp only [Option.map_eq_none', List.find?_eq_none]
    constructor
    · intro h pkCol hmem idx hidx hempty
      have := h pkCol hmem
      simp only [hidx, hempty] at this
      exact this rfl
    · intro h pkCol hmem
      cases hidx : s.getColumnIndex pkCol with
      | none => simp
      | some idx =>
        have := h pkCol hmem idx hidx
        simp only [Bool.not_eq_true]
        exact data_isEmpty_false _ this
  have hck : s.validateChecks = none ↔
      ∀ e ∈ s.checkConstraints, CheckConstraint.evaluateExpression e.2.condition "" = true := by
    unfold TableSchema.validateChecks
    simp [List.find?_eq_none, CheckConstraint.validate]
  unfold TableSchema.validateRow TableSchema.validateRowErr
  by_cases hlen : values.length = s.columns.length
  · simp only [hlen, ne_eq, not_true_eq_false, if_false, true_and]
    rw [← validateColumns_eq_none, ← hpk, ← hck]
    cases h1 : TableSchema.validateColumns s.columns values with
    | some e => simp
    | none =>
      cases h2 : s.validatePrimaryKey values with
      | some e => simp
      | none => simp [Option.isNone_iff_eq_none]
  · simp [hlen]

/-! ## C21: the null-sentinel rule of `Column::validateValue` -/

/-- C21: for every column (whatever its data type, `maxLength`, precision and
CHECK condition) and every value that is the empty string or equals `null`
ignoring case, `validateValue` returns true iff the column is nullable and not
NOT NULL; when the column is NOT NULL, and in particular after
`setNotNull(true)`, the value is rejected with the message `Column does not
accept NULL values`, which contains `NULL`. -/
theorem c21_null_sentinel (c : Column) (v : String) (hv : v = "" ∨ qToLower v = "null") :
    (c.validateValue v = true ↔ c.nullable = true ∧ c.notNull = false)
    ∧ (c.notNull = true →
        c.validateValueErr v = some "Column does not accept NULL values")
    ∧ (c.setNotNull true).validateValueErr v = some "Column does not accept NULL values"
    ∧ qContains "Column does not accept NULL values" "NULL" = true := by
  have hnull : (v.data.isEmpty || qToLower v == "null") = true := by
    rcases hv with h | h
    · subst h; rfl
    · rw [h]; simp
  have herr : ∀ col : Column, col.validateValueErr v
      = if !col.nullable || col.notNull then some "Column does not accept NULL values"
        else none := by
    intro col
    unfold Column.validateValueErr
    rw [hnull]
    rfl
  refine ⟨?_, ?_, ?_, by decide⟩
  · unfold Column.validateValue
    rw [herr]
    cases c.nullable <;> cases c.notNull <;> simp
  · intro hnn
    rw [herr, hnn]
    simp
  · rw [herr]
    simp [Column.setNotNull]

/-- C21 on the column of test suite 1 and the value `NULL`. -/
theorem c21_null_sentinel_witness :
    (notNullColumn.validateValue "NULL" = true ↔
        notNullColumn.nullable = true ∧ notNullColumn.notNull = false)
    ∧ (notNullColumn.notNull = true →
        notNullColumn.validateValueErr "NULL" = some "Column does not accept NULL values")
    ∧ (notNullColumn.setNotNull true).validateValueErr "NULL"
        = some "Column does not accept NULL values"
    ∧ qContains "Column does not accept NULL values" "NULL" = true :=
  c21_null_sentinel notNullColumn "NULL" (Or.inr (by decide))

/-! ## C22: the length check of string columns -/

/-- C22, counterexample: JSON is a string type for `isStringType`, and a JSON
column with `maxLength` 50 rejects the three-character value `abc`, because
`isValidValue` asks a JSON value to be enclosed in braces or brackets; the
message does not speak of the length. -/
theorem c22_json_column_rejects_short_text :
    DataTypeManager.isStringType jsonColumn.type = true
    ∧ jsonColumn.maxLength = 50
    ∧ jsonColumn.checkCondition = ""
    ∧ qLength "abc" = 3
    ∧ jsonColumn.validateValue "abc" = false
    ∧ jsonColumn.validateValueErr "abc" = some "Invalid value 'abc' for type JSON" := by
  decide

/-- C22 as amended: for every column of a string type other than JSON (CHAR,
VARCHAR, TEXT, NCHAR, NVARCHAR, TINYTEXT, MEDIUMTEXT, LONGTEXT) with
`maxLength` m > 0 and no CHECK condition, and every non-null value `v`,
`validateValue(v)` is true iff the length of `v`, counted as `QString::length`
counts it (in UTF-16 code units, two for a character outside the Basic
Multilingual Plane), is at most m; a longer value is rejected with the message
`Value exceeds maximum length of m`. -/
theorem c22_string_length (c : Column) (v : String)
    (hstr : DataTypeManager.isStringType c.type = true) (hjson : c.type ≠ .JSON)
    (hm : 0 < c.maxLength) (hck : c.checkCondition = "")
    (hnn : (v.data.isEmpty || qToLower v == "null") = false) :
    (c.validateValue v = true ↔ (qLength v : Int) ≤ c.maxLength)
    ∧ (c.maxLength < (qLength v : Int) →
        c.validateValueErr v
          = some ("Value exceeds maximum length of " ++ showInt c.maxLength)) := by
  have hvalid : DataTypeManager.isValidValue c.type v = true := by
    unfold DataTypeManager.isValidValue
    rw [hnn]
    cases ht : c.type <;> simp_all [DataTypeManager.isStringType]
  have hdec : ¬ (c.type = .DECIMAL ∨ c.type = .NUMERIC) := by
    rintro (h | h) <;> rw [h] at hstr <;> exact absurd hstr (by decide)
  have htype : c.validateAgainstType v
      = if c.maxLength < (qLength v : Int) then
          some ("Value exceeds maximum length of " ++ showInt c.maxLength)
        else none := by
    unfold Column.validateAgainstType
    simp only [hvalid, Bool.not_true, Bool.false_eq_true, if_false, hm, hstr, true_and, hdec,
      false_and]
  have hv : v.data.isEmpty = false := by
    cases h : v.data.isEmpty with
    | false => rfl
    | true => rw [h] at hnn; simp at hnn
  have hckd : c.checkCondition.data.isEmpty = true := by rw [hck]; rfl
  have herr : c.validateValueErr v
      = if c.maxLength < (qLength v : Int) then
          some ("Value exceeds maximum length of " ++ showInt c.maxLength)
        else none := by
    unfold Column.validateValueErr
    rw [hnn]
    simp only [Bool.false_eq_true, if_false, htype, hv, Bool.and_false, hckd, Bool.not_true]
    split
    · rename_i heq
      exact heq.symm
    · rename_i heq
      rw [heq]
  refine ⟨?_, ?_⟩
  · unfold Column.validateValue
    rw [herr]
    by_cases h : c.maxLength < (qLength v : Int)
    · simp only [h, if_true, Option.isNone_some, Bool.false_eq_true, false_iff]
      omega
    · simp only [h, if_false, Option.isNone_none, true_iff]
      omega
  · intro h
    rw [herr, if_pos h]

/-- C22 as amended, on the column of test suite 4: `test@example.com` is
accepted, a text of 60 characters is rejected for its length. -/
theorem c22_string_length_witness :
    emailColumn.validateValue "test@example.com" = true
    ∧ emailColumn.validateValueErr sixtyChars = some "Value exceeds maximum length of 50" :=
  ⟨(c22_string_length emailColumn "test@example.com" (by decide) (by decide) (by decide) rfl
      (by decide)).1.mpr (by decide),
   (c22_string_length emailColumn sixtyChars (by decide) (by decide) (by decide) rfl
      (by decide)).2 (by decide)⟩

/-! ## C23: INSERT with a column list -/

/-- C23, the code on a column list that spells a column in another case: after
`CREATE TABLE t (id INT, name VARCHAR)`, the statement
`INSERT INTO t (ID, name) VALUES (1, 'a')` names two distinct columns that
`getColumnIndex` resolves (`ID` to position 0), with one value each.  The
statement succeeds, and the row handed to `insertRow` and stored is `("", "a")`:
`executeInsert` looks the name up with an exact comparison, finds no column `ID`
and drops the value 1 without a message (`executeUpdate` resolves the same name
through `getColumnIndex`). -/
theorem c23_insert_drops_value_of_recased_column :
    (runScript sampleClock {} [sqlCreatePlain, sqlInsertUpperId]).map
        (fun r => r.1.map (fun q => (q.success, q.errorMessage, q.affectedRows)))
      = some [(true, "", 1), (true, "", 1)]
    ∧ (runScript sampleClock {} [sqlCreatePlain, sqlInsertUpperId]).map
        (fun r => r.2.selectAll "t") = some [["", "a"]]
    ∧ (runScript sampleClock {} [sqlCreatePlain]).map
        (fun r => (r.2.getTable "t").map (fun s =>
          (s.getColumnIndex "ID", s.getColumnIndex "name", s.columns.map (fun c => c.name))))
      = some (some (some 0, some 1, ["id", "name"]))
    ∧ (runScript sampleClock {} [sqlCreatePlain]).map
        (fun r => (r.2.getTable "t").map (fun s =>
          QueryExecutor.completeRow sampleClock s.columns ["ID", "name"] ["1", "a"]))
      = some (some ["", "a"]) := by
  decide!

/-! ## C24: the columns registered by CREATE TABLE -/

/-- C24: for every parsed CREATE TABLE statement and every manager state, the
CREATE handler succeeds and registers, under the statement's table name, a
schema with one column per parsed column definition, in order and with the
parsed names, and every one of those columns has the data type VARCHAR whatever
type text was parsed.  So after `CREATE TABLE t (a INT)` the value `abc` is
accepted by `INSERT INTO t VALUES ('abc')`. -/
theorem c24_create_registers_varchar_columns (m : TableManager)
    (createStmt : CreateTableStatement) :
    (QueryExecutor.executeCreate m createStmt).1.success = true
    ∧ (QueryExecutor.executeCreate m createStmt).2.getTable createStmt.tableName
        = some (QueryExecutor.schemaOfStatement createStmt)
    ∧ (QueryExecutor.schemaOfStatement createStmt).columns.length = createStmt.columns.length
    ∧ (QueryExecutor.schemaOfStatement createStmt).columns.map (fun c => c.name)
        = createStmt.columns.map (fun d => d.name)
    ∧ (QueryExecutor.schemaOfStatement createStmt).columns.map (fun c => c.type)
        = createStmt.columns.map (fun _ => DataType.VARCHAR)
    ∧ (runScript sampleClock {} [sqlCreateIntColumn, sqlInsertText]).map
        (fun r => (r.1.map (fun q => q.success), r.2.selectAll "t"))
      = some ([true, true], [["abc"]]) := by
  have hcols : (QueryExecutor.schemaOfStatement createStmt).columns
      = createStmt.columns.map QueryExecutor.columnOfDefinition := by
    unfold QueryExecutor.schemaOfStatement
    rw [foldl_addColumn_eq]
    simp [TableSchema.new]
  have hname : (QueryExecutor.schemaOfStatement createStmt).tableName = createStmt.tableName := by
    unfold QueryExecutor.schemaOfStatement
    rw [foldl_addColumn_eq]
    rfl
  have hn : ∀ d : ColumnDefinition, (QueryExecutor.columnOfDefinition d).name = d.name := by
    intro d
    unfold QueryExecutor.columnOfDefinition
    simp only [Column.new, Column.setPrimaryKey, Column.setUnique, Column.setNotNull,
      Column.setDefaultValue]
    split_ifs <;> rfl
  have ht : ∀ d : ColumnDefinition, (QueryExecutor.columnOfDefinition d).type = .VARCHAR := by
    intro d
    unfold QueryExecutor.columnOfDefinition
    simp only [Column.new, Column.setPrimaryKey, Column.setUnique, Column.setNotNull,
      Column.setDefaultValue]
    split_ifs <;> rfl
  refine ⟨rfl, ?_, ?_, ?_, ?_, by decide!⟩
  · simp only [QueryExecutor.executeCreate, TableManager.getTable, TableManager.addTable, hname,
      qmapFind_insert_self]
  · rw [hcols, List.length_map]
  · rw [hcols, List.map_map]
    exact List.map_congr_left (fun d _ => hn d)
  · rw [hcols, List.map_map]
    exact List.map_congr_left (fun d _ => ht d)

/-! ## C28: CREATE INDEX -/

theorem parseCreateIndexStatement_after_create (fuel : Nat) (ts : List Token)
    (h : (Parser.current ts).type = .INDEX) :
    Parser.parseCreateIndexStatement fuel ts
      = .error ("Expected CREATE but got " ++ Parser.describeToken (Parser.current ts)) := by
  unfold Parser.parseCreateIndexStatement Parser.expect
  rw [h]
  simp [PResult.andThen, Parser.tokenTypeToString]

theorem andThen_not_createIndex {α : Type} (r : PResult α) (f : α → ASTNode)
    (hf : ∀ a, ∀ s, f a ≠ .createIndexStmt s) :
    isCreateIndex (r.andThen fun s rest => .ok (f s) rest) = false := by
  cases r with
  | ok a rest =>
    simp only [PResult.andThen]
    cases hfa : f a with
    | createIndexStmt s => exact absurd hfa (hf a s)
    | _ => rfl
  | error msg => rfl
  | outOfFuel => rfl

/-- C28, the code on CREATE INDEX: `parseStatement` steps over the `CREATE`
token before it calls `parseCreateIndexStatement`, which starts with
`expect(Token::CREATE)` and so throws at the `INDEX` token
(`parseCreateTableStatement`, called from the same place, notes that `CREATE`
is already consumed and starts with `expect(Token::TABLE)`).  Every token
sequence that starts with `CREATE`, `INDEX` fails with `Expected CREATE but got
...`; no token sequence at all parses to a `CreateIndexStatement`; and the text
`CREATE INDEX idx ON t (a)` fails at line 1, column 8. -/
theorem c28_create_index_never_parses :
    (∀ (v1 v2 : String) (l1 c1 l2 c2 : Nat) (rest : List Token),
        Parser.parse (⟨.CREATE, v1, l1, c1⟩ :: ⟨.INDEX, v2, l2, c2⟩ :: rest)
          = .error ("Expected CREATE but got " ++ Parser.describeToken ⟨.INDEX, v2, l2, c2⟩))
    ∧ (∀ tokens : List Token, isCreateIndex (Parser.parse tokens) = false)
    ∧ (Lexer.tokenize sqlCreateIndex).map Parser.parse
        = some (.error "Expected CREATE but got unknown (\"INDEX\") at line 1 col 8") := by
  refine ⟨?_, ?_, by decide!⟩
  · intro v1 v2 l1 c1 l2 c2 rest
    unfold Parser.parse Parser.parseStatement
    simp only [Parser.current, Parser.advance, List.tail_cons, reduceCtorEq, if_false, if_true]
    rw [parseCreateIndexStatement_after_create _ (⟨.INDEX, v2, l2, c2⟩ :: rest) rfl]
    rfl
  · intro tokens
    unfold Parser.parse Parser.parseStatement
    split
    · exact andThen_not_createIndex _ _ (fun _ _ => by simp)
    · exact andThen_not_createIndex _ _ (fun _ _ => by simp)
    · exact andThen_not_createIndex _ _ (fun _ _ => by simp)
    · exact andThen_not_createIndex _ _ (fun _ _ => by simp)
    · split
      · exact andThen_not_createIndex _ _ (fun _ _ => by simp)
      · split
        · rename_i hidx
          rw [parseCreateIndexStatement_after_create _ _ hidx]
          rfl
        · rfl
    · exact andThen_not_createIndex _ _ (fun _ _ => by simp)
    · exact andThen_not_createIndex _ _ (fun _ _ => by simp)
    · exact andThen_not_createIndex (Parser.expect .BEGIN tokens) (fun _ => ASTNode.beginStmt)
        (fun _ _ => by simp)
    · exact andThen_not_createIndex (Parser.expect .COMMIT tokens) (fun _ => ASTNode.commitStmt)
        (fun _ _ => by simp)
    · exact andThen_not_createIndex (Parser.expect .ROLLBACK tokens)
        (fun _ => ASTNode.rollbackStmt) (fun _ _ => by simp)
    · rfl

/-! ## C29: what `parse` rejects and what it steps over -/

/-- C29, counterexample: `DELETE FROM t junk` parses to the statement
`DELETE FROM t`, the tokens `junk` and end-of-file are left unread; and
`CREATE TABLE t (a INT banana)` parses to a table with the single column `a`,
the word `banana` is stepped over by the constraint loop. -/
theorem c29_junk_is_accepted :
    (Lexer.tokenize sqlDeleteJunk).map (fun ts => isParsed (Parser.parse ts)) = some true
    ∧ (Lexer.tokenize sqlDeleteJunk).map Parser.parse
        = some (.ok (.deleteStmt { tableName := "t", whereClause := "" })
            [⟨.IDENTIFIER, "junk", 1, 15⟩, ⟨.END_OF_FILE, "", 1, 19⟩])
    ∧ (Lexer.tokenize sqlCreateBanana).map Parser.parse
        = some (.ok (.createTableStmt
            { tableName := "t", columns := [{ name := "a", dataType := "INT" }] })
            [⟨.END_OF_FILE, "", 1, 30⟩]) := by
  decide!

/-- C29 as amended: `parse` has no error recovery, a failure of a step ends the
parse with that failure; but it reads one statement and tests nothing behind
it, and the constraint list of a CREATE TABLE column steps over unknown tokens.
(1) A token sequence whose first token starts no statement fails with
`Unknown statement`.  (2) `expect(kind)` fails with `Expected <kind> but got
<token>` whenever the current token is of another kind, `parseIdentifier` fails
with `Expected identifier but got <token>` whenever the current token is no
identifier, and every following step passes a failure on.  (3) So `parse` fails
on DELETE not followed by FROM, on DELETE FROM not followed by an identifier, on
INSERT not followed by INTO, on UPDATE not followed by an identifier, on
UPDATE and an identifier not followed by SET, on DROP not followed by TABLE, on
CREATE followed by neither TABLE nor INDEX, on CREATE TABLE not followed by an
identifier; and the constraint loop of a column fails on NOT not followed by
NULL.  (4) For every table name `t` and every token sequence `junk` that does
not start with `WHERE`, the tokens of `DELETE FROM t` followed by `junk` parse
to `DeleteStatement{t, ""}` and leave `junk` unread.  (5) In the constraint loop
of a column definition a token that is none of `,`, `)`, end of input, PRIMARY,
KEY, UNIQUE, NOT, CHECK, DEFAULT, FOREIGN, CONSTRAINT is stepped over: the loop
goes on with the next token and the same column definition. -/
theorem c29_parse_rejects_and_skips :
    (∀ tokens : List Token, (Parser.current tokens).type ∉ statementStarts →
        Parser.parse tokens = .error (Parser.errorText tokens "Unknown statement"))
    ∧ (∀ (kind : TokenType) (ts : List Token), (Parser.current ts).type ≠ kind →
        Parser.expect kind ts
          = .error ("Expected " ++ Parser.tokenTypeToString kind ++ " but got "
              ++ Parser.describeToken (Parser.current ts)))
    ∧ (∀ ts : List Token, (Parser.current ts).type ≠ .IDENTIFIER →
        Parser.parseIdentifier ts
          = .error (Parser.errorText ts
              ("Expected identifier but got " ++ Parser.describeToken (Parser.current ts))))
    ∧ (∀ (α β : Type) (msg : String) (f : α → List Token → PResult β),
        (PResult.error msg : PResult α).andThen f = .error msg)
    ∧ (∀ (d : Token) (ts : List Token), d.type = .DELETE → (Parser.current ts).type ≠ .FROM →
        Parser.parse (d :: ts)
          = .error ("Expected FROM but got " ++ Parser.describeToken (Parser.current ts)))
    ∧ (∀ (d f : Token) (ts : List Token), d.type = .DELETE → f.type = .FROM →
        (Parser.current ts).type ≠ .IDENTIFIER →
        Parser.parse (d :: f :: ts)
          = .error (Parser.errorText ts
              ("Expected identifier but got " ++ Parser.describeToken (Parser.current ts))))
    ∧ (∀ (i : Token) (ts : List Token), i.type = .INSERT → (Parser.current ts).type ≠ .INTO →
        Parser.parse (i :: ts)
          = .error ("Expected INTO but got " ++ Parser.describeToken (Parser.current ts)))
    ∧ (∀ (u : Token) (ts : List Token), u.type = .UPDATE →
        (Parser.current ts).type ≠ .IDENTIFIER →
        Parser.parse (u :: ts)
          = .error (Parser.errorText ts
              ("Expected identifier but got " ++ Parser.describeToken (Parser.current ts))))
    ∧ (∀ (u t : Token) (ts : List Token), u.type = .UPDATE → t.type = .IDENTIFIER →
        (Parser.current ts).type ≠ .SET →
        Parser.parse (u :: t :: ts)
          = .error ("Expected SET but got " ++ Parser.describeToken (Parser.current ts)))
    ∧ (∀ (d : Token) (ts : List Token), d.type = .DROP → (Parser.current ts).type ≠ .TABLE →
        Parser.parse (d :: ts)
          = .error ("Expected TABLE but got " ++ Parser.describeToken (Parser.current ts)))
    ∧ (∀ (c : Token) (ts : List Token), c.type = .CREATE → (Parser.current ts).type ≠ .TABLE →
        (Parser.current ts).type ≠ .INDEX →
        Parser.parse (c :: ts)
          = .error (Parser.errorText ts "Expected TABLE or INDEX after CREATE"))
    ∧ (∀ (c t : Token) (ts : List Token), c.type = .CREATE → t.type = .TABLE →
        (Parser.current ts).type ≠ .IDENTIFIER →
        Parser.parse (c :: t :: ts)
          = .error (Parser.errorText ts
              ("Expected identifier but got " ++ Parser.describeToken (Parser.current ts))))
    ∧ (∀ (fuel : Nat) (n : Token) (ts : List Token) (colDef : ColumnDefinition)
        (stmt : CreateTableStatement), n.type = .NOT → (Parser.current ts).type ≠ .NULL_KW →
        Parser.parseConstraints (fuel + 1) (n :: ts) colDef stmt
          = .error "Expected NULL after NOT")
    ∧ (∀ (d f t : Token) (junk : List Token), d.type = .DELETE → f.type = .FROM →
        t.type = .IDENTIFIER → (Parser.current junk).type ≠ .WHERE →
        Parser.parse (d :: f :: t :: junk)
          = .ok (.deleteStmt { tableName := t.value, whereClause := "" }) junk)
    ∧ (∀ (fuel : Nat) (tok : Token) (ts : List Token) (colDef : ColumnDefinition)
        (stmt : CreateTableStatement), tok.type ∉ constraintKinds →
        Parser.parseConstraints (fuel + 1) (tok :: ts) colDef stmt
          = Parser.parseConstraints fuel ts colDef stmt) := by
  refine ⟨?_, ?_, ?_, ?_, ?_, ?_, ?_, ?_, ?_, ?_, ?_, ?_, ?_, ?_, ?_⟩
  · intro tokens h
    simp only [statementStarts, List.mem_cons, List.mem_singleton, List.not_mem_nil, or_false,
      not_or] at h
    obtain ⟨h1, h2, h3, h4, h5, h6, h7, h8, h9, h10⟩ := h
    unfold Parser.parse Parser.parseStatement
    split
    all_goals first | rfl | (rename_i heq; simp_all)
  · intro kind ts h
    unfold Parser.expect
    rw [if_pos h]
  · intro ts h
    unfold Parser.parseIdentifier
    rw [if_pos h]
  · intro α β msg f
    rfl
  · intro d ts hd hf
    unfold Parser.parse Parser.parseStatement
    simp only [Parser.current, hd]
    unfold Parser.parseDeleteStatement Parser.expect
    simp only [Parser.current, Parser.advance, List.tail_cons, hd, ne_eq,
      not_true_eq_false, if_false, PResult.andThen]
    have hf2 : ¬ (Parser.current ts).type = .FROM := hf
    simp only [Parser.current] at hf2
    simp only [hf2, not_false_eq_true, if_true]
    rfl
  · intro d f ts hd hf ht
    unfold Parser.parse Parser.parseStatement
    simp only [Parser.current, hd]
    unfold Parser.parseDeleteStatement Parser.expect Parser.parseIdentifier
    simp only [Parser.current, Parser.advance, List.tail_cons, hd, hf, ne_eq,
      not_true_eq_false, if_false, PResult.andThen]
    have ht2 : ¬ (Parser.current ts).type = .IDENTIFIER := ht
    simp only [Parser.current] at ht2
    simp only [ht2, not_false_eq_true, if_true]
  · intro i ts hi hn
    unfold Parser.parse Parser.parseStatement
    simp only [Parser.current, hi]
    unfold Parser.parseInsertStatement Parser.expect
    simp only [Parser.current, Parser.advance, List.tail_cons, hi, ne_eq,
      not_true_eq_false, if_false, PResult.andThen]
    have hn2 : ¬ (Parser.current ts).type = .INTO := hn
    simp only [Parser.current] at hn2
    simp only [hn2, not_false_eq_true, if_true]
    rfl
  · intro u ts hu hn
    unfold Parser.parse Parser.parseStatement
    simp only [Parser.current, hu]
    unfold Parser.parseUpdateStatement Parser.expect Parser.parseIdentifier
    simp only [Parser.current, Parser.advance, List.tail_cons, hu, ne_eq,
      not_true_eq_false, if_false, PResult.andThen]
    have hn2 : ¬ (Parser.current ts).type = .IDENTIFIER := hn
    simp only [Parser.current] at hn2
    simp only [hn2, not_false_eq_true, if_true]
  · intro u t ts hu ht hn
    unfold Parser.parse Parser.parseStatement
    simp only [Parser.current, hu]
    unfold Parser.parseUpdateStatement Parser.expect Parser.parseIdentifier
    simp only [Parser.current, Parser.advance, List.tail_cons, hu, ht, ne_eq,
      not_true_eq_false, if_false, PResult.andThen]
    have hn2 : ¬ (Parser.current ts).type = .SET := hn
    simp only [Parser.current] at hn2
    simp only [hn2, not_false_eq_true, if_true]
    rfl
  · intro d ts hd hn
    unfold Parser.parse Parser.parseStatement
    simp only [Parser.current, hd]
    unfold Parser.parseDropTableStatement Parser.expect
    simp only [Parser.current, Parser.advance, List.tail_cons, hd, ne_eq,
      not_true_eq_false, if_false, PResult.andThen]
    have hn2 : ¬ (Parser.current ts).type = .TABLE := hn
    simp only [Parser.current] at hn2
    simp only [hn2, not_false_eq_true, if_true]
    rfl
  · intro c ts hc hn1 hn2
    unfold Parser.parse Parser.parseStatement
    simp only [Parser.current, hc]
    have hn1b : ¬ (Parser.current ts).type = .TABLE := hn1
    have hn2b : ¬ (Parser.current ts).type = .INDEX := hn2
    simp only [Parser.current] at hn1b hn2b
    simp only [Parser.advance, List.tail_cons, Parser.current, hn1b, hn2b, if_false]
  · intro c t ts hc ht hn
    unfold Parser.parse Parser.parseStatement
    simp only [Parser.current, hc]
    unfold Parser.parseCreateTableStatement Parser.expect Parser.parseIdentifier
    simp only [Parser.current, Parser.advance, List.tail_cons, ht, ne_eq,
      not_true_eq_false, if_false, if_true, PResult.andThen]
    have hn2 : ¬ (Parser.current ts).type = .IDENTIFIER := hn
    simp only [Parser.current] at hn2
    simp only [hn2, not_false_eq_true, if_true]
  · intro fuel n ts colDef stmt hn hnull
    rw [Parser.parseConstraints]
    have hnull2 : ¬ (Parser.current ts).type = .NULL_KW := hnull
    simp only [Parser.current] at hnull2
    have h1 : ¬ (TokenType.NOT = TokenType.COMMA) := by decide
    have h2 : ¬ (TokenType.NOT = TokenType.RPAREN) := by decide
    have h3 : ¬ (TokenType.NOT = TokenType.END_OF_FILE) := by decide
    have h4 : ¬ (TokenType.NOT = TokenType.PRIMARY_KEY) := by decide
    have h5 : ¬ (TokenType.NOT = TokenType.UNIQUE) := by decide
    simp only [Parser.current, Parser.advance, List.tail_cons, hn, h1, h2, h3, h4, h5, or_self,
      if_false, if_true, hnull2]
  · intro d f t junk hd hf ht hj
    unfold Parser.parse Parser.parseStatement
    simp only [Parser.current, hd]
    unfold Parser.parseDeleteStatement Parser.expect Parser.parseIdentifier
    simp only [Parser.current, Parser.advance, List.tail_cons, hd, hf, ht, ne_eq,
      not_true_eq_false, if_false, PResult.andThen]
    have hj2 : ¬ (Parser.current junk).type = .WHERE := hj
    simp only [Parser.current] at hj2
    simp only [hj2, if_false]
  · intro fuel tok ts colDef stmt h
    simp only [constraintKinds, List.mem_cons, List.mem_singleton, List.not_mem_nil, or_false,
      not_or] at h
    obtain ⟨h1, h2, h3, h4, h5, h6, h7, h8, h9, h10⟩ := h
    rw [Parser.parseConstraints]
    simp only [Parser.current, Parser.advance, List.tail_cons, h1, h2, h3, h4, h5, h6, h7, h8,
      h9, h10, or_self, if_false]

/-- C29 as amended, at concrete tokens: a lone identifier starts no statement;
`DELETE t` lacks its FROM and `DELETE FROM ;` its table name, and both fail;
the tokens of `DELETE FROM t junk` parse and leave `junk` unread; the
identifier `banana` in a constraint list is stepped over. -/
theorem c29_parse_rejects_and_skips_witness :
    Parser.parse [⟨.IDENTIFIER, "junk", 1, 1⟩, ⟨.END_OF_FILE, "", 1, 5⟩]
        = .error "Parse error at line 1, column 1: Unknown statement"
    ∧ Parser.parse [⟨.DELETE, "DELETE", 1, 1⟩, ⟨.IDENTIFIER, "t", 1, 8⟩, ⟨.END_OF_FILE, "", 1, 9⟩]
        = .error "Expected FROM but got identifier (\"t\") at line 1 col 8"
    ∧ Parser.parse [⟨.DELETE, "DELETE", 1, 1⟩, ⟨.FROM, "FROM", 1, 8⟩, ⟨.SEMICOLON, ";", 1, 13⟩,
          ⟨.END_OF_FILE, "", 1, 14⟩]
        = .error ("Parse error at line 1, column 13: "
            ++ "Expected identifier but got ; (\";\") at line 1 col 13")
    ∧ Parser.parse [⟨.DELETE, "DELETE", 1, 1⟩, ⟨.FROM, "FROM", 1, 8⟩, ⟨.IDENTIFIER, "t", 1, 13⟩,
          ⟨.IDENTIFIER, "junk", 1, 15⟩, ⟨.END_OF_FILE, "", 1, 19⟩]
        = .ok (.deleteStmt { tableName := "t", whereClause := "" })
            [⟨.IDENTIFIER, "junk", 1, 15⟩, ⟨.END_OF_FILE, "", 1, 19⟩]
    ∧ Parser.parseConstraints 3 [⟨.IDENTIFIER, "banana", 1, 23⟩, ⟨.RPAREN, ")", 1, 29⟩]
          { name := "a", dataType := "INT" } { tableName := "t" }
        = Parser.parseConstraints 2 [⟨.RPAREN, ")", 1, 29⟩]
            { name := "a", dataType := "INT" } { tableName := "t" } :=
  ⟨c29_parse_rejects_and_skips.1 _ (by decide),
   c29_parse_rejects_and_skips.2.2.2.2.1 _ _ rfl (by decide),
   c29_parse_rejects_and_skips.2.2.2.2.2.1 _ _ _ rfl rfl (by decide),
   c29_parse_rejects_and_skips.2.2.2.2.2.2.2.2.2.2.2.2.2.1 _ _ _ _ rfl rfl rfl (by decide),
   c29_parse_rejects_and_skips.2.2.2.2.2.2.2.2.2.2.2.2.2.2 2 _ _ _ _ (by decide)⟩

/-! ## C27: the round trip of a string literal -/

theorem toLatin1_of_le (c : Char) (h : c.toNat ≤ 255) : toLatin1 c = c := by
  unfold toLatin1
  rw [if_neg (by omega)]

theorem char_eq_of_toNat (c d : Char) (h : c.toNat = d.toNat) : c = d := by
  have h1 := Char.ofNat_toNat c
  have h2 := Char.ofNat_toNat d
  rw [← h1, ← h2, h]

theorem escapeQuote_mem (q : Char) (b : List Char) (x : Char) (h : x ∈ escapeQuote q b) :
    x = '\\' ∨ x = q ∨ x ∈ b := by
  induction b with
  | nil => exact absurd h (List.not_mem_nil _)
  | cons c cs ih =>
    rw [escapeQuote] at h
    split at h
    · rename_i hc
      rcases List.mem_cons.mp h with rfl | h2
      · exact Or.inl rfl
      · rcases List.mem_cons.mp h2 with rfl | h3
        · exact Or.inr (Or.inl rfl)
        · rcases ih h3 with h4 | h4 | h4
          · exact Or.inl h4
          · exact Or.inr (Or.inl h4)
          · exact Or.inr (Or.inr (List.mem_cons_of_mem _ h4))
    · rcases List.mem_cons.mp h with rfl | h2
      · exact Or.inr (Or.inr (List.mem_cons_self _ _))
      · rcases ih h2 with h4 | h4 | h4
        · exact Or.inl h4
        · exact Or.inr (Or.inl h4)
        · exact Or.inr (Or.inr (List.mem_cons_of_mem _ h4))

theorem readStringFrom_literal (q : Char) (hq : q = '\'' ∨ q = '"') (b : List Char)
    (hb : ∀ ch ∈ b, ch.toNat ≤ 255 ∧ ch ≠ '\\') (l c : Nat) (acc : List Char) :
    (Lexer.readStringFrom q false (escapeQuote q b ++ [q]) l c acc).1
        = String.mk (acc.reverse ++ b)
    ∧ (Lexer.readStringFrom q false (escapeQuote q b ++ [q]) l c acc).2.rest = [] := by
  have hql : toLatin1 q = q := by rcases hq with h | h <;> subst h <;> rfl
  have hqb : q ≠ '\\' := by rcases hq with h | h <;> subst h <;> decide
  induction b generalizing l c acc with
  | nil =>
    simp only [escapeQuote, List.nil_append, Lexer.readStringFrom, hql, if_true, List.append_nil,
      and_self]
  | cons x b ih =>
    have hx := hb x (List.mem_cons_self _ _)
    have hb2 : ∀ ch ∈ b, ch.toNat ≤ 255 ∧ ch ≠ '\\' :=
      fun ch hch => hb ch (List.mem_cons_of_mem _ hch)
    by_cases hxq : x = q
    · subst hxq
      have h := ih hb2 (nextLine x (nextLine '\\' l)) (nextColumn x (nextColumn '\\' c))
        (x :: acc)
      have hbs : toLatin1 '\\' = '\\' := rfl
      have hne : ¬ ('\\' = x) := fun he => hqb he.symm
      have h92 : ('\\' : Char).toNat = 92 := rfl
      simp only [escapeQuote, if_true, List.cons_append, Lexer.readStringFrom, hbs, hne, if_false,
        h92, Lexer.peek, hql, and_self, if_true]
      simpa using h
    · have h := ih hb2 (nextLine x l) (nextColumn x c) (x :: acc)
      have hxl : toLatin1 x = x := toLatin1_of_le x hx.1
      have h92 : ¬ (x.toNat = 92) := fun he => hx.2 (char_eq_of_toNat x '\\' he)
      simp only [escapeQuote, hxq, if_false, List.cons_append, Lexer.readStringFrom, hxl, h92,
        false_and]
      simpa using h

/-- C27: for each quote character `q` (single or double) and every Latin-1 text
`b` without a backslash, tokenizing `q`, then `b` with a backslash before every
occurrence of `q`, then `q` returns exactly two tokens: one STRING token whose
text is `b`, and END_OF_FILE. -/
theorem c27_string_literal_round_trip (q : Char) (hq : q = '\'' ∨ q = '"') (b : List Char)
    (hb : ∀ ch ∈ b, ch.toNat ≤ 255 ∧ ch ≠ '\\') :
    (Lexer.tokenize (stringLiteral q b)).map (List.map (fun t => (t.type, t.value)))
      = some [(TokenType.STRING, String.mk b), (TokenType.END_OF_FILE, "")] := by
  have hql : toLatin1 q = q := by rcases hq with h | h <;> subst h <;> rfl
  have hsp : qIsSpace q = false := by rcases hq with h | h <;> subst h <;> rfl
  have hdash : ¬ (q = '-') := by rcases hq with h | h <;> subst h <;> decide
  have hid : Lexer.isIdentifierStart q = false := by rcases hq with h | h <;> subst h <;> rfl
  have hdg : Lexer.isDigit q = false := by rcases hq with h | h <;> subst h <;> rfl
  have hqt : q.toNat = 39 ∨ q.toNat = 34 := by
    rcases hq with h | h <;> subst h
    · exact Or.inl rfl
    · exact Or.inr rfl
  obtain ⟨h1, h2⟩ := readStringFrom_literal q hq b hb (nextLine q 1) (nextColumn q 1) []
  have hq2 : q.toNat ≤ 65535 := by rcases hq with h | h <;> subst h <;> decide
  have hbmp : ∀ ch ∈ q :: (escapeQuote q b ++ [q]), ch.toNat ≤ 65535 := by
    intro ch hch
    simp only [List.mem_cons, List.mem_append, List.mem_singleton, List.not_mem_nil,
      or_false] at hch
    rcases hch with rfl | h | rfl
    · exact hq2
    · rcases escapeQuote_mem q b ch h with rfl | rfl | h3
      · decide
      · exact hq2
      · have := (hb ch h3).1
        omega
    · exact hq2
  have hnew : Lexer.new (stringLiteral q b) = ⟨q :: (escapeQuote q b ++ [q]), 1, 1⟩ := by
    show (⟨utf16Units (q :: (escapeQuote q b ++ [q])), 1, 1⟩ : Lexer) = _
    rw [utf16Units_of_bmp _ hbmp]
  have hlen : qLength (stringLiteral q b) = (escapeQuote q b).length + 1 + 1 := by
    show (utf16Units (q :: (escapeQuote q b ++ [q]))).length = _
    rw [utf16Units_of_bmp _ hbmp]
    simp
  unfold Lexer.tokenize
  rw [hlen, hnew]
  have hskip : ∀ r l c, Lexer.skipWhitespaceFrom (q :: r) l c = ⟨q :: r, l, c⟩ := by
    intro r l c
    simp [Lexer.skipWhitespaceFrom, hsp]
  rw [Lexer.tokenizeLoop]
  simp only [Lexer.new, stringLiteral, List.isEmpty_cons, Bool.false_eq_true, if_false,
    Lexer.skipWhitespace, hskip, Lexer.current, hql, hdash, false_and, Lexer.nextToken, hid, hdg,
    hqt, if_true, Lexer.readString, Lexer.advance]
  rw [Lexer.tokenizeLoop]
  simp only [h2, List.isEmpty_nil, if_true, Option.map_some', List.map_cons, h1, List.map_nil,
    Lexer.makeToken, List.reverse_nil, List.nil_append]

/-- C27 at a concrete literal: the text `it's` in single quotes. -/
theorem c27_string_literal_round_trip_witness :
    (Lexer.tokenize "'it\\'s'").map (List.map (fun t => (t.type, t.value)))
      = some [(TokenType.STRING, "it's"), (TokenType.END_OF_FILE, "")] :=
  c27_string_literal_round_trip '\'' (Or.inl rfl) "it's".data (by decide)

/-! ## The lexer consumes its input -/

theorem ite_ne_of {α : Type} (c : Prop) [Decidable c] (a b e : α) (ha : a ≠ e) (hb : b ≠ e) :
    (if c then a else b) ≠ e := by
  split
  · exact ha
  · exact hb

theorem keywordToTokenType_ne_eof (s : String) :
    Lexer.keywordToTokenType s ≠ .END_OF_FILE := by
  unfold Lexer.keywordToTokenType
  generalize qToUpper s = u
  repeat' (first | apply ite_ne_of | decide)

theorem skipWhitespaceFrom_length (r : List Char) (l c : Nat) :
    (Lexer.skipWhitespaceFrom r l c).rest.length ≤ r.length := by
  induction r generalizing l c with
  | nil => simp [Lexer.skipWhitespaceFrom]
  | cons ch r ih =>
    unfold Lexer.skipWhitespaceFrom
    split
    · exact Nat.le_succ_of_le (ih _ _)
    · exact Nat.le_refl _

theorem skipWhitespaceFrom_head (r : List Char) (l c : Nat) (ch : Char) (r2 : List Char)
    (h : (Lexer.skipWhitespaceFrom r l c).rest = ch :: r2) : qIsSpace ch = false := by
  induction r generalizing l c with
  | nil => simp [Lexer.skipWhitespaceFrom] at h
  | cons x r ih =>
    unfold Lexer.skipWhitespaceFrom at h
    split at h
    · exact ih _ _ h
    · rename_i hx
      simp only [List.cons.injEq] at h
      rw [← h.1]
      simpa using hx

theorem skipWhitespaceFrom_of_head (ch : Char) (r : List Char) (l c : Nat)
    (h : qIsSpace ch = false) : Lexer.skipWhitespaceFrom (ch :: r) l c = ⟨ch :: r, l, c⟩ := by
  simp [Lexer.skipWhitespaceFrom, h]

theorem skipCommentFrom_length (r : List Char) (l c : Nat) :
    (Lexer.skipCommentFrom r l c).rest.length ≤ r.length := by
  induction r generalizing l c with
  | nil => simp [Lexer.skipCommentFrom]
  | cons ch r ih =>
    unfold Lexer.skipCommentFrom
    split
    · exact Nat.le_refl _
    · exact Nat.le_succ_of_le (ih _ _)

theorem readWhileFrom_length (p : Char → Bool) (r : List Char) (l c : Nat) (acc : List Char) :
    (Lexer.readWhileFrom p r l c acc).2.rest.length ≤ r.length := by
  induction r generalizing l c acc with
  | nil => simp [Lexer.readWhileFrom]
  | cons ch r ih =>
    unfold Lexer.readWhileFrom
    split
    · exact Nat.le_succ_of_le (ih _ _ _)
    · exact Nat.le_refl _

theorem readStringFrom_length (q : Char) (e : Bool) (r : List Char) (l c : Nat)
    (acc : List Char) : (Lexer.readStringFrom q e r l c acc).2.rest.length ≤ r.length := by
  induction r generalizing e l c acc with
  | nil => cases e <;> simp [Lexer.readStringFrom]
  | cons ch r ih =>
    cases e with
    | true =>
      rw [Lexer.readStringFrom]
      exact Nat.le_succ_of_le (ih _ _ _ _)
    | false =>
      rw [Lexer.readStringFrom]
      split
      · simp
      · split
        · exact Nat.le_succ_of_le (ih _ _ _ _)
        · exact Nat.le_succ_of_le (ih _ _ _ _)

theorem advance_length (lx : Lexer) : lx.advance.rest.length ≤ lx.rest.length := by
  unfold Lexer.advance
  cases h : lx.rest with
  | nil => simp [h]
  | cons ch r => simp

theorem ite_of {α : Type} (P : α → Prop) (c : Prop) [Decidable c] (a b : α) (ha : P a)
    (hb : P b) : P (if c then a else b) := by
  split
  · exact ha
  · exact hb

theorem ite_rel {α β : Type} (R : α → β → Prop) (c : Prop) [Decidable c] (a b : α) (x y : β)
    (ha : c → R a x) (hb : ¬ c → R b y) : R (if c then a else b) (if c then x else y) := by
  split
  · rename_i h; exact ha h
  · rename_i h; exact hb h

theorem operatorToken_spec (ch : Char) (lx : Lexer) :
    (Lexer.operatorToken ch lx).2.rest.length ≤ lx.rest.length
    ∧ (Lexer.operatorToken ch lx).1.type ≠ .END_OF_FILE := by
  have ha := advance_length lx
  show (fun r : Token × Lexer => r.2.rest.length ≤ lx.rest.length ∧ r.1.type ≠ .END_OF_FILE)
    (Lexer.operatorToken ch lx)
  unfold Lexer.operatorToken
  repeat' (first
    | apply ite_of (fun r : Token × Lexer =>
        r.2.rest.length ≤ lx.rest.length ∧ r.1.type ≠ .END_OF_FILE)
    | exact ⟨Nat.le_refl _, by simp [Lexer.makeToken]⟩
    | exact ⟨ha, by simp [Lexer.makeToken]⟩)

theorem readWhileFrom_length_lt (p : Char → Bool) (ch : Char) (r : List Char) (l c : Nat)
    (acc : List Char) (h : p (toLatin1 ch) = true) :
    (Lexer.readWhileFrom p (ch :: r) l c acc).2.rest.length < (ch :: r).length := by
  rw [Lexer.readWhileFrom, if_pos h]
  exact Nat.lt_succ_of_le (readWhileFrom_length p r _ _ _)

theorem lexer_eta (lx : Lexer) (ch : Char) (r : List Char) (h : lx.rest = ch :: r) :
    lx = ⟨ch :: r, lx.line, lx.column⟩ := by
  cases lx
  simp only [Lexer.mk.injEq, and_self, and_true]
  exact h

/-- At a character that is not white space `nextToken` consumes input and
returns a token that is not END_OF_FILE. -/
theorem nextToken_spec (lx : Lexer) (ch : Char) (r : List Char) (h : lx.rest = ch :: r)
    (hsp : qIsSpace ch = false) :
    (Lexer.nextToken lx).2.rest.length < lx.rest.length
    ∧ (Lexer.nextToken lx).1.type ≠ .END_OF_FILE := by
  have hskip : lx.skipWhitespace = lx := by
    unfold Lexer.skipWhitespace
    rw [h, skipWhitespaceFrom_of_head ch r _ _ hsp]
    exact (lexer_eta lx ch r h).symm
  have hcur : lx.current = toLatin1 ch := by
    unfold Lexer.current
    rw [h]
  have hne : lx.rest.isEmpty = false := by rw [h]; rfl
  unfold Lexer.nextToken
  simp only [hskip, hne, Bool.false_eq_true, if_false, hcur]
  rw [h]
  split
  · rename_i hid
    have hp : Lexer.isIdentifierPart (toLatin1 ch) = true := by
      unfold Lexer.isIdentifierPart
      rw [hid]
      rfl
    unfold Lexer.readIdentifierOrKeyword
    simp only [h]
    refine ⟨readWhileFrom_length_lt _ ch r _ _ _ hp, ?_⟩
    exact ite_ne_of _ _ _ _ (by decide) (keywordToTokenType_ne_eof _)
  · split
    · rename_i hdg
      unfold Lexer.readNumber
      simp only [h]
      refine ⟨readWhileFrom_length_lt _ ch r _ _ _ ?_, by decide⟩
      simp only [hdg, Bool.true_or]
    · split
      · unfold Lexer.readString Lexer.advance
        simp only [h]
        exact ⟨Nat.lt_succ_of_le (readStringFrom_length _ _ _ _ _ _), by decide⟩
      · have hop := operatorToken_spec (toLatin1 ch) lx.advance
        have hadv : lx.advance.rest = r := by
          unfold Lexer.advance
          rw [h]
        rw [hadv] at hop
        exact ⟨Nat.lt_succ_of_le hop.1, hop.2⟩

theorem skipComment_length_lt (lx : Lexer) (ch : Char) (r : List Char) (h : lx.rest = ch :: r)
    (hc : lx.current = '-') : lx.skipComment.rest.length < lx.rest.length := by
  have hch : ch.toNat ≠ 10 := by
    unfold Lexer.current at hc
    rw [h] at hc
    simp only at hc
    unfold toLatin1 at hc
    split at hc
    · exact absurd hc (by decide)
    · rw [hc]
      decide
  unfold Lexer.skipComment
  rw [h, Lexer.skipCommentFrom, if_neg hch]
  exact Nat.lt_succ_of_le (skipCommentFrom_length _ _ _)

/-- With more fuel than characters the loop of `tokenize` ends: it returns
tokens, the last one is END_OF_FILE and no earlier one is. -/
theorem tokenizeLoop_total (fuel : Nat) (lx : Lexer) (h : lx.rest.length < fuel) :
    ∃ toks, Lexer.tokenizeLoop fuel lx = some toks
      ∧ (∃ l c, toks.getLast? = some ⟨.END_OF_FILE, "", l, c⟩)
      ∧ ∀ t ∈ toks.dropLast, t.type ≠ .END_OF_FILE := by
  induction fuel generalizing lx with
  | zero => exact absurd h (Nat.not_lt_zero _)
  | succ fuel ih =>
    rw [Lexer.tokenizeLoop]
    split
    · exact ⟨_, rfl, ⟨_, _, rfl⟩, by simp⟩
    · dsimp only
      split
      · exact ⟨_, rfl, ⟨_, _, rfl⟩, by simp⟩
      · rename_i hne1 hne2
        have hle : lx.skipWhitespace.rest.length ≤ lx.rest.length :=
          skipWhitespaceFrom_length _ _ _
        obtain ⟨ch, r, hrest⟩ : ∃ ch r, lx.skipWhitespace.rest = ch :: r := by
          cases hr : lx.skipWhitespace.rest with
          | nil => rw [hr] at hne2; exact absurd rfl hne2
          | cons a b => exact ⟨a, b, rfl⟩
        have hsp : qIsSpace ch = false := skipWhitespaceFrom_head _ _ _ ch r hrest
        split
        · rename_i hcomment
          have hlt := skipComment_length_lt lx.skipWhitespace ch r hrest hcomment.1
          exact ih _ (by omega)
        · obtain ⟨hlt, hty⟩ := nextToken_spec lx.skipWhitespace ch r hrest hsp
          obtain ⟨toks, htoks, ⟨l, c, hlast⟩, hrestt⟩ := ih lx.skipWhitespace.nextToken.2 (by omega)
          refine ⟨lx.skipWhitespace.nextToken.1 :: toks, ?_, ⟨l, c, ?_⟩, ?_⟩
          · simp only [htoks, Option.map_some']
          · cases toks with
            | nil => simp at hlast
            | cons a b => simpa [List.getLast?_cons_cons] using hlast
          · cases toks with
            | nil => simp at hlast
            | cons a b =>
              intro t ht
              simp only [List.dropLast_cons₂, List.mem_cons] at ht
              rcases ht with ht | ht
              · rw [ht]; exact hty
              · exact hrestt t ht

/-! ## C25: `tokenize` is total -/

theorem unrecognisedTexts_cons_of_not (c : Char) (l : List Char) (h : isUnrecognised c = false) :
    unrecognisedTexts (c :: l) = unrecognisedTexts l := by
  simp [unrecognisedTexts, List.filter_cons, h]

theorem unrecognisedTexts_cons_of (c : Char) (l : List Char) (h : isUnrecognised c = true) :
    unrecognisedTexts (c :: l) = String.mk [toLatin1 c] :: unrecognisedTexts l := by
  simp [unrecognisedTexts, List.filter_cons, h]

theorem noLiteralOrComment_tail (c : Char) (l : List Char) (h : noLiteralOrComment (c :: l) = true) :
    noLiteralOrComment l = true := by
  rw [noLiteralOrComment] at h
  simp only [Bool.and_eq_true] at h
  exact h.2

theorem isUnrecognised_of_startsToken (c : Char) (h : startsToken (toLatin1 c) = true) :
    isUnrecognised c = false := by
  simp [isUnrecognised, h]

theorem skipWhitespaceFrom_texts (r : List Char) : ∀ (l c : Nat),
    noLiteralOrComment r = true →
    noLiteralOrComment (Lexer.skipWhitespaceFrom r l c).rest = true
    ∧ unrecognisedTexts (Lexer.skipWhitespaceFrom r l c).rest = unrecognisedTexts r := by
  induction r with
  | nil => intro l c h; exact ⟨h, rfl⟩
  | cons ch r ih =>
    intro l c h
    rw [Lexer.skipWhitespaceFrom]
    split
    · rename_i hsp
      have hu : isUnrecognised ch = false := by simp [isUnrecognised, hsp]
      rw [unrecognisedTexts_cons_of_not ch r hu]
      exact ih _ _ (noLiteralOrComment_tail ch r h)
    · exact ⟨h, rfl⟩

theorem readWhileFrom_texts (p : Char → Bool) (hp : ∀ x, p x = true → startsToken x = true)
    (r : List Char) : ∀ (l c : Nat) (acc : List Char),
    noLiteralOrComment r = true →
    noLiteralOrComment (Lexer.readWhileFrom p r l c acc).2.rest = true
    ∧ unrecognisedTexts (Lexer.readWhileFrom p r l c acc).2.rest = unrecognisedTexts r := by
  induction r with
  | nil => intro l c acc h; exact ⟨h, rfl⟩
  | cons ch r ih =>
    intro l c acc h
    rw [Lexer.readWhileFrom]
    split
    · rename_i hx
      rw [unrecognisedTexts_cons_of_not ch r (isUnrecognised_of_startsToken ch (hp _ hx))]
      exact ih _ _ _ (noLiteralOrComment_tail ch r h)
    · exact ⟨h, rfl⟩

theorem advance_texts (lx : Lexer) (h : startsToken lx.current = true)
    (hn : noLiteralOrComment lx.rest = true) :
    noLiteralOrComment lx.advance.rest = true
    ∧ unrecognisedTexts lx.advance.rest = unrecognisedTexts lx.rest := by
  unfold Lexer.advance
  cases hr : lx.rest with
  | nil =>
    rw [hr] at hn
    rw [hr]
    exact ⟨hn, rfl⟩
  | cons ch r =>
    simp only
    have hc : lx.current = toLatin1 ch := by
      unfold Lexer.current
      rw [hr]
    rw [hc] at h
    rw [hr] at hn
    rw [unrecognisedTexts_cons_of_not ch r (isUnrecognised_of_startsToken ch h)]
    exact ⟨noLiteralOrComment_tail ch r hn, rfl⟩

/-- The token of a character that has a `case` in the `switch`: it is not an
UNKNOWN token other than the lone `!`, and what is stepped over holds no
unrecognised character. -/
theorem operatorToken_texts (x : Char) (lx : Lexer) (hx : isOperatorStart x = true)
    (hn : noLiteralOrComment lx.rest = true) :
    noLiteralOrComment (Lexer.operatorToken x lx).2.rest = true
    ∧ unrecognisedTexts (Lexer.operatorToken x lx).2.rest = unrecognisedTexts lx.rest
    ∧ unknownTexts [(Lexer.operatorToken x lx).1] = [] := by
  have hadv : ∀ y : Char, startsToken y = true → lx.current = y →
      noLiteralOrComment lx.advance.rest = true
        ∧ unrecognisedTexts lx.advance.rest = unrecognisedTexts lx.rest := by
    intro y hy hc
    exact advance_texts lx (by rw [hc]; exact hy) hn
  have he := hadv '=' (by decide)
  have hg := hadv '>' (by decide)
  simp only [isOperatorStart, List.contains_eq_any_beq, List.any_eq_true, beq_iff_eq] at hx
  obtain ⟨y, hy, hxy⟩ := hx
  subst hxy
  simp only [String.data, List.mem_cons, List.mem_singleton, List.not_mem_nil, or_false] at hy
  rcases hy with h | h | h | h | h | h | h | h | h | h | h | h | h | h <;> subst h
  all_goals unfold Lexer.operatorToken
  all_goals simp only [Char.reduceEq, if_true, if_false]
  all_goals first
    | (simp [unknownTexts, Lexer.makeToken, hn]; done)
    | (split
       · rename_i hc
         exact ⟨(he hc).1, (he hc).2, by simp [unknownTexts, Lexer.makeToken]⟩
       · first
         | (simp [unknownTexts, Lexer.makeToken, hn]; done)
         | (split
            · rename_i hc
              exact ⟨(hg hc).1, (hg hc).2, by simp [unknownTexts, Lexer.makeToken]⟩
            · simp [unknownTexts, Lexer.makeToken, hn]))

theorem operatorToken_unknown (x : Char) (lx : Lexer) (hx : isOperatorStart x = false) :
    Lexer.operatorToken x lx = (⟨.UNKNOWN, String.mk [x], lx.line, lx.column⟩, lx) := by
  simp only [isOperatorStart, List.contains_eq_any_beq, List.any_eq_false, beq_iff_eq] at hx
  have hn : ∀ y ∈ ['(', ')', ',', ';', '.', '*', '%', '+', '-', '/', '=', '<', '>', '!'],
      ¬ x = y := hx
  unfold Lexer.operatorToken
  simp only [hn '(' (by simp), hn ')' (by simp), hn ',' (by simp), hn ';' (by simp),
    hn '.' (by simp), hn '*' (by simp), hn '%' (by simp), hn '+' (by simp), hn '-' (by simp),
    hn '/' (by simp), hn '=' (by simp), hn '<' (by simp), hn '>' (by simp), hn '!' (by simp),
    if_false, Lexer.makeToken]

theorem unknownTexts_cons (t : Token) (ts : List Token) :
    unknownTexts (t :: ts) = unknownTexts [t] ++ unknownTexts ts := by
  unfold unknownTexts
  rw [← List.map_append, ← List.filter_append]
  rfl

/-- One call of `nextToken` at a character that is not white space, in a text
where no literal and no comment starts: the UNKNOWN text of the token followed
by the unrecognised characters of what remains are the unrecognised characters
of the text. -/
theorem nextToken_texts (lx : Lexer) (ch : Char) (r : List Char) (h : lx.rest = ch :: r)
    (hsp : qIsSpace ch = false) (hn : noLiteralOrComment (ch :: r) = true) :
    noLiteralOrComment (Lexer.nextToken lx).2.rest = true
    ∧ unknownTexts [(Lexer.nextToken lx).1] ++ unrecognisedTexts (Lexer.nextToken lx).2.rest
        = unrecognisedTexts (ch :: r) := by
  have hskip : lx.skipWhitespace = lx := by
    unfold Lexer.skipWhitespace
    rw [h, skipWhitespaceFrom_of_head ch r _ _ hsp]
    exact (lexer_eta lx ch r h).symm
  have hcur : lx.current = toLatin1 ch := by
    unfold Lexer.current
    rw [h]
  have hne : lx.rest.isEmpty = false := by rw [h]; rfl
  have hadv : lx.advance = ⟨r, nextLine ch lx.line, nextColumn ch lx.column⟩ := by
    unfold Lexer.advance
    rw [h]
  unfold Lexer.nextToken
  simp only [hskip, hne, Bool.false_eq_true, if_false, hcur]
  split
  · rename_i hid
    have hp : ∀ x, Lexer.isIdentifierPart x = true → startsToken x = true := by
      intro x hx
      unfold Lexer.isIdentifierPart at hx
      unfold startsToken Lexer.isDigit
      simp only [Bool.or_eq_true] at hx ⊢
      rcases hx with hx | hx
      · exact Or.inl (Or.inl (Or.inl (Or.inl hx)))
      · exact Or.inl (Or.inl (Or.inl (Or.inr hx)))
    obtain ⟨h1, h2⟩ := readWhileFrom_texts _ hp (ch :: r) lx.line lx.column [] hn
    unfold Lexer.readIdentifierOrKeyword
    simp only [h]
    refine ⟨h1, ?_⟩
    rw [h2]
    have hu : ∀ (ty : TokenType) (v : String) (l c : Nat),
        unknownTexts [⟨if ty = .UNKNOWN then .IDENTIFIER else ty, v, l, c⟩] = [] := by
      intro ty v l c
      by_cases hty : ty = .UNKNOWN
      · simp [unknownTexts, hty]
      · simp [unknownTexts, hty]
    rw [hu]
    rfl
  · rename_i hid
    split
    · rename_i hdg
      have hp : ∀ x, (Lexer.isDigit x || x.toNat == 46) = true → startsToken x = true := by
        intro x hx
        simp only [Bool.or_eq_true, beq_iff_eq] at hx
        rcases hx with hx | hx
        · simp [startsToken, hx]
        · have hx2 : x = '.' := by
            rw [← Char.ofNat_toNat x, hx]
          subst hx2
          decide
      obtain ⟨h1, h2⟩ := readWhileFrom_texts _ hp (ch :: r) lx.line lx.column [] hn
      unfold Lexer.readNumber
      simp only [h]
      refine ⟨h1, ?_⟩
      rw [h2]
      rfl
    · rename_i hdg
      split
      · rename_i hq
        exfalso
        rw [noLiteralOrComment] at hn
        simp only [Bool.and_eq_true, Bool.not_eq_true', Bool.or_eq_false_iff,
          beq_eq_false_iff_ne, ne_eq] at hn
        have h39 := hn.1.1.1
        have h34 := hn.1.1.2
        unfold toLatin1 at hq
        split at hq
        · simp at hq
        · rcases hq with hq | hq
          · exact h39 hq
          · exact h34 hq
      · rename_i hq
        rw [hadv]
        by_cases hop : isOperatorStart (toLatin1 ch) = true
        · have hst : startsToken (toLatin1 ch) = true := by simp [startsToken, hop]
          obtain ⟨h1, h2, h3⟩ := operatorToken_texts (toLatin1 ch)
            ⟨r, nextLine ch lx.line, nextColumn ch lx.column⟩ hop (noLiteralOrComment_tail ch r hn)
          refine ⟨h1, ?_⟩
          rw [h3, h2, unrecognisedTexts_cons_of_not ch r (isUnrecognised_of_startsToken ch hst)]
          rfl
        · have hop2 : isOperatorStart (toLatin1 ch) = false := by simpa using hop
          rw [operatorToken_unknown _ _ hop2]
          have hst : startsToken (toLatin1 ch) = false := by
            simp only [startsToken, Bool.or_eq_false_iff, beq_eq_false_iff_ne, ne_eq]
            simp only [not_or] at hq
            exact ⟨⟨⟨⟨by simpa using hid, by simpa using hdg⟩, hq.1⟩, hq.2⟩, hop2⟩
          have hun : isUnrecognised ch = true := by simp [isUnrecognised, hsp, hst]
          have hbang : String.mk [toLatin1 ch] ≠ "!" := by
            intro hb
            have hb2 : toLatin1 ch = '!' := by
              have := congrArg String.data hb
              simpa using this
            rw [hb2] at hop2
            exact absurd hop2 (by decide)
          refine ⟨noLiteralOrComment_tail ch r hn, ?_⟩
          rw [unrecognisedTexts_cons_of ch r hun]
          simp [unknownTexts, hbang]

theorem nextToken_unrecognised (lx : Lexer) (ch : Char) (r : List Char) (h : lx.rest = ch :: r)
    (hsp : qIsSpace ch = false) (hst : startsToken (toLatin1 ch) = false) :
    lx.nextToken
      = (⟨.UNKNOWN, String.mk [toLatin1 ch], nextLine ch lx.line, nextColumn ch lx.column⟩,
         ⟨r, nextLine ch lx.line, nextColumn ch lx.column⟩) := by
  have hskip : lx.skipWhitespace = lx := by
    unfold Lexer.skipWhitespace
    rw [h, skipWhitespaceFrom_of_head ch r _ _ hsp]
    exact (lexer_eta lx ch r h).symm
  have hcur : lx.current = toLatin1 ch := by
    unfold Lexer.current
    rw [h]
  have hne : lx.rest.isEmpty = false := by rw [h]; rfl
  have hadv : lx.advance = ⟨r, nextLine ch lx.line, nextColumn ch lx.column⟩ := by
    unfold Lexer.advance
    rw [h]
  simp only [startsToken, Bool.or_eq_false_iff, beq_eq_false_iff_ne, ne_eq] at hst
  obtain ⟨⟨⟨⟨hid, hdg⟩, h39⟩, h34⟩, hop⟩ := hst
  unfold Lexer.nextToken
  simp only [hskip, hne, Bool.false_eq_true, if_false, hcur, hid, hdg, h39, h34, or_self, hadv]
  exact operatorToken_unknown _ _ hop

theorem tokenizeLoop_unrecognised (fuel : Nat) (lx : Lexer) (ch : Char) (r : List Char)
    (h : lx.skipWhitespace.rest = ch :: r) (hst : startsToken (toLatin1 ch) = false) :
    Lexer.tokenizeLoop (fuel + 1) lx
      = (Lexer.tokenizeLoop fuel
            ⟨r, nextLine ch lx.skipWhitespace.line, nextColumn ch lx.skipWhitespace.column⟩).map
          (fun ts => (⟨.UNKNOWN, String.mk [toLatin1 ch], nextLine ch lx.skipWhitespace.line,
              nextColumn ch lx.skipWhitespace.column⟩ : Token) :: ts) := by
  have hsp : qIsSpace ch = false := skipWhitespaceFrom_head _ _ _ ch r h
  have hne0 : lx.rest.isEmpty = false := by
    cases hr : lx.rest with
    | nil =>
      unfold Lexer.skipWhitespace at h
      rw [hr] at h
      simp [Lexer.skipWhitespaceFrom] at h
    | cons a b => rfl
  have hne : lx.skipWhitespace.rest.isEmpty = false := by rw [h]; rfl
  have hcur : lx.skipWhitespace.current = toLatin1 ch := by
    unfold Lexer.current
    rw [h]
  have hdash : ¬ (toLatin1 ch = '-') := by
    intro hd
    rw [hd] at hst
    exact absurd hst (by decide)
  rw [Lexer.tokenizeLoop]
  simp only [hne0, hne, Bool.false_eq_true, if_false, hcur, hdash, false_and,
    nextToken_unrecognised lx.skipWhitespace ch r h hsp hst]

theorem tokenizeLoop_texts (fuel : Nat) : ∀ (lx : Lexer), lx.rest.length < fuel →
    noLiteralOrComment lx.rest = true →
    ∃ toks, Lexer.tokenizeLoop fuel lx = some toks
      ∧ unknownTexts toks = unrecognisedTexts lx.rest := by
  induction fuel with
  | zero => intro lx h; exact absurd h (Nat.not_lt_zero _)
  | succ fuel ih =>
    intro lx h hn
    obtain ⟨hn1, hj1⟩ := skipWhitespaceFrom_texts lx.rest lx.line lx.column hn
    have hle : lx.skipWhitespace.rest.length ≤ lx.rest.length :=
      skipWhitespaceFrom_length _ _ _
    have heof : ∀ l : Lexer, unknownTexts [l.makeToken .END_OF_FILE ""] = [] := by
      intro l
      simp [unknownTexts, Lexer.makeToken]
    rw [Lexer.tokenizeLoop]
    split
    · rename_i he
      refine ⟨_, rfl, ?_⟩
      have he2 : lx.rest = [] := by simpa using he
      rw [heof, he2]
      rfl
    · dsimp only
      split
      · rename_i he
        refine ⟨_, rfl, ?_⟩
        have he2 : lx.skipWhitespace.rest = [] := by simpa using he
        rw [heof, ← hj1]
        show _ = unrecognisedTexts lx.skipWhitespace.rest
        rw [he2]
        rfl
      · rename_i hne1 hne2
        obtain ⟨ch, r, hrest⟩ : ∃ ch r, lx.skipWhitespace.rest = ch :: r := by
          cases hr : lx.skipWhitespace.rest with
          | nil => rw [hr] at hne2; exact absurd rfl hne2
          | cons a b => exact ⟨a, b, rfl⟩
        have hsp : qIsSpace ch = false := skipWhitespaceFrom_head _ _ _ ch r hrest
        have hn2 : noLiteralOrComment (ch :: r) = true := by
          rw [← hrest]
          exact hn1
        split
        · rename_i hcomment
          exfalso
          obtain ⟨hc1, hc2⟩ := hcomment
          unfold Lexer.current at hc1
          unfold Lexer.peek at hc2
          rw [hrest] at hc1 hc2
          cases r with
          | nil =>
            have hz : ¬ (Char.ofNat 0 = '-') := by decide
            exact hz hc2
          | cons c2 r2 =>
            simp only at hc1 hc2
            have e1 : ch = '-' := by
              unfold toLatin1 at hc1
              split at hc1
              · exact absurd hc1 (by decide)
              · exact hc1
            have e2 : c2 = '-' := by
              unfold toLatin1 at hc2
              split at hc2
              · exact absurd hc2 (by decide)
              · exact hc2
            subst e1
            subst e2
            rw [noLiteralOrComment] at hn2
            simp at hn2
        · obtain ⟨hlt, _⟩ := nextToken_spec lx.skipWhitespace ch r hrest hsp
          obtain ⟨hn3, hj3⟩ := nextToken_texts lx.skipWhitespace ch r hrest hsp hn2
          obtain ⟨toks, htoks, hu⟩ := ih lx.skipWhitespace.nextToken.2 (by omega) hn3
          refine ⟨lx.skipWhitespace.nextToken.1 :: toks, ?_, ?_⟩
          · simp only [htoks, Option.map_some']
          · rw [unknownTexts_cons, hu, hj3, ← hrest]
            exact hj1

theorem skipWhitespaceFrom_append (P : List Char) (ch : Char) (Q : List Char)
    (h : qIsSpace ch = false) : ∀ (l c : Nat),
    Lexer.skipWhitespaceFrom (P ++ ch :: Q) l c
      = ⟨(Lexer.skipWhitespaceFrom P l c).rest ++ ch :: Q, (Lexer.skipWhitespaceFrom P l c).line,
          (Lexer.skipWhitespaceFrom P l c).column⟩ := by
  induction P with
  | nil =>
    intro l c
    simp [Lexer.skipWhitespaceFrom, h]
  | cons x P ih =>
    intro l c
    rw [List.cons_append, Lexer.skipWhitespaceFrom, Lexer.skipWhitespaceFrom]
    split
    · exact ih _ _
    · rfl

theorem readWhileFrom_append (p : Char → Bool) (P : List Char) (ch : Char) (Q : List Char)
    (h : p (toLatin1 ch) = false) : ∀ (l c : Nat) (acc : List Char),
    Lexer.readWhileFrom p (P ++ ch :: Q) l c acc
      = ((Lexer.readWhileFrom p P l c acc).1,
          ⟨(Lexer.readWhileFrom p P l c acc).2.rest ++ ch :: Q,
            (Lexer.readWhileFrom p P l c acc).2.line, (Lexer.readWhileFrom p P l c acc).2.column⟩) := by
  induction P with
  | nil =>
    intro l c acc
    simp [Lexer.readWhileFrom, h]
  | cons x P ih =>
    intro l c acc
    rw [List.cons_append, Lexer.readWhileFrom, Lexer.readWhileFrom]
    split
    · exact ih _ _ _
    · rfl

theorem operatorToken_append (x : Char) (P : List Char) (ch : Char) (Q : List Char) (l c : Nat)
    (h1 : ¬ toLatin1 ch = '=') (h2 : ¬ toLatin1 ch = '>') :
    Lexer.operatorToken x ⟨P ++ ch :: Q, l, c⟩
      = ((Lexer.operatorToken x ⟨P, l, c⟩).1,
          ⟨(Lexer.operatorToken x ⟨P, l, c⟩).2.rest ++ ch :: Q,
            (Lexer.operatorToken x ⟨P, l, c⟩).2.line, (Lexer.operatorToken x ⟨P, l, c⟩).2.column⟩) := by
  have z1 : ¬ (Char.ofNat 0 = '=') := by decide
  have z2 : ¬ (Char.ofNat 0 = '>') := by decide
  cases P with
  | nil =>
    unfold Lexer.operatorToken
    simp only [List.nil_append, Lexer.current, Lexer.makeToken, h1, h2, z1, z2, if_false]
    repeat' (first
      | (intro _; apply ite_rel (fun (u v : Token × Lexer) =>
          u = (v.1, (⟨v.2.rest ++ ch :: Q, v.2.line, v.2.column⟩ : Lexer))))
      | apply ite_rel (fun (u v : Token × Lexer) =>
          u = (v.1, (⟨v.2.rest ++ ch :: Q, v.2.line, v.2.column⟩ : Lexer)))
      | (intro _; rfl))
  | cons y P =>
    unfold Lexer.operatorToken
    simp only [List.cons_append, Lexer.current, Lexer.advance, Lexer.makeToken]
    repeat' (first
      | (intro _; apply ite_rel (fun (u v : Token × Lexer) =>
          u = (v.1, (⟨v.2.rest ++ ch :: Q, v.2.line, v.2.column⟩ : Lexer))))
      | apply ite_rel (fun (u v : Token × Lexer) =>
          u = (v.1, (⟨v.2.rest ++ ch :: Q, v.2.line, v.2.column⟩ : Lexer)))
      | (intro _; rfl))

theorem not_startsToken (x : Char) (h : startsToken x = false) :
    Lexer.isIdentifierPart x = false ∧ (Lexer.isDigit x || x.toNat == 46) = false
      ∧ ¬ x = '=' ∧ ¬ x = '>' ∧ ¬ x = '-' ∧ x.toNat ≠ 39 ∧ x.toNat ≠ 34 := by
  simp only [startsToken, Bool.or_eq_false_iff, beq_eq_false_iff_ne, ne_eq] at h
  obtain ⟨⟨⟨⟨hid, hdg⟩, h39⟩, h34⟩, hop⟩ := h
  simp only [isOperatorStart, List.contains_eq_any_beq, List.any_eq_false, beq_iff_eq] at hop
  have hn : ∀ y ∈ ['(', ')', ',', ';', '.', '*', '%', '+', '-', '/', '=', '<', '>', '!'],
      ¬ x = y := hop
  refine ⟨?_, ?_, hn '=' (by simp), hn '>' (by simp), hn '-' (by simp), h39, h34⟩
  · unfold Lexer.isIdentifierPart
    rw [hid]
    exact hdg
  · have hdot : ¬ x.toNat = 46 := by
      intro h46
      exact hn '.' (by simp) (char_eq_of_toNat x '.' h46)
    simp [hdg, hdot]

theorem nextToken_append (c0 : Char) (P0 : List Char) (ch : Char) (Q : List Char) (l c : Nat)
    (hsp : qIsSpace c0 = false)
    (hq : ¬ ((toLatin1 c0).toNat = 39 ∨ (toLatin1 c0).toNat = 34))
    (hst : startsToken (toLatin1 ch) = false) :
    Lexer.nextToken ⟨c0 :: P0 ++ ch :: Q, l, c⟩
      = ((Lexer.nextToken ⟨c0 :: P0, l, c⟩).1,
          ⟨(Lexer.nextToken ⟨c0 :: P0, l, c⟩).2.rest ++ ch :: Q,
            (Lexer.nextToken ⟨c0 :: P0, l, c⟩).2.line,
            (Lexer.nextToken ⟨c0 :: P0, l, c⟩).2.column⟩) := by
  obtain ⟨hp1, hp2, he, hg, _, _, _⟩ := not_startsToken _ hst
  have hskip : ∀ r : List Char,
      Lexer.skipWhitespace ⟨c0 :: r, l, c⟩ = ⟨c0 :: r, l, c⟩ := by
    intro r
    unfold Lexer.skipWhitespace
    exact skipWhitespaceFrom_of_head c0 r l c hsp
  unfold Lexer.nextToken
  rw [List.cons_append, hskip, hskip]
  simp only [List.isEmpty_cons, Bool.false_eq_true, if_false, Lexer.current, hq]
  by_cases hid : Lexer.isIdentifierStart (toLatin1 c0) = true
  · simp only [hid, if_true]
    unfold Lexer.readIdentifierOrKeyword
    simp only
    rw [← List.cons_append, readWhileFrom_append _ (c0 :: P0) ch Q hp1]
  · simp only [hid, Bool.false_eq_true, if_false]
    by_cases hdg : Lexer.isDigit (toLatin1 c0) = true
    · simp only [hdg, if_true]
      unfold Lexer.readNumber
      simp only
      rw [← List.cons_append, readWhileFrom_append _ (c0 :: P0) ch Q hp2]
    · simp only [hdg, Bool.false_eq_true, if_false]
      unfold Lexer.advance
      simp only
      exact operatorToken_append _ P0 ch Q _ _ he hg

/-- The loop of `tokenize` on a text `P` in which no literal and no comment
starts, followed by an unrecognised character `ch` and anything: the tokens of
`P`, then the UNKNOWN token of `ch`. -/
theorem tokenizeLoop_reaches (ch : Char) (Q : List Char) (hun : isUnrecognised ch = true)
    (fuel : Nat) : ∀ (P : List Char) (l c : Nat), (P ++ ch :: Q).length < fuel →
    noLiteralOrComment P = true →
    ∃ toks1 toks2 l2 c2,
      Lexer.tokenizeLoop fuel ⟨P ++ ch :: Q, l, c⟩
        = some (toks1 ++ (⟨.UNKNOWN, String.mk [toLatin1 ch], l2, c2⟩ : Token) :: toks2)
      ∧ unknownTexts toks1 = unrecognisedTexts P := by
  have hsp : qIsSpace ch = false := by
    simp only [isUnrecognised, Bool.and_eq_true, Bool.not_eq_true'] at hun
    exact hun.1
  have hst : startsToken (toLatin1 ch) = false := by
    simp only [isUnrecognised, Bool.and_eq_true, Bool.not_eq_true'] at hun
    exact hun.2
  obtain ⟨_, _, _, _, hdash, _, _⟩ := not_startsToken _ hst
  induction fuel with
  | zero => intro P l c h; exact absurd h (Nat.not_lt_zero _)
  | succ fuel ih =>
    intro P l c hlen hn
    obtain ⟨hn1, hj1⟩ := skipWhitespaceFrom_texts P l c hn
    have hsk : Lexer.skipWhitespace ⟨P ++ ch :: Q, l, c⟩
        = ⟨(Lexer.skipWhitespaceFrom P l c).rest ++ ch :: Q, (Lexer.skipWhitespaceFrom P l c).line,
            (Lexer.skipWhitespaceFrom P l c).column⟩ := by
      unfold Lexer.skipWhitespace
      exact skipWhitespaceFrom_append P ch Q hsp l c
    have hle : (Lexer.skipWhitespaceFrom P l c).rest.length ≤ P.length :=
      skipWhitespaceFrom_length _ _ _
    cases hP1 : (Lexer.skipWhitespaceFrom P l c).rest with
    | nil =>
      have hrest : (Lexer.skipWhitespace ⟨P ++ ch :: Q, l, c⟩).rest = ch :: Q := by
        rw [hsk, hP1]
        rfl
      have hstep := tokenizeLoop_unrecognised fuel ⟨P ++ ch :: Q, l, c⟩ ch Q hrest hst
      obtain ⟨toks2, h2, _⟩ := tokenizeLoop_total fuel
        ⟨Q, nextLine ch (Lexer.skipWhitespace ⟨P ++ ch :: Q, l, c⟩).line,
          nextColumn ch (Lexer.skipWhitespace ⟨P ++ ch :: Q, l, c⟩).column⟩
        (by
          simp only [List.length_append, List.length_cons] at hlen
          show Q.length < fuel
          omega)
      refine ⟨[], toks2,
        nextLine ch (Lexer.skipWhitespace ⟨P ++ ch :: Q, l, c⟩).line,
        nextColumn ch (Lexer.skipWhitespace ⟨P ++ ch :: Q, l, c⟩).column, ?_, ?_⟩
      · rw [hstep, h2]
        rfl
      · rw [← hj1, hP1]
        rfl
    | cons c0 P0 =>
      have hsp0 : qIsSpace c0 = false := skipWhitespaceFrom_head P l c c0 P0 hP1
      have hn2 : noLiteralOrComment (c0 :: P0) = true := by
        rw [← hP1]
        exact hn1
      have hq : ¬ ((toLatin1 c0).toNat = 39 ∨ (toLatin1 c0).toNat = 34) := by
        have hn3 := hn2
        rw [noLiteralOrComment] at hn3
        simp only [Bool.and_eq_true, Bool.not_eq_true', Bool.or_eq_false_iff,
          beq_eq_false_iff_ne, ne_eq] at hn3
        have h39 := hn3.1.1.1
        have h34 := hn3.1.1.2
        unfold toLatin1
        split
        · simp
        · exact fun h => h.elim h39 h34
      have hcomment : ¬ ((Lexer.current ⟨c0 :: P0 ++ ch :: Q, (Lexer.skipWhitespaceFrom P l c).line,
            (Lexer.skipWhitespaceFrom P l c).column⟩ = '-')
          ∧ (Lexer.peek ⟨c0 :: P0 ++ ch :: Q, (Lexer.skipWhitespaceFrom P l c).line,
            (Lexer.skipWhitespaceFrom P l c).column⟩ = '-')) := by
        rintro ⟨hc1, hc2⟩
        unfold Lexer.current at hc1
        unfold Lexer.peek at hc2
        cases P0 with
        | nil =>
          simp only [List.cons_append, List.nil_append] at hc2
          exact hdash hc2
        | cons c1 P1 =>
          simp only [List.cons_append] at hc1 hc2
          have e1 : c0 = '-' := by
            unfold toLatin1 at hc1
            split at hc1
            · exact absurd hc1 (by decide)
            · exact hc1
          have e2 : c1 = '-' := by
            unfold toLatin1 at hc2
            split at hc2
            · exact absurd hc2 (by decide)
            · exact hc2
          subst e1
          subst e2
          rw [noLiteralOrComment] at hn2
          simp at hn2
      obtain ⟨hlt, _⟩ := nextToken_spec
        ⟨c0 :: P0, (Lexer.skipWhitespaceFrom P l c).line, (Lexer.skipWhitespaceFrom P l c).column⟩
        c0 P0 rfl hsp0
      obtain ⟨hn3, hj3⟩ := nextToken_texts
        ⟨c0 :: P0, (Lexer.skipWhitespaceFrom P l c).line, (Lexer.skipWhitespaceFrom P l c).column⟩
        c0 P0 rfl hsp0 hn2
      have hnext := nextToken_append c0 P0 ch Q (Lexer.skipWhitespaceFrom P l c).line
        (Lexer.skipWhitespaceFrom P l c).column hsp0 hq hst
      obtain ⟨toks1, toks2, l2, c2, htoks, hu⟩ := ih
        (Lexer.nextToken ⟨c0 :: P0, (Lexer.skipWhitespaceFrom P l c).line,
          (Lexer.skipWhitespaceFrom P l c).column⟩).2.rest
        (Lexer.nextToken ⟨c0 :: P0, (Lexer.skipWhitespaceFrom P l c).line,
          (Lexer.skipWhitespaceFrom P l c).column⟩).2.line
        (Lexer.nextToken ⟨c0 :: P0, (Lexer.skipWhitespaceFrom P l c).line,
          (Lexer.skipWhitespaceFrom P l c).column⟩).2.column
        (by
          simp only [List.length_append, List.length_cons] at hlen hlt ⊢
          rw [hP1] at hle
          simp only [List.length_cons] at hle
          omega)
        hn3
      refine ⟨(Lexer.nextToken ⟨c0 :: P0, (Lexer.skipWhitespaceFrom P l c).line,
          (Lexer.skipWhitespaceFrom P l c).column⟩).1 :: toks1, toks2, l2, c2, ?_, ?_⟩
      · rw [Lexer.tokenizeLoop]
        have hne0 : (P ++ ch :: Q).isEmpty = false := by
          cases P <;> rfl
        simp only [hne0, Bool.false_eq_true, if_false, hsk, hP1, List.cons_append,
          List.isEmpty_cons]
        rw [← List.cons_append, if_neg hcomment, hnext]
        simp only [htoks, Option.map_some', List.cons_append]
      · rw [unknownTexts_cons, hu, hj3, ← hP1]
        exact hj1

theorem tokenize_reaches (pre post : List Char) (ch : Char)
    (hn : noLiteralOrComment (utf16Units pre) = true) (hun : isUnrecognised ch = true) :
    ∃ toks1 toks2 l c,
      Lexer.tokenize (String.mk (pre ++ ch :: post))
        = some (toks1 ++ (⟨.UNKNOWN, String.mk [toLatin1 ch], l, c⟩ : Token) :: toks2)
      ∧ unknownTexts toks1 = unrecognisedTexts (utf16Units pre) := by
  obtain ⟨Q, hQ⟩ : ∃ Q, utf16Units (pre ++ ch :: post) = utf16Units pre ++ ch :: Q := by
    rw [utf16Units_append, utf16Units]
    split
    · exact ⟨_, rfl⟩
    · exact ⟨_, rfl⟩
  unfold Lexer.tokenize Lexer.new qLength
  simp only [hQ]
  exact tokenizeLoop_reaches ch Q hun _ (utf16Units pre) 1 1 (Nat.lt_succ_self _) hn


/-- C25: for every input text `tokenize` returns a token sequence (the loop
ends within the bound of the model, one iteration per UTF-16 unit at most); the
sequence is not empty, its last token is END_OF_FILE with an empty text, and no
other token of it is END_OF_FILE.  Whenever the loop of `tokenize` stands,
after the white space, at a character that starts no identifier, number,
string, operator or punctuation, the next token of the sequence it returns is
an UNKNOWN token whose text is that character (as `toLatin1` gives it), and the
loop goes on right behind that character.  So for every input text and every
character of it that is no white space and starts no token, if no string
literal and no comment starts in the text before it (no quote character, no
two adjacent dashes), the sequence `tokenize` returns holds the UNKNOWN token
of that character, right behind the tokens of the text before it.  And for
every input text in which no string literal and no comment starts at all, the
UNKNOWN tokens of the sequence `tokenize` returns, the lone `!` apart, are in
order exactly the characters of the input that are no white space and start no
token.  A single call of `nextToken` at such a character returns that UNKNOWN
token and steps over exactly that character. -/
theorem c25_tokenize_total :
    (∀ input : String, ∃ toks, Lexer.tokenize input = some toks
        ∧ toks ≠ []
        ∧ (∃ l c, toks.getLast? = some ⟨.END_OF_FILE, "", l, c⟩)
        ∧ ∀ t ∈ toks.dropLast, t.type ≠ .END_OF_FILE)
    ∧ (∀ (fuel : Nat) (lx : Lexer) (ch : Char) (r : List Char),
        lx.skipWhitespace.rest = ch :: r → startsToken (toLatin1 ch) = false →
        Lexer.tokenizeLoop (fuel + 1) lx
          = (Lexer.tokenizeLoop fuel
                ⟨r, nextLine ch lx.skipWhitespace.line, nextColumn ch lx.skipWhitespace.column⟩).map
              (fun ts => (⟨.UNKNOWN, String.mk [toLatin1 ch], nextLine ch lx.skipWhitespace.line,
                  nextColumn ch lx.skipWhitespace.column⟩ : Token) :: ts))
    ∧ (∀ (pre post : List Char) (ch : Char), noLiteralOrComment (utf16Units pre) = true →
        isUnrecognised ch = true →
        ∃ toks1 toks2 l c,
          Lexer.tokenize (String.mk (pre ++ ch :: post))
            = some (toks1 ++ (⟨.UNKNOWN, String.mk [toLatin1 ch], l, c⟩ : Token) :: toks2)
          ∧ unknownTexts toks1 = unrecognisedTexts (utf16Units pre))
    ∧ (∀ input : String, noLiteralOrComment (utf16Units input.data) = true →
        ∃ toks, Lexer.tokenize input = some toks
          ∧ unknownTexts toks = unrecognisedTexts (utf16Units input.data))
    ∧ (∀ (lx : Lexer) (ch : Char) (r : List Char), lx.rest = ch :: r → qIsSpace ch = false →
        startsToken (toLatin1 ch) = false →
        lx.nextToken
          = (⟨.UNKNOWN, String.mk [toLatin1 ch], nextLine ch lx.line, nextColumn ch lx.column⟩,
             ⟨r, nextLine ch lx.line, nextColumn ch lx.column⟩)) := by
  refine ⟨?_, tokenizeLoop_unrecognised, tokenize_reaches, ?_, nextToken_unrecognised⟩
  · intro input
    obtain ⟨toks, h1, ⟨l, c, h2⟩, h3⟩ :=
      tokenizeLoop_total (qLength input + 1) (Lexer.new input) (Nat.lt_succ_self (qLength input))
    refine ⟨toks, h1, ?_, ⟨l, c, h2⟩, h3⟩
    intro he
    rw [he] at h2
    simp at h2
  · intro input hn
    exact tokenizeLoop_texts (qLength input + 1) (Lexer.new input)
      (Nat.lt_succ_self (qLength input)) hn

/-- C25 at concrete inputs: the text `a # b` gives the tokens IDENTIFIER `a`,
UNKNOWN `#`, IDENTIFIER `b` and END_OF_FILE; no literal and no comment starts
in it, its one unrecognised character is `#`, and that is the one UNKNOWN token
of the sequence returned, which ends with its only END_OF_FILE.  In the text
`a # 'b` a literal starts behind the `#`, and the sequence returned still holds
the UNKNOWN token of `#` behind the tokens of `a`. -/
theorem c25_tokenize_total_witness :
    (Lexer.tokenize "a # b").map (List.map (fun t => (t.type, t.value)))
        = some [(TokenType.IDENTIFIER, "a"), (TokenType.UNKNOWN, "#"),
            (TokenType.IDENTIFIER, "b"), (TokenType.END_OF_FILE, "")]
    ∧ noLiteralOrComment (utf16Units "a # b".data) = true
    ∧ unrecognisedTexts (utf16Units "a # b".data) = ["#"]
    ∧ (∃ toks, Lexer.tokenize "a # b" = some toks
        ∧ unknownTexts toks = unrecognisedTexts (utf16Units "a # b".data))
    ∧ (∃ toks1 toks2 l c,
        Lexer.tokenize "a # 'b"
          = some (toks1 ++ (⟨.UNKNOWN, "#", l, c⟩ : Token) :: toks2)
        ∧ unknownTexts toks1 = unrecognisedTexts (utf16Units "a ".data))
    ∧ (∃ toks, Lexer.tokenize "a # b" = some toks
        ∧ toks ≠ []
        ∧ (∃ l c, toks.getLast? = some ⟨.END_OF_FILE, "", l, c⟩)
        ∧ ∀ t ∈ toks.dropLast, t.type ≠ .END_OF_FILE)
    ∧ Lexer.nextToken ⟨"# b".data, 1, 3⟩
        = (⟨.UNKNOWN, "#", 1, 4⟩, ⟨" b".data, 1, 4⟩) :=
  ⟨by decide!, by decide!, by decide!,
   c25_tokenize_total.2.2.2.1 "a # b" (by decide!),
   c25_tokenize_total.2.2.1 "a ".data " 'b".data '#' (by decide!) (by decide!),
   c25_tokenize_total.1 "a # b",
   c25_tokenize_total.2.2.2.2 ⟨"# b".data, 1, 3⟩ '#' " b".data rfl (by decide) (by decide)⟩

theorem toNat_ofNat_small (n : Nat) (h : n < 55296) : (Char.ofNat n).toNat = n := by
  have hv : n.isValidChar := Or.inl h
  unfold Char.ofNat
  rw [dif_pos hv]
  simp [Char.ofNatAux, Char.toNat, UInt32.toNat]

theorem upperChar_toNat (c : Char) :
    (upperChar c).toNat = if 97 ≤ c.toNat ∧ c.toNat ≤ 122 then c.toNat - 32 else c.toNat := by
  unfold upperChar
  split
  · rename_i h
    exact toNat_ofNat_small _ (by omega)
  · rfl

theorem upperChar_eq_self (c : Char) (h : ¬ (97 ≤ c.toNat ∧ c.toNat ≤ 122)) :
    upperChar c = c := by
  unfold upperChar; rw [if_neg h]

theorem utf16Units_map_upperChar (l : List Char) :
    utf16Units (l.map upperChar) = (utf16Units l).map upperChar := by
  induction l with
  | nil => rfl
  | cons c cs ih =>
    have hc : (65535 < (upperChar c).toNat) = (65535 < c.toNat) := by
      rw [upperChar_toNat]
      apply propext
      split <;> constructor <;> intro h <;> omega
    simp only [List.map_cons, utf16Units, ih, hc]
    split <;> rfl

theorem upperChar_idem (c : Char) : upperChar (upperChar c) = upperChar c := by
  apply upperChar_eq_self
  rw [upperChar_toNat]; split <;> omega

theorem qToUpper_idem (s : String) : qToUpper (qToUpper s) = qToUpper s := by
  unfold qToUpper
  simp only [List.map_map]
  congr 1
  apply List.map_congr_left
  intro x _
  exact upperChar_idem x

theorem toLatin1_upperChar (c : Char) : toLatin1 (upperChar c) = upperChar (toLatin1 c) := by
  by_cases h : 97 ≤ c.toNat ∧ c.toNat ≤ 122
  · rw [toLatin1_of_le c (by omega), toLatin1_of_le]
    rw [upperChar_toNat]; split <;> omega
  · rw [upperChar_eq_self c h]
    by_cases h2 : 255 < c.toNat
    · unfold toLatin1; rw [if_pos h2]; exact (upperChar_eq_self (Char.ofNat 0) (by decide)).symm
    · rw [toLatin1_of_le c (by omega), upperChar_eq_self c h]

/-- Upper-casing moves no character onto or off a code that is not a letter. -/
theorem upperChar_toNat_eq (c : Char) (n : Nat) (h1 : ¬ (65 ≤ n ∧ n ≤ 90))
    (h2 : ¬ (97 ≤ n ∧ n ≤ 122)) : ((upperChar c).toNat = n) = (c.toNat = n) := by
  rw [upperChar_toNat]
  apply propext
  split <;> constructor <;> intro h <;> omega

theorem upperChar_eq (c d : Char) (h1 : ¬ (65 ≤ d.toNat ∧ d.toNat ≤ 90))
    (h2 : ¬ (97 ≤ d.toNat ∧ d.toNat ≤ 122)) : (upperChar c = d) = (c = d) := by
  apply propext
  constructor
  · intro h
    apply char_eq_of_toNat
    rw [← upperChar_toNat_eq c d.toNat h1 h2, h]
  · intro h
    apply char_eq_of_toNat
    rw [upperChar_toNat_eq c d.toNat h1 h2, h]

theorem qIsSpace_upperChar (c : Char) : qIsSpace (upperChar c) = qIsSpace c := by
  by_cases h : 97 ≤ c.toNat ∧ c.toNat ≤ 122
  · have e1 : qIsSpace c = false := by
      simp only [qIsSpace, Bool.or_eq_false_iff, Bool.and_eq_false_iff, beq_eq_false_iff_ne,
        decide_eq_false_iff_not, ne_eq]
      omega
    have e2 : qIsSpace (upperChar c) = false := by
      simp only [qIsSpace, upperChar_toNat, if_pos h, Bool.or_eq_false_iff,
        Bool.and_eq_false_iff, beq_eq_false_iff_ne, decide_eq_false_iff_not, ne_eq]
      omega
    rw [e1, e2]
  · rw [upperChar_eq_self c h]

theorem nextLine_upperChar (c : Char) (l : Nat) : nextLine (upperChar c) l = nextLine c l := by
  unfold nextLine
  simp only [upperChar_toNat_eq c 10 (by omega) (by omega)]

theorem nextColumn_upperChar (c : Char) (l : Nat) :
    nextColumn (upperChar c) l = nextColumn c l := by
  unfold nextColumn
  simp only [upperChar_toNat_eq c 10 (by omega) (by omega)]

theorem isIdentifierStart_upperChar (c : Char) :
    Lexer.isIdentifierStart (upperChar c) = Lexer.isIdentifierStart c := by
  by_cases h : 97 ≤ c.toNat ∧ c.toNat ≤ 122
  · have e1 : Lexer.isIdentifierStart c = true := by
      simp [Lexer.isIdentifierStart, h.1, h.2]
    have e2 : Lexer.isIdentifierStart (upperChar c) = true := by
      simp only [Lexer.isIdentifierStart, upperChar_toNat, if_pos h, Bool.or_eq_true,
        Bool.and_eq_true, decide_eq_true_eq, beq_iff_eq]
      omega
    rw [e1, e2]
  · rw [upperChar_eq_self c h]

theorem isDigit_upperChar (c : Char) : Lexer.isDigit (upperChar c) = Lexer.isDigit c := by
  by_cases h : 97 ≤ c.toNat ∧ c.toNat ≤ 122
  · have e1 : Lexer.isDigit c = false := by
      simp only [Lexer.isDigit, Bool.and_eq_false_iff, decide_eq_false_iff_not]
      omega
    have e2 : Lexer.isDigit (upperChar c) = false := by
      simp only [Lexer.isDigit, upperChar_toNat, if_pos h, Bool.and_eq_false_iff,
        decide_eq_false_iff_not]
      omega
    rw [e1, e2]
  · rw [upperChar_eq_self c h]

theorem isIdentifierPart_upperChar (c : Char) :
    Lexer.isIdentifierPart (upperChar c) = Lexer.isIdentifierPart c := by
  have h1 := isIdentifierStart_upperChar c
  have h2 := isDigit_upperChar c
  unfold Lexer.isDigit at h2
  unfold Lexer.isIdentifierPart
  rw [h1, h2]

theorem upperLexer_current (lx : Lexer) : (upperLexer lx).current = upperChar lx.current := by
  obtain ⟨r, l, c⟩ := lx
  cases r with
  | nil => exact (upperChar_eq_self (Char.ofNat 0) (by decide)).symm
  | cons ch r => exact toLatin1_upperChar ch

theorem upperLexer_peek (lx : Lexer) : (upperLexer lx).peek = upperChar lx.peek := by
  obtain ⟨r, l, c⟩ := lx
  cases r with
  | nil => exact (upperChar_eq_self (Char.ofNat 0) (by decide)).symm
  | cons ch r =>
    cases r with
    | nil => exact (upperChar_eq_self (Char.ofNat 0) (by decide)).symm
    | cons ch2 r => exact toLatin1_upperChar ch2

theorem upperLexer_advance (lx : Lexer) : (upperLexer lx).advance = upperLexer lx.advance := by
  obtain ⟨r, l, c⟩ := lx
  cases r with
  | nil => rfl
  | cons ch r =>
    simp [upperLexer, Lexer.advance, nextLine_upperChar, nextColumn_upperChar]

theorem upperLexer_isEmpty (lx : Lexer) : (upperLexer lx).rest.isEmpty = lx.rest.isEmpty := by
  obtain ⟨r, l, c⟩ := lx
  cases r <;> rfl

theorem skipWhitespaceFrom_upper (r : List Char) : ∀ (l c : Nat),
    Lexer.skipWhitespaceFrom (r.map upperChar) l c = upperLexer (Lexer.skipWhitespaceFrom r l c) := by
  induction r with
  | nil => intro l c; rfl
  | cons ch r ih =>
    intro l c
    simp only [List.map_cons, Lexer.skipWhitespaceFrom, qIsSpace_upperChar, nextLine_upperChar,
      nextColumn_upperChar]
    split
    · exact ih _ _
    · rfl

theorem skipWhitespace_upper (lx : Lexer) :
    (upperLexer lx).skipWhitespace = upperLexer lx.skipWhitespace :=
  skipWhitespaceFrom_upper lx.rest lx.line lx.column

theorem skipCommentFrom_upper (r : List Char) : ∀ (l c : Nat),
    Lexer.skipCommentFrom (r.map upperChar) l c = upperLexer (Lexer.skipCommentFrom r l c) := by
  induction r with
  | nil => intro l c; rfl
  | cons ch r ih =>
    intro l c
    simp only [List.map_cons, Lexer.skipCommentFrom, nextLine_upperChar, nextColumn_upperChar,
      upperChar_toNat_eq ch 10 (by omega) (by omega)]
    split
    · rfl
    · exact ih _ _

theorem skipComment_upper (lx : Lexer) :
    (upperLexer lx).skipComment = upperLexer lx.skipComment :=
  skipCommentFrom_upper lx.rest lx.line lx.column

theorem readWhileFrom_upper (p : Char → Bool) (hp : ∀ x, p (upperChar x) = p x)
    (r : List Char) : ∀ (l c : Nat) (acc : List Char),
    Lexer.readWhileFrom p (r.map upperChar) l c (acc.map upperChar)
      = (qToUpper (Lexer.readWhileFrom p r l c acc).1,
         upperLexer (Lexer.readWhileFrom p r l c acc).2) := by
  induction r with
  | nil => intro l c acc; simp [Lexer.readWhileFrom, qToUpper, upperLexer, List.map_reverse]
  | cons ch r ih =>
    intro l c acc
    simp only [List.map_cons, Lexer.readWhileFrom, toLatin1_upperChar, hp, nextLine_upperChar,
      nextColumn_upperChar]
    split
    · have := ih (nextLine ch l) (nextColumn ch c) (toLatin1 ch :: acc)
      rw [List.map_cons] at this
      exact this
    · simp [qToUpper, upperLexer, List.map_reverse]

theorem readStringFrom_upper (quote : Char) (h1 : ¬ (65 ≤ quote.toNat ∧ quote.toNat ≤ 90))
    (h2 : ¬ (97 ≤ quote.toNat ∧ quote.toNat ≤ 122)) (r : List Char) :
    ∀ (e : Bool) (l c : Nat) (acc acc2 : List Char),
    (Lexer.readStringFrom quote e (r.map upperChar) l c acc2).2
      = upperLexer (Lexer.readStringFrom quote e r l c acc).2 := by
  induction r with
  | nil => intro e l c acc acc2; cases e <;> simp [Lexer.readStringFrom, upperLexer]
  | cons ch r ih =>
    intro e l c acc acc2
    cases e with
    | true =>
      simp only [List.map_cons, Lexer.readStringFrom, nextLine_upperChar, nextColumn_upperChar]
      exact ih _ _ _ _ _
    | false =>
      have hpeek : Lexer.peek ⟨upperChar ch :: r.map upperChar, l, c⟩
          = upperChar (Lexer.peek ⟨ch :: r, l, c⟩) := upperLexer_peek ⟨ch :: r, l, c⟩
      simp only [List.map_cons, Lexer.readStringFrom, nextLine_upperChar, nextColumn_upperChar,
        toLatin1_upperChar, hpeek, upperChar_eq _ quote h1 h2,
        upperChar_toNat_eq _ 92 (by omega) (by omega)]
      split
      · rfl
      · split
        · exact ih _ _ _ _ _
        · exact ih _ _ _ _ _

theorem keywordToTokenType_upper (s : String) :
    Lexer.keywordToTokenType (qToUpper s) = Lexer.keywordToTokenType s := by
  unfold Lexer.keywordToTokenType
  rw [qToUpper_idem]

theorem operatorToken_upper (ch : Char) (lx : Lexer) :
    (Lexer.operatorToken (upperChar ch) (upperLexer lx)).1.type = (Lexer.operatorToken ch lx).1.type
      ∧ (Lexer.operatorToken (upperChar ch) (upperLexer lx)).2
          = upperLexer (Lexer.operatorToken ch lx).2 := by
  unfold Lexer.operatorToken
  simp only [upperLexer_current, upperLexer_advance,
    upperChar_eq _ '(' (by decide) (by decide), upperChar_eq _ ')' (by decide) (by decide),
    upperChar_eq _ ',' (by decide) (by decide), upperChar_eq _ ';' (by decide) (by decide),
    upperChar_eq _ '.' (by decide) (by decide), upperChar_eq _ '*' (by decide) (by decide),
    upperChar_eq _ '%' (by decide) (by decide), upperChar_eq _ '+' (by decide) (by decide),
    upperChar_eq _ '-' (by decide) (by decide), upperChar_eq _ '/' (by decide) (by decide),
    upperChar_eq _ '=' (by decide) (by decide), upperChar_eq _ '<' (by decide) (by decide),
    upperChar_eq _ '>' (by decide) (by decide), upperChar_eq _ '!' (by decide) (by decide)]
  repeat' (first
    | (intro _
       apply ite_rel (fun (x y : Token × Lexer) => x.1.type = y.1.type ∧ x.2 = upperLexer y.2))
    | apply ite_rel (fun (x y : Token × Lexer) => x.1.type = y.1.type ∧ x.2 = upperLexer y.2)
    | (intro _; exact ⟨rfl, rfl⟩))

theorem readIdentifierOrKeyword_upper (lx : Lexer) :
    (upperLexer lx).readIdentifierOrKeyword.1.type = lx.readIdentifierOrKeyword.1.type
      ∧ (upperLexer lx).readIdentifierOrKeyword.2 = upperLexer lx.readIdentifierOrKeyword.2 := by
  have h := readWhileFrom_upper Lexer.isIdentifierPart isIdentifierPart_upperChar lx.rest
    lx.line lx.column []
  simp only [List.map_nil] at h
  unfold Lexer.readIdentifierOrKeyword
  have e : (upperLexer lx).rest = lx.rest.map upperChar := rfl
  have e1 : (upperLexer lx).line = lx.line := rfl
  have e2 : (upperLexer lx).column = lx.column := rfl
  simp only [e, e1, e2, h, keywordToTokenType_upper, and_self]

theorem readNumber_upper (lx : Lexer) :
    (upperLexer lx).readNumber.1.type = lx.readNumber.1.type
      ∧ (upperLexer lx).readNumber.2 = upperLexer lx.readNumber.2 := by
  have hp : ∀ x, (fun c => Lexer.isDigit c || c.toNat == 46) (upperChar x)
      = (fun c => Lexer.isDigit c || c.toNat == 46) x := by
    intro x
    simp only [isDigit_upperChar]
    congr 1
    have := upperChar_toNat_eq x 46 (by omega) (by omega)
    by_cases hx : x.toNat = 46
    · have h2 : (upperChar x).toNat = 46 := by rw [this]; exact hx
      simp [hx, h2]
    · have h2 : ¬ (upperChar x).toNat = 46 := by rw [this]; exact hx
      simp [hx, h2]
  have h := readWhileFrom_upper (fun c => Lexer.isDigit c || c.toNat == 46) hp lx.rest
    lx.line lx.column []
  simp only [List.map_nil] at h
  unfold Lexer.readNumber
  have e : (upperLexer lx).rest = lx.rest.map upperChar := rfl
  have e1 : (upperLexer lx).line = lx.line := rfl
  have e2 : (upperLexer lx).column = lx.column := rfl
  simp only [e, e1, e2, h, and_self]

theorem readString_upper (lx : Lexer) (quote : Char) (hq : quote.toNat = 39 ∨ quote.toNat = 34) :
    ((upperLexer lx).readString (upperChar quote)).1.type = (lx.readString quote).1.type
      ∧ ((upperLexer lx).readString (upperChar quote)).2 = upperLexer (lx.readString quote).2 := by
  rw [upperChar_eq_self quote (by omega)]
  unfold Lexer.readString
  refine ⟨rfl, ?_⟩
  simp only [upperLexer_advance]
  exact readStringFrom_upper quote (by omega) (by omega) lx.advance.rest false _ _ [] []

theorem nextToken_upper (lx : Lexer) :
    (upperLexer lx).nextToken.1.type = lx.nextToken.1.type
      ∧ (upperLexer lx).nextToken.2 = upperLexer lx.nextToken.2 := by
  unfold Lexer.nextToken
  simp only [skipWhitespace_upper, upperLexer_isEmpty, upperLexer_current, upperLexer_advance,
    isIdentifierStart_upperChar, isDigit_upperChar,
    upperChar_toNat_eq _ 39 (by omega) (by omega), upperChar_toNat_eq _ 34 (by omega) (by omega)]
  apply ite_rel (fun (x y : Token × Lexer) => x.1.type = y.1.type ∧ x.2 = upperLexer y.2)
  · intro _; exact ⟨rfl, rfl⟩
  · intro _
    apply ite_rel (fun (x y : Token × Lexer) => x.1.type = y.1.type ∧ x.2 = upperLexer y.2)
    · intro _; exact readIdentifierOrKeyword_upper _
    · intro _
      apply ite_rel (fun (x y : Token × Lexer) => x.1.type = y.1.type ∧ x.2 = upperLexer y.2)
      · intro _; exact readNumber_upper _
      · intro _
        apply ite_rel (fun (x y : Token × Lexer) => x.1.type = y.1.type ∧ x.2 = upperLexer y.2)
        · intro hq; exact readString_upper _ _ hq
        · intro _; exact operatorToken_upper _ _

theorem tokenizeLoop_upper (fuel : Nat) : ∀ (lx : Lexer),
    (Lexer.tokenizeLoop fuel (upperLexer lx)).map (List.map Token.type)
      = (Lexer.tokenizeLoop fuel lx).map (List.map Token.type) := by
  induction fuel with
  | zero => intro lx; rfl
  | succ fuel ih =>
    intro lx
    unfold Lexer.tokenizeLoop
    simp only [skipWhitespace_upper, upperLexer_isEmpty, upperLexer_current, upperLexer_peek,
      skipComment_upper, upperChar_eq _ '-' (by decide) (by decide)]
    apply ite_rel (fun (x y : Option (List Token)) =>
      x.map (List.map Token.type) = y.map (List.map Token.type))
    · intro _; rfl
    · intro _
      apply ite_rel (fun (x y : Option (List Token)) =>
        x.map (List.map Token.type) = y.map (List.map Token.type))
      · intro _; rfl
      · intro _
        apply ite_rel (fun (x y : Option (List Token)) =>
          x.map (List.map Token.type) = y.map (List.map Token.type))
        · intro _; exact ih _
        · intro _
          have hn := nextToken_upper lx.skipWhitespace
          have hi := ih lx.skipWhitespace.nextToken.2
          show Option.map _ (Option.map _ (Lexer.tokenizeLoop fuel
            (upperLexer lx.skipWhitespace).nextToken.2)) = _
          rw [hn.2]
          cases h1 : Lexer.tokenizeLoop fuel (upperLexer lx.skipWhitespace.nextToken.2) <;>
            cases h2 : Lexer.tokenizeLoop fuel lx.skipWhitespace.nextToken.2 <;>
            rw [h1, h2] at hi <;> simp at hi ⊢
          exact ⟨hn.1, hi⟩

theorem isIdentifierPart_ascii (x : Char) (h : Lexer.isIdentifierPart x = true) :
    x.toNat ≤ 122 ∧ x.toNat ≠ 10 ∧ qIsSpace x = false := by
  simp only [Lexer.isIdentifierPart, Lexer.isIdentifierStart, Bool.or_eq_true, Bool.and_eq_true,
    decide_eq_true_eq, beq_iff_eq] at h
  refine ⟨by omega, by omega, ?_⟩
  simp only [qIsSpace, Bool.or_eq_false_iff, Bool.and_eq_false_iff, beq_eq_false_iff_ne,
    decide_eq_false_iff_not, ne_eq]
  omega

theorem readWhileFrom_word (w : List Char) : ∀ (tail : List Char) (l c : Nat) (acc : List Char),
    (∀ x ∈ w, Lexer.isIdentifierPart x = true) →
    (∀ t ∈ tail.head?, Lexer.isIdentifierPart (toLatin1 t) = false) →
    Lexer.readWhileFrom Lexer.isIdentifierPart (w ++ tail) l c acc
      = (String.mk (acc.reverse ++ w), ⟨tail, l, c + w.length⟩) := by
  induction w with
  | nil =>
    intro tail l c acc _ ht
    cases tail with
    | nil => simp [Lexer.readWhileFrom]
    | cons t r =>
      have := ht t (by simp)
      simp [Lexer.readWhileFrom, this]
  | cons x w ih =>
    intro tail l c acc hw ht
    have hx := hw x (List.mem_cons_self _ _)
    obtain ⟨h1, h2, _⟩ := isIdentifierPart_ascii x hx
    have hl : toLatin1 x = x := toLatin1_of_le x (by omega)
    have hnl : nextLine x l = l := by simp [nextLine, h2]
    have hnc : nextColumn x c = c + 1 := by simp [nextColumn, h2]
    rw [List.cons_append, Lexer.readWhileFrom, hl, if_pos hx, hnl, hnc,
      ih tail l (c + 1) (x :: acc) (fun y hy => hw y (List.mem_cons_of_mem _ hy)) ht]
    simp only [List.reverse_cons, List.append_assoc, List.singleton_append, List.length_cons,
      Prod.mk.injEq, true_and, Lexer.mk.injEq]
    omega

theorem nextToken_word (w tail : List Char) (l c : Nat) (hw : isIdentifierWord w = true)
    (ht : ∀ t ∈ tail.head?, Lexer.isIdentifierPart (toLatin1 t) = false)
    (hk : Lexer.keywordToTokenType (String.mk w) = .UNKNOWN) :
    Lexer.nextToken ⟨w ++ tail, l, c⟩
      = (⟨.IDENTIFIER, String.mk w, l, c⟩, ⟨tail, l, c + w.length⟩) := by
  cases w with
  | nil => exact Bool.noConfusion hw
  | cons x cs =>
    simp only [isIdentifierWord, Bool.and_eq_true, List.all_eq_true] at hw
    have hx : Lexer.isIdentifierPart x = true := by
      simp only [Lexer.isIdentifierPart, hw.1, Bool.true_or]
    obtain ⟨h1, _, hsp⟩ := isIdentifierPart_ascii x hx
    have hl : toLatin1 x = x := toLatin1_of_le x (by omega)
    have hall : ∀ y ∈ x :: cs, Lexer.isIdentifierPart y = true := by
      intro y hy
      rcases List.mem_cons.mp hy with rfl | hy
      · exact hx
      · exact hw.2 y hy
    have hr := readWhileFrom_word (x :: cs) tail l c [] hall ht
    simp only [List.reverse_nil, List.nil_append] at hr
    have hskip : Lexer.skipWhitespace ⟨x :: cs ++ tail, l, c⟩ = ⟨x :: cs ++ tail, l, c⟩ := by
      unfold Lexer.skipWhitespace
      exact skipWhitespaceFrom_of_head x (cs ++ tail) l c hsp
    unfold Lexer.nextToken
    simp only [hskip]
    have hcur : Lexer.current ⟨x :: cs ++ tail, l, c⟩ = x := hl
    rw [hcur]
    simp only [List.cons_append, List.isEmpty_cons, Bool.false_eq_true, if_false, hw.1, if_true,
      Lexer.readIdentifierOrKeyword]
    rw [← List.cons_append, hr]
    simp only [hk, if_true]

/-- C26: keyword classification is case-insensitive.  For every input text,
`tokenize` of the text and of the text with every ASCII letter upper-cased both
return, and the two token sequences have the same length and the same token
kind at every position.  A word of letters, digits and underscores that starts
with a letter or an underscore, is followed by no further identifier character
and is not in the keyword table (`keywordToTokenType` gives UNKNOWN) is returned
by `nextToken` as one IDENTIFIER token whose text is the word unchanged. -/
theorem c26_keywords_case_insensitive :
    (∀ s : String, ∃ a b, Lexer.tokenize s = some a ∧ Lexer.tokenize (qToUpper s) = some b
        ∧ a.length = b.length ∧ a.map Token.type = b.map Token.type)
    ∧ (∀ (w tail : List Char) (l c : Nat), isIdentifierWord w = true →
        (∀ t ∈ tail.head?, Lexer.isIdentifierPart (toLatin1 t) = false) →
        Lexer.keywordToTokenType (String.mk w) = .UNKNOWN →
        Lexer.nextToken ⟨w ++ tail, l, c⟩
          = (⟨.IDENTIFIER, String.mk w, l, c⟩, ⟨tail, l, c + w.length⟩)) := by
  constructor
  · intro s
    obtain ⟨a, ha, _⟩ :=
      tokenizeLoop_total (qLength s + 1) (Lexer.new s) (Nat.lt_succ_self (qLength s))
    have hunits := utf16Units_map_upperChar s.data
    have hlen : qLength (qToUpper s) = qLength s := by
      show (utf16Units (List.map upperChar s.data)).length = (utf16Units s.data).length
      rw [hunits, List.length_map]
    have hu := tokenizeLoop_upper (qLength s + 1) (Lexer.new s)
    have hb : Lexer.tokenize (qToUpper s)
        = Lexer.tokenizeLoop (qLength s + 1) (upperLexer (Lexer.new s)) := by
      unfold Lexer.tokenize
      rw [hlen]
      show Lexer.tokenizeLoop _ ⟨utf16Units (List.map upperChar s.data), 1, 1⟩ = _
      rw [hunits]
      rfl
    rw [ha] at hu
    cases hb2 : Lexer.tokenizeLoop (qLength s + 1) (upperLexer (Lexer.new s)) with
    | none => rw [hb2] at hu; simp at hu
    | some b =>
      rw [hb2] at hu
      simp only [Option.map_some', Option.some.injEq] at hu
      refine ⟨a, b, ha, hb.trans hb2, ?_, hu.symm⟩
      have := congrArg List.length hu
      simpa using this.symm
  · intro w tail l c hw ht hk
    exact nextToken_word w tail l c hw ht hk

/-- C26 at concrete inputs: `select Foo_1 from t` and its upper-cased form give
token sequences of one shape, and `Foo_1` before ` = 2` is an IDENTIFIER with
its text unchanged. -/
theorem c26_keywords_case_insensitive_witness :
    (∃ a b, Lexer.tokenize "select Foo_1 from t" = some a
        ∧ Lexer.tokenize (qToUpper "select Foo_1 from t") = some b
        ∧ a.length = b.length ∧ a.map Token.type = b.map Token.type)
    ∧ isIdentifierWord "Foo_1".data = true
    ∧ Lexer.nextToken ⟨"Foo_1".data ++ " = 2".data, 1, 1⟩
        = (⟨.IDENTIFIER, "Foo_1", 1, 1⟩, ⟨" = 2".data, 1, 6⟩) :=
  ⟨c26_keywords_case_insensitive.1 "select Foo_1 from t", by decide,
   c26_keywords_case_insensitive.2 "Foo_1".data " = 2".data 1 1 (by decide) (by decide)
     (by decide!)⟩

theorem epsilon_eq : epsilon = .fin 4835703278458517 (-82) := by decide!

theorem isNumericType_of_integer (t : DataType) (h : DataTypeManager.isIntegerType t = true) :
    DataTypeManager.isNumericType t = true := by
  simp [DataTypeManager.isNumericType, h]

theorem zero_lt_epsilon (e : Int) : (QDouble.abs (.fin 0 e)).lt epsilon = true := by
  rw [epsilon_eq]
  simp only [QDouble.abs, QDouble.lt, dyadicCmp, Int.natAbs_zero, Nat.cast_zero, zero_mul,
    zero_sub, decide_eq_true_eq, Left.neg_neg_iff]
  positivity

theorem integer_not_lt_epsilon (n : Int) (h : n ≠ 0) :
    (QDouble.abs (.fin n 0)).lt epsilon = false := by
  rw [epsilon_eq]
  have h1 : (1 : Int) ≤ (n.natAbs : Int) := by
    have := Int.natAbs_pos.mpr h
    omega
  simp only [QDouble.abs, QDouble.lt, dyadicCmp, decide_eq_false_iff_not, not_lt]
  have e1 : min (0 : Int) (-82) = -82 := by decide
  rw [e1]
  have e2 : ((0 : Int) - -82).toNat = 82 := by decide
  have e3 : ((-82 : Int) - -82).toNat = 0 := by decide
  rw [e2, e3]
  have e4 : (2 : Int) ^ 82 = 4835703278458516698824704 := by norm_num
  rw [e4]
  omega

/-- C30: `operator/` and `operator%` of `Value`.  Dividing a value of a numeric
type by a value of a numeric type whose number is zero gives the null value
`Value()`; the remainder of two values of integer types by one whose integer is
zero gives the null value.  Dividing by a value of an integer type that holds
an integer other than zero gives a value with a payload, of the common type.
The remainder by an integer other than zero is the C++ remainder of the two
`int`, a value that is not null, except for `INT_MIN % -1`: there the operator
has no defined result (the quotient does not fit an `int`), so
`Value(INT, INT_MIN) % Value(INT, -1)` returns nothing at all. -/
theorem c30_division_and_modulo :
    (∀ (a b : Value) (e : Int), DataTypeManager.isNumericType a.type = true →
        DataTypeManager.isNumericType b.type = true → b.toDouble = .fin 0 e →
        a.div b = Value.new ∧ (a.div b).isNull = true)
    ∧ (∀ a b : Value, DataTypeManager.isIntegerType a.type = true →
        DataTypeManager.isIntegerType b.type = true → b.toInt = some 0 →
        a.mod b = some Value.new ∧ Value.new.isNull = true)
    ∧ (∀ (a : Value) (t : DataType) (n : Int), DataTypeManager.isNumericType a.type = true →
        DataTypeManager.isIntegerType t = true → n ≠ 0 →
        (a.div ⟨t, .int n⟩).isNull = false
          ∧ (a.div ⟨t, .int n⟩).type = DataTypeManager.getCommonType a.type t)
    ∧ (∀ (a b : Value) (x y : Int), DataTypeManager.isIntegerType a.type = true →
        DataTypeManager.isIntegerType b.type = true → a.toInt = some x → b.toInt = some y →
        y ≠ 0 →
        (a.mod b = none ↔ (x = -2147483648 ∧ y = -1))
          ∧ (¬ (x = -2147483648 ∧ y = -1) →
              a.mod b = some ⟨a.type, .int (Int.tmod x y)⟩
                ∧ (Value.mk a.type (.int (Int.tmod x y))).isNull = false))
    ∧ Value.mod ⟨.INT, .int (-2147483648)⟩ ⟨.INT, .int (-1)⟩ = none := by
  refine ⟨?_, ?_, ?_, ?_, by decide⟩
  · intro a b e ha hb hz
    have h : a.div b = Value.new := by
      unfold Value.div
      rw [ha, hb, hz, zero_lt_epsilon]
      rfl
    rw [h]
    exact ⟨rfl, rfl⟩
  · intro a b ha hb hz
    refine ⟨?_, rfl⟩
    unfold Value.mod
    rw [ha, hb, hz]
    rfl
  · intro a t n ha ht hn
    have hb := isNumericType_of_integer t ht
    have hd : Value.toDouble ⟨t, .int n⟩ = .fin n 0 := rfl
    have h : a.div ⟨t, .int n⟩
        = ⟨DataTypeManager.getCommonType a.type t, .double (a.toDouble.div (.fin n 0))⟩ := by
      unfold Value.div
      rw [ha, hd, integer_not_lt_epsilon n hn]
      simp only [hb]
      rfl
    rw [h]
    exact ⟨rfl, rfl⟩
  · intro a b x y ha hb hx hy hy0
    have h : a.mod b
        = if x = -2147483648 ∧ y = -1 then none else some ⟨a.type, .int (Int.tmod x y)⟩ := by
      unfold Value.mod
      rw [ha, hb, hx, hy]
      simp only [Bool.not_true, Bool.or_self, Bool.false_eq_true, if_false, if_neg hy0]
    rw [h]
    constructor
    · constructor
      · intro h1
        by_contra h2
        rw [if_neg h2] at h1
        exact Option.noConfusion h1
      · intro h1
        rw [if_pos h1]
    · intro h1
      rw [if_neg h1]
      exact ⟨rfl, rfl⟩

/-- C30 at concrete inputs: `7 / 0.0` and `7 % 0` are null, `7 / 2` is not, and
`-7 % 2` is the value -1 of type INT. -/
theorem c30_division_and_modulo_witness :
    (Value.div ⟨.INT, .int 7⟩ ⟨.DOUBLE, .double (.fin 0 0)⟩ = Value.new
        ∧ (Value.div ⟨.INT, .int 7⟩ ⟨.DOUBLE, .double (.fin 0 0)⟩).isNull = true)
    ∧ (Value.mod ⟨.INT, .int 7⟩ ⟨.INT, .int 0⟩ = some Value.new ∧ Value.new.isNull = true)
    ∧ ((Value.div ⟨.INT, .int 7⟩ ⟨.INT, .int 2⟩).isNull = false
        ∧ (Value.div ⟨.INT, .int 7⟩ ⟨.INT, .int 2⟩).type = .INT)
    ∧ Value.mod ⟨.INT, .int (-7)⟩ ⟨.INT, .int 2⟩ = some ⟨.INT, .int (-1)⟩ :=
  ⟨c30_division_and_modulo.1 ⟨.INT, .int 7⟩ ⟨.DOUBLE, .double (.fin 0 0)⟩ 0 rfl rfl rfl,
   c30_division_and_modulo.2.1 ⟨.INT, .int 7⟩ ⟨.INT, .int 0⟩ rfl rfl rfl,
   c30_division_and_modulo.2.2.1 ⟨.INT, .int 7⟩ .INT 2 rfl rfl (by decide),
   ((c30_division_and_modulo.2.2.2.1 ⟨.INT, .int (-7)⟩ ⟨.INT, .int 2⟩ (-7) 2 rfl rfl rfl rfl
     (by decide)).2 (by decide)).1⟩

/-! ## C31: the classification predicates -/

/-- C31, counterexample: MEDIUMTEXT, LONGTEXT and JSON are both string types and
blob types, and ENUM and BOOL are in none of the classes numeric, string,
temporal, blob. -/
theorem c31_classes_overlap_and_leave_out :
    (DataTypeManager.isStringType .MEDIUMTEXT = true ∧ DataTypeManager.isBlobType .MEDIUMTEXT = true)
    ∧ (DataTypeManager.isStringType .LONGTEXT = true ∧ DataTypeManager.isBlobType .LONGTEXT = true)
    ∧ (DataTypeManager.isStringType .JSON = true ∧ DataTypeManager.isBlobType .JSON = true)
    ∧ (DataTypeManager.isNumericType .ENUM = false ∧ DataTypeManager.isStringType .ENUM = false
        ∧ DataTypeManager.isTemporalType .ENUM = false ∧ DataTypeManager.isBlobType .ENUM = false)
    ∧ (DataTypeManager.isNumericType .BOOL = false ∧ DataTypeManager.isStringType .BOOL = false
        ∧ DataTypeManager.isTemporalType .BOOL = false
        ∧ DataTypeManager.isBlobType .BOOL = false) := by
  decide

/-- C31 as amended: for every DataType, (1) it is numeric iff it is an integer
type, a floating-point type or one of DECIMAL, NUMERIC, and no type is in two
of these three; (2) no type is in two of the classes numeric, string, temporal;
(3) it is in one of numeric, string, temporal iff it is neither ENUM nor BOOL;
(4) the blob types are exactly MEDIUMTEXT, LONGTEXT and JSON, each of them a
string type. -/
theorem c31_type_classes (t : DataType) :
    (DataTypeManager.isNumericType t
        = (DataTypeManager.isIntegerType t || DataTypeManager.isFloatingPointType t
            || (t == .DECIMAL || t == .NUMERIC)))
    ∧ ¬ (DataTypeManager.isIntegerType t = true ∧ DataTypeManager.isFloatingPointType t = true)
    ∧ ¬ (DataTypeManager.isIntegerType t = true ∧ (t = .DECIMAL ∨ t = .NUMERIC))
    ∧ ¬ (DataTypeManager.isFloatingPointType t = true ∧ (t = .DECIMAL ∨ t = .NUMERIC))
    ∧ ¬ (DataTypeManager.isNumericType t = true ∧ DataTypeManager.isStringType t = true)
    ∧ ¬ (DataTypeManager.isNumericType t = true ∧ DataTypeManager.isTemporalType t = true)
    ∧ ¬ (DataTypeManager.isStringType t = true ∧ DataTypeManager.isTemporalType t = true)
    ∧ ((DataTypeManager.isNumericType t = true ∨ DataTypeManager.isStringType t = true
          ∨ DataTypeManager.isTemporalType t = true) ↔ (t ≠ .ENUM ∧ t ≠ .BOOL))
    ∧ (DataTypeManager.isBlobType t = true ↔ (t = .MEDIUMTEXT ∨ t = .LONGTEXT ∨ t = .JSON))
    ∧ (DataTypeManager.isBlobType t = true → DataTypeManager.isStringType t = true) := by
  cases t <;> decide

/-! ## C32: `canImplicitConvert` -/

/-- C32, counterexample: FLOAT to DOUBLE, DOUBLE to FLOAT and BOOL to VARCHAR
are implicitly convertible and are none of the listed pairs. -/
theorem c32_unlisted_pairs_convert :
    (DataTypeManager.canImplicitConvert .FLOAT .DOUBLE = true
        ∧ listedImplicitPair .FLOAT .DOUBLE = false)
    ∧ (DataTypeManager.canImplicitConvert .DOUBLE .FLOAT = true
        ∧ listedImplicitPair .DOUBLE .FLOAT = false)
    ∧ (DataTypeManager.canImplicitConvert .BOOL .VARCHAR = true
        ∧ listedImplicitPair .BOOL .VARCHAR = false) := by
  decide

/-- C32 as amended: for all DataTypes `from != to`, `canImplicitConvert(from,
to)` holds exactly when the pair is one of the listed ones (integer to integer,
integer to floating-point, integer or floating-point to DECIMAL/NUMERIC, numeric
to string, temporal to string, string to numeric, string to temporal), or
floating-point to floating-point, or BOOL to string; so the answer differs from
the list exactly on the last two kinds of pairs. -/
theorem c32_implicit_conversions (fromType toType : DataType) (hne : fromType ≠ toType) :
    (DataTypeManager.canImplicitConvert fromType toType
        = (listedImplicitPair fromType toType
            || (DataTypeManager.isFloatingPointType fromType
                && DataTypeManager.isFloatingPointType toType)
            || (fromType == .BOOL && DataTypeManager.isStringType toType)))
    ∧ (DataTypeManager.canImplicitConvert fromType toType ≠ listedImplicitPair fromType toType
        ↔ ((DataTypeManager.isFloatingPointType fromType = true
              ∧ DataTypeManager.isFloatingPointType toType = true)
            ∨ (fromType = .BOOL ∧ DataTypeManager.isStringType toType = true))) := by
  revert hne
  cases fromType <;> cases toType <;> decide

/-- C32 as amended, at concrete types: INT to BIGINT is listed and convertible,
CHAR to VARCHAR is neither. -/
theorem c32_implicit_conversions_witness :
    ((DataTypeManager.canImplicitConvert .INT .BIGINT
        = (listedImplicitPair .INT .BIGINT
            || (DataTypeManager.isFloatingPointType .INT
                && DataTypeManager.isFloatingPointType .BIGINT)
            || (DataType.INT == .BOOL && DataTypeManager.isStringType .BIGINT)))
      ∧ DataTypeManager.canImplicitConvert .INT .BIGINT = true)
    ∧ DataTypeManager.canImplicitConvert .CHAR .VARCHAR = false :=
  ⟨⟨(c32_implicit_conversions .INT .BIGINT (by decide)).1, by decide⟩, by decide⟩

/-! ## C39: type names -/

/-- C39: for every DataType `t`, `stringToType(typeToString(t)) = t`.
`stringToType` compares `upper`, the value of `typeStr.toUpper()`, with the
type names: whenever `upper` is the name of `t` the text is read as `t`, and
whenever `upper` is none of the 23 type names and the two aliases INTEGER and
BOOLEAN the text is read as INT.  The 23 names `typeToString` returns are among
the recognised ones. -/
theorem c39_type_names_round_trip :
    (∀ t : DataType, DataTypeManager.stringToType (DataTypeManager.typeToString t) = t)
    ∧ (∀ t : DataType,
        DataTypeManager.stringToTypeUpper (DataTypeManager.typeToString t) = t)
    ∧ (∀ upper : String, upper ∉ recognisedTypeNames →
        DataTypeManager.stringToTypeUpper upper = .INT)
    ∧ (∀ t : DataType, DataTypeManager.typeToString t ∈ recognisedTypeNames) := by
  refine ⟨stringToType_typeToString, ?_, ?_, ?_⟩
  · intro t
    cases t <;> decide
  · intro s h
    simp only [recognisedTypeNames, List.mem_cons, List.mem_singleton, List.not_mem_nil,
      or_false, not_or] at h
    obtain ⟨h1, h2, h3, h4, h5, h6, h7, h8, h9, h10, h11, h12, h13, h14, h15, h16, h17, h18,
      h19, h20, h21, h22, h23, h24, h25⟩ := h
    unfold DataTypeManager.stringToTypeUpper
    simp only [h1, h2, h3, h4, h5, h6, h7, h8, h9, h10, h11, h12, h13, h14, h15, h16, h17, h18,
      h19, h20, h21, h22, h23, h24, h25, or_self, if_false]
  · intro t
    cases t <;> decide

/-- C39 at concrete texts: the upper-cased text `BLOB` is no recognised name
and is read as INT, so are the texts `BLOB` and `blob`; `VARCHAR` and `varchar`
are read as VARCHAR. -/
theorem c39_type_names_round_trip_witness :
    "BLOB" ∉ recognisedTypeNames
    ∧ DataTypeManager.stringToTypeUpper "BLOB" = .INT
    ∧ DataTypeManager.stringToType "BLOB" = .INT
    ∧ DataTypeManager.stringToType "blob" = .INT
    ∧ DataTypeManager.stringToType "VARCHAR" = .VARCHAR
    ∧ DataTypeManager.stringToType "varchar" = .VARCHAR :=
  ⟨by decide, c39_type_names_round_trip.2.2.1 "BLOB" (by decide), by decide, by decide,
   c39_type_names_round_trip.1 .VARCHAR, by decide⟩

/-! ## C33: scale 0 -/

/-- C33, counterexample: the DECIMAL(10,0) column accepts `1.5`, which has one
fractional digit. -/
theorem c33_scale_zero_accepts_fraction :
    wholeColumn.type = .DECIMAL ∧ wholeColumn.precision = 10 ∧ wholeColumn.scale = 0
    ∧ wholeColumn.validateValue "1.5" = true
    ∧ wholeColumn.validateValueErr "1.5" = none := by
  decide!

/-- C33 as amended: the scale test is made only for a scale above 0.  For every
DECIMAL or NUMERIC column with precision `p > 0`, scale 0 or below (0, or the
initial -1) and no CHECK condition, and every unsigned plain decimal literal
(digits `ip`, optionally `.` and digits `fp`, at most 308 and 323 of them),
`validateValue` is true iff the number of integer digits plus the number of
fractional digits is at most `p`: fractional digits are rejected only through
the precision. -/
theorem c33_scale_zero_is_no_limit (c : Column) (ip fp : List Char)
    (hty : c.type = .DECIMAL ∨ c.type = .NUMERIC) (hp : 0 < c.precision) (hs : c.scale ≤ 0)
    (hck : c.checkCondition = "")
    (hip : ip ≠ []) (hipd : ∀ ch ∈ ip, isDigitChar ch = true)
    (hfpd : ∀ ch ∈ fp, isDigitChar ch = true)
    (hil : ip.length ≤ 308) (hfl : fp.length ≤ 323) :
    (c.validateValue (plainDecimal ip fp) = true ↔
        ((ip.length + fp.length : Nat) : Int) ≤ c.precision)
    ∧ (c.precision < ((ip.length + fp.length : Nat) : Int) →
        c.validateValueErr (plainDecimal ip fp)
          = some ("Decimal precision exceeded: "
              ++ showInt ((ip.length + fp.length : Nat) : Int)
              ++ " digits (max " ++ showInt c.precision ++ ")")) := by
  have h := validateValueErr_plainDecimal c ip fp hty hp hck hip hipd hfpd hil hfl
  have hs2 : ¬ (0 < c.scale ∧ c.scale < (fp.length : Int)) := by
    intro h2
    omega
  constructor
  · unfold Column.validateValue
    rw [h]
    by_cases h1 : c.precision < ((ip.length + fp.length : Nat) : Int)
    · simp only [h1, if_true, Option.isNone_some, Bool.false_eq_true, false_iff]
      omega
    · simp only [h1, if_false, hs2, Option.isNone_none, true_iff]
      omega
  · intro h1
    rw [h, if_pos h1]

/-- C33 as amended, on the DECIMAL(10,0) column: `1.5` and `123456789.5` are
accepted, `1234567890.5` is rejected for its eleven digits. -/
theorem c33_scale_zero_is_no_limit_witness :
    wholeColumn.validateValue "1.5" = true
    ∧ wholeColumn.validateValue "123456789.5" = true
    ∧ wholeColumn.validateValueErr "1234567890.5"
        = some "Decimal precision exceeded: 11 digits (max 10)" :=
  ⟨(c33_scale_zero_is_no_limit wholeColumn "1".data "5".data (Or.inl rfl) (by decide)
      (by decide) rfl (by decide) (by decide) (by decide) (by decide) (by decide)).1.mpr
      (by decide),
   (c33_scale_zero_is_no_limit wholeColumn "123456789".data "5".data (Or.inl rfl) (by decide)
      (by decide) rfl (by decide) (by decide) (by decide) (by decide) (by decide)).1.mpr
      (by decide),
   (c33_scale_zero_is_no_limit wholeColumn "1234567890".data "5".data (Or.inl rfl) (by decide)
      (by decide) rfl (by decide) (by decide) (by decide) (by decide) (by decide)).2
      (by decide)⟩

/-! ## C35: SELECT reads no clause -/

/-- C35: `executeSelect` reads the column list and the table name of the
statement and nothing else.  For every manager state, two SelectStatements with
the same column list and table give the same result whatever their WHERE,
ORDER BY, LIMIT and JOIN parts are; when the table exists the result has
`success = true` and one row per stored row, in stored order, row `i` holding
for each selected column the value the stored row `i` has under that column
name (the empty string for a name the row map lacks).  So the text `SELECT n
FROM t WHERE n = 1 ORDER BY n DESC LIMIT 1` returns the three rows 1, 2, 3 of
the table, as `SELECT n FROM t` does. -/
theorem c35_select_ignores_clauses :
    (∀ (m : TableManager) (cols : List String) (t w1 o1 j1 w2 o2 j2 : String) (l1 l2 : Int),
        QueryExecutor.executeSelect m
            { columns := cols, fromTable := t, whereClause := w1, orderBy := o1, limit := l1,
              joinClause := j1 }
          = QueryExecutor.executeSelect m
            { columns := cols, fromTable := t, whereClause := w2, orderBy := o2, limit := l2,
              joinClause := j2 })
    ∧ (∀ (m : TableManager) (s : SelectStatement) (schema : TableSchema),
        m.getTable s.fromTable = some schema →
        (QueryExecutor.executeSelect m s).success = true
        ∧ (QueryExecutor.executeSelect m s).columns = QueryExecutor.selectedColumns s schema
        ∧ (QueryExecutor.executeSelect m s).rows
            = (m.selectAll s.fromTable).map (fun row =>
                (QueryExecutor.selectedColumns s schema).map (fun colName =>
                  qmapValue (TableManager.zipToMap schema.columns row) colName ""))
        ∧ (QueryExecutor.executeSelect m s).rows.length = (m.selectAll s.fromTable).length
        ∧ (QueryExecutor.executeSelect m s).affectedRows
            = ((m.selectAll s.fromTable).length : Int))
    ∧ (runSql sampleClock threeRowTable sqlSelectClauses).map (fun r => (r.1.columns, r.1.rows))
        = some (["n"], [["1"], ["2"], ["3"]])
    ∧ (runSql sampleClock threeRowTable sqlSelectPlain).map (fun r => (r.1.columns, r.1.rows))
        = some (["n"], [["1"], ["2"], ["3"]]) := by
  refine ⟨?_, ?_, by decide!, by decide!⟩
  · intro m cols t w1 o1 j1 w2 o2 j2 l1 l2
    rfl
  · intro m s schema hg
    have h : QueryExecutor.executeSelect m s
        = { rows := (m.selectAll s.fromTable).map (fun row =>
                (QueryExecutor.selectedColumns s schema).map (fun colName =>
                  qmapValue (TableManager.zipToMap schema.columns row) colName "")),
            columns := QueryExecutor.selectedColumns s schema, success := true,
            affectedRows := (((m.selectAll s.fromTable).map (fun row =>
                (QueryExecutor.selectedColumns s schema).map (fun colName =>
                  qmapValue (TableManager.zipToMap schema.columns row) colName ""))).length
                  : Int) } := by
      unfold QueryExecutor.executeSelect TableManager.selectAllAsMap
      simp only [hg, List.map_map]
      rfl
    rw [h]
    simp

/-- C35 at a concrete state: on the three-row table a SELECT of the column `n`
with the clause `n = 1` returns the three stored rows. -/
theorem c35_select_ignores_clauses_witness :
    (QueryExecutor.executeSelect threeRowTable
        { columns := ["n"], fromTable := "t", whereClause := "n = 1", limit := 1 }).success = true
    ∧ (QueryExecutor.executeSelect threeRowTable
        { columns := ["n"], fromTable := "t", whereClause := "n = 1", limit := 1 }).rows.length
        = (threeRowTable.selectAll "t").length
    ∧ (threeRowTable.selectAll "t").length = 3 :=
  ⟨(c35_select_ignores_clauses.2.1 threeRowTable
      { columns := ["n"], fromTable := "t", whereClause := "n = 1", limit := 1 }
      ((TableSchema.new "t").addColumn (Column.new "n" .INT)) (by decide!)).1,
   (c35_select_ignores_clauses.2.1 threeRowTable
      { columns := ["n"], fromTable := "t", whereClause := "n = 1", limit := 1 }
      ((TableSchema.new "t").addColumn (Column.new "n" .INT)) (by decide!)).2.2.2.1,
   by decide!⟩

/-! ## C37: file names of the storage engine -/

theorem toLatin1_eq_self_iff (c : Char) : toLatin1 c = c ↔ c.toNat ≤ 255 := by
  constructor
  · intro h
    by_contra hgt
    have hlt : 255 < c.toNat := by omega
    unfold toLatin1 at h
    rw [if_pos hlt] at h
    have h0 := congrArg Char.toNat h
    have hz : (Char.ofNat 0).toNat = 0 := rfl
    rw [hz] at h0
    omega
  · exact toLatin1_of_le c

theorem toLatin1_ne_of_ne (c q : Char) (hq : q.toNat ≠ 0) (h : c ≠ q) :
    toLatin1 c ≠ q := by
  by_cases hc : 255 < c.toNat
  · unfold toLatin1
    rw [if_pos hc]
    intro he
    have h0 := congrArg Char.toNat he
    have hz : (Char.ofNat 0).toNat = 0 := rfl
    rw [hz] at h0
    exact hq h0.symm
  · rw [toLatin1_of_le c (by omega)]
    exact h

theorem readStringFrom_plain (q : Char) (hq : q = '\'' ∨ q = '"') (b : List Char)
    (hb : ∀ ch ∈ b, ch ≠ q ∧ ch ≠ '\\') (l c : Nat) (acc : List Char) :
    (Lexer.readStringFrom q false (b ++ [q]) l c acc).1
        = String.mk (acc.reverse ++ b.map toLatin1)
    ∧ (Lexer.readStringFrom q false (b ++ [q]) l c acc).2.rest = [] := by
  have hql : toLatin1 q = q := by rcases hq with h | h <;> subst h <;> rfl
  have hq0 : q.toNat ≠ 0 := by rcases hq with h | h <;> subst h <;> decide
  induction b generalizing l c acc with
  | nil =>
    simp only [List.nil_append, Lexer.readStringFrom, hql, if_true, List.map_nil, List.append_nil,
      and_self]
  | cons x b ih =>
    have hx := hb x (List.mem_cons_self _ _)
    have hb2 : ∀ ch ∈ b, ch ≠ q ∧ ch ≠ '\\' :=
      fun ch hch => hb ch (List.mem_cons_of_mem _ hch)
    have h := ih hb2 (nextLine x l) (nextColumn x c) (toLatin1 x :: acc)
    have hxq : toLatin1 x ≠ q := toLatin1_ne_of_ne x q hq0 hx.1
    have hxb : toLatin1 x ≠ '\\' := toLatin1_ne_of_ne x '\\' (by decide) hx.2
    have h92 : ¬ ((toLatin1 x).toNat = 92) := fun he => hxb (char_eq_of_toNat _ '\\' he)
    simp only [List.cons_append, Lexer.readStringFrom, hxq, if_false, h92, false_and,
      List.map_cons]
    simpa using h

/-- C40, counterexample: the literal `'X'` with the one body character U+4E2D
gives a STRING token whose text is the character U+0000, not the body; with the
one body character U+1F600, outside the Basic Multilingual Plane, the text is
two characters U+0000. -/
theorem c40_wide_character_becomes_nul :
    (Lexer.tokenize sqlWideLiteral).map (List.map (fun t => (t.type, t.value)))
      = some [(TokenType.STRING, String.mk [Char.ofNat 0]), (TokenType.END_OF_FILE, "")]
    ∧ String.mk [Char.ofNat 0] ≠ String.mk [Char.ofNat 20013]
    ∧ (Lexer.tokenize (plainLiteral '\'' [Char.ofNat 128512])).map
          (List.map (fun t => (t.type, t.value)))
        = some [(TokenType.STRING, String.mk [Char.ofNat 0, Char.ofNat 0]),
            (TokenType.END_OF_FILE, "")] := by
  decide!

theorem mapLatin1_units_eq_iff (b : List Char) :
    (utf16Units b).map toLatin1 = b ↔ ∀ ch ∈ b, ch.toNat ≤ 255 := by
  induction b with
  | nil => simp [utf16Units]
  | cons c cs ih =>
    rw [utf16Units]
    by_cases hc : 65535 < c.toNat
    · rw [if_pos hc]
      constructor
      · intro h
        have h0 : toLatin1 c = c := by
          simp only [List.map_cons, List.cons.injEq] at h
          exact h.1
        have := (toLatin1_eq_self_iff c).mp h0
        omega
      · intro h
        have := h c (List.mem_cons_self _ _)
        omega
    · rw [if_neg hc]
      simp only [List.map_cons, List.cons.injEq, List.mem_cons, forall_eq_or_imp, ih,
        toLatin1_eq_self_iff]

/-- C40 as amended: for each quote character `q` (single or double) and every
body `b` that contains neither `q` nor a backslash, tokenizing `q b q` returns
one STRING token and END_OF_FILE, and the text of the STRING token is the body
read in UTF-16 code units with every unit above U+00FF replaced by U+0000
(`toLatin1`): a character above U+00FF inside the Basic Multilingual Plane
gives one U+0000, a character outside it gives two.  The text equals the body
character for character iff the body is Latin-1. -/
theorem c40_string_token_text (q : Char) (hq : q = '\'' ∨ q = '"') (b : List Char)
    (hb : ∀ ch ∈ b, ch ≠ q ∧ ch ≠ '\\') :
    (Lexer.tokenize (plainLiteral q b)).map (List.map (fun t => (t.type, t.value)))
        = some [(TokenType.STRING, String.mk ((utf16Units b).map toLatin1)),
            (TokenType.END_OF_FILE, "")]
    ∧ (String.mk ((utf16Units b).map toLatin1) = String.mk b ↔ ∀ ch ∈ b, ch.toNat ≤ 255) := by
  have hql : toLatin1 q = q := by rcases hq with h | h <;> subst h <;> rfl
  have hsp : qIsSpace q = false := by rcases hq with h | h <;> subst h <;> rfl
  have hdash : ¬ (q = '-') := by rcases hq with h | h <;> subst h <;> decide
  have hid : Lexer.isIdentifierStart q = false := by rcases hq with h | h <;> subst h <;> rfl
  have hdg : Lexer.isDigit q = false := by rcases hq with h | h <;> subst h <;> rfl
  have hqt : q.toNat = 39 ∨ q.toNat = 34 := by
    rcases hq with h | h <;> subst h
    · exact Or.inl rfl
    · exact Or.inr rfl
  have hqb : ¬ (65535 < q.toNat) := by rcases hq with h | h <;> subst h <;> decide
  have hb2 : ∀ ch ∈ utf16Units b, ch ≠ q ∧ ch ≠ '\\' :=
    fun ch hch => hb ch (mem_of_mem_utf16Units b ch hch)
  obtain ⟨h1, h2⟩ :=
    readStringFrom_plain q hq (utf16Units b) hb2 (nextLine q 1) (nextColumn q 1) []
  have hunits : utf16Units (q :: (b ++ [q])) = q :: (utf16Units b ++ [q]) := by
    rw [utf16Units, if_neg hqb, utf16Units_append]
    have h3 : utf16Units [q] = [q] := by
      rw [utf16Units, if_neg hqb]
      rfl
    rw [h3]
  constructor
  · have hnew : Lexer.new (plainLiteral q b) = ⟨q :: (utf16Units b ++ [q]), 1, 1⟩ := by
      show (⟨utf16Units (q :: (b ++ [q])), 1, 1⟩ : Lexer) = _
      rw [hunits]
    have hlen : qLength (plainLiteral q b) = (utf16Units b).length + 1 + 1 := by
      show (utf16Units (q :: (b ++ [q]))).length = _
      rw [hunits]
      simp
    unfold Lexer.tokenize
    rw [hlen, hnew]
    have hskip : ∀ r l c, Lexer.skipWhitespaceFrom (q :: r) l c = ⟨q :: r, l, c⟩ := by
      intro r l c
      simp [Lexer.skipWhitespaceFrom, hsp]
    rw [Lexer.tokenizeLoop]
    simp only [List.isEmpty_cons, Bool.false_eq_true, if_false,
      Lexer.skipWhitespace, hskip, Lexer.current, hql, hdash, false_and, Lexer.nextToken, hid,
      hdg, hqt, if_true, Lexer.readString, Lexer.advance]
    rw [Lexer.tokenizeLoop]
    simp only [h2, List.isEmpty_nil, if_true, Option.map_some', List.map_cons, h1, List.map_nil,
      Lexer.makeToken, List.reverse_nil, List.nil_append]
  · constructor
    · intro h
      have hd : (utf16Units b).map toLatin1 = b := by
        have := congrArg String.data h
        simpa using this
      exact (mapLatin1_units_eq_iff b).mp hd
    · intro h
      congr 1
      exact (mapLatin1_units_eq_iff b).mpr h

/-- C40 as amended, at concrete literals: the Latin-1 body `abc` in double
quotes is read back unchanged; the body of the two characters U+00E9 and
U+1F600 in single quotes is read as U+00E9 followed by two characters U+0000. -/
theorem c40_string_token_text_witness :
    (Lexer.tokenize "\"abc\"").map (List.map (fun t => (t.type, t.value)))
        = some [(TokenType.STRING, "abc"), (TokenType.END_OF_FILE, "")]
    ∧ (Lexer.tokenize (plainLiteral '\'' [Char.ofNat 233, Char.ofNat 128512])).map
          (List.map (fun t => (t.type, t.value)))
        = some [(TokenType.STRING, String.mk [Char.ofNat 233, Char.ofNat 0, Char.ofNat 0]),
            (TokenType.END_OF_FILE, "")] :=
  ⟨(c40_string_token_text '"' (Or.inr rfl) "abc".data (by decide)).1,
   (c40_string_token_text '\'' (Or.inl rfl) [Char.ofNat 233, Char.ofNat 128512] (by decide)).1⟩

/-! ## C38: a minus sign where a value is expected -/

theorem parseExpression_minus (fuel : Nat) (ts : List Token)
    (h : (Parser.current ts).type = .MINUS) :
    Parser.parseExpression (fuel + 1) ts
      = .error (Parser.errorText ts "Expected expression") := by
  unfold Parser.parseExpression
  simp only [h]
  rfl

/-- C38: a negative literal is no value for the parser.  (1) At a minus sign
followed by a digit the loop of `tokenize` sees no comment, `nextToken` returns
the MINUS token `-` and leaves the digit, where the next token is a NUMBER.
(2) `parseExpression` at a MINUS token throws `Expected expression`.  (3) So
does every place that reads a value: the first value of an INSERT tuple, a
value after a comma in the tuple, and a SET value after a comma in an UPDATE.
(4) Every token sequence `INSERT INTO t VALUES ( - ...` and every token
sequence `UPDATE t SET c = - ...` makes `parse` fail with that message.  (5) The
texts `INSERT INTO t VALUES (-5)`, `INSERT INTO t (a, b) VALUES (1, -5)` and
`UPDATE t SET a = 1, b = -5 WHERE a = 2` lex to MINUS followed by NUMBER at the
value and fail to parse. -/
theorem c38_negative_literal_fails :
    (∀ (d : Char) (r : List Char) (l c : Nat), Lexer.isDigit d = true →
        ¬ (Lexer.current ⟨'-' :: d :: r, l, c⟩ = '-' ∧ Lexer.peek ⟨'-' :: d :: r, l, c⟩ = '-')
        ∧ Lexer.nextToken ⟨'-' :: d :: r, l, c⟩
            = (⟨.MINUS, "-", l, c + 1⟩, ⟨d :: r, l, c + 1⟩)
        ∧ (Lexer.nextToken ⟨d :: r, l, c + 1⟩).1.type = .NUMBER)
    ∧ (∀ (fuel : Nat) (ts : List Token), (Parser.current ts).type = .MINUS →
        Parser.parseExpression (fuel + 1) ts
          = .error (Parser.errorText ts "Expected expression"))
    ∧ (∀ (fuel : Nat) (ts : List Token) (acc : List (List String)),
        (Parser.current ts).type = .LPAREN → (Parser.current (Parser.advance ts)).type = .MINUS →
        Parser.parseTuplesLoop (fuel + 1) ts acc
          = .error (Parser.errorText (Parser.advance ts) "Expected expression"))
    ∧ (∀ (fuel : Nat) (ts : List Token) (values : List String),
        (Parser.current ts).type = .COMMA → (Parser.current (Parser.advance ts)).type = .MINUS →
        Parser.parseValuesLoop (fuel + 1) ts values
          = .error (Parser.errorText (Parser.advance ts) "Expected expression"))
    ∧ (∀ (fuel : Nat) (comma col eq : Token) (ts : List Token) (columns values : List String),
        comma.type = .COMMA → col.type = .IDENTIFIER → eq.type = .EQUALS →
        (Parser.current ts).type = .MINUS →
        Parser.parseAssignmentsLoop (fuel + 1) (comma :: col :: eq :: ts) columns values
          = .error (Parser.errorText ts "Expected expression"))
    ∧ (∀ (ins into t vals lp minus : Token) (rest : List Token),
        ins.type = .INSERT → into.type = .INTO → t.type = .IDENTIFIER → vals.type = .VALUES →
        lp.type = .LPAREN → minus.type = .MINUS →
        Parser.parse (ins :: into :: t :: vals :: lp :: minus :: rest)
          = .error (Parser.errorText (minus :: rest) "Expected expression"))
    ∧ (∀ (upd t set col eq minus : Token) (rest : List Token),
        upd.type = .UPDATE → t.type = .IDENTIFIER → set.type = .SET → col.type = .IDENTIFIER →
        eq.type = .EQUALS → minus.type = .MINUS →
        Parser.parse (upd :: t :: set :: col :: eq :: minus :: rest)
          = .error (Parser.errorText (minus :: rest) "Expected expression"))
    ∧ (Lexer.tokenize sqlInsertNegative).map (fun ts => (ts.map Token.type, Parser.parse ts))
        = some ([.INSERT, .INTO, .IDENTIFIER, .VALUES, .LPAREN, .MINUS, .NUMBER, .RPAREN,
            .END_OF_FILE],
          .error "Parse error at line 1, column 24: Expected expression")
    ∧ (Lexer.tokenize sqlInsertNegativeSecond).map (fun ts => isParsed (Parser.parse ts))
        = some false
    ∧ (Lexer.tokenize sqlUpdateNegative).map (fun ts => isParsed (Parser.parse ts))
        = some false
    ∧ runSql sampleClock threeRowTable sqlInsertNegative = none := by
  refine ⟨?_, parseExpression_minus, ?_, ?_, ?_, ?_, ?_, by decide!, by decide!, by decide!,
    by decide!⟩
  · intro d r l c hd
    have hdn : d.toNat ≤ 255 := by
      simp only [Lexer.isDigit, Bool.and_eq_true, decide_eq_true_eq] at hd
      omega
    have hdl : toLatin1 d = d := toLatin1_of_le d hdn
    have hsp : qIsSpace d = false := by
      simp only [Lexer.isDigit, Bool.and_eq_true, decide_eq_true_eq] at hd
      simp only [qIsSpace, Bool.or_eq_false_iff, Bool.and_eq_false_iff, beq_eq_false_iff_ne,
        decide_eq_false_iff_not, ne_eq]
      omega
    have hid : Lexer.isIdentifierStart d = false := by
      simp only [Lexer.isDigit, Bool.and_eq_true, decide_eq_true_eq] at hd
      simp only [Lexer.isIdentifierStart, Bool.or_eq_false_iff, Bool.and_eq_false_iff,
        beq_eq_false_iff_ne, decide_eq_false_iff_not, ne_eq]
      omega
    refine ⟨?_, rfl, ?_⟩
    · intro h
      have hp : Lexer.peek ⟨'-' :: d :: r, l, c⟩ = d := hdl
      rw [hp] at h
      have h2 := h.2
      rw [h2] at hd
      exact absurd hd (by decide)
    · have hskip : Lexer.skipWhitespace ⟨d :: r, l, c + 1⟩ = ⟨d :: r, l, c + 1⟩ :=
        skipWhitespaceFrom_of_head d r l (c + 1) hsp
      have hcur : Lexer.current ⟨d :: r, l, c + 1⟩ = d := hdl
      unfold Lexer.nextToken
      simp only [hskip, hcur, List.isEmpty_cons, Bool.false_eq_true, if_false, hid, hd, if_true]
      rfl
  · intro fuel ts acc h1 h2
    rw [Parser.parseTuplesLoop]
    simp only [h1, if_true, parseExpression_minus _ _ h2]
    rfl
  · intro fuel ts values h1 h2
    rw [Parser.parseValuesLoop]
    simp only [h1, if_true, parseExpression_minus _ _ h2]
    rfl
  · intro fuel comma col eq ts columns values h1 h2 h3 h4
    rw [Parser.parseAssignmentsLoop]
    simp only [Parser.current, h1, if_true, Parser.advance, List.tail_cons, Parser.parseIdentifier,
      h2, ne_eq, not_true_eq_false, if_false, PResult.andThen, Parser.expect, h3]
    have h5 := parseExpression_minus fuel ts h4
    simp only [Parser.current] at h5
    rw [h5]
  · intro ins into t vals lp minus rest h1 h2 h3 h4 h5 h6
    unfold Parser.parse Parser.parseStatement
    simp only [Parser.current, h1, Parser.parseInsertStatement, Parser.expect, ne_eq,
      not_true_eq_false, if_false, PResult.andThen, Parser.advance, List.tail_cons, h2,
      Parser.parseIdentifier, h3, h4, List.length_cons]
    have hvl : ¬ (TokenType.VALUES = TokenType.LPAREN) := by decide
    simp only [hvl, if_false, Parser.current, h4, not_true_eq_false, Parser.advance,
      List.tail_cons]
    rw [Parser.parseTuplesLoop]
    simp only [Parser.current, h5, if_true, Parser.advance, List.tail_cons]
    have h7 := parseExpression_minus (rest.length + 6) (minus :: rest) h6
    rw [h7]
    rfl
  · intro upd t set col eq minus rest h1 h2 h3 h4 h5 h6
    unfold Parser.parse Parser.parseStatement
    simp only [Parser.current, h1, Parser.parseUpdateStatement, Parser.expect, ne_eq,
      not_true_eq_false, if_false, PResult.andThen, Parser.advance, List.tail_cons, h2,
      Parser.parseIdentifier, h3, h4, h5, List.length_cons]
    have h7 := parseExpression_minus (rest.length + 1 + 1 + 1 + 1 + 1 + 1) (minus :: rest) h6
    rw [h7]

/-- C38 at concrete inputs: the characters `-5)` lex to MINUS and leave `5)`;
the tokens of `INSERT INTO t VALUES (-5)` fail to parse. -/
theorem c38_negative_literal_fails_witness :
    Lexer.nextToken ⟨"-5)".data, 1, 23⟩ = (⟨.MINUS, "-", 1, 24⟩, ⟨"5)".data, 1, 24⟩)
    ∧ Parser.parse [⟨.INSERT, "INSERT", 1, 1⟩, ⟨.INTO, "INTO", 1, 8⟩, ⟨.IDENTIFIER, "t", 1, 13⟩,
          ⟨.VALUES, "VALUES", 1, 15⟩, ⟨.LPAREN, "(", 1, 23⟩, ⟨.MINUS, "-", 1, 24⟩,
          ⟨.NUMBER, "5", 1, 24⟩, ⟨.RPAREN, ")", 1, 26⟩, ⟨.END_OF_FILE, "", 1, 26⟩]
        = .error "Parse error at line 1, column 24: Expected expression" :=
  ⟨(c38_negative_literal_fails.1 '5' ")".data 1 23 (by decide)).2.1,
   c38_negative_literal_fails.2.2.2.2.2.1 ⟨.INSERT, "INSERT", 1, 1⟩ ⟨.INTO, "INTO", 1, 8⟩
     ⟨.IDENTIFIER, "t", 1, 13⟩ ⟨.VALUES, "VALUES", 1, 15⟩ ⟨.LPAREN, "(", 1, 23⟩
     ⟨.MINUS, "-", 1, 24⟩
     [⟨.NUMBER, "5", 1, 24⟩, ⟨.RPAREN, ")", 1, 26⟩, ⟨.END_OF_FILE, "", 1, 26⟩]
     rfl rfl rfl rfl rfl rfl⟩

/-! ## C36: a multi-tuple INSERT that fails half way -/

theorem afterInserts_selectAll (t : String) (rows : List (List String)) :
    ∀ m : TableManager, insertsSucceed t rows m = true →
      (afterInserts t rows m).selectAll t = m.selectAll t ++ rows := by
  induction rows with
  | nil => intro m _; simp [afterInserts]
  | cons row more ih =>
    intro m h
    simp only [insertsSucceed, Bool.and_eq_true] at h
    obtain ⟨-, -, -, -, -, -, hst⟩ := insertRow_success m t row h.1
    rw [afterInserts, ih _ h.2, hst, selectAll_setRows_same _ _ _ _ rfl]
    simp

theorem insertLoop_first_failure (clock : Clock) (t : String) (allColumns : List Column)
    (columns : List String) (pre : List (List String)) (bad : List String)
    (post : List (List String)) :
    ∀ (n : Int) (m : TableManager),
      insertsSucceed t (pre.map (QueryExecutor.completeRow clock allColumns columns)) m = true →
      ((afterInserts t (pre.map (QueryExecutor.completeRow clock allColumns columns)) m).insertRow t
        (QueryExecutor.completeRow clock allColumns columns bad)).1.success = false →
      QueryExecutor.insertLoop clock t allColumns columns (pre ++ bad :: post) n m
        = ({ success := false,
             errorMessage :=
               ((afterInserts t (pre.map (QueryExecutor.completeRow clock allColumns columns))
                  m).insertRow t
                 (QueryExecutor.completeRow clock allColumns columns bad)).1.errorMessage },
           afterInserts t (pre.map (QueryExecutor.completeRow clock allColumns columns)) m) := by
  induction pre with
  | nil =>
    intro n m _ hbad
    simp only [List.map_nil, afterInserts] at hbad ⊢
    simp only [List.nil_append, QueryExecutor.insertLoop, hbad, Bool.not_false, if_true]
    rw [insertRow_failure m t _ hbad]
  | cons row more ih =>
    intro n m hpre hbad
    simp only [List.map_cons, insertsSucceed, Bool.and_eq_true] at hpre
    simp only [List.map_cons, afterInserts] at hbad ⊢
    simp only [List.cons_append, QueryExecutor.insertLoop, hpre.1, Bool.not_true,
      Bool.false_eq_true, if_false]
    exact ih (n + 1) _ hpre.2 hbad

/-- C36: a multi-tuple INSERT is not atomic.  For every manager state in which
the table of the statement is registered, and every statement whose tuples are
`pre`, then `bad`, then `post`: when `insertRow` succeeds for the completed rows
of `pre` one after the other and fails for the completed row of `bad`,
`executeInsert` returns `success = false` with the error message of that failed
`insertRow`, the table holds its old rows followed by the completed rows of
`pre`, and the state is the one the inserts of `pre` left, so no tuple of `post`
was tried.  On the three-row table the text `INSERT INTO t VALUES (4), ('x'),
(5)` fails and leaves the rows 1, 2, 3, 4. -/
theorem c36_insert_not_atomic :
    (∀ (clock : Clock) (m : TableManager) (insertStmt : InsertStatement) (schema : TableSchema)
        (pre : List (List String)) (bad : List String) (post : List (List String)),
        m.getTable insertStmt.tableName = some schema →
        insertStmt.values = pre ++ bad :: post →
        insertsSucceed insertStmt.tableName
          (pre.map (QueryExecutor.completeRow clock schema.columns insertStmt.columns)) m = true →
        ((afterInserts insertStmt.tableName
            (pre.map (QueryExecutor.completeRow clock schema.columns insertStmt.columns))
            m).insertRow insertStmt.tableName
          (QueryExecutor.completeRow clock schema.columns insertStmt.columns bad)).1.success
          = false →
        (QueryExecutor.executeInsert clock m insertStmt).1.success = false
        ∧ (QueryExecutor.executeInsert clock m insertStmt).1.errorMessage
            = ((afterInserts insertStmt.tableName
                (pre.map (QueryExecutor.completeRow clock schema.columns insertStmt.columns))
                m).insertRow insertStmt.tableName
              (QueryExecutor.completeRow clock schema.columns insertStmt.columns
                bad)).1.errorMessage
        ∧ (QueryExecutor.executeInsert clock m insertStmt).2.selectAll insertStmt.tableName
            = m.selectAll insertStmt.tableName
              ++ pre.map (QueryExecutor.completeRow clock schema.columns insertStmt.columns)
        ∧ (QueryExecutor.executeInsert clock m insertStmt).2
            = afterInserts insertStmt.tableName
                (pre.map (QueryExecutor.completeRow clock schema.columns insertStmt.columns)) m)
    ∧ (runSql sampleClock threeRowTable sqlInsertThreeTuples).map
          (fun r => (r.1.success, r.1.errorMessage, r.2.selectAll "t"))
        = some (false, "Invalid value 'x' for type INT", [["1"], ["2"], ["3"], ["4"]]) := by
  refine ⟨?_, by decide!⟩
  intro clock m insertStmt schema pre bad post hg hv hpre hbad
  have h := insertLoop_first_failure clock insertStmt.tableName schema.columns insertStmt.columns
    pre bad post 0 m hpre hbad
  have he : QueryExecutor.executeInsert clock m insertStmt
      = QueryExecutor.insertLoop clock insertStmt.tableName schema.columns insertStmt.columns
          (pre ++ bad :: post) 0 m := by
    unfold QueryExecutor.executeInsert
    simp only [hg, hv]
  rw [he, h]
  exact ⟨rfl, rfl, afterInserts_selectAll _ _ m hpre, rfl⟩

/-- C36 at a concrete state: the tuples (4), (x), (5) on the three-row table. -/
theorem c36_insert_not_atomic_witness :
    (QueryExecutor.executeInsert sampleClock threeRowTable
        { tableName := "t", values := [["4"], ["x"], ["5"]] }).1.success = false
    ∧ (QueryExecutor.executeInsert sampleClock threeRowTable
        { tableName := "t", values := [["4"], ["x"], ["5"]] }).2.selectAll "t"
        = threeRowTable.selectAll "t" ++ [["4"]] :=
  ⟨(c36_insert_not_atomic.1 sampleClock threeRowTable
      { tableName := "t", values := [["4"], ["x"], ["5"]] }
      ((TableSchema.new "t").addColumn (Column.new "n" .INT)) [["4"]] ["x"] [["5"]]
      (by decide!) rfl (by decide!) (by decide!)).1,
   (c36_insert_not_atomic.1 sampleClock threeRowTable
      { tableName := "t", values := [["4"], ["x"], ["5"]] }
      ((TableSchema.new "t").addColumn (Column.new "n" .INT)) [["4"]] ["x"] [["5"]]
      (by decide!) rfl (by decide!) (by decide!)).2.2.1⟩

/-! ## C34: `DELETE ... WHERE c = v` -/

end RDBMS
